import Mathlib

/-!
# vfb2: virtual frame buffer device

A shallow embedding of `vfb2.c` / `vfb2.h` and theorems about it.

Conventions of the embedding
* `__u32` fields are natural numbers; where the C arithmetic can wrap, the
  reduction modulo `2 ^ 32` (or modulo `2 ^ BITS_PER_LONG` for `u_long`) is
  written out.
* `int` values that only index (`i`, `mode`, `current_mode`, `table_index`)
  are mathematical integers.  The `atomic_t open` is a 32-bit counter:
  `atomic_inc` and `atomic_dec_and_test` wrap around (`int32`).
* A function returns `none` when the C code would read or write outside an
  object (past the end of a mode table, through a NULL or released pointer);
  this includes the `fb_info` a consumer passes in after it has been released.
* Heap objects are named by addresses.  The allocator of the model hands out
  an address it has not handed out before; since every access through a
  released pointer is `none`, which address a new object gets cannot be
  observed.
* The two semaphores have no state of their own: a call is cut into the
  sections it runs under `vfb2_table_sem`, and concurrent runs are schedules of
  these sections; taking `dev->ioctl_sem` is an access to the device.  The
  contents of the video memory, the colour map and `vfb2_mmap` are left out;
  kernel services appear through their results.
-/

namespace Vfb2

/-! ## Constants -/

def EAGAIN : Int := 11
def ENOMEM : Int := 12
def EBUSY : Int := 16
def ENODEV : Int := 19
def EINVAL : Int := 22
def ENOIOCTLCMD : Int := 515
def ENOTSUPP : Int := 524

def VFB2_PRESENT : Int := 1
def VFB2_NOT_PRESENT : Int := 0
def VFB2_ERROR_ON_REGISTER : Int := -1

def VFB2_16BPP_NO_TRANSP : Nat := 0
def VFB2_16BPP_TRANSP : Nat := 1

def FB_ACTIVATE_NOW : Nat := 0
def FB_VMODE_NONINTERLACED : Nat := 0
def FB_TYPE_PACKED_PIXELS : Nat := 0
def FB_ACCEL_NONE : Nat := 0
def FB_VISUAL_TRUECOLOR : Nat := 2
def FB_VISUAL_PSEUDOCOLOR : Nat := 3
def FB_VISUAL_DIRECTCOLOR : Nat := 4

/-- The two platform constants the code depends on: the width of
`unsigned long` and the page size. -/
structure platform where
  BITS_PER_LONG : Nat
  PAGE_SIZE : Nat
deriving DecidableEq, Repr

/-! ## Data model (`vfb2.h`, `struct vfb2_device`, the parts of `linux/fb.h` used) -/

structure vfb2_mode where
  xres : Nat
  yres : Nat
  bpp : Nat
  visual : Nat
  transp_mode : Nat
deriving DecidableEq, Repr

structure fb_bitfield where
  offset : Nat
  length : Nat
  msb_right : Nat
deriving DecidableEq, Repr

structure fb_var_screeninfo where
  xres : Nat
  yres : Nat
  xres_virtual : Nat
  yres_virtual : Nat
  xoffset : Nat
  yoffset : Nat
  bits_per_pixel : Nat
  grayscale : Nat
  red : fb_bitfield
  green : fb_bitfield
  blue : fb_bitfield
  transp : fb_bitfield
  activate : Nat
  vmode : Nat
deriving DecidableEq, Repr

structure fb_fix_screeninfo where
  smem_len : Nat
  type : Nat
  visual : Nat
  line_length : Nat
  accel : Nat
deriving DecidableEq, Repr

/-- The fields of `struct fb_info` the driver touches.  `par` is the pointer
back to the device (NULL is `none`); `pseudo_palette` is the 256-entry area
allocated together with the structure. -/
structure fb_info where
  par : Option Nat
  var : fb_var_screeninfo
  fix : fb_fix_screeninfo
  pseudo_palette : List Nat
deriving DecidableEq, Repr

/-- `struct vfb2_init`.  `mode_table` is the array the pointer refers to
(`none` is NULL); `vfb2_ioctl` is the address of the handler (`none` is NULL). -/
structure vfb2_init where
  vmem_len : Nat
  mode_table : Option (List vfb2_mode)
  vfb2_ioctl : Option Nat
  private_ : Nat
deriving DecidableEq, Repr

/-- `struct vfb2_device`; `open_` is the field `atomic_t open`. -/
structure vfb2_device where
  init : vfb2_init
  present : Int
  table_index : Int
  open_ : Int
  current_mode : Int
  videomemory : Option Nat
  info : Option Nat
deriving DecidableEq, Repr

/-! ## Mode negotiation -/

/-- `mode_table[mode]`; `none` when the index is outside the array. -/
def mode_at (mode_table : List vfb2_mode) (mode : Int) : Option vfb2_mode :=
  if mode < 0 then none else mode_table[mode.toNat]?

/-- The loop `for (; mode_table[i].xres; i++) if (p mode_table[i]) { mode = i; break; }`
run on the rest of the array from index `i` on; the value is `mode` after the loop. -/
def match_loop (p : vfb2_mode → Bool) : List vfb2_mode → Int → Int → Option Int
  | [], _, _ => none
  | m :: rest, i, mode =>
    if m.xres = 0 then some mode
    else if p m then some i
    else match_loop p rest (i + 1) mode

/-- The test of the first loop of `vfb2_match_mode`. -/
def loose_match (var : fb_var_screeninfo) (m : vfb2_mode) : Bool :=
  m.xres == var.xres && m.yres == var.yres

/-- The test of the second loop of `vfb2_match_mode`. -/
def tight_match (var : fb_var_screeninfo) (m : vfb2_mode) : Bool :=
  m.xres == var.xres && m.yres == var.yres && m.bpp == var.bits_per_pixel

def vfb2_match_mode (dev : vfb2_device) (var : fb_var_screeninfo) : Option Int :=
  match dev.init.mode_table with
  | none => none
  | some mode_table =>
    match match_loop (loose_match var) mode_table 0 (-1) with
    | none => none
    | some mode => match_loop (tight_match var) mode_table 0 mode

def vfb2_set_mode (dev : vfb2_device) (var : fb_var_screeninfo) (mode : Int) :
    Option fb_var_screeninfo :=
  match dev.init.mode_table with
  | none => none
  | some mode_table =>
    match mode_at mode_table mode with
    | none => none
    | some m => some { var with xres := m.xres, yres := m.yres, bits_per_pixel := m.bpp }

/-- `vfb2_line_length`: the product of two `__u32` is taken modulo `2 ^ 32`,
the rest is `u_long` arithmetic; `~7` as `u_long` is `2 ^ BITS_PER_LONG - 8`. -/
def vfb2_line_length (pf : platform) (dev : vfb2_device) (mode : Int) : Option Nat :=
  match dev.init.mode_table with
  | none => none
  | some mode_table =>
    match mode_at mode_table mode with
    | none => none
    | some m =>
      let length := (m.xres * m.bpp) % 2 ^ 32
      let length := ((length + 7) % 2 ^ pf.BITS_PER_LONG) &&& (2 ^ pf.BITS_PER_LONG - 8)
      some (length >>> 3)

def vfb2_set_bitfields (var : fb_var_screeninfo) (mode_16bpp : Nat) : fb_var_screeninfo :=
  let var := { var with red := { var.red with offset := 0 },
                        transp := { var.transp with offset := 0, length := 0 } }
  let var :=
    if var.bits_per_pixel = 1 ∨ var.bits_per_pixel = 8 then
      { var with red := { var.red with length := var.bits_per_pixel },
                 green := { var.green with offset := 0, length := var.bits_per_pixel },
                 blue := { var.blue with offset := 0, length := var.bits_per_pixel } }
    else if var.bits_per_pixel = 16 then
      let var := { var with red := { var.red with length := 5 },
                            green := { var.green with offset := 5 } }
      if mode_16bpp = VFB2_16BPP_TRANSP then
        { var with green := { var.green with length := 5 },
                   blue := { var.blue with offset := 10, length := 5 },
                   transp := { var.transp with offset := 15, length := 1 } }
      else
        { var with green := { var.green with length := 6 },
                   blue := { var.blue with offset := 11, length := 5 } }
    else if var.bits_per_pixel = 32 then
      { var with transp := { var.transp with offset := 24, length := 8 },
                 red := { var.red with length := 8 },
                 green := { var.green with offset := 8, length := 8 },
                 blue := { var.blue with offset := 16, length := 8 } }
    else if var.bits_per_pixel = 24 then
      { var with red := { var.red with length := 8 },
                 green := { var.green with offset := 8, length := 8 },
                 blue := { var.blue with offset := 16, length := 8 } }
    else var
  { var with red := { var.red with msb_right := 0 },
             green := { var.green with msb_right := 0 },
             blue := { var.blue with msb_right := 0 },
             transp := { var.transp with msb_right := 0 } }

/-- `vfb2_check_var_helper`: the rewritten request and the return value. -/
def vfb2_check_var_helper (pf : platform) (var : fb_var_screeninfo) (dev : vfb2_device) :
    Option (fb_var_screeninfo × Int) :=
  match vfb2_match_mode dev var with
  | none => none
  | some matched =>
    let mode := if matched < 0 then dev.current_mode else matched
    match vfb2_set_mode dev var mode with
    | none => none
    | some var =>
      if var.xres = 0 ∨ var.yres = 0 then some (var, -EINVAL)
      else if var.bits_per_pixel ≠ 1 ∧ var.bits_per_pixel ≠ 8 ∧ var.bits_per_pixel ≠ 16 ∧
          var.bits_per_pixel ≠ 24 ∧ var.bits_per_pixel ≠ 32 then some (var, -ENOTSUPP)
      else
        match vfb2_line_length pf dev mode, dev.init.mode_table with
        | some line_length, some mode_table =>
          if (line_length * var.yres) % 2 ^ pf.BITS_PER_LONG > dev.init.vmem_len then
            some (var, -ENOMEM)
          else
            match mode_at mode_table mode with
            | none => none
            | some m =>
              let var := { var with xres_virtual := var.xres, yres_virtual := var.yres,
                                    xoffset := 0, yoffset := 0, grayscale := 0,
                                    activate := FB_ACTIVATE_NOW,
                                    vmode := FB_VMODE_NONINTERLACED }
              some (vfb2_set_bitfields var m.transp_mode, 0)
        | _, _ => none

/-- `vfb2_set_par_helper`: the updated `fb_info`, the updated device and the
return value.  `fix.line_length` is a `__u32`. -/
def vfb2_set_par_helper (pf : platform) (info : fb_info) (dev : vfb2_device) :
    Option (fb_info × vfb2_device × Int) :=
  match vfb2_match_mode dev info.var with
  | none => none
  | some mode =>
    if mode < 0 then some (info, dev, -EINVAL)
    else
      match vfb2_line_length pf dev mode, dev.init.mode_table with
      | some line_length, some mode_table =>
        match mode_at mode_table mode with
        | none => none
        | some m =>
          some ({ info with fix := { info.fix with line_length := line_length % 2 ^ 32,
                                                   visual := m.visual } },
                { dev with current_mode := mode }, 0)
      | _, _ => none

/-! ## The open count

`atomic_t` holds a 32-bit `int`; the kernel's atomic operations wrap around. -/

def INT_MAX : Int := 2147483647
def INT_MIN : Int := -2147483648

/-- The value of an integer as a 32-bit two's complement `int`. -/
def int32 (v : Int) : Int :=
  (v + 2 ^ 31) % 2 ^ 32 - 2 ^ 31

/-- The counter after `atomic_inc`. -/
def atomic_inc (v : Int) : Int :=
  int32 (v + 1)

/-- The counter after `atomic_dec_and_test`; the test is whether it is 0. -/
def atomic_dec (v : Int) : Int :=
  int32 (v - 1)

/-! ## The registry and the heap

`vfb2_table` is the global array of `VFB2_MAX_DEVICES` (`FB_MAX`) device
pointers; its length is that constant.  `devs` and `infos` map an address to
the `struct vfb2_device` resp. `struct fb_info` allocated there; `brk` is the
next address the allocator hands out.  A consumer names a device by the address
of its `fb_info`. -/

structure State where
  vfb2_table : List (Option Nat)
  devs : Nat → Option vfb2_device
  infos : Nat → Option fb_info
  brk : Nat

/-- The state with the object at device address `p` replaced (`none` frees it). -/
def set_dev (s : State) (p : Nat) (d : Option vfb2_device) : State :=
  { s with devs := Function.update s.devs p d }

/-- The state with the object at `fb_info` address `q` replaced (`none` frees it). -/
def set_info (s : State) (q : Nat) (fi : Option fb_info) : State :=
  { s with infos := Function.update s.infos q fi }

/-- The state with slot `i` of `vfb2_table` replaced. -/
def set_slot (s : State) (i : Nat) (e : Option Nat) : State :=
  { s with vfb2_table := s.vfb2_table.set i e }

/-- The loop of `vfb2_find_dev` on the rest of the table from index `i` on. -/
def vfb2_find_loop (dev : Nat) : List (Option Nat) → Int → Int
  | [], _ => -1
  | e :: rest, i => if e = some dev then i else vfb2_find_loop dev rest (i + 1)

def vfb2_find_dev (s : State) (dev : Nat) : Int :=
  vfb2_find_loop dev s.vfb2_table 0

/-- `vfb2_get_dev`; the inner `none` is the NULL it returns, the outer `none`
the read of `info->par` in an `fb_info` that has been released. -/
def vfb2_get_dev (s : State) (info : Option Nat) : Option (Option Nat) :=
  match info with
  | none => some none
  | some a =>
    match s.infos a with
    | none => none
    | some fi =>
      match fi.par with
      | none => some none
      | some dev => if vfb2_find_dev s dev < 0 then some none else some (some dev)

/-- `vfb2_get_present_dev`; the outer `none` is a read through a released
`fb_info` or through a pointer of the table that is not allocated. -/
def vfb2_get_present_dev (s : State) (info : Option Nat) : Option (Option Nat) :=
  match vfb2_get_dev s info with
  | none => none
  | some none => some none
  | some (some dev) =>
    match s.devs dev with
    | none => none
    | some d => if d.present = VFB2_NOT_PRESENT then some none else some (some dev)

def vfb2_check_var (pf : platform) (s : State) (var : fb_var_screeninfo) (info : Option Nat) :
    Option (fb_var_screeninfo × Int) :=
  match vfb2_get_present_dev s info with
  | none => none
  | some none => some (var, -ENODEV)
  | some (some dev) =>
    match s.devs dev with
    | none => none
    | some d => vfb2_check_var_helper pf var d

def vfb2_set_par (pf : platform) (s : State) (info : Option Nat) : Option (State × Int) :=
  match vfb2_get_present_dev s info with
  | none => none
  | some none => some (s, -ENODEV)
  | some (some dev) =>
    match info, s.devs dev with
    | some a, some d =>
      match s.infos a with
      | none => none
      | some fi =>
        match vfb2_set_par_helper pf fi d with
        | none => none
        | some (fi', d', r) =>
          some (set_dev (set_info s a (some fi')) dev (some d'), r)
    | _, _ => none

/-- The macro `CNVT_TOHW` of `vfb2_setcolreg` on `u_int` operands; a shift by
32 or more is undefined. -/
def CNVT_TOHW (val width : Nat) : Option Nat :=
  if width ≥ 32 then none
  else some ((((val <<< width) % 2 ^ 32 + 0x7FFF + (2 ^ 32 - val % 2 ^ 32)) % 2 ^ 32) >>> 16)

/-- `val << offset` on `u32` operands. -/
def shl32 (val offset : Nat) : Option Nat :=
  if offset ≥ 32 then none else some ((val <<< offset) % 2 ^ 32)

/-- The `switch (info->fix.visual)` of `vfb2_setcolreg`: the rescaled
red, green, blue and transp. -/
def setcolreg_convert (fi : fb_info) (red green blue transp : Nat) :
    Option (Nat × Nat × Nat × Nat) :=
  if fi.fix.visual = FB_VISUAL_TRUECOLOR ∨ fi.fix.visual = FB_VISUAL_PSEUDOCOLOR then
    match CNVT_TOHW red fi.var.red.length, CNVT_TOHW green fi.var.green.length,
          CNVT_TOHW blue fi.var.blue.length, CNVT_TOHW transp fi.var.transp.length with
    | some r, some g, some b, some t => some (r, g, b, t)
    | _, _, _, _ => none
  else if fi.fix.visual = FB_VISUAL_DIRECTCOLOR then
    match CNVT_TOHW red 8, CNVT_TOHW green 8, CNVT_TOHW blue 8, CNVT_TOHW transp 8 with
    | some r, some g, some b, some t => some (r, g, b, t)
    | _, _, _, _ => none
  else some (red, green, blue, transp)

def vfb2_setcolreg (s : State) (regno red green blue transp : Nat) (info : Option Nat) :
    Option (State × Int) :=
  match vfb2_get_present_dev s info with
  | none => none
  | some none => some (s, -ENODEV)
  | some (some _) =>
    if regno ≥ 256 then some (s, 1)
    else
      match info with
      | none => none
      | some a =>
        match s.infos a with
        | none => none
        | some fi =>
          match setcolreg_convert fi red green blue transp with
          | none => none
          | some (red, green, blue, transp) =>
            if fi.fix.visual = FB_VISUAL_TRUECOLOR then
              if regno ≥ 16 then some (s, 1)
              else
                match shl32 red fi.var.red.offset, shl32 green fi.var.green.offset,
                      shl32 blue fi.var.blue.offset, shl32 transp fi.var.transp.offset with
                | some r, some g, some b, some t =>
                  let v := r ||| g ||| b ||| t
                  if fi.var.bits_per_pixel = 16 ∨ fi.var.bits_per_pixel = 24 ∨
                      fi.var.bits_per_pixel = 32 then
                    if regno < fi.pseudo_palette.length then
                      let fi' := { fi with pseudo_palette := fi.pseudo_palette.set regno v }
                      some (set_info s a (some fi'), 0)
                    else none
                  else some (s, 0)
                | _, _, _, _ => none
            else some (s, 0)

def vfb2_open (s : State) (info : Option Nat) : Option (State × Int) :=
  match vfb2_get_dev s info with
  | none => none
  | some none => some (s, -ENODEV)
  | some (some dev) =>
    match s.devs dev with
    | none => none
    | some d =>
      if d.present = VFB2_NOT_PRESENT then some (s, -ENODEV)
      else
        let d' := { d with open_ := atomic_inc d.open_ }
        some (set_dev s dev (some d'), 0)

/-- The tail of `vfb2_remove` after the registry lock is dropped: the
`fb_info`, the video memory, the mode table and the device are freed. -/
def vfb2_remove_free (s : State) (dev : Nat) (d : vfb2_device) : State :=
  match d.info with
  | none => set_dev s dev none
  | some q => set_dev (set_info s q none) dev none

def vfb2_remove (s : State) (dev : Option Nat) : Option State :=
  match dev with
  | none => some s
  | some p =>
    match s.devs p with
    | none => none
    | some d =>
      if d.table_index ≥ 0 then
        if d.present = VFB2_PRESENT then some s
        else if d.open_ ≠ 0 then some s
        else if d.table_index.toNat < s.vfb2_table.length then
          match d.info with
          | none => none
          | some q =>
            match s.infos q with
            | none => none
            | some fi =>
              let d' := { d with table_index := -1 }
              let s := set_slot s d.table_index.toNat none
              let s := set_dev s p (some d')
              let s := set_info s q (some { fi with par := none })
              some (vfb2_remove_free s p d')
        else none
      else some (vfb2_remove_free s p d)

/-- The part of `vfb2_release` under the registry lock: the new state, `dev`,
`remove` and `ret`. -/
def vfb2_release_locked (s : State) (info : Option Nat) :
    Option (State × Option Nat × Bool × Int) :=
  match vfb2_get_dev s info with
  | none => none
  | some none => some (s, none, false, -ENODEV)
  | some (some dev) =>
    match s.devs dev with
    | none => none
    | some d =>
      let d' := { d with open_ := atomic_dec d.open_ }
      some (set_dev s dev (some d'), some dev,
            decide (d'.open_ = 0) && decide (d'.present = VFB2_NOT_PRESENT), 0)

def vfb2_release (s : State) (info : Option Nat) : Option (State × Int) :=
  match vfb2_release_locked s info with
  | none => none
  | some (s, dev, remove, ret) =>
    if remove then (vfb2_remove s dev).map (fun s' => (s', ret))
    else some (s, ret)

/-- `vfb2_ioctl`; `handler a cmd arg table_index` is the result of calling the
driver's function at address `a`. -/
def vfb2_ioctl (handler : Nat → Nat → Nat → Int → Int) (s : State) (cmd arg : Nat)
    (info : Option Nat) : Option (State × Int) :=
  match vfb2_get_present_dev s info with
  | none => none
  | some none => some (s, -ENODEV)
  | some (some dev) =>
    match s.devs dev with
    | none => none
    | some d =>
      if d.present = VFB2_NOT_PRESENT then some (s, -ENODEV)
      else
        match d.init.vfb2_ioctl with
        | some a => some (s, handler a cmd arg d.table_index)
        | none => some (s, -ENOIOCTLCMD)

/-! ## Registration -/

/-- The outcomes of the kernel services `vfb2_register` calls: whether each
allocation succeeds, and the error numbers of `fb_alloc_cmap` and
`register_framebuffer`, which return 0 or the negated error number (the field
is 0 for success). -/
structure alloc_env where
  kmalloc_dev : Bool
  kmalloc_table : Bool
  vmalloc : Bool
  framebuffer_alloc : Bool
  fb_alloc_cmap : Nat
  register_framebuffer : Nat
deriving DecidableEq, Repr

/-- `vfb2_num_modes`; `none` when the array has no sentinel. -/
def vfb2_num_modes : List vfb2_mode → Option Nat
  | [] => none
  | m :: rest => if m.xres = 0 then some 0 else (vfb2_num_modes rest).map (· + 1)

/-- `vfb2_alloc_vmem`; `addr` is the address `vmalloc` returns when it
succeeds.  `size % PAGE_SIZE` and the product are `unsigned long`, the store to
`vmem_len` truncates to `__u32`. -/
def vfb2_alloc_vmem (pf : platform) (vmalloc_ok : Bool) (addr : Nat) (dev : vfb2_device) :
    Option (vfb2_device × Int) :=
  if pf.PAGE_SIZE = 0 then none
  else
    let size := dev.init.vmem_len
    let dev :=
      if size % pf.PAGE_SIZE ≠ 0 then
        { dev with init := { dev.init with
            vmem_len := (((size % pf.PAGE_SIZE + 1) * pf.PAGE_SIZE) % 2 ^ pf.BITS_PER_LONG) % 2 ^ 32 } }
      else dev
    if vmalloc_ok then some ({ dev with videomemory := some addr }, 0)
    else some ({ dev with videomemory := none }, -ENOMEM)

/-- `vfb2_init_dev`; the outer `none` is a read past an unterminated table, the
inner `none` the NULL returned when an allocation fails. -/
def vfb2_init_dev (env : alloc_env) (init : vfb2_init) : Option (Option vfb2_device) :=
  match init.mode_table with
  | none => none
  | some tbl =>
    match vfb2_num_modes tbl with
    | none => none
    | some n =>
      if env.kmalloc_dev && env.kmalloc_table then
        some (some { init := { init with mode_table := some (tbl.take (n + 1)) },
                     present := VFB2_ERROR_ON_REGISTER, table_index := -1, open_ := 0,
                     current_mode := 0, videomemory := none, info := none })
      else some none

/-- The index of the first NULL slot from index `i` on. -/
def first_free : List (Option Nat) → Nat → Option Nat
  | [], _ => none
  | e :: rest, i => if e = none then some i else first_free rest (i + 1)

/-- The `fb_info` as `framebuffer_alloc` returns it (zero-filled, with a
256-entry palette area) and `vfb2_register` fills it before the first
negotiation. -/
def new_fb_info (dev : Nat) (d : vfb2_device) : fb_info :=
  { par := some dev,
    var := { xres := 0, yres := 0, xres_virtual := 0, yres_virtual := 0, xoffset := 0,
             yoffset := 0, bits_per_pixel := 0, grayscale := 0, red := ⟨0, 0, 0⟩,
             green := ⟨0, 0, 0⟩, blue := ⟨0, 0, 0⟩, transp := ⟨0, 0, 0⟩, activate := 0,
             vmode := 0 },
    fix := { smem_len := d.init.vmem_len, type := FB_TYPE_PACKED_PIXELS, visual := 0,
             line_length := 0, accel := FB_ACCEL_NONE },
    pseudo_palette := List.replicate 256 0 }

/-- The exit of `vfb2_register` through `error:` with `res < 0`. -/
def register_fail (s : State) (dev : Nat) (res : Int) : Option (State × Int) :=
  (vfb2_remove s (some dev)).map (fun s' => (s', res))

/-- `vfb2_register` from the insertion into the table on; `p` and `q` are the
addresses of the device and of its `fb_info`. -/
def register_insert (env : alloc_env) (s : State) (p q : Nat) (d : vfb2_device) (fi : fb_info) :
    Option (State × Int) :=
  let s := set_info s q (some fi)
  match first_free s.vfb2_table 0 with
  | none => register_fail (set_dev s p (some d)) p (-EBUSY)
  | some i =>
    let d := { d with table_index := (i : Int) }
    let s := set_slot s i (some p)
    let res := -(env.register_framebuffer : Int)
    if res = 0 then
      some (set_dev s p (some { d with present := VFB2_PRESENT }), d.table_index)
    else if res < 0 then register_fail (set_dev s p (some d)) p res
    else some (set_dev s p (some d), res)

def vfb2_register (pf : platform) (env : alloc_env) (s : State) (init : Option vfb2_init) :
    Option (State × Int) :=
  match init with
  | none => some (s, -EINVAL)
  | some init =>
    match init.mode_table with
    | none => some (s, -EINVAL)
    | some _ =>
      match vfb2_init_dev env init with
      | none => none
      | some none => some (s, -ENOMEM)
      | some (some d) =>
        let p := s.brk
        let s := { s with brk := s.brk + 1 }
        match vfb2_alloc_vmem pf env.vmalloc s.brk d with
        | none => none
        | some (d, r) =>
          let s := { s with brk := s.brk + 1 }
          if r ≠ 0 then register_fail (set_dev s p (some d)) p (-ENOMEM)
          else if !env.framebuffer_alloc then register_fail (set_dev s p (some d)) p (-ENOMEM)
          else
            let q := s.brk
            let s := { s with brk := s.brk + 1 }
            let d := { d with info := some q }
            let fi := new_fb_info p d
            let res := -(env.fb_alloc_cmap : Int)
            if res < 0 then
              register_fail (set_info (set_dev s p (some d)) q (some fi)) p res
            else
              match vfb2_set_mode d fi.var 0 with
              | none => none
              | some var =>
                let fi := { fi with var := var }
                match vfb2_check_var_helper pf fi.var d with
                | none => none
                | some (var, res) =>
                  let fi := { fi with var := var }
                  if res < 0 then
                    register_fail (set_info (set_dev s p (some d)) q (some fi)) p res
                  else
                    match vfb2_set_par_helper pf fi d with
                    | none => none
                    | some (fi, d, res) =>
                      if res < 0 then
                        register_fail (set_info (set_dev s p (some d)) q (some fi)) p res
                      else register_insert env s p q d fi

def vfb2_index_to_dev (s : State) (index : Int) : Option Nat :=
  if index < 0 ∨ index ≥ (s.vfb2_table.length : Int) then none
  else (s.vfb2_table[index.toNat]?).join

/-- The part of `vfb2_unregister` under the registry lock: the new state and,
when the slot holds a device, `dev` and the `open` count read. -/
def vfb2_unregister_locked (s : State) (table_index : Int) : Option (State × Option (Nat × Int)) :=
  match vfb2_index_to_dev s table_index with
  | none => some (s, none)
  | some dev =>
    match s.devs dev with
    | none => none
    | some d =>
      let d' := { d with present := VFB2_NOT_PRESENT }
      some (set_dev s dev (some d'), some (dev, d'.open_))

/-- `vfb2_unregister` run on its own.  Between the locked part and the call of
`vfb2_remove` it takes and drops `dev->ioctl_sem`; here the device is the one
the locked part has just written to, so this access succeeds and changes
nothing.  In `step` below, where other calls run in between, it is an access
that can fail. -/
def vfb2_unregister (s : State) (table_index : Int) : Option State :=
  match vfb2_unregister_locked s table_index with
  | none => none
  | some (s, none) => some s
  | some (s, some (dev, open_)) =>
    if open_ = 0 then vfb2_remove s (some dev) else some s

def vfb2_current_mode (s : State) (table_index : Int) : Option Int :=
  match vfb2_index_to_dev s table_index with
  | none => some (-EINVAL)
  | some dev => (s.devs dev).map (fun d => d.current_mode)

/-! ## Sequences of operations -/

/-- A call of one of the operations of the driver, or the store of a request
into `info->var` that the frame buffer layer makes between `fb_check_var` and
`fb_set_par`. -/
inductive Op where
  | register (env : alloc_env) (init : Option vfb2_init)
  | unregister (table_index : Int)
  | fb_open (info : Option Nat)
  | fb_release (info : Option Nat)
  | fb_ioctl (cmd arg : Nat) (info : Option Nat)
  | fb_check_var (var : fb_var_screeninfo) (info : Option Nat)
  | fb_set_par (info : Option Nat)
  | fb_setcolreg (regno red green blue transp : Nat) (info : Option Nat)
  | store_var (var : fb_var_screeninfo) (info : Nat)

/-- The state after one call. -/
def exec (pf : platform) (handler : Nat → Nat → Nat → Int → Int) (s : State) : Op → Option State
  | Op.register env init => (vfb2_register pf env s init).map Prod.fst
  | Op.unregister table_index => vfb2_unregister s table_index
  | Op.fb_open info => (vfb2_open s info).map Prod.fst
  | Op.fb_release info => (vfb2_release s info).map Prod.fst
  | Op.fb_ioctl cmd arg info => (vfb2_ioctl handler s cmd arg info).map Prod.fst
  | Op.fb_check_var var info => (vfb2_check_var pf s var info).map (fun _ => s)
  | Op.fb_set_par info => (vfb2_set_par pf s info).map Prod.fst
  | Op.fb_setcolreg regno red green blue transp info =>
    (vfb2_setcolreg s regno red green blue transp info).map Prod.fst
  | Op.store_var var info =>
    match s.infos info with
    | none => none
    | some fi => some (set_info s info (some { fi with var := var }))

/-- The state after a sequence of calls. -/
def run (pf : platform) (handler : Nat → Nat → Nat → Int → Int) : State → List Op → Option State
  | s, [] => some s
  | s, op :: ops =>
    match exec pf handler s op with
    | none => none
    | some s' => run pf handler s' ops

/-- `k` calls of `vfb2_open` one after the other: the final state when all of
them return 0. -/
def open_times (info : Option Nat) : Nat → State → Option State
  | 0, s => some s
  | k + 1, s =>
    match vfb2_open s info with
    | some (s', 0) => open_times info k s'
    | _ => none


/-! ## Invariants of the registry -/

/-- Every pointer in the table refers to an allocated device whose
`table_index` is the slot holding it, and every allocated address is below
`brk`. -/
def wf (s : State) : Prop :=
  (∀ (i q : Nat), s.vfb2_table[i]? = some (some q) →
    ∃ d, s.devs q = some d ∧ d.table_index = (i : Int)) ∧
  (∀ a d, s.devs a = some d → a < s.brk) ∧
  (∀ a fi, s.infos a = some fi → a < s.brk)

/-- How an operation may change the objects that existed before it: addresses
are only added, a device that is still allocated was allocated before and, if
it was marked not present, still is; an `fb_info` that is still allocated was
allocated before and its `par` is what it was or NULL. -/
def evolves (s s' : State) : Prop :=
  s.brk ≤ s'.brk ∧
  (∀ a d', a < s.brk → s'.devs a = some d' →
    ∃ d, s.devs a = some d ∧ (d.present = VFB2_NOT_PRESENT → d'.present = VFB2_NOT_PRESENT)) ∧
  (∀ a fi', a < s.brk → s'.infos a = some fi' →
    ∃ fi, s.infos a = some fi ∧ (fi'.par = fi.par ∨ fi'.par = none))

/-! ## Interleavings of `vfb2_release` and `vfb2_unregister`

Each call is cut at the points where it takes or drops the registry lock:
`vfb2_release` into its locked part and the call of `vfb2_remove`,
`vfb2_unregister` into its locked part and the rest, which takes and drops
`dev->ioctl_sem` and then calls `vfb2_remove` when the count read was zero. -/

/-- Where a call of `vfb2_release` stands; after the locked part it holds the
locals `dev` and `remove`. -/
inductive release_pc where
  | start
  | locked (dev : Option Nat) (remove : Bool)
  | finished (remove : Bool)
deriving DecidableEq, Repr

/-- Where the call of `vfb2_unregister` stands; after the locked part it holds
the locals `dev` and `open` (`none` when the slot was empty). -/
inductive unregister_pc where
  | start
  | locked (found : Option (Nat × Int))
  | finished (found : Option (Nat × Int))
deriving DecidableEq, Repr

/-- The shared state, the position of every call, and the list of the threads
whose `vfb2_remove` cleared the slot of the device (`none` is the thread of
`vfb2_unregister`, `some t` the `t`-th `vfb2_release`). -/
structure Config where
  st : State
  releases : List release_pc
  unregister : unregister_pc
  destroyed_by : List (Option Nat)

/-- Whether a call of `vfb2_remove` that took `s` to `s'` took the device out
of the table. -/
def cleared (s s' : State) (dev : Option Nat) : Bool :=
  match dev with
  | none => false
  | some p => decide (0 ≤ vfb2_find_dev s p) && decide (vfb2_find_dev s' p < 0)

/-- The call of `vfb2_remove` made by thread `who`. -/
def remove_by (c : Config) (who : Option Nat) (dev : Option Nat) : Option Config :=
  match vfb2_remove c.st dev with
  | none => none
  | some s =>
    some { c with st := s,
                  destroyed_by :=
                    if cleared c.st s dev then c.destroyed_by ++ [who] else c.destroyed_by }

/-- One more critical section of thread `who`; `none` when that thread has
nothing left to run or the section accesses a released object.  The second
section of `vfb2_unregister` starts with `down_write(&dev->ioctl_sem)`, which
accesses the device. -/
def step (info : Option Nat) (table_index : Int) (c : Config) : Option Nat → Option Config
  | some t =>
    match c.releases[t]? with
    | some release_pc.start =>
      match vfb2_release_locked c.st info with
      | none => none
      | some (s, dev, remove, _) =>
        some { c with st := s, releases := c.releases.set t (release_pc.locked dev remove) }
    | some (release_pc.locked dev remove) =>
      if remove then
        (remove_by c (some t) dev).map
          (fun c' => { c' with releases := c'.releases.set t (release_pc.finished remove) })
      else some { c with releases := c.releases.set t (release_pc.finished remove) }
    | _ => none
  | none =>
    match c.unregister with
    | unregister_pc.start =>
      match vfb2_unregister_locked c.st table_index with
      | none => none
      | some (s, found) => some { c with st := s, unregister := unregister_pc.locked found }
    | unregister_pc.locked none =>
      some { c with unregister := unregister_pc.finished none }
    | unregister_pc.locked (some (dev, open_)) =>
      match c.st.devs dev with
      | none => none
      | some _ =>
        if open_ = 0 then
          (remove_by c none (some dev)).map
            (fun c' => { c' with unregister := unregister_pc.finished (some (dev, open_)) })
        else some { c with unregister := unregister_pc.finished (some (dev, open_)) }
    | unregister_pc.finished _ => none

/-- The configuration after the threads ran in the order `sched`. -/
def run_schedule (info : Option Nat) (table_index : Int) : Config → List (Option Nat) → Option Config
  | c, [] => some c
  | c, who :: rest =>
    match step info table_index c who with
    | none => none
    | some c' => run_schedule info table_index c' rest

/-- The configuration in which `n` calls of `vfb2_release` and one call of
`vfb2_unregister` are about to start. -/
def init_config (s : State) (n : Nat) : Config :=
  { st := s, releases := List.replicate n release_pc.start, unregister := unregister_pc.start,
    destroyed_by := [] }

/-- An interleaving of `n` calls of `vfb2_release` and one call of
`vfb2_unregister`: every thread has exactly its two critical sections in it. -/
def valid_schedule (n : Nat) (sched : List (Option Nat)) : Prop :=
  sched.count none = 2 ∧ (∀ t, t < n → sched.count (some t) = 2) ∧
  (∀ t, some t ∈ sched → t < n)

/-- The device at address `p` sits in slot `i` and nowhere else, with its
`fb_info` at address `q`. -/
def registered (s : State) (p q i : Nat) (d : vfb2_device) : Prop :=
  s.vfb2_table[i]? = some (some p) ∧ (∀ j, s.vfb2_table[j]? = some (some p) → j = i) ∧
  s.devs p = some d ∧ d.table_index = (i : Int) ∧ d.info = some q ∧
  ∃ fi, s.infos q = some fi ∧ fi.par = some p


/-- Every device in the table is registered in its slot, with an allocated
`fb_info` that points back at it, and every allocated device is in the table. -/
def tight (s : State) : Prop :=
  (∀ (i p : Nat), s.vfb2_table[i]? = some (some p) → ∃ q d, registered s p q i d) ∧
  (∀ a d, s.devs a = some d → ∃ i : Nat, s.vfb2_table[i]? = some (some a))

/-- The critical sections a call of `vfb2_release` has still to run. -/
def release_left : Option release_pc → Nat
  | some release_pc.start => 2
  | some (release_pc.locked _ _) => 1
  | _ => 0

/-- The critical sections the call of `vfb2_unregister` has still to run. -/
def unregister_left : unregister_pc → Nat
  | unregister_pc.start => 2
  | unregister_pc.locked _ => 1
  | unregister_pc.finished _ => 0

/-- No call of `vfb2_release` is between its locked part and its
`vfb2_remove` with `remove` set. -/
def no_pending (rs : List release_pc) : Prop :=
  ∀ (t : Nat) (dv : Option Nat), rs[t]? ≠ some (release_pc.locked dv true)

/-- No call of `vfb2_release` has finished with `remove` set. -/
def no_finished_true (rs : List release_pc) : Prop :=
  ∀ t : Nat, rs[t]? ≠ some (release_pc.finished true)

/-- The invariant of an interleaving while the device is still in its slot:
the open count is the number of calls of `vfb2_release` not yet started, at
most one call holds `remove` set and only when the count is zero and the device
is marked, and `vfb2_unregister` has seen a zero count only if no call of
`vfb2_release` is left. -/
def alive_inv (c : Config) (p q i : Nat) : Prop :=
  ∃ d, registered c.st p q i d ∧
    d.open_ = (c.releases.count release_pc.start : Int) ∧
    c.destroyed_by = [] ∧ no_finished_true c.releases ∧
    (∀ (t : Nat) dv rm, c.releases[t]? = some (release_pc.locked dv rm) → dv = some p) ∧
    (∀ (t t' : Nat) dv dv', c.releases[t]? = some (release_pc.locked dv true) →
      c.releases[t']? = some (release_pc.locked dv' true) → t = t') ∧
    (¬ no_pending c.releases → d.open_ = 0 ∧ d.present = VFB2_NOT_PRESENT) ∧
    (match c.unregister with
     | unregister_pc.start => d.present = VFB2_PRESENT
     | unregister_pc.locked found =>
       ∃ o, found = some (p, o) ∧ d.present = VFB2_NOT_PRESENT ∧
         (o = 0 → d.open_ = 0 ∧ no_pending c.releases) ∧
         (o ≠ 0 → d.open_ = 0 → ¬ no_pending c.releases)
     | unregister_pc.finished found =>
       ∃ o, found = some (p, o) ∧ o ≠ 0 ∧ d.present = VFB2_NOT_PRESENT ∧
         (d.open_ = 0 → ¬ no_pending c.releases))

/-- The invariant of an interleaving once the device is destroyed: exactly one
thread is recorded, no call of `vfb2_release` is left that could touch the
device, and the recorded thread is `vfb2_unregister` having read a zero count,
or the one call of `vfb2_release` that finished with `remove` set. -/
def gone_inv (c : Config) (p i : Nat) : Prop :=
  c.st.devs p = none ∧ c.st.vfb2_table[i]? = some none ∧
  c.releases.count release_pc.start = 0 ∧ no_pending c.releases ∧
  ((c.destroyed_by = [none] ∧ c.unregister = unregister_pc.finished (some (p, 0)) ∧
      no_finished_true c.releases) ∨
   (∃ (t : Nat) (o : Int), c.destroyed_by = [some t] ∧
      c.releases[t]? = some (release_pc.finished true) ∧ o ≠ 0 ∧
      (c.unregister = unregister_pc.locked (some (p, o)) ∨
        c.unregister = unregister_pc.finished (some (p, o))) ∧
      ∀ t' : Nat, c.releases[t']? = some (release_pc.finished true) → t' = t))


/-- The run of `sched` from `c` comes to the second section of
`vfb2_unregister` in a configuration where a call of `vfb2_release` has
destroyed the device `p` that `vfb2_unregister` still holds in its local
`dev`. -/
def drain_after_free (info : Option Nat) (table_index : Int) (p : Nat) (c : Config)
    (sched : List (Option Nat)) : Prop :=
  ∃ (pre post : List (Option Nat)) (c' : Config) (t : Nat) (o : Int),
    sched = pre ++ none :: post ∧ run_schedule info table_index c pre = some c' ∧
    c'.st.devs p = none ∧ c'.destroyed_by = [some t] ∧
    c'.unregister = unregister_pc.locked (some (p, o)) ∧ o ≠ 0

/-- How a call other than `vfb2_register` may change a device that stays
allocated: `init`, `table_index` and `info` are kept; the presence state is
kept or becomes not present; a device that is marked not present with a
non-zero open count keeps a non-zero open count; `current_mode` is kept or
becomes the non-negative result of `vfb2_match_mode` for some request. -/
def dev_step (d d' : vfb2_device) : Prop :=
  d'.init = d.init ∧ d'.table_index = d.table_index ∧ d'.info = d.info ∧
  (d'.present = d.present ∨ d'.present = VFB2_NOT_PRESENT) ∧
  (d.present = VFB2_NOT_PRESENT → d.open_ ≠ 0 → d'.open_ ≠ 0) ∧
  (d'.current_mode = d.current_mode ∨
    ∃ var, vfb2_match_mode d var = some d'.current_mode ∧ 0 ≤ d'.current_mode)

/-- Every allocated device is marked present or not present: none is left in
the state `VFB2_ERROR_ON_REGISTER` of a registration under way. -/
def settled (s : State) : Prop :=
  ∀ a d, s.devs a = some d → d.present = VFB2_PRESENT ∨ d.present = VFB2_NOT_PRESENT

/-- Slot `idx` has been unregistered: the index names no device, or the device
it names is marked not present and still has handles open. -/
def unregistered (s : State) (idx : Int) : Prop :=
  vfb2_index_to_dev s idx = none ∨
  ∃ p d, vfb2_index_to_dev s idx = some p ∧ s.devs p = some d ∧
    d.present = VFB2_NOT_PRESENT ∧ d.open_ ≠ 0

/-- Whether a call is a call of `vfb2_register`. -/
def is_register : Op → Bool
  | Op.register _ _ => true
  | _ => false

/-- The effect of calls other than `vfb2_register` on the table and the
devices: the table keeps its length, a slot keeps its entry or is cleared, and
a device that is still allocated was allocated before and has changed by
`dev_step`. -/
def call_effect (X X' : State) : Prop :=
  X'.vfb2_table.length = X.vfb2_table.length ∧
  (∀ j : Nat, X'.vfb2_table[j]? = X.vfb2_table[j]? ∨ X'.vfb2_table[j]? = some none) ∧
  (∀ a d', X'.devs a = some d' → ∃ d, X.devs a = some d ∧ dev_step d d')

/-- The mode table of the device ends with its sentinel and `current_mode` is
the index of an entry before the sentinel. -/
def mode_valid (d : vfb2_device) : Prop :=
  ∃ tbl n, d.init.mode_table = some tbl ∧ vfb2_num_modes tbl = some n ∧
    tbl.length = n + 1 ∧ 0 ≤ d.current_mode ∧ d.current_mode < (n : Int)

/-- Required bytes of a mode as the specification words them:
`ceil(width * bitsPerPixel / 8) * height`, in unbounded arithmetic. -/
def spec_required_bytes (m : vfb2_mode) : Nat :=
  ((m.xres * m.bpp + 7) / 8) * m.yres

/-- A request for `xres` x `yres` at `bpp`, every other field zero. -/
def request (xres yres bpp : Nat) : fb_var_screeninfo :=
  { xres := xres, yres := yres, xres_virtual := 0, yres_virtual := 0, xoffset := 0,
    yoffset := 0, bits_per_pixel := bpp, grayscale := 0, red := ⟨0, 0, 0⟩,
    green := ⟨0, 0, 0⟩, blue := ⟨0, 0, 0⟩, transp := ⟨0, 0, 0⟩, activate := 0, vmode := 0 }

/-- A device as `vfb2_init_dev` leaves it, but with the given mode table,
backing length and current mode, and marked present. -/
def sample_dev (vmem_len : Nat) (tbl : List vfb2_mode) (current_mode : Int) : vfb2_device :=
  { init := { vmem_len := vmem_len, mode_table := some tbl, vfb2_ioctl := none, private_ := 0 },
    present := VFB2_PRESENT, table_index := 0, open_ := 0, current_mode := current_mode,
    videomemory := none, info := none }

/-- A mode table with two entries of the same resolution: 640x480 at 8 bpp,
800x600 at 16 bpp, 800x600 at 32 bpp, then the sentinel. -/
def sample_table : List vfb2_mode :=
  [⟨640, 480, 8, 3, 0⟩, ⟨800, 600, 16, 2, 0⟩, ⟨800, 600, 32, 2, 0⟩, ⟨0, 0, 0, 0, 0⟩]

/-- A table whose only mode is 2^27 pixels wide at 32 bpp. -/
def wide_table : List vfb2_mode :=
  [⟨134217728, 1, 32, 2, 0⟩, ⟨0, 0, 0, 0, 0⟩]

/-- A registry of four slots with one device at address 0 in slot 0, its
`fb_info` at address 1; the device has the sample table, the given presence
state and the given open count. -/
def sample_state (present open_ : Int) : State :=
  { vfb2_table := [some 0, none, none, none],
    devs := fun a =>
      if a = 0 then
        some { (sample_dev 1920000 sample_table 0) with
                 present := present, open_ := open_, info := some 1 }
      else none,
    infos := fun a =>
      if a = 1 then some (new_fb_info 0 (sample_dev 1920000 sample_table 0)) else none,
    brk := 3 }

/-- A registry of `n` empty slots with nothing allocated. -/
def empty_state (n : Nat) : State :=
  { vfb2_table := List.replicate n none, devs := fun _ => none, infos := fun _ => none,
    brk := 0 }

/-- The environment in which every kernel service succeeds. -/
def env_ok : alloc_env :=
  { kmalloc_dev := true, kmalloc_table := true, vmalloc := true, framebuffer_alloc := true,
    fb_alloc_cmap := 0, register_framebuffer := 0 }

/-- A descriptor with the sample table and 1921024 bytes of video memory (469 pages). -/
def sample_init : vfb2_init :=
  { vmem_len := 1921024, mode_table := some sample_table, vfb2_ioctl := none, private_ := 0 }

/-- The backing length as the specification words the rounding: the smallest
multiple of the page size `P` that is not below `L`. -/
def spec_round_up (L P : Nat) : Nat :=
  ((L + P - 1) / P) * P

/-- The `vmem_len` that `vfb2_alloc_vmem` leaves in a device asked for `L`
bytes, when `vmalloc` succeeds. -/
def stored_vmem_len (pf : platform) (L : Nat) : Option Nat :=
  (vfb2_alloc_vmem pf true 0 (sample_dev L sample_table 0)).map (fun x => x.1.init.vmem_len)

/-- The sample registry with a driver handler at address 7 in the device, the
given presence state and one open handle. -/
def ioctl_state (present : Int) : State :=
  { vfb2_table := [some 0, none, none, none],
    devs := fun a =>
      if a = 0 then
        some { init := { vmem_len := 1920000, mode_table := some sample_table,
                         vfb2_ioctl := some 7, private_ := 0 },
               present := present, table_index := 0, open_ := 1, current_mode := 0,
               videomemory := none, info := some 1 }
      else none,
    infos := fun a =>
      if a = 1 then some (new_fb_info 0 (sample_dev 1920000 sample_table 0)) else none,
    brk := 3 }

/-- A handler that returns the sum of what it is called with. -/
def sum_handler (a cmd arg : Nat) (table_index : Int) : Int :=
  (a : Int) + (cmd : Int) + (arg : Int) + table_index

/-- The mode table of the example in the specification: 640x480 at 8 bpp and
800x600 at 16 bpp, then the sentinel. -/
def spec_table : List vfb2_mode :=
  [⟨640, 480, 8, 3, 0⟩, ⟨800, 600, 16, 2, 0⟩, ⟨0, 0, 0, 0, 0⟩]

/-- The sample registry after its device, never opened, was unregistered and a
device was registered anew in the two blocks that were freed. -/
def reused_state (s1 : State) : State :=
  set_slot (set_info (set_dev s1 0
      (some { (sample_dev 1920000 sample_table 0) with
                present := VFB2_PRESENT, open_ := 0, info := some 1 })) 1
    (some (new_fb_info 0 (sample_dev 1920000 sample_table 0)))) 0 (some 0)

/-! ## Theorems: mode matching -/

/-- When some entry before the sentinel satisfies `p`, the loop stops at the
first such entry. -/
theorem match_loop_hit (p : vfb2_mode → Bool) :
    ∀ (l : List vfb2_mode) (i mode : Int) (j : Nat) (m : vfb2_mode),
      l[j]? = some m → p m = true →
      (∀ k m', k ≤ j → l[k]? = some m' → m'.xres ≠ 0) →
      ∃ j0 m0, j0 ≤ j ∧ l[j0]? = some m0 ∧ p m0 = true ∧
        (∀ k m', k < j0 → l[k]? = some m' → p m' = false) ∧
        match_loop p l i mode = some (i + (j0 : Int)) := by
  intro l
  induction l with
  | nil => intro i mode j m hj; simp at hj
  | cons a rest ih =>
    intro i mode j m hj hp hreal
    have ha : a.xres ≠ 0 := hreal 0 a (Nat.zero_le _) (by simp)
    by_cases hpa : p a = true
    · refine ⟨0, a, Nat.zero_le _, by simp, hpa, ?_, ?_⟩
      · intro k m' hk; omega
      · simp [match_loop, ha, hpa]
    · cases j with
      | zero =>
        simp at hj
        subst hj
        exact absurd hp hpa
      | succ j =>
        have hj' : rest[j]? = some m := by simpa using hj
        have hreal' : ∀ k m', k ≤ j → rest[k]? = some m' → m'.xres ≠ 0 := by
          intro k m' hk hk'
          exact hreal (k + 1) m' (by omega) (by simpa using hk')
        obtain ⟨j0, m0, hle, hget, hp0, hmin, hrun⟩ := ih (i + 1) mode j m hj' hp hreal'
        refine ⟨j0 + 1, m0, by omega, by simpa using hget, hp0, ?_, ?_⟩
        · intro k m' hk hk'
          cases k with
          | zero =>
            simp at hk'
            subst hk'
            simpa using hpa
          | succ k => exact hmin k m' (by omega) (by simpa using hk')
        · simp only [match_loop, ha, hpa, if_false]
          rw [hrun]
          have e : i + 1 + (j0 : Int) = i + ((j0 + 1 : Nat) : Int) := by
            push_cast
            omega
          rw [e]
          simp

/-- When the array has its sentinel at index `n` and no entry before it
satisfies `p`, the loop leaves `mode` as it was. -/
theorem match_loop_miss (p : vfb2_mode → Bool) :
    ∀ (l : List vfb2_mode) (i mode : Int) (n : Nat) (z : vfb2_mode),
      l[n]? = some z → z.xres = 0 →
      (∀ k m', k < n → l[k]? = some m' → m'.xres ≠ 0 ∧ p m' = false) →
      match_loop p l i mode = some mode := by
  intro l
  induction l with
  | nil => intro i mode n z hn; simp at hn
  | cons a rest ih =>
    intro i mode n z hn hz hbefore
    cases n with
    | zero =>
      simp at hn
      subst hn
      simp [match_loop, hz]
    | succ n =>
      have h0 := hbefore 0 a (by omega) (by simp)
      have hrest : ∀ k m', k < n → rest[k]? = some m' → m'.xres ≠ 0 ∧ p m' = false := by
        intro k m' hk hk'
        exact hbefore (k + 1) m' (by omega) (by simpa using hk')
      simp only [match_loop, h0.1, h0.2, if_false]
      exact ih (i + 1) mode n z (by simpa using hn) hz hrest

/-- C1. Tight match wins: when an entry before the sentinel equals the request
on xres, yres and bpp, `vfb2_match_mode` returns the smallest index of such an
entry, whatever loose matches stand earlier in the table. -/
theorem vfb2_match_mode_tight_wins (dev : vfb2_device) (var : fb_var_screeninfo)
    (tbl : List vfb2_mode) (j : Nat) (m : vfb2_mode)
    (htbl : dev.init.mode_table = some tbl)
    (hj : tbl[j]? = some m)
    (hreal : ∀ k m', k ≤ j → tbl[k]? = some m' → m'.xres ≠ 0)
    (hm : m.xres = var.xres ∧ m.yres = var.yres ∧ m.bpp = var.bits_per_pixel) :
    ∃ (i : Nat) (m0 : vfb2_mode),
      vfb2_match_mode dev var = some (i : Int) ∧ i ≤ j ∧ tbl[i]? = some m0 ∧
      (m0.xres = var.xres ∧ m0.yres = var.yres ∧ m0.bpp = var.bits_per_pixel) ∧
      ∀ k m', k < i → tbl[k]? = some m' →
        ¬ (m'.xres = var.xres ∧ m'.yres = var.yres ∧ m'.bpp = var.bits_per_pixel) := by
  have hloose : loose_match var m = true := by simp [loose_match, hm.1, hm.2.1]
  have htight : tight_match var m = true := by simp [tight_match, hm.1, hm.2.1, hm.2.2]
  obtain ⟨a, ma, -, -, -, -, hrunA⟩ :=
    match_loop_hit (loose_match var) tbl 0 (-1) j m hj hloose hreal
  obtain ⟨i, m0, hle, hget, hp0, hmin, hrun⟩ :=
    match_loop_hit (tight_match var) tbl 0 (0 + (a : Int)) j m hj htight hreal
  refine ⟨i, m0, ?_, hle, hget, ?_, ?_⟩
  · simp only [vfb2_match_mode, htbl, hrunA, hrun]
    simp
  · simpa [tight_match, and_assoc] using hp0
  · intro k m' hk hk' hall
    have := hmin k m' hk hk'
    simp [tight_match, hall.1, hall.2.1, hall.2.2] at this

/-- Witness for C1: the exact match at index 1 is returned although index 0
matches on the resolution. -/
theorem vfb2_match_mode_tight_wins_witness :
    ∃ (i : Nat) (m0 : vfb2_mode),
      vfb2_match_mode
        { init := { vmem_len := 614400,
                    mode_table := some [⟨640, 480, 16, 2, 0⟩, ⟨640, 480, 8, 3, 0⟩, ⟨0, 0, 0, 0, 0⟩],
                    vfb2_ioctl := none, private_ := 0 },
          present := 1, table_index := 0, open_ := 0, current_mode := 0,
          videomemory := none, info := none }
        { xres := 640, yres := 480, xres_virtual := 0, yres_virtual := 0, xoffset := 0,
          yoffset := 0, bits_per_pixel := 8, grayscale := 0, red := ⟨0, 0, 0⟩,
          green := ⟨0, 0, 0⟩, blue := ⟨0, 0, 0⟩, transp := ⟨0, 0, 0⟩, activate := 0,
          vmode := 0 } = some (i : Int) ∧ i ≤ 1 ∧
      [(⟨640, 480, 16, 2, 0⟩ : vfb2_mode), ⟨640, 480, 8, 3, 0⟩, ⟨0, 0, 0, 0, 0⟩][i]? = some m0 ∧
      (m0.xres = 640 ∧ m0.yres = 480 ∧ m0.bpp = 8) ∧
      ∀ k m', k < i →
        [(⟨640, 480, 16, 2, 0⟩ : vfb2_mode), ⟨640, 480, 8, 3, 0⟩, ⟨0, 0, 0, 0, 0⟩][k]? = some m' →
        ¬ (m'.xres = 640 ∧ m'.yres = 480 ∧ m'.bpp = 8) :=
  vfb2_match_mode_tight_wins _ _
    [⟨640, 480, 16, 2, 0⟩, ⟨640, 480, 8, 3, 0⟩, ⟨0, 0, 0, 0, 0⟩] 1 ⟨640, 480, 8, 3, 0⟩
    rfl rfl
    (by
      intro k m' hk hk'
      have hk2 : k = 0 ∨ k = 1 := by omega
      rcases hk2 with rfl | rfl <;> simp at hk' <;> subst hk' <;> decide)
    ⟨rfl, rfl, rfl⟩

/-! ## Theorems: validation in `vfb2_check_var_helper` -/

theorem and_not_seven (x L : Nat) (h : x < 2 ^ L) (hL : 3 ≤ L) :
    (x &&& (2 ^ L - 8)) >>> 3 = x / 8 := by
  apply Nat.eq_of_testBit_eq
  intro i
  have h8 : (8 : Nat) = 7 + 1 := rfl
  have h7L : 7 < 2 ^ L :=
    calc 7 < 2 ^ 3 := by norm_num
      _ ≤ 2 ^ L := Nat.pow_le_pow_right (by norm_num) hL
  rw [Nat.testBit_shiftRight, Nat.testBit_land, h8, Nat.testBit_two_pow_sub_succ h7L]
  have hx : x / (7 + 1) = x >>> 3 := by rw [Nat.shiftRight_eq_div_pow]
  rw [hx, Nat.testBit_shiftRight]
  by_cases hb : x.testBit (3 + i) = true
  · have hlt : 3 + i < L := by
      by_contra hge
      have hfalse := Nat.testBit_lt_two_pow (x := x) (i := 3 + i)
        (lt_of_lt_of_le h (Nat.pow_le_pow_right (by norm_num) (by omega)))
      simp [hfalse] at hb
    have h7 : Nat.testBit 7 (3 + i) = false := by
      apply Nat.testBit_lt_two_pow
      calc 7 < 2 ^ 3 := by norm_num
        _ ≤ 2 ^ (3 + i) := Nat.pow_le_pow_right (by norm_num) (by omega)
    simp [hb, hlt, h7]
  · simp [hb]

theorem vfb2_set_bitfields_geometry (var : fb_var_screeninfo) (t : Nat) :
    (vfb2_set_bitfields var t).xres = var.xres ∧ (vfb2_set_bitfields var t).yres = var.yres ∧
    (vfb2_set_bitfields var t).bits_per_pixel = var.bits_per_pixel := by
  unfold vfb2_set_bitfields
  simp only
  split_ifs <;> simp

/-- What `vfb2_check_var_helper` does once the mode is selected: it is defined,
writes the selected mode into the request and returns the first failing check. -/
theorem vfb2_check_var_helper_selected (pf : platform) (var : fb_var_screeninfo)
    (dev : vfb2_device) (tbl : List vfb2_mode) (matched : Int) (m : vfb2_mode)
    (htbl : dev.init.mode_table = some tbl)
    (hmatch : vfb2_match_mode dev var = some matched)
    (hmode : mode_at tbl (if matched < 0 then dev.current_mode else matched) = some m) :
    ∃ var' r ll,
      vfb2_check_var_helper pf var dev = some (var', r) ∧
      vfb2_line_length pf dev (if matched < 0 then dev.current_mode else matched) = some ll ∧
      var'.xres = m.xres ∧ var'.yres = m.yres ∧ var'.bits_per_pixel = m.bpp ∧
      r = (if m.xres = 0 ∨ m.yres = 0 then -EINVAL
           else if m.bpp ≠ 1 ∧ m.bpp ≠ 8 ∧ m.bpp ≠ 16 ∧ m.bpp ≠ 24 ∧ m.bpp ≠ 32 then -ENOTSUPP
           else if (ll * m.yres) % 2 ^ pf.BITS_PER_LONG > dev.init.vmem_len then -ENOMEM
           else 0) := by
  simp only [vfb2_check_var_helper, hmatch, vfb2_set_mode, htbl, hmode, vfb2_line_length]
  by_cases h1 : m.xres = 0 ∨ m.yres = 0
  · rw [if_pos h1]
    exact ⟨_, _, _, rfl, rfl, rfl, rfl, rfl, (if_pos h1).symm⟩
  · by_cases h2 : m.bpp ≠ 1 ∧ m.bpp ≠ 8 ∧ m.bpp ≠ 16 ∧ m.bpp ≠ 24 ∧ m.bpp ≠ 32
    · rw [if_neg h1, if_pos h2]
      refine ⟨_, _, _, rfl, rfl, rfl, rfl, rfl, ?_⟩
      rw [if_neg h1, if_pos h2]
    · by_cases h3 : ((((m.xres * m.bpp) % 2 ^ 32 + 7) % 2 ^ pf.BITS_PER_LONG &&&
          (2 ^ pf.BITS_PER_LONG - 8)) >>> 3 * m.yres) % 2 ^ pf.BITS_PER_LONG > dev.init.vmem_len
      · rw [if_neg h1, if_neg h2, if_pos h3]
        refine ⟨_, _, _, rfl, rfl, rfl, rfl, rfl, ?_⟩
        rw [if_neg h1, if_neg h2, if_pos h3]
      · rw [if_neg h1, if_neg h2, if_neg h3]
        refine ⟨_, _, _, rfl, rfl, (vfb2_set_bitfields_geometry _ _).1,
          (vfb2_set_bitfields_geometry _ _).2.1, (vfb2_set_bitfields_geometry _ _).2.2, ?_⟩
        rw [if_neg h1, if_neg h2, if_neg h3]

/-- With the sentinel at index `n`, a resolution match before it and no exact
match, `vfb2_match_mode` returns the first resolution match. -/
theorem vfb2_match_mode_loose (dev : vfb2_device) (var : fb_var_screeninfo)
    (tbl : List vfb2_mode) (n : Nat) (z : vfb2_mode)
    (htbl : dev.init.mode_table = some tbl) (hn : tbl[n]? = some z) (hz : z.xres = 0)
    (hreal : ∀ k m', k < n → tbl[k]? = some m' → m'.xres ≠ 0)
    (j : Nat) (m : vfb2_mode) (hjn : j < n) (hj : tbl[j]? = some m)
    (hm : m.xres = var.xres ∧ m.yres = var.yres)
    (hno : ∀ k m', k < n → tbl[k]? = some m' →
      ¬ (m'.xres = var.xres ∧ m'.yres = var.yres ∧ m'.bpp = var.bits_per_pixel)) :
    ∃ (j0 : Nat) (m0 : vfb2_mode),
      vfb2_match_mode dev var = some (j0 : Int) ∧ j0 ≤ j ∧ tbl[j0]? = some m0 ∧
      (m0.xres = var.xres ∧ m0.yres = var.yres) ∧
      ∀ k m', k < j0 → tbl[k]? = some m' → ¬ (m'.xres = var.xres ∧ m'.yres = var.yres) := by
  have hloose : loose_match var m = true := by simp [loose_match, hm.1, hm.2]
  obtain ⟨j0, m0, hle, hget, hp0, hmin, hrun⟩ :=
    match_loop_hit (loose_match var) tbl 0 (-1) j m hj hloose
      (fun k m' hk hk' => hreal k m' (by omega) hk')
  have hmiss := match_loop_miss (tight_match var) tbl 0 (0 + (j0 : Int)) n z hn hz
    (fun k m' hk hk' => ⟨hreal k m' hk hk', by
      have := hno k m' hk hk'
      simp only [tight_match]
      by_contra hc
      simp only [Bool.not_eq_false, Bool.and_eq_true, beq_iff_eq] at hc
      exact this ⟨hc.1.1, hc.1.2, hc.2⟩⟩)
  refine ⟨j0, m0, ?_, hle, hget, ?_, ?_⟩
  · simp only [vfb2_match_mode, htbl, hrun, hmiss]
    simp
  · simpa [loose_match] using hp0
  · intro k m' hk hk' hall
    have := hmin k m' hk hk'
    simp [loose_match, hall.1, hall.2] at this

/-- With the sentinel at index `n` and no resolution match before it,
`vfb2_match_mode` returns -1. -/
theorem vfb2_match_mode_none (dev : vfb2_device) (var : fb_var_screeninfo)
    (tbl : List vfb2_mode) (n : Nat) (z : vfb2_mode)
    (htbl : dev.init.mode_table = some tbl) (hn : tbl[n]? = some z) (hz : z.xres = 0)
    (hreal : ∀ k m', k < n → tbl[k]? = some m' → m'.xres ≠ 0)
    (hno : ∀ k m', k < n → tbl[k]? = some m' → ¬ (m'.xres = var.xres ∧ m'.yres = var.yres)) :
    vfb2_match_mode dev var = some (-1) := by
  have h1 := match_loop_miss (loose_match var) tbl 0 (-1) n z hn hz
    (fun k m' hk hk' => ⟨hreal k m' hk hk', by
      have := hno k m' hk hk'
      simp only [loose_match]
      by_contra hc
      simp only [Bool.not_eq_false, Bool.and_eq_true, beq_iff_eq] at hc
      exact this hc⟩)
  have h2 := match_loop_miss (tight_match var) tbl 0 (-1) n z hn hz
    (fun k m' hk hk' => ⟨hreal k m' hk hk', by
      have := hno k m' hk hk'
      simp only [tight_match]
      by_contra hc
      simp only [Bool.not_eq_false, Bool.and_eq_true, beq_iff_eq] at hc
      exact this hc.1⟩)
  simp only [vfb2_match_mode, htbl, h1, h2]

/-- C2. Loose match versus fallback: a request that matches some entry on the
resolution but none exactly is rewritten to the first entry of that resolution,
whatever the current mode; a request whose resolution matches no entry is
rewritten to the entry at `current_mode`. -/
theorem vfb2_check_var_helper_loose_or_fallback (pf : platform) (dev : vfb2_device)
    (var : fb_var_screeninfo) (tbl : List vfb2_mode) (n : Nat) (z : vfb2_mode)
    (htbl : dev.init.mode_table = some tbl) (hn : tbl[n]? = some z) (hz : z.xres = 0)
    (hreal : ∀ k m', k < n → tbl[k]? = some m' → m'.xres ≠ 0) :
    (∀ j m, j < n → tbl[j]? = some m → (m.xres = var.xres ∧ m.yres = var.yres) →
      (∀ k m', k < n → tbl[k]? = some m' →
        ¬ (m'.xres = var.xres ∧ m'.yres = var.yres ∧ m'.bpp = var.bits_per_pixel)) →
      ∃ var' r j0 m0,
        vfb2_check_var_helper pf var dev = some (var', r) ∧
        j0 ≤ j ∧ tbl[j0]? = some m0 ∧ (m0.xres = var.xres ∧ m0.yres = var.yres) ∧
        (∀ k m', k < j0 → tbl[k]? = some m' → ¬ (m'.xres = var.xres ∧ m'.yres = var.yres)) ∧
        var'.xres = m0.xres ∧ var'.yres = m0.yres ∧ var'.bits_per_pixel = m0.bpp) ∧
    ((∀ k m', k < n → tbl[k]? = some m' → ¬ (m'.xres = var.xres ∧ m'.yres = var.yres)) →
      ∀ mc, mode_at tbl dev.current_mode = some mc →
      ∃ var' r,
        vfb2_check_var_helper pf var dev = some (var', r) ∧
        var'.xres = mc.xres ∧ var'.yres = mc.yres ∧ var'.bits_per_pixel = mc.bpp) := by
  constructor
  · intro j m hjn hj hm hno
    obtain ⟨j0, m0, hmatch, hle, hget, hm0, hfirst⟩ :=
      vfb2_match_mode_loose dev var tbl n z htbl hn hz hreal j m hjn hj hm hno
    have hmode : mode_at tbl (if (j0 : Int) < 0 then dev.current_mode else (j0 : Int)) = some m0 := by
      have : ¬ ((j0 : Int) < 0) := by omega
      simp [mode_at, this, hget]
    obtain ⟨var', r, ll, hrun, -, hx, hy, hb, -⟩ :=
      vfb2_check_var_helper_selected pf var dev tbl j0 m0 htbl hmatch hmode
    exact ⟨var', r, j0, m0, hrun, hle, hget, hm0, hfirst, hx, hy, hb⟩
  · intro hno mc hmc
    have hmatch := vfb2_match_mode_none dev var tbl n z htbl hn hz hreal hno
    have hmode : mode_at tbl (if (-1 : Int) < 0 then dev.current_mode else (-1 : Int)) = some mc := by
      simpa using hmc
    obtain ⟨var', r, ll, hrun, -, hx, hy, hb, -⟩ :=
      vfb2_check_var_helper_selected pf var dev tbl (-1) mc htbl hmatch hmode
    exact ⟨var', r, hrun, hx, hy, hb⟩

theorem sample_table_real :
    ∀ k m', k < 3 → sample_table[k]? = some m' → m'.xres ≠ 0 := by
  intro k m' hk hk'
  have hk3 : k = 0 ∨ k = 1 ∨ k = 2 := by omega
  rcases hk3 with rfl | rfl | rfl <;> simp [sample_table] at hk' <;> subst hk' <;> decide

/-- Witness for C2: with current mode 0 (640x480), the request 800x600 at
24 bpp is rewritten to entry 1 (800x600 at 16 bpp), and the request 1024x768 at
8 bpp to entry 0. -/
theorem vfb2_check_var_helper_loose_or_fallback_witness :
    (∃ var' r j0 m0,
        vfb2_check_var_helper ⟨64, 4096⟩ (request 800 600 24) (sample_dev 1920000 sample_table 0)
          = some (var', r) ∧
        j0 ≤ 1 ∧ sample_table[j0]? = some m0 ∧ (m0.xres = 800 ∧ m0.yres = 600) ∧
        (∀ k m', k < j0 → sample_table[k]? = some m' → ¬ (m'.xres = 800 ∧ m'.yres = 600)) ∧
        var'.xres = m0.xres ∧ var'.yres = m0.yres ∧ var'.bits_per_pixel = m0.bpp) ∧
    (∃ var' r,
        vfb2_check_var_helper ⟨64, 4096⟩ (request 1024 768 8) (sample_dev 1920000 sample_table 0)
          = some (var', r) ∧
        var'.xres = 640 ∧ var'.yres = 480 ∧ var'.bits_per_pixel = 8) :=
  ⟨(vfb2_check_var_helper_loose_or_fallback ⟨64, 4096⟩ (sample_dev 1920000 sample_table 0)
      (request 800 600 24) sample_table 3 ⟨0, 0, 0, 0, 0⟩ rfl rfl rfl sample_table_real).1
      1 ⟨800, 600, 16, 2, 0⟩ (by decide) rfl ⟨rfl, rfl⟩
      (by
        intro k m' hk hk'
        have hk3 : k = 0 ∨ k = 1 ∨ k = 2 := by omega
        rcases hk3 with rfl | rfl | rfl <;> simp [sample_table] at hk' <;> subst hk' <;> decide),
   (vfb2_check_var_helper_loose_or_fallback ⟨64, 4096⟩ (sample_dev 1920000 sample_table 0)
      (request 1024 768 8) sample_table 3 ⟨0, 0, 0, 0, 0⟩ rfl rfl rfl sample_table_real).2
      (by
        intro k m' hk hk'
        have hk3 : k = 0 ∨ k = 1 ∨ k = 2 := by omega
        rcases hk3 with rfl | rfl | rfl <;> simp [sample_table] at hk' <;> subst hk' <;> decide)
      ⟨640, 480, 8, 3, 0⟩ rfl⟩

/-- C3. The backing-store bound is not enforced when `xres * bpp` wraps: on a
table whose mode is 2^27 pixels wide at 32 bpp, with 4096 bytes of backing
store, `vfb2_check_var_helper` returns 0 (with 64-bit and with 32-bit
`unsigned long`), although the mode needs 2^29 bytes. -/
theorem vfb2_check_var_helper_wraps :
    (vfb2_check_var_helper ⟨64, 4096⟩ (request 134217728 1 32)
        (sample_dev 4096 wide_table 0)).map Prod.snd = some 0 ∧
    (vfb2_check_var_helper ⟨32, 4096⟩ (request 134217728 1 32)
        (sample_dev 4096 wide_table 0)).map Prod.snd = some 0 ∧
    vfb2_line_length ⟨64, 4096⟩ (sample_dev 4096 wide_table 0) 0 = some 0 ∧
    spec_required_bytes ⟨134217728, 1, 32, 2, 0⟩ = 536870912 ∧
    ¬ (spec_required_bytes ⟨134217728, 1, 32, 2, 0⟩ ≤ (sample_dev 4096 wide_table 0).init.vmem_len) := by
  refine ⟨by decide, by decide, by decide, by decide, by decide⟩

/-- The line length is at most 2^29 when `unsigned long` has 64 bits. -/
theorem vfb2_line_length_le (pf : platform) (dev : vfb2_device) (mode : Int) (ll : Nat)
    (h64 : pf.BITS_PER_LONG = 64) (hll : vfb2_line_length pf dev mode = some ll) :
    ll ≤ 2 ^ 29 := by
  unfold vfb2_line_length at hll
  cases htbl : dev.init.mode_table with
  | none => simp [htbl] at hll
  | some tbl =>
    cases hm : mode_at tbl mode with
    | none => simp [htbl, hm] at hll
    | some m =>
      simp only [htbl, hm, Option.some.injEq, h64] at hll
      have hp : (m.xres * m.bpp) % 2 ^ 32 < 2 ^ 32 := Nat.mod_lt _ (by norm_num)
      have hlt : ((m.xres * m.bpp) % 2 ^ 32 + 7) % 2 ^ 64 < 2 ^ 64 := Nat.mod_lt _ (by norm_num)
      rw [and_not_seven _ 64 hlt (by norm_num)] at hll
      omega

/-- C4. The outcome of `vfb2_check_var_helper` is decided by the selected mode
`m`, in this order: -EINVAL iff its width or height is zero; otherwise
-ENOTSUPP iff its bpp is none of 1, 8, 16, 24, 32; otherwise -ENOMEM iff
`vfb2_line_length` times the height (as `unsigned long`) exceeds `vmem_len`;
otherwise 0.  With a 64-bit `unsigned long` and a 32-bit height the product
does not wrap. -/
theorem vfb2_check_var_helper_outcome (pf : platform) (var : fb_var_screeninfo)
    (dev : vfb2_device) (tbl : List vfb2_mode) (matched : Int) (m : vfb2_mode)
    (htbl : dev.init.mode_table = some tbl)
    (hmatch : vfb2_match_mode dev var = some matched)
    (hmode : mode_at tbl (if matched < 0 then dev.current_mode else matched) = some m) :
    ∃ var' r ll,
      vfb2_check_var_helper pf var dev = some (var', r) ∧
      vfb2_line_length pf dev (if matched < 0 then dev.current_mode else matched) = some ll ∧
      (r = -EINVAL ↔ (m.xres = 0 ∨ m.yres = 0)) ∧
      (r = -ENOTSUPP ↔ ¬ (m.xres = 0 ∨ m.yres = 0) ∧
        (m.bpp ≠ 1 ∧ m.bpp ≠ 8 ∧ m.bpp ≠ 16 ∧ m.bpp ≠ 24 ∧ m.bpp ≠ 32)) ∧
      (r = -ENOMEM ↔ ¬ (m.xres = 0 ∨ m.yres = 0) ∧
        ¬ (m.bpp ≠ 1 ∧ m.bpp ≠ 8 ∧ m.bpp ≠ 16 ∧ m.bpp ≠ 24 ∧ m.bpp ≠ 32) ∧
        (ll * m.yres) % 2 ^ pf.BITS_PER_LONG > dev.init.vmem_len) ∧
      (r = 0 ↔ ¬ (m.xres = 0 ∨ m.yres = 0) ∧
        ¬ (m.bpp ≠ 1 ∧ m.bpp ≠ 8 ∧ m.bpp ≠ 16 ∧ m.bpp ≠ 24 ∧ m.bpp ≠ 32) ∧
        ¬ ((ll * m.yres) % 2 ^ pf.BITS_PER_LONG > dev.init.vmem_len)) ∧
      (pf.BITS_PER_LONG = 64 → m.yres < 2 ^ 32 →
        (ll * m.yres) % 2 ^ pf.BITS_PER_LONG = ll * m.yres) := by
  obtain ⟨var', r, ll, hrun, hll, -, -, -, hr⟩ :=
    vfb2_check_var_helper_selected pf var dev tbl matched m htbl hmatch hmode
  refine ⟨var', r, ll, hrun, hll, ?_, ?_, ?_, ?_, ?_⟩
  · rw [hr]
    split_ifs <;> simp_all [EINVAL, ENOTSUPP, ENOMEM]
  · rw [hr]
    split_ifs <;> simp_all [EINVAL, ENOTSUPP, ENOMEM]
  · rw [hr]
    split_ifs <;> simp_all [EINVAL, ENOTSUPP, ENOMEM]
  · rw [hr]
    split_ifs <;> simp_all [EINVAL, ENOTSUPP, ENOMEM]
  · intro h64 hy
    have hle := vfb2_line_length_le pf dev _ ll h64 hll
    rw [h64]
    apply Nat.mod_eq_of_lt
    calc ll * m.yres ≤ 2 ^ 29 * m.yres := Nat.mul_le_mul_right _ hle
      _ < 2 ^ 29 * 2 ^ 32 := by
        apply Nat.mul_lt_mul_of_pos_left hy (by norm_num)
      _ < 2 ^ 64 := by norm_num

/-- Witness for C4: the request 640x480 at 8 bpp on the sample table. -/
theorem vfb2_check_var_helper_outcome_witness :
    ∃ var' r ll,
      vfb2_check_var_helper ⟨64, 4096⟩ (request 640 480 8) (sample_dev 1920000 sample_table 0)
        = some (var', r) ∧
      vfb2_line_length ⟨64, 4096⟩ (sample_dev 1920000 sample_table 0)
        (if (0 : Int) < 0 then (sample_dev 1920000 sample_table 0).current_mode else 0) = some ll ∧
      (r = -EINVAL ↔ ((640 : Nat) = 0 ∨ (480 : Nat) = 0)) ∧
      (r = -ENOTSUPP ↔ ¬ ((640 : Nat) = 0 ∨ (480 : Nat) = 0) ∧
        ((8 : Nat) ≠ 1 ∧ (8 : Nat) ≠ 8 ∧ (8 : Nat) ≠ 16 ∧ (8 : Nat) ≠ 24 ∧ (8 : Nat) ≠ 32)) ∧
      (r = -ENOMEM ↔ ¬ ((640 : Nat) = 0 ∨ (480 : Nat) = 0) ∧
        ¬ ((8 : Nat) ≠ 1 ∧ (8 : Nat) ≠ 8 ∧ (8 : Nat) ≠ 16 ∧ (8 : Nat) ≠ 24 ∧ (8 : Nat) ≠ 32) ∧
        (ll * 480) % 2 ^ 64 > 1920000) ∧
      (r = 0 ↔ ¬ ((640 : Nat) = 0 ∨ (480 : Nat) = 0) ∧
        ¬ ((8 : Nat) ≠ 1 ∧ (8 : Nat) ≠ 8 ∧ (8 : Nat) ≠ 16 ∧ (8 : Nat) ≠ 24 ∧ (8 : Nat) ≠ 32) ∧
        ¬ ((ll * 480) % 2 ^ 64 > 1920000)) ∧
      ((64 : Nat) = 64 → (480 : Nat) < 2 ^ 32 → (ll * 480) % 2 ^ 64 = ll * 480) :=
  vfb2_check_var_helper_outcome ⟨64, 4096⟩ (request 640 480 8)
    (sample_dev 1920000 sample_table 0) sample_table 0 ⟨640, 480, 8, 3, 0⟩ rfl (by decide) rfl

/-! ## Theorems: open -/

theorem vfb2_get_dev_congr (s s' : State) (info : Option Nat)
    (hi : s'.infos = s.infos) (ht : s'.vfb2_table = s.vfb2_table) :
    vfb2_get_dev s' info = vfb2_get_dev s info := by
  simp only [vfb2_get_dev, vfb2_find_dev, hi, ht]

@[simp] theorem set_dev_devs_same (s : State) (p : Nat) (d : Option vfb2_device) :
    (set_dev s p d).devs p = d := by
  simp [set_dev]

theorem set_dev_devs_other (s : State) (p p' : Nat) (d : Option vfb2_device) (h : p' ≠ p) :
    (set_dev s p d).devs p' = s.devs p' := by
  simp [set_dev, Function.update_noteq h]

@[simp] theorem set_dev_infos (s : State) (p : Nat) (d : Option vfb2_device) :
    (set_dev s p d).infos = s.infos := rfl

@[simp] theorem set_dev_table (s : State) (p : Nat) (d : Option vfb2_device) :
    (set_dev s p d).vfb2_table = s.vfb2_table := rfl

@[simp] theorem set_dev_brk (s : State) (p : Nat) (d : Option vfb2_device) :
    (set_dev s p d).brk = s.brk := rfl

@[simp] theorem set_dev_set_dev (s : State) (p : Nat) (d d' : Option vfb2_device) :
    set_dev (set_dev s p d) p d' = set_dev s p d' := by
  simp [set_dev]

theorem set_dev_self (s : State) (p : Nat) (d : Option vfb2_device) (h : s.devs p = d) :
    set_dev s p d = s := by
  cases s
  simp only [set_dev, State.mk.injEq, true_and, and_true]
  simp only at h
  rw [← h, Function.update_eq_self]

theorem int32_id (v : Int) (h1 : INT_MIN ≤ v) (h2 : v ≤ INT_MAX) : int32 v = v := by
  simp only [INT_MIN, INT_MAX] at h1 h2
  simp only [int32]
  omega

theorem atomic_inc_id (v : Int) (h1 : INT_MIN ≤ v) (h2 : v < INT_MAX) :
    atomic_inc v = v + 1 := by
  simp only [INT_MIN, INT_MAX] at h1 h2
  simp only [atomic_inc, int32]
  omega

theorem atomic_dec_id (v : Int) (h1 : INT_MIN < v) (h2 : v ≤ INT_MAX) :
    atomic_dec v = v - 1 := by
  simp only [INT_MIN, INT_MAX] at h1 h2
  simp only [atomic_dec, int32]
  omega

theorem atomic_inc_max : atomic_inc INT_MAX = INT_MIN := by decide

theorem atomic_dec_min : atomic_dec INT_MIN = INT_MAX := by decide

/-- As long as the counter stays below `INT_MAX`, `k` increments add `k`. -/
theorem atomic_inc_iterate (k : Nat) : ∀ v : Int, INT_MIN ≤ v → v + k ≤ INT_MAX →
    atomic_inc^[k] v = v + k := by
  induction k with
  | zero => intro v _ _; simp
  | succ k ih =>
    intro v h1 h2
    have h3 : v < INT_MAX := by
      simp only [INT_MAX] at h2 ⊢
      push_cast at h2
      omega
    rw [Function.iterate_succ_apply, atomic_inc_id v h1 h3, ih (v + 1)]
    · push_cast; ring
    · omega
    · push_cast at h2 ⊢
      omega

/-- One successful `vfb2_open`. -/
theorem vfb2_open_present (s : State) (info : Option Nat) (p : Nat) (d : vfb2_device)
    (hget : vfb2_get_dev s info = some (some p)) (hd : s.devs p = some d)
    (hpres : d.present ≠ VFB2_NOT_PRESENT) :
    vfb2_open s info = some (set_dev s p (some { d with open_ := atomic_inc d.open_ }), 0) := by
  simp [vfb2_open, hget, hd, hpres]

/-- Opens of a present device in a row all return 0, each one incrementing the
counter. -/
theorem open_times_iterate (info : Option Nat) (p : Nat) :
    ∀ (k : Nat) (s : State) (d : vfb2_device),
      vfb2_get_dev s info = some (some p) → s.devs p = some d →
      d.present ≠ VFB2_NOT_PRESENT →
      open_times info k s
        = some (set_dev s p (some { d with open_ := atomic_inc^[k] d.open_ })) := by
  intro k
  induction k with
  | zero =>
    intro s d _ hd _
    simp only [open_times, Function.iterate_zero, id_eq]
    rw [set_dev_self s p _ hd]
  | succ k ih =>
    intro s d hget hd hpres
    simp only [open_times, vfb2_open_present s info p d hget hd hpres]
    have step := ih (set_dev s p (some { d with open_ := atomic_inc d.open_ }))
      { d with open_ := atomic_inc d.open_ }
      ((vfb2_get_dev_congr s _ info rfl rfl).trans hget) (set_dev_devs_same _ _ _) hpres
    rw [step]
    simp only [set_dev_set_dev, Function.iterate_succ_apply]

theorem open_times_present (info : Option Nat) (p : Nat)
    (k : Nat) (s : State) (d : vfb2_device)
    (hget : vfb2_get_dev s info = some (some p)) (hd : s.devs p = some d)
    (hpres : d.present ≠ VFB2_NOT_PRESENT)
    (hlo : INT_MIN ≤ d.open_) (hhi : d.open_ + k ≤ INT_MAX) :
    open_times info k s = some (set_dev s p (some { d with open_ := d.open_ + k })) := by
  rw [open_times_iterate info p k s d hget hd hpres, atomic_inc_iterate k d.open_ hlo hhi]

/-- C9, with the open count as the 32-bit counter it is.  For a handle that is
NULL or an allocated `fb_info`: `vfb2_open` returns -ENODEV and leaves the state
as it is when the device is not in the registry or is marked not present;
otherwise it returns 0 and increments the counter, changing nothing else.  The
increment adds one while the count is below `INT_MAX` and wraps to `INT_MIN`
from there; `k` opens in a row all succeed and add `k` as long as the
count does not pass `INT_MAX`. -/
theorem vfb2_open_contract (s : State) (info : Option Nat) :
    (vfb2_get_dev s info = some none → vfb2_open s info = some (s, -ENODEV)) ∧
    (∀ p d, vfb2_get_dev s info = some (some p) → s.devs p = some d →
      (d.present = VFB2_NOT_PRESENT → vfb2_open s info = some (s, -ENODEV)) ∧
      (d.present ≠ VFB2_NOT_PRESENT →
        vfb2_open s info
          = some (set_dev s p (some { d with open_ := atomic_inc d.open_ }), 0) ∧
        (INT_MIN ≤ d.open_ → d.open_ < INT_MAX → atomic_inc d.open_ = d.open_ + 1) ∧
        (d.open_ = INT_MAX → atomic_inc d.open_ = INT_MIN) ∧
        ∀ k : Nat,
          open_times info k s
            = some (set_dev s p (some { d with open_ := atomic_inc^[k] d.open_ })) ∧
          (INT_MIN ≤ d.open_ → d.open_ + k ≤ INT_MAX →
            atomic_inc^[k] d.open_ = d.open_ + k))) := by
  refine ⟨fun h => by simp [vfb2_open, h], fun p d hget hd =>
    ⟨fun hp => ?_, fun hp => ⟨?_, ?_, ?_, ?_⟩⟩⟩
  · simp [vfb2_open, hget, hd, hp]
  · exact vfb2_open_present s info p d hget hd hp
  · exact atomic_inc_id d.open_
  · intro h
    rw [h]
    exact atomic_inc_max
  · intro k
    exact ⟨open_times_iterate info p k s d hget hd hp, atomic_inc_iterate k d.open_⟩

/-- The device of `sample_state`. -/
theorem sample_state_dev (present open_ : Int) :
    (sample_state present open_).devs 0 =
      some { (sample_dev 1920000 sample_table 0) with
               present := present, open_ := open_, info := some 1 } := rfl

/-- Witness for C9: an open of a device marked not present, and three opens of
the present sample device. -/
theorem vfb2_open_contract_witness :
    (vfb2_open (sample_state VFB2_NOT_PRESENT 2) (some 1)
        = some (sample_state VFB2_NOT_PRESENT 2, -ENODEV)) ∧
    (vfb2_open (sample_state VFB2_PRESENT 0) (some 1)
        = some (set_dev (sample_state VFB2_PRESENT 0) 0
            (some { (sample_dev 1920000 sample_table 0) with
                      present := VFB2_PRESENT, open_ := atomic_inc 0, info := some 1 }), 0)) ∧
    (open_times (some 1) 3 (sample_state VFB2_PRESENT 0)
        = some (set_dev (sample_state VFB2_PRESENT 0) 0
            (some { (sample_dev 1920000 sample_table 0) with
                      present := VFB2_PRESENT, open_ := atomic_inc^[3] 0,
                      info := some 1 }))) ∧
    atomic_inc^[3] (0 : Int) = 0 + (3 : Nat) :=
  ⟨((vfb2_open_contract (sample_state VFB2_NOT_PRESENT 2) (some 1)).2 0 _ (by decide)
      (sample_state_dev _ _)).1 rfl,
   (((vfb2_open_contract (sample_state VFB2_PRESENT 0) (some 1)).2 0 _ (by decide)
      (sample_state_dev _ _)).2 (by decide)).1,
   ((((vfb2_open_contract (sample_state VFB2_PRESENT 0) (some 1)).2 0 _ (by decide)
      (sample_state_dev _ _)).2 (by decide)).2.2.2 3).1,
   ((((vfb2_open_contract (sample_state VFB2_PRESENT 0) (some 1)).2 0 _ (by decide)
      (sample_state_dev _ _)).2 (by decide)).2.2.2 3).2 (by decide) (by decide)⟩

/-- The claim C9 as worded fails at the top of the counter: an open of the
present sample device whose count is `INT_MAX` returns 0 and leaves the count at
`INT_MIN`, not at `INT_MAX + 1`. -/
theorem vfb2_open_wraps :
    ∃ s' d', vfb2_open (sample_state VFB2_PRESENT 2147483647) (some 1) = some (s', 0) ∧
      s'.devs 0 = some d' ∧ d'.open_ = -2147483648 ∧ d'.open_ ≠ 2147483647 + 1 :=
  ⟨_, _, vfb2_open_present (sample_state VFB2_PRESENT 2147483647) (some 1) 0 _ (by decide)
      (sample_state_dev _ _) (by decide),
    set_dev_devs_same _ _ _, by decide, by decide⟩

/-! ## Theorems: release, remove and unregister -/

@[simp] theorem set_info_devs (s : State) (q : Nat) (fi : Option fb_info) :
    (set_info s q fi).devs = s.devs := rfl

@[simp] theorem set_info_table (s : State) (q : Nat) (fi : Option fb_info) :
    (set_info s q fi).vfb2_table = s.vfb2_table := rfl

@[simp] theorem set_info_brk (s : State) (q : Nat) (fi : Option fb_info) :
    (set_info s q fi).brk = s.brk := rfl

@[simp] theorem set_info_infos_same (s : State) (q : Nat) (fi : Option fb_info) :
    (set_info s q fi).infos q = fi := by
  simp [set_info]

theorem set_info_infos_other (s : State) (q q' : Nat) (fi : Option fb_info) (h : q' ≠ q) :
    (set_info s q fi).infos q' = s.infos q' := by
  simp [set_info, Function.update_noteq h]

@[simp] theorem set_info_set_info (s : State) (q : Nat) (fi fi' : Option fb_info) :
    set_info (set_info s q fi) q fi' = set_info s q fi' := by
  simp [set_info]

@[simp] theorem set_slot_devs (s : State) (i : Nat) (e : Option Nat) :
    (set_slot s i e).devs = s.devs := rfl

@[simp] theorem set_slot_infos (s : State) (i : Nat) (e : Option Nat) :
    (set_slot s i e).infos = s.infos := rfl

@[simp] theorem set_slot_brk (s : State) (i : Nat) (e : Option Nat) :
    (set_slot s i e).brk = s.brk := rfl

@[simp] theorem set_slot_table (s : State) (i : Nat) (e : Option Nat) :
    (set_slot s i e).vfb2_table = s.vfb2_table.set i e := rfl

theorem set_info_set_dev_comm (s : State) (p q : Nat) (d : Option vfb2_device)
    (fi : Option fb_info) :
    set_info (set_dev s p d) q fi = set_dev (set_info s q fi) p d := rfl

theorem set_slot_set_dev_comm (s : State) (p i : Nat) (d : Option vfb2_device)
    (e : Option Nat) :
    set_slot (set_dev s p d) i e = set_dev (set_slot s i e) p d := rfl

theorem set_slot_set_info_comm (s : State) (q i : Nat) (fi : Option fb_info)
    (e : Option Nat) :
    set_slot (set_info s q fi) i e = set_info (set_slot s i e) q fi := rfl

/-- `vfb2_remove` on a device that is in a slot, not present and not open:
the slot is cleared, the `fb_info` and the device are freed. -/
theorem vfb2_remove_destroys (s : State) (p i q : Nat) (d : vfb2_device) (fi : fb_info)
    (hd : s.devs p = some d) (hi : d.table_index = (i : Int)) (hlen : i < s.vfb2_table.length)
    (hpres : d.present ≠ VFB2_PRESENT) (hopen : d.open_ = 0)
    (hinfo : d.info = some q) (hfi : s.infos q = some fi) :
    vfb2_remove s (some p) = some (set_dev (set_info (set_slot s i none) q none) p none) := by
  have h0 : d.table_index ≥ 0 := by omega
  have hn : d.table_index.toNat = i := by omega
  simp only [vfb2_remove, hd, h0, if_true, hpres, if_false, hopen, ne_eq, not_true_eq_false,
    hn, hlen, hinfo, hfi, vfb2_remove_free]
  simp only [set_info_set_dev_comm, set_dev_set_dev, set_info_set_info]

/-- `vfb2_remove` refuses a device in a slot that is present or open. -/
theorem vfb2_remove_refuses (s : State) (p : Nat) (d : vfb2_device)
    (hd : s.devs p = some d) (hi : d.table_index ≥ 0)
    (h : d.present = VFB2_PRESENT ∨ d.open_ ≠ 0) :
    vfb2_remove s (some p) = some s := by
  simp only [vfb2_remove, hd, hi, if_true]
  rcases h with h | h
  · simp [h]
  · by_cases hp : d.present = VFB2_PRESENT
    · simp [hp]
    · simp [hp, h]

/-- C7, with the open count as the 32-bit counter it is.  Last-one-out rule of
`vfb2_release`, for a handle that is NULL or an allocated `fb_info`: for a
device found in the registry the counter is decremented, and the device is
destroyed (slot cleared, device freed) exactly when the decremented count is
zero and the device is marked not present; a present device is never destroyed;
when no device is found the call returns -ENODEV and changes nothing.  The
decrement takes one off while the count is above `INT_MIN` and wraps to
`INT_MAX` from there. -/
theorem vfb2_release_contract (s : State) (info : Option Nat) :
    (vfb2_get_dev s info = some none → vfb2_release s info = some (s, -ENODEV)) ∧
    (∀ (p i q : Nat) (d : vfb2_device) (fi : fb_info),
      vfb2_get_dev s info = some (some p) → s.devs p = some d →
      d.table_index = (i : Int) → s.vfb2_table[i]? = some (some p) →
      d.info = some q → s.infos q = some fi →
      (∃ s', vfb2_release s info = some (s', 0) ∧
        (atomic_dec d.open_ = 0 ∧ d.present = VFB2_NOT_PRESENT →
          s' = set_dev (set_info (set_slot s i none) q none) p none) ∧
        (¬ (atomic_dec d.open_ = 0 ∧ d.present = VFB2_NOT_PRESENT) →
          s' = set_dev s p (some { d with open_ := atomic_dec d.open_ })) ∧
        (s'.devs p = none ↔ atomic_dec d.open_ = 0 ∧ d.present = VFB2_NOT_PRESENT) ∧
        (s'.vfb2_table[i]? = some none ↔
          atomic_dec d.open_ = 0 ∧ d.present = VFB2_NOT_PRESENT) ∧
        (d.present = VFB2_PRESENT →
          s'.vfb2_table = s.vfb2_table ∧
          s'.devs p = some { d with open_ := atomic_dec d.open_ })) ∧
      (INT_MIN < d.open_ → d.open_ ≤ INT_MAX → atomic_dec d.open_ = d.open_ - 1) ∧
      (d.open_ = INT_MIN → atomic_dec d.open_ = INT_MAX)) := by
  constructor
  · intro h
    simp [vfb2_release, vfb2_release_locked, h]
  · intro p i q d fi hget hd hi hslot hinfo hfi
    refine ⟨?_, atomic_dec_id d.open_, fun h => by rw [h]; exact atomic_dec_min⟩
    have hlen : i < s.vfb2_table.length := by
      by_contra hge
      rw [List.getElem?_eq_none (by omega)] at hslot
      simp at hslot
    by_cases hlast : atomic_dec d.open_ = 0 ∧ d.present = VFB2_NOT_PRESENT
    · have hrm := vfb2_remove_destroys (set_dev s p (some { d with open_ := atomic_dec d.open_ }))
        p i q { d with open_ := atomic_dec d.open_ } fi (by simp) hi (by simpa using hlen)
        (by simp [hlast.2, VFB2_PRESENT, VFB2_NOT_PRESENT]) hlast.1 hinfo (by simpa using hfi)
      refine ⟨set_dev (set_info (set_slot s i none) q none) p none, ?_, fun _ => rfl,
        fun h => absurd hlast h, ?_, ?_, ?_⟩
      · have hb : (decide (atomic_dec d.open_ = 0) &&
            decide (d.present = VFB2_NOT_PRESENT)) = true := by
          simp [hlast.1, hlast.2]
        simp only [vfb2_release, vfb2_release_locked, hget, hd, hb, if_true, hrm,
          Option.map_some']
        simp only [set_slot_set_dev_comm, set_info_set_dev_comm, set_dev_set_dev]
      · simp [hlast]
      · simp [hlast, List.getElem?_set, hlen]
      · intro hp
        rw [hlast.2] at hp
        simp [VFB2_PRESENT, VFB2_NOT_PRESENT] at hp
    · refine ⟨set_dev s p (some { d with open_ := atomic_dec d.open_ }), ?_,
        fun h => absurd h hlast, fun _ => rfl, ?_, ?_, ?_⟩
      · have hb : (decide (atomic_dec d.open_ = 0) &&
            decide (d.present = VFB2_NOT_PRESENT)) = false := by
          rw [Bool.and_eq_false_iff]
          by_cases h1 : atomic_dec d.open_ = 0
          · right
            simpa using fun h2 => hlast ⟨h1, h2⟩
          · left
            simpa using h1
        simp only [vfb2_release, vfb2_release_locked, hget, hd, hb]
        simp
      · simp [hlast]
      · simp only [set_dev_table, hslot]
        simp [hlast]
      · intro _
        simp

/-- Witness for C7: the last release of the sample device after it was marked
not present destroys it. -/
theorem vfb2_release_contract_witness :
    (∃ s', vfb2_release (sample_state VFB2_NOT_PRESENT 1) (some 1) = some (s', 0) ∧
      (atomic_dec 1 = 0 ∧ VFB2_NOT_PRESENT = VFB2_NOT_PRESENT →
        s' = set_dev (set_info (set_slot (sample_state VFB2_NOT_PRESENT 1) 0 none) 1 none) 0 none) ∧
      (¬ (atomic_dec 1 = 0 ∧ VFB2_NOT_PRESENT = VFB2_NOT_PRESENT) →
        s' = set_dev (sample_state VFB2_NOT_PRESENT 1) 0
          (some { (sample_dev 1920000 sample_table 0) with
                    present := VFB2_NOT_PRESENT, open_ := atomic_dec 1, info := some 1 })) ∧
      (s'.devs 0 = none ↔ atomic_dec 1 = 0 ∧ VFB2_NOT_PRESENT = VFB2_NOT_PRESENT) ∧
      (s'.vfb2_table[0]? = some none ↔
        atomic_dec 1 = 0 ∧ VFB2_NOT_PRESENT = VFB2_NOT_PRESENT) ∧
      (VFB2_NOT_PRESENT = VFB2_PRESENT →
        s'.vfb2_table = (sample_state VFB2_NOT_PRESENT 1).vfb2_table ∧
        s'.devs 0 = some { (sample_dev 1920000 sample_table 0) with
                             present := VFB2_NOT_PRESENT, open_ := atomic_dec 1,
                             info := some 1 })) ∧
    (INT_MIN < 1 → (1 : Int) ≤ INT_MAX → atomic_dec 1 = 1 - 1) ∧
    ((1 : Int) = INT_MIN → atomic_dec 1 = INT_MAX) :=
  (vfb2_release_contract (sample_state VFB2_NOT_PRESENT 1) (some 1)).2 0 0 1 _
    (new_fb_info 0 (sample_dev 1920000 sample_table 0))
    (by decide) (sample_state_dev _ _) rfl rfl rfl rfl

/-- The claim C7 as worded fails at the bottom of the counter: a release of the
present sample device whose count is `INT_MIN` returns 0 and leaves the count at
`INT_MAX`, not at `INT_MIN - 1`. -/
theorem vfb2_release_wraps :
    ∃ s' d', vfb2_release (sample_state VFB2_PRESENT (-2147483648)) (some 1) = some (s', 0) ∧
      s'.devs 0 = some d' ∧ d'.open_ = 2147483647 ∧ d'.open_ ≠ -2147483648 - 1 :=
  ⟨_, _, rfl, set_dev_devs_same _ _ _, by decide, by decide⟩

theorem vfb2_index_to_dev_slot (s : State) (i p : Nat)
    (hslot : s.vfb2_table[i]? = some (some p)) :
    vfb2_index_to_dev s (i : Int) = some p := by
  have hlen : i < s.vfb2_table.length := by
    by_contra hge
    rw [List.getElem?_eq_none (by omega)] at hslot
    simp at hslot
  have h1 : ¬ ((i : Int) < 0 ∨ (i : Int) ≥ (s.vfb2_table.length : Int)) := by omega
  simp [vfb2_index_to_dev, h1, hslot, hlen]

/-- C8. `vfb2_unregister` on an occupied slot marks the device not present
under the lock; it then destroys the device (slot cleared, device freed)
exactly when the open count it read was zero; otherwise the device stays in
its slot, not present, every other field as before.  No other slot changes. -/
theorem vfb2_unregister_contract (s : State) (p i q : Nat) (d : vfb2_device) (fi : fb_info)
    (hslot : s.vfb2_table[i]? = some (some p)) (hd : s.devs p = some d)
    (hi : d.table_index = (i : Int)) (hinfo : d.info = some q) (hfi : s.infos q = some fi) :
    vfb2_unregister_locked s (i : Int) =
      some (set_dev s p (some { d with present := VFB2_NOT_PRESENT }), some (p, d.open_)) ∧
    ∃ s', vfb2_unregister s (i : Int) = some s' ∧
      (d.open_ = 0 → s' = set_dev (set_info (set_slot s i none) q none) p none) ∧
      (d.open_ ≠ 0 → s' = set_dev s p (some { d with present := VFB2_NOT_PRESENT })) ∧
      (s'.vfb2_table[i]? = some none ↔ d.open_ = 0) ∧
      (s'.devs p = none ↔ d.open_ = 0) ∧
      (∀ j, j ≠ i → s'.vfb2_table[j]? = s.vfb2_table[j]?) := by
  have hlen : i < s.vfb2_table.length := by
    by_contra hge
    rw [List.getElem?_eq_none (by omega)] at hslot
    simp at hslot
  have hidx := vfb2_index_to_dev_slot s i p hslot
  have hlocked : vfb2_unregister_locked s (i : Int) =
      some (set_dev s p (some { d with present := VFB2_NOT_PRESENT }), some (p, d.open_)) := by
    simp [vfb2_unregister_locked, hidx, hd]
  refine ⟨hlocked, ?_⟩
  by_cases hopen : d.open_ = 0
  · have hrm := vfb2_remove_destroys (set_dev s p (some { d with present := VFB2_NOT_PRESENT }))
      p i q { d with present := VFB2_NOT_PRESENT } fi (by simp) hi (by simpa using hlen)
      (by simp [VFB2_PRESENT, VFB2_NOT_PRESENT]) hopen hinfo (by simpa using hfi)
    refine ⟨set_dev (set_info (set_slot s i none) q none) p none, ?_, fun _ => rfl,
      fun h => absurd hopen h, ?_, ?_, ?_⟩
    · simp only [vfb2_unregister, hlocked, hopen, if_true]
      rw [hopen] at hrm
      rw [hrm]
      simp only [set_slot_set_dev_comm, set_info_set_dev_comm, set_dev_set_dev]
    · simp [hopen, List.getElem?_set, hlen]
    · simp [hopen]
    · intro j hj
      simp [List.getElem?_set, Ne.symm hj]
  · refine ⟨set_dev s p (some { d with present := VFB2_NOT_PRESENT }), ?_,
      fun h => absurd h hopen, fun _ => rfl, ?_, ?_, ?_⟩
    · simp [vfb2_unregister, hlocked, hopen]
    · simp [hslot, hopen]
    · simp [hopen]
    · intro j _
      simp

/-- Witness for C8: unregistering the sample device while it is open twice
leaves it in its slot, marked not present. -/
theorem vfb2_unregister_contract_witness :
    vfb2_unregister_locked (sample_state VFB2_PRESENT 2) ((0 : Nat) : Int) =
      some (set_dev (sample_state VFB2_PRESENT 2) 0
              (some { (sample_dev 1920000 sample_table 0) with
                        present := VFB2_NOT_PRESENT, open_ := 2, info := some 1 }),
            some (0, 2)) ∧
    ∃ s', vfb2_unregister (sample_state VFB2_PRESENT 2) ((0 : Nat) : Int) = some s' ∧
      ((2 : Int) = 0 →
        s' = set_dev (set_info (set_slot (sample_state VFB2_PRESENT 2) 0 none) 1 none) 0 none) ∧
      ((2 : Int) ≠ 0 →
        s' = set_dev (sample_state VFB2_PRESENT 2) 0
          (some { (sample_dev 1920000 sample_table 0) with
                    present := VFB2_NOT_PRESENT, open_ := 2, info := some 1 })) ∧
      (s'.vfb2_table[0]? = some none ↔ (2 : Int) = 0) ∧
      (s'.devs 0 = none ↔ (2 : Int) = 0) ∧
      (∀ j, j ≠ 0 → s'.vfb2_table[j]? = (sample_state VFB2_PRESENT 2).vfb2_table[j]?) :=
  vfb2_unregister_contract (sample_state VFB2_PRESENT 2) 0 0 1 _
    (new_fb_info 0 (sample_dev 1920000 sample_table 0)) rfl (sample_state_dev _ _) rfl rfl rfl

/-! ## Theorems: register -/

theorem first_free_spec :
    ∀ (l : List (Option Nat)) (k i : Nat), first_free l k = some i →
      k ≤ i ∧ l[i - k]? = some none ∧ ∀ j, j < i - k → l[j]? ≠ some none := by
  intro l
  induction l with
  | nil => intro k i h; simp [first_free] at h
  | cons e rest ih =>
    intro k i h
    by_cases he : e = none
    · simp only [first_free, he, if_true, Option.some.injEq] at h
      subst h
      subst he
      refine ⟨le_refl _, by simp, ?_⟩
      intro j hj
      omega
    · simp only [first_free, he, if_false] at h
      obtain ⟨hk, hget, hmin⟩ := ih (k + 1) i h
      have e1 : i - k = (i - (k + 1)) + 1 := by omega
      refine ⟨by omega, ?_, ?_⟩
      · rw [e1]
        simpa using hget
      · intro j hj
        cases j with
        | zero =>
          simp only [List.getElem?_cons_zero, ne_eq, Option.some.injEq]
          exact he
        | succ j =>
          simp only [List.getElem?_cons_succ]
          exact hmin j (by omega)

theorem register_fail_result (s s' : State) (p : Nat) (res r : Int)
    (h : register_fail s p res = some (s', r)) : r = res := by
  simp only [register_fail, Option.map_eq_some'] at h
  obtain ⟨_, _, h2⟩ := h
  simp only [Prod.mk.injEq] at h2
  exact h2.2.symm

/-- The insertion step of a successful `vfb2_register`. -/
theorem register_insert_success (env : alloc_env) (s s' : State) (p q : Nat) (d : vfb2_device)
    (fi : fb_info) (r : Int)
    (h : register_insert env s p q d fi = some (s', r)) (hr : 0 ≤ r) :
    ∃ i : Nat, first_free s.vfb2_table 0 = some i ∧ r = (i : Int) ∧
      s' = set_dev (set_slot (set_info s q (some fi)) i (some p)) p
        (some { d with table_index := (i : Int), present := VFB2_PRESENT }) := by
  simp only [register_insert, set_info_table] at h
  cases hff : first_free s.vfb2_table 0 with
  | none =>
    simp only [hff] at h
    have := register_fail_result _ _ _ _ _ h
    simp only [EBUSY] at this
    omega
  | some i =>
    simp only [hff] at h
    by_cases h0 : -(env.register_framebuffer : Int) = 0
    · simp only [h0, if_true, Option.some.injEq, Prod.mk.injEq] at h
      exact ⟨i, rfl, h.2.symm, h.1.symm⟩
    · simp only [h0, if_false] at h
      have hneg : -(env.register_framebuffer : Int) < 0 := by omega
      simp only [hneg, if_true] at h
      have := register_fail_result _ _ _ _ _ h
      omega

/-- On a table whose first entry is a real mode, a request carrying that
entry's geometry matches index 0. -/
theorem vfb2_match_mode_first (d : vfb2_device) (var : fb_var_screeninfo) (m0 : vfb2_mode)
    (rest : List vfb2_mode) (htbl : d.init.mode_table = some (m0 :: rest))
    (h0 : m0.xres ≠ 0)
    (hv : var.xres = m0.xres ∧ var.yres = m0.yres ∧ var.bits_per_pixel = m0.bpp) :
    vfb2_match_mode d var = some 0 := by
  simp [vfb2_match_mode, htbl, match_loop, h0, loose_match, tight_match, hv.1, hv.2.1, hv.2.2]

/-- On a table whose first entry is the sentinel nothing matches. -/
theorem vfb2_match_mode_empty (d : vfb2_device) (var : fb_var_screeninfo) (m0 : vfb2_mode)
    (rest : List vfb2_mode) (htbl : d.init.mode_table = some (m0 :: rest))
    (h0 : m0.xres = 0) :
    vfb2_match_mode d var = some (-1) := by
  simp [vfb2_match_mode, htbl, match_loop, h0]

/-- The initial negotiation of `vfb2_register`: when both helpers return a
non-negative value, the first entry of the table is a real mode, the request
carries its geometry and the device is left with `current_mode` 0. -/
theorem initial_negotiation (pf : platform) (d d' : vfb2_device) (fi fi' : fb_info)
    (var0 var1 : fb_var_screeninfo) (res res' : Int) (hcm : d.current_mode = 0)
    (h0 : vfb2_set_mode d fi.var 0 = some var0)
    (h1 : vfb2_check_var_helper pf var0 d = some (var1, res)) (hres : ¬ res < 0)
    (h2 : vfb2_set_par_helper pf { fi with var := var1 } d = some (fi', d', res')) :
    ∃ tbl m0, d.init.mode_table = some tbl ∧ tbl[0]? = some m0 ∧ m0.xres ≠ 0 ∧
      d' = { d with current_mode := 0 } ∧ fi'.par = fi.par ∧
      fi'.var.xres = m0.xres ∧ fi'.var.yres = m0.yres ∧ fi'.var.bits_per_pixel = m0.bpp := by
  cases htbl : d.init.mode_table with
  | none => simp [vfb2_set_mode, htbl] at h0
  | some tbl =>
    cases tbl with
    | nil => simp [vfb2_set_mode, htbl, mode_at] at h0
    | cons m0 rest =>
      have hv0 : var0.xres = m0.xres ∧ var0.yres = m0.yres ∧ var0.bits_per_pixel = m0.bpp := by
        simp only [vfb2_set_mode, htbl, mode_at] at h0
        simp at h0
        subst h0
        exact ⟨rfl, rfl, rfl⟩
      by_cases hx : m0.xres = 0
      · exfalso
        have hmatch := vfb2_match_mode_empty d var0 m0 rest htbl hx
        have hmode : mode_at (m0 :: rest)
            (if (-1 : Int) < 0 then d.current_mode else (-1 : Int)) = some m0 := by
          simp [mode_at, hcm]
        obtain ⟨v, r, ll, hrun, -, -, -, -, hr⟩ :=
          vfb2_check_var_helper_selected pf var0 d (m0 :: rest) (-1) m0 htbl hmatch hmode
        rw [h1] at hrun
        simp only [Option.some.injEq, Prod.mk.injEq] at hrun
        rw [if_pos (Or.inl hx)] at hr
        rw [← hrun.2] at hr
        simp only [EINVAL] at hr
        omega
      · have hmatch := vfb2_match_mode_first d var0 m0 rest htbl hx hv0
        have hmode : mode_at (m0 :: rest)
            (if (0 : Int) < 0 then d.current_mode else (0 : Int)) = some m0 := by
          simp [mode_at]
        obtain ⟨v, r, ll, hrun, -, hx1, hy1, hb1, -⟩ :=
          vfb2_check_var_helper_selected pf var0 d (m0 :: rest) 0 m0 htbl hmatch hmode
        rw [h1] at hrun
        simp only [Option.some.injEq, Prod.mk.injEq] at hrun
        obtain ⟨hv, -⟩ := hrun
        subst hv
        have hmatch1 := vfb2_match_mode_first d var1 m0 rest htbl hx ⟨hx1, hy1, hb1⟩
        simp only [vfb2_set_par_helper, hmatch1, vfb2_line_length, htbl, mode_at] at h2
        simp at h2
        obtain ⟨hfi, hd', -⟩ := h2
        subst hfi
        subst hd'
        exact ⟨m0 :: rest, m0, rfl, by simp, hx, rfl, rfl, hx1, hy1, hb1⟩

theorem vfb2_init_dev_fields (env : alloc_env) (init : vfb2_init) (d : vfb2_device)
    (h : vfb2_init_dev env init = some (some d)) :
    d.present = VFB2_ERROR_ON_REGISTER ∧ d.table_index = -1 ∧ d.open_ = 0 ∧
    d.current_mode = 0 ∧ d.info = none := by
  unfold vfb2_init_dev at h
  split at h
  · simp at h
  · split at h
    · simp at h
    · split at h
      · simp only [Option.some.injEq] at h
        subst h
        exact ⟨rfl, rfl, rfl, rfl, rfl⟩
      · simp at h

theorem vfb2_alloc_vmem_fields (pf : platform) (ok : Bool) (addr : Nat) (d d' : vfb2_device)
    (r : Int) (h : vfb2_alloc_vmem pf ok addr d = some (d', r)) :
    d'.present = d.present ∧ d'.table_index = d.table_index ∧ d'.open_ = d.open_ ∧
    d'.current_mode = d.current_mode ∧ d'.info = d.info ∧
    d'.init.mode_table = d.init.mode_table := by
  unfold vfb2_alloc_vmem at h
  split at h
  · simp at h
  · simp only at h
    split at h <;>
    · simp only [Option.some.injEq, Prod.mk.injEq] at h
      obtain ⟨h, -⟩ := h
      subst h
      split <;> exact ⟨rfl, rfl, rfl, rfl, rfl, rfl⟩

/-- C10. Postcondition of a successful `vfb2_register`: the value returned is
the index `i` of the first slot that was empty, below the capacity; afterwards
slot `i` holds the new device, whose `table_index` is `i`, which is present,
has open count 0 and current mode 0, negotiated against entry 0 of its table;
every other slot and every other device is as before. -/
theorem vfb2_register_success (pf : platform) (env : alloc_env) (s s' : State)
    (init : Option vfb2_init) (r : Int)
    (hrun : vfb2_register pf env s init = some (s', r)) (hr : 0 ≤ r) :
    ∃ (i q : Nat) (d : vfb2_device) (fi : fb_info) (tbl : List vfb2_mode) (m0 : vfb2_mode),
      r = (i : Int) ∧ i < s.vfb2_table.length ∧ s.vfb2_table[i]? = some none ∧
      (∀ j, j < i → s.vfb2_table[j]? ≠ some none) ∧
      s'.vfb2_table = s.vfb2_table.set i (some s.brk) ∧
      s'.vfb2_table[i]? = some (some s.brk) ∧
      (∀ j, j ≠ i → s'.vfb2_table[j]? = s.vfb2_table[j]?) ∧
      s'.devs s.brk = some d ∧
      d.table_index = (i : Int) ∧ d.present = VFB2_PRESENT ∧ d.open_ = 0 ∧ d.current_mode = 0 ∧
      (∀ a, a ≠ s.brk → s'.devs a = s.devs a) ∧
      d.info = some q ∧ s'.infos q = some fi ∧ fi.par = some s.brk ∧
      d.init.mode_table = some tbl ∧ tbl[0]? = some m0 ∧ m0.xres ≠ 0 ∧
      fi.var.xres = m0.xres ∧ fi.var.yres = m0.yres ∧ fi.var.bits_per_pixel = m0.bpp := by
  unfold vfb2_register at hrun
  cases init with
  | none =>
    simp only [Option.some.injEq, Prod.mk.injEq, EINVAL] at hrun
    omega
  | some init =>
    simp only at hrun
    cases hmt : init.mode_table with
    | none =>
      simp only [hmt, Option.some.injEq, Prod.mk.injEq, EINVAL] at hrun
      omega
    | some tbl0 =>
      simp only [hmt] at hrun
      cases hinit : vfb2_init_dev env init with
      | none => simp [hinit] at hrun
      | some od =>
        cases od with
        | none =>
          simp only [hinit, Option.some.injEq, Prod.mk.injEq, ENOMEM] at hrun
          omega
        | some d0 =>
          simp only [hinit] at hrun
          obtain ⟨hp0, hti0, hop0, hcm0, hinf0⟩ := vfb2_init_dev_fields env init d0 hinit
          cases hvm : vfb2_alloc_vmem pf env.vmalloc (s.brk + 1) d0 with
          | none => simp [hvm] at hrun
          | some dr =>
            obtain ⟨d1, r1⟩ := dr
            simp only [hvm] at hrun
            obtain ⟨hp1, hti1, hop1, hcm1, hinf1, -⟩ :=
              vfb2_alloc_vmem_fields pf env.vmalloc (s.brk + 1) d0 d1 r1 hvm
            by_cases hr1 : r1 ≠ 0
            · rw [if_pos hr1] at hrun
              have := register_fail_result _ _ _ _ _ hrun
              simp only [ENOMEM] at this
              omega
            · rw [if_neg hr1] at hrun
              by_cases hfa : env.framebuffer_alloc = true
              · simp only [hfa, Bool.not_true, Bool.false_eq_true, if_false] at hrun
                by_cases hcmap : -(env.fb_alloc_cmap : Int) < 0
                · simp only [hcmap, if_true] at hrun
                  have := register_fail_result _ _ _ _ _ hrun
                  omega
                · simp only [hcmap, if_false] at hrun
                  generalize hdq : ({ d1 with info := some (s.brk + 1 + 1) } : vfb2_device) = dq
                    at hrun
                  have hdqf : dq.present = VFB2_ERROR_ON_REGISTER ∧ dq.table_index = -1 ∧
                      dq.open_ = 0 ∧ dq.current_mode = 0 ∧ dq.info = some (s.brk + 1 + 1) := by
                    subst hdq
                    exact ⟨hp1.trans hp0, hti1.trans hti0, hop1.trans hop0, hcm1.trans hcm0, rfl⟩
                  cases hsm : vfb2_set_mode dq (new_fb_info s.brk dq).var 0 with
                  | none => simp [hsm] at hrun
                  | some var0 =>
                    simp only [hsm] at hrun
                    cases hcv : vfb2_check_var_helper pf var0 dq with
                    | none => simp [hcv] at hrun
                    | some vr =>
                      obtain ⟨var1, res⟩ := vr
                      simp only [hcv] at hrun
                      by_cases hres : res < 0
                      · rw [if_pos hres] at hrun
                        have := register_fail_result _ _ _ _ _ hrun
                        omega
                      · rw [if_neg hres] at hrun
                        cases hsp : vfb2_set_par_helper pf
                            { new_fb_info s.brk dq with var := var1 } dq with
                        | none =>
                          simp only [hsp] at hrun
                          simp at hrun
                        | some t =>
                          obtain ⟨fi2, d2, res2⟩ := t
                          simp only [hsp] at hrun
                          by_cases hres2 : res2 < 0
                          · rw [if_pos hres2] at hrun
                            have := register_fail_result _ _ _ _ _ hrun
                            omega
                          · rw [if_neg hres2] at hrun
                            obtain ⟨tbl, m0, htbl, hm0, hx0, hd2, hpar, hvx, hvy, hvb⟩ :=
                              initial_negotiation pf dq d2 (new_fb_info s.brk dq) fi2 var0 var1
                                res res2 hdqf.2.2.2.1 hsm hcv hres hsp
                            obtain ⟨i, hff, hri, hs'⟩ :=
                              register_insert_success env _ s' s.brk (s.brk + 1 + 1) d2 fi2 r
                                hrun hr
                            obtain ⟨-, hget, hmin⟩ := first_free_spec _ 0 i hff
                            simp only [Nat.sub_zero] at hget hmin
                            have hlen : i < s.vfb2_table.length := by
                              by_contra hge
                              rw [List.getElem?_eq_none (by omega)] at hget
                              simp at hget
                            refine ⟨i, s.brk + 1 + 1,
                              { d2 with table_index := (i : Int), present := VFB2_PRESENT }, fi2,
                              tbl, m0, hri, hlen, hget, hmin, ?_, ?_, ?_, ?_, rfl, rfl, ?_, ?_, ?_,
                              ?_, ?_, ?_, ?_, hm0, hx0, hvx, hvy, hvb⟩
                            · subst hs'
                              rfl
                            · subst hs'
                              simp [List.getElem?_set, hlen]
                            · intro j hj
                              subst hs'
                              simp [List.getElem?_set, Ne.symm hj]
                            · subst hs'
                              simp
                            · subst hd2
                              exact hdqf.2.2.1
                            · subst hd2
                              rfl
                            · intro a ha
                              subst hs'
                              rw [set_dev_devs_other _ _ _ _ ha]
                              rfl
                            · subst hd2
                              exact hdqf.2.2.2.2
                            · subst hs'
                              simp
                            · rw [hpar]
                              rfl
                            · subst hd2
                              exact htbl
              · simp only [hfa, Bool.not_false, if_true] at hrun
                have := register_fail_result _ _ _ _ _ hrun
                simp only [ENOMEM] at this
                omega

/-- Witness for C10: registering the sample descriptor in an empty registry of
four slots returns 0. -/
theorem vfb2_register_success_witness :
    ∃ s', vfb2_register ⟨64, 4096⟩ env_ok (empty_state 4) (some sample_init) = some (s', 0) ∧
      ∃ (i q : Nat) (d : vfb2_device) (fi : fb_info) (tbl : List vfb2_mode) (m0 : vfb2_mode),
        (0 : Int) = (i : Int) ∧ i < (empty_state 4).vfb2_table.length ∧
        (empty_state 4).vfb2_table[i]? = some none ∧
        (∀ j, j < i → (empty_state 4).vfb2_table[j]? ≠ some none) ∧
        s'.vfb2_table = (empty_state 4).vfb2_table.set i (some (empty_state 4).brk) ∧
        s'.vfb2_table[i]? = some (some (empty_state 4).brk) ∧
        (∀ j, j ≠ i → s'.vfb2_table[j]? = (empty_state 4).vfb2_table[j]?) ∧
        s'.devs (empty_state 4).brk = some d ∧
        d.table_index = (i : Int) ∧ d.present = VFB2_PRESENT ∧ d.open_ = 0 ∧
        d.current_mode = 0 ∧
        (∀ a, a ≠ (empty_state 4).brk → s'.devs a = (empty_state 4).devs a) ∧
        d.info = some q ∧ s'.infos q = some fi ∧ fi.par = some (empty_state 4).brk ∧
        d.init.mode_table = some tbl ∧ tbl[0]? = some m0 ∧ m0.xres ≠ 0 ∧
        fi.var.xres = m0.xres ∧ fi.var.yres = m0.yres ∧ fi.var.bits_per_pixel = m0.bpp := by
  refine ⟨_, rfl, ?_⟩
  exact vfb2_register_success ⟨64, 4096⟩ env_ok (empty_state 4) _ (some sample_init) 0 rfl
    (by decide)

/-! ## Theorems: invariants of the registry -/

theorem vfb2_find_loop_neg (dev : Nat) :
    ∀ (l : List (Option Nat)) (k : Int), (∀ j : Nat, l[j]? ≠ some (some dev)) →
      vfb2_find_loop dev l k = -1 := by
  intro l
  induction l with
  | nil => intro k _; rfl
  | cons e rest ih =>
    intro k h
    have he : e ≠ some dev := by
      have := h 0
      simpa using this
    simp only [vfb2_find_loop, he, if_false]
    exact ih (k + 1) (fun j => by simpa using h (j + 1))

theorem vfb2_find_loop_nonneg (dev : Nat) :
    ∀ (l : List (Option Nat)) (k : Int) (j : Nat), 0 ≤ k → l[j]? = some (some dev) →
      0 ≤ vfb2_find_loop dev l k := by
  intro l
  induction l with
  | nil => intro k j _ h; simp at h
  | cons e rest ih =>
    intro k j hk h
    by_cases he : e = some dev
    · simp [vfb2_find_loop, he, hk]
    · simp only [vfb2_find_loop, he, if_false]
      cases j with
      | zero =>
        simp at h
        exact absurd h he
      | succ j => exact ih (k + 1) j (by omega) (by simpa using h)

/-- A device that `vfb2_find_dev` finds is in the table. -/
theorem vfb2_find_dev_mem (s : State) (p : Nat) (h : ¬ vfb2_find_dev s p < 0) :
    ∃ j : Nat, s.vfb2_table[j]? = some (some p) := by
  by_contra hno
  push_neg at hno
  have := vfb2_find_loop_neg p s.vfb2_table 0 hno
  simp only [vfb2_find_dev, this] at h
  omega

theorem vfb2_get_dev_mem (s : State) (info : Option Nat) (p : Nat)
    (h : vfb2_get_dev s info = some (some p)) :
    (∃ j : Nat, s.vfb2_table[j]? = some (some p)) ∧
    ∃ a fi, info = some a ∧ s.infos a = some fi ∧ fi.par = some p := by
  unfold vfb2_get_dev at h
  split at h
  · simp at h
  · rename_i a
    split at h
    · simp at h
    · rename_i fi hfi
      split at h
      · simp at h
      · rename_i dev hpar
        split at h
        · simp at h
        · rename_i hfind
          simp only [Option.some.injEq] at h
          subst h
          exact ⟨vfb2_find_dev_mem s dev hfind, a, fi, rfl, hfi, hpar⟩

theorem wf_empty (n : Nat) : wf (empty_state n) := by
  refine ⟨?_, ?_, ?_⟩
  · intro i q h
    simp only [empty_state] at h
    by_cases hi : i < n
    · simp [List.getElem?_replicate, hi] at h
    · simp [List.getElem?_replicate, hi] at h
  · intro a d h
    simp [empty_state] at h
  · intro a fi h
    simp [empty_state] at h

theorem evolves_refl (s : State) : evolves s s :=
  ⟨le_refl _, fun _ d' _ h => ⟨d', h, id⟩, fun _ fi' _ h => ⟨fi', h, Or.inl rfl⟩⟩

theorem evolves_trans (s1 s2 s3 : State) (h12 : evolves s1 s2) (h23 : evolves s2 s3) :
    evolves s1 s3 := by
  obtain ⟨hb12, hd12, hi12⟩ := h12
  obtain ⟨hb23, hd23, hi23⟩ := h23
  refine ⟨le_trans hb12 hb23, ?_, ?_⟩
  · intro a d3 ha h3
    obtain ⟨d2, h2, hp2⟩ := hd23 a d3 (by omega) h3
    obtain ⟨d1, h1, hp1⟩ := hd12 a d2 ha h2
    exact ⟨d1, h1, fun h => hp2 (hp1 h)⟩
  · intro a f3 ha h3
    obtain ⟨f2, h2, hp2⟩ := hi23 a f3 (by omega) h3
    obtain ⟨f1, h1, hp1⟩ := hi12 a f2 ha h2
    refine ⟨f1, h1, ?_⟩
    rcases hp2 with hp2 | hp2
    · rcases hp1 with hp1 | hp1
      · exact Or.inl (hp2.trans hp1)
      · exact Or.inr (hp2.trans hp1)
    · exact Or.inr hp2

theorem wf_set_dev (X : State) (a : Nat) (d' : vfb2_device) (hwf : wf X) (ha : a < X.brk)
    (hidx : ∀ i : Nat, X.vfb2_table[i]? = some (some a) → d'.table_index = (i : Int)) :
    wf (set_dev X a (some d')) := by
  obtain ⟨w1, w2, w3⟩ := hwf
  refine ⟨?_, ?_, w3⟩
  · intro i q hq
    by_cases hqa : q = a
    · subst hqa
      exact ⟨d', by simp, hidx i hq⟩
    · obtain ⟨d, hd, hi⟩ := w1 i q hq
      exact ⟨d, by rw [set_dev_devs_other _ _ _ _ hqa]; exact hd, hi⟩
  · intro b d hb
    by_cases hba : b = a
    · subst hba
      exact ha
    · rw [set_dev_devs_other _ _ _ _ hba] at hb
      exact w2 b d hb

theorem wf_set_info (X : State) (a : Nat) (fi : fb_info) (hwf : wf X) (ha : a < X.brk) :
    wf (set_info X a (some fi)) := by
  obtain ⟨w1, w2, w3⟩ := hwf
  refine ⟨w1, w2, ?_⟩
  intro b f hb
  by_cases hba : b = a
  · subst hba
    exact ha
  · rw [set_info_infos_other _ _ _ _ hba] at hb
    exact w3 b f hb

theorem wf_free_info (X : State) (a : Nat) (hwf : wf X) : wf (set_info X a none) := by
  obtain ⟨w1, w2, w3⟩ := hwf
  refine ⟨w1, w2, ?_⟩
  intro b f hb
  by_cases hba : b = a
  · subst hba
    simp at hb
  · rw [set_info_infos_other _ _ _ _ hba] at hb
    exact w3 b f hb

theorem wf_free_dev (X : State) (a : Nat) (hwf : wf X)
    (hno : ∀ i : Nat, X.vfb2_table[i]? ≠ some (some a)) : wf (set_dev X a none) := by
  obtain ⟨w1, w2, w3⟩ := hwf
  refine ⟨?_, ?_, w3⟩
  · intro i q hq
    have hqa : q ≠ a := by
      intro h
      subst h
      exact hno i hq
    obtain ⟨d, hd, hi⟩ := w1 i q hq
    exact ⟨d, by rw [set_dev_devs_other _ _ _ _ hqa]; exact hd, hi⟩
  · intro b d hb
    by_cases hba : b = a
    · subst hba
      simp at hb
    · rw [set_dev_devs_other _ _ _ _ hba] at hb
      exact w2 b d hb

theorem getElem?_set_none_some (l : List (Option Nat)) (i j q : Nat)
    (h : (l.set i none)[j]? = some (some q)) : l[j]? = some (some q) ∧ j ≠ i := by
  rw [List.getElem?_set] at h
  by_cases hij : i = j
  · subst hij
    simp only [if_true] at h
    split at h <;> simp at h
  · simp only [hij, if_false] at h
    exact ⟨h, fun e => hij e.symm⟩

theorem wf_clear_slot (X : State) (i : Nat) (hwf : wf X) : wf (set_slot X i none) := by
  obtain ⟨w1, w2, w3⟩ := hwf
  refine ⟨?_, w2, w3⟩
  intro j q hq
  exact w1 j q (getElem?_set_none_some _ _ _ _ hq).1

theorem wf_bump (X : State) (k : Nat) (hwf : wf X) : wf { X with brk := X.brk + k } := by
  obtain ⟨w1, w2, w3⟩ := hwf
  refine ⟨w1, ?_, ?_⟩
  · intro a d h
    have := w2 a d h
    simp only
    omega
  · intro a fi h
    have := w3 a fi h
    simp only
    omega

/-- Putting a device that is not in the table into slot `i`. -/
theorem wf_insert (X : State) (i p : Nat) (d : vfb2_device) (hwf : wf X) (hp : p < X.brk)
    (hno : ∀ j : Nat, X.vfb2_table[j]? ≠ some (some p)) (hi : d.table_index = (i : Int)) :
    wf (set_dev (set_slot X i (some p)) p (some d)) := by
  obtain ⟨w1, w2, w3⟩ := hwf
  refine ⟨?_, ?_, w3⟩
  · intro j q hq
    simp only [set_dev_table, set_slot_table, List.getElem?_set] at hq
    by_cases hij : i = j
    · subst hij
      simp only [if_true] at hq
      split at hq
      · simp only [Option.some.injEq] at hq
        subst hq
        exact ⟨d, by simp, hi⟩
      · simp at hq
    · simp only [hij, if_false] at hq
      have hqp : q ≠ p := by
        intro h
        subst h
        exact hno j hq
      obtain ⟨d0, hd0, hi0⟩ := w1 j q hq
      refine ⟨d0, ?_, hi0⟩
      rw [set_dev_devs_other _ _ _ _ hqp]
      exact hd0
  · intro b d0 hb
    by_cases hbp : b = p
    · subst hbp
      exact hp
    · rw [set_dev_devs_other _ _ _ _ hbp] at hb
      exact w2 b d0 hb

theorem evolves_set_dev_fresh (s X : State) (a : Nat) (d' : Option vfb2_device)
    (h : evolves s X) (ha : s.brk ≤ a) : evolves s (set_dev X a d') := by
  obtain ⟨hb, hd, hi⟩ := h
  refine ⟨hb, ?_, hi⟩
  intro b d2 hlt h2
  rw [set_dev_devs_other _ _ _ _ (by omega)] at h2
  exact hd b d2 hlt h2

theorem evolves_set_info_fresh (s X : State) (a : Nat) (fi : Option fb_info)
    (h : evolves s X) (ha : s.brk ≤ a) : evolves s (set_info X a fi) := by
  obtain ⟨hb, hd, hi⟩ := h
  refine ⟨hb, hd, ?_⟩
  intro b f2 hlt h2
  rw [set_info_infos_other _ _ _ _ (by omega)] at h2
  exact hi b f2 hlt h2

theorem evolves_bump (s X : State) (k : Nat) (h : evolves s X) :
    evolves s { X with brk := X.brk + k } := by
  obtain ⟨hb, hd, hi⟩ := h
  exact ⟨by simp only; omega, hd, hi⟩

theorem evolves_set_slot (s X : State) (i : Nat) (e : Option Nat) (h : evolves s X) :
    evolves s (set_slot X i e) := h

theorem evolves_free_dev (s X : State) (a : Nat) (h : evolves s X) :
    evolves s (set_dev X a none) := by
  obtain ⟨hb, hd, hi⟩ := h
  refine ⟨hb, ?_, hi⟩
  intro b d2 hlt h2
  by_cases hba : b = a
  · subst hba
    simp at h2
  · rw [set_dev_devs_other _ _ _ _ hba] at h2
    exact hd b d2 hlt h2

theorem evolves_free_info (s X : State) (a : Nat) (h : evolves s X) :
    evolves s (set_info X a none) := by
  obtain ⟨hb, hd, hi⟩ := h
  refine ⟨hb, hd, ?_⟩
  intro b f2 hlt h2
  by_cases hba : b = a
  · subst hba
    simp at h2
  · rw [set_info_infos_other _ _ _ _ hba] at h2
    exact hi b f2 hlt h2

/-- Rewriting a device without taking back a mark "not present". -/
theorem evolves_set_dev (s X : State) (a : Nat) (d d' : vfb2_device) (h : evolves s X)
    (hd : X.devs a = some d)
    (hp : d.present = VFB2_NOT_PRESENT → d'.present = VFB2_NOT_PRESENT) :
    evolves s (set_dev X a (some d')) := by
  obtain ⟨hb, hdv, hi⟩ := h
  refine ⟨hb, ?_, hi⟩
  intro b d2 hlt h2
  by_cases hba : b = a
  · subst hba
    simp only [set_dev_devs_same, Option.some.injEq] at h2
    subst h2
    obtain ⟨d0, hd0, hp0⟩ := hdv b d hlt hd
    exact ⟨d0, hd0, fun h => hp (hp0 h)⟩
  · rw [set_dev_devs_other _ _ _ _ hba] at h2
    exact hdv b d2 hlt h2

/-- Rewriting an `fb_info` whose `par` is kept or set to NULL. -/
theorem evolves_set_info (s X : State) (a : Nat) (fi fi' : fb_info) (h : evolves s X)
    (hfi : X.infos a = some fi) (hp : fi'.par = fi.par ∨ fi'.par = none) :
    evolves s (set_info X a (some fi')) := by
  obtain ⟨hb, hdv, hi⟩ := h
  refine ⟨hb, hdv, ?_⟩
  intro b f2 hlt h2
  by_cases hba : b = a
  · subst hba
    simp only [set_info_infos_same, Option.some.injEq] at h2
    subst h2
    obtain ⟨f0, hf0, hp0⟩ := hi b fi hlt hfi
    refine ⟨f0, hf0, ?_⟩
    rcases hp with hp | hp
    · rcases hp0 with hp0 | hp0
      · exact Or.inl (hp.trans hp0)
      · exact Or.inr (hp.trans hp0)
    · exact Or.inr hp
  · rw [set_info_infos_other _ _ _ _ hba] at h2
    exact hi b f2 hlt h2

theorem vfb2_remove_free_keeps (s X : State) (a : Nat) (d : vfb2_device) (hwf : wf X)
    (hev : evolves s X) (hno : ∀ i : Nat, X.vfb2_table[i]? ≠ some (some a)) :
    wf (vfb2_remove_free X a d) ∧ evolves s (vfb2_remove_free X a d) := by
  unfold vfb2_remove_free
  split
  · exact ⟨wf_free_dev X a hwf hno, evolves_free_dev s X a hev⟩
  · rename_i q _
    exact ⟨wf_free_dev _ a (wf_free_info X q hwf) hno,
      evolves_free_dev s _ a (evolves_free_info s X q hev)⟩

/-- `vfb2_remove` keeps the registry well formed and takes back no mark. -/
theorem vfb2_remove_keeps (s X X' : State) (x : Option Nat) (hwf : wf X) (hev : evolves s X)
    (h : vfb2_remove X x = some X') : wf X' ∧ evolves s X' := by
  unfold vfb2_remove at h
  cases x with
  | none =>
    simp only [Option.some.injEq] at h
    subst h
    exact ⟨hwf, hev⟩
  | some a =>
    simp only at h
    cases hd : X.devs a with
    | none => simp [hd] at h
    | some d =>
      simp only [hd] at h
      have hslot : ∀ i : Nat, X.vfb2_table[i]? = some (some a) → d.table_index = (i : Int) := by
        intro i hi
        obtain ⟨d0, hd0, hi0⟩ := hwf.1 i a hi
        rw [hd] at hd0
        simp only [Option.some.injEq] at hd0
        subst hd0
        exact hi0
      by_cases hti : d.table_index ≥ 0
      · rw [if_pos hti] at h
        by_cases hp : d.present = VFB2_PRESENT
        · rw [if_pos hp] at h
          simp only [Option.some.injEq] at h
          subst h
          exact ⟨hwf, hev⟩
        · rw [if_neg hp] at h
          by_cases ho : d.open_ ≠ 0
          · rw [if_pos ho] at h
            simp only [Option.some.injEq] at h
            subst h
            exact ⟨hwf, hev⟩
          · rw [if_neg ho] at h
            by_cases hlen : d.table_index.toNat < X.vfb2_table.length
            · rw [if_pos hlen] at h
              cases hinfo : d.info with
              | none => simp [hinfo] at h
              | some q =>
                simp only [hinfo] at h
                cases hfi : X.infos q with
                | none => simp [hfi] at h
                | some fi =>
                  simp only [hfi, Option.some.injEq] at h
                  subst h
                  have hno : ∀ i : Nat,
                      (set_slot X d.table_index.toNat none).vfb2_table[i]? ≠ some (some a) := by
                    intro i hi
                    obtain ⟨hi1, hi2⟩ := getElem?_set_none_some _ _ _ _ hi
                    have := hslot i hi1
                    omega
                  have w1 := wf_clear_slot X d.table_index.toNat hwf
                  have w2 := wf_set_dev _ a { d with table_index := -1 } w1
                    (by simpa using hwf.2.1 a d hd) (fun i hi => absurd hi (hno i))
                  have w3 := wf_set_info _ q { fi with par := none } w2
                    (by simpa using hwf.2.2 q fi hfi)
                  have e1 := evolves_set_slot s X d.table_index.toNat none hev
                  have e2 := evolves_set_dev s _ a d { d with table_index := -1 } e1
                    (by simpa using hd) (fun hh => hh)
                  have e3 := evolves_set_info s _ q fi { fi with par := none } e2
                    (by simpa using hfi) (Or.inr rfl)
                  simp only [hinfo] at w3 e3
                  exact vfb2_remove_free_keeps s _ a _ w3 e3 (by simpa using hno)
            · rw [if_neg hlen] at h
              simp at h
      · rw [if_neg hti] at h
        simp only [Option.some.injEq] at h
        subst h
        refine vfb2_remove_free_keeps s X a d hwf hev ?_
        intro i hi
        have := hslot i hi
        omega

theorem vfb2_open_keeps (s X X' : State) (info : Option Nat) (r : Int) (hwf : wf X)
    (hev : evolves s X) (h : vfb2_open X info = some (X', r)) : wf X' ∧ evolves s X' := by
  unfold vfb2_open at h
  split at h
  · simp at h
  · simp only [Option.some.injEq, Prod.mk.injEq] at h
    obtain ⟨h, -⟩ := h
    subst h
    exact ⟨hwf, hev⟩
  · rename_i dev hget
    split at h
    · simp at h
    · rename_i d hd
      split at h
      · simp only [Option.some.injEq, Prod.mk.injEq] at h
        obtain ⟨h, -⟩ := h
        subst h
        exact ⟨hwf, hev⟩
      · rename_i hp
        simp only [Option.some.injEq, Prod.mk.injEq] at h
        obtain ⟨h, -⟩ := h
        subst h
        refine ⟨wf_set_dev X dev _ hwf (hwf.2.1 dev d hd) ?_,
          evolves_set_dev s X dev d _ hev hd (fun hh => absurd hh hp)⟩
        intro i hi
        obtain ⟨d0, hd0, hi0⟩ := hwf.1 i dev hi
        rw [hd] at hd0
        simp only [Option.some.injEq] at hd0
        subst hd0
        exact hi0

theorem vfb2_release_locked_keeps (s X X' : State) (info dev : Option Nat) (rm : Bool) (r : Int)
    (hwf : wf X) (hev : evolves s X)
    (h : vfb2_release_locked X info = some (X', dev, rm, r)) : wf X' ∧ evolves s X' := by
  unfold vfb2_release_locked at h
  split at h
  · simp at h
  · simp only [Option.some.injEq, Prod.mk.injEq] at h
    obtain ⟨h, -⟩ := h
    subst h
    exact ⟨hwf, hev⟩
  · rename_i p hget
    split at h
    · simp at h
    · rename_i d hd
      simp only [Option.some.injEq, Prod.mk.injEq] at h
      obtain ⟨h, -⟩ := h
      subst h
      refine ⟨wf_set_dev X p _ hwf (hwf.2.1 p d hd) ?_,
        evolves_set_dev s X p d _ hev hd (fun hh => hh)⟩
      intro i hi
      obtain ⟨d0, hd0, hi0⟩ := hwf.1 i p hi
      rw [hd] at hd0
      simp only [Option.some.injEq] at hd0
      subst hd0
      exact hi0

theorem vfb2_release_keeps (s X X' : State) (info : Option Nat) (r : Int) (hwf : wf X)
    (hev : evolves s X) (h : vfb2_release X info = some (X', r)) : wf X' ∧ evolves s X' := by
  unfold vfb2_release at h
  split at h
  · simp at h
  · rename_i X1 dev rm ret hl
    obtain ⟨w1, e1⟩ := vfb2_release_locked_keeps s X X1 info dev rm ret hwf hev hl
    split at h
    · simp only [Option.map_eq_some', Prod.mk.injEq] at h
      obtain ⟨X2, hrm, h2, -⟩ := h
      subst h2
      exact vfb2_remove_keeps s X1 X2 dev w1 e1 hrm
    · simp only [Option.some.injEq, Prod.mk.injEq] at h
      obtain ⟨h, -⟩ := h
      subst h
      exact ⟨w1, e1⟩

theorem vfb2_unregister_locked_keeps (s X X' : State) (idx : Int) (found : Option (Nat × Int))
    (hwf : wf X) (hev : evolves s X)
    (h : vfb2_unregister_locked X idx = some (X', found)) : wf X' ∧ evolves s X' := by
  unfold vfb2_unregister_locked at h
  split at h
  · simp only [Option.some.injEq, Prod.mk.injEq] at h
    obtain ⟨h, -⟩ := h
    subst h
    exact ⟨hwf, hev⟩
  · rename_i p hget
    split at h
    · simp at h
    · rename_i d hd
      simp only [Option.some.injEq, Prod.mk.injEq] at h
      obtain ⟨h, -⟩ := h
      subst h
      refine ⟨wf_set_dev X p _ hwf (hwf.2.1 p d hd) ?_,
        evolves_set_dev s X p d _ hev hd (fun _ => rfl)⟩
      intro i hi
      obtain ⟨d0, hd0, hi0⟩ := hwf.1 i p hi
      rw [hd] at hd0
      simp only [Option.some.injEq] at hd0
      subst hd0
      exact hi0

theorem vfb2_unregister_keeps (s X X' : State) (idx : Int) (hwf : wf X) (hev : evolves s X)
    (h : vfb2_unregister X idx = some X') : wf X' ∧ evolves s X' := by
  unfold vfb2_unregister at h
  split at h
  · simp at h
  · rename_i X1 hl
    simp only [Option.some.injEq] at h
    subst h
    exact vfb2_unregister_locked_keeps s X _ idx none hwf hev hl
  · rename_i X1 dev o hl
    obtain ⟨w1, e1⟩ := vfb2_unregister_locked_keeps s X X1 idx _ hwf hev hl
    split at h
    · exact vfb2_remove_keeps s X1 X' (some dev) w1 e1 h
    · simp only [Option.some.injEq] at h
      subst h
      exact ⟨w1, e1⟩

theorem vfb2_set_par_helper_fields (pf : platform) (fi fi' : fb_info) (d d' : vfb2_device)
    (r : Int) (h : vfb2_set_par_helper pf fi d = some (fi', d', r)) :
    fi'.par = fi.par ∧ d'.table_index = d.table_index ∧ d'.present = d.present ∧
    d'.open_ = d.open_ ∧ d'.info = d.info ∧ d'.init = d.init := by
  unfold vfb2_set_par_helper at h
  split at h
  · simp at h
  · split at h
    · simp only [Option.some.injEq, Prod.mk.injEq] at h
      obtain ⟨h1, h2, -⟩ := h
      subst h1 h2
      exact ⟨rfl, rfl, rfl, rfl, rfl, rfl⟩
    · split at h
      · split at h
        · simp at h
        · simp only [Option.some.injEq, Prod.mk.injEq] at h
          obtain ⟨h1, h2, -⟩ := h
          subst h1 h2
          exact ⟨rfl, rfl, rfl, rfl, rfl, rfl⟩
      · simp at h

theorem vfb2_get_present_dev_some (X : State) (info : Option Nat) (dev : Nat)
    (h : vfb2_get_present_dev X info = some (some dev)) :
    vfb2_get_dev X info = some (some dev) ∧
    ∃ d, X.devs dev = some d ∧ d.present ≠ VFB2_NOT_PRESENT := by
  unfold vfb2_get_present_dev at h
  split at h
  · simp at h
  · simp at h
  · rename_i p hget
    split at h
    · simp at h
    · rename_i d hd
      split at h
      · simp at h
      · rename_i hp
        simp only [Option.some.injEq] at h
        subst h
        exact ⟨hget, d, hd, hp⟩

theorem vfb2_set_par_keeps (pf : platform) (s X X' : State) (info : Option Nat) (r : Int)
    (hwf : wf X) (hev : evolves s X) (h : vfb2_set_par pf X info = some (X', r)) :
    wf X' ∧ evolves s X' := by
  unfold vfb2_set_par at h
  cases hgp : vfb2_get_present_dev X info with
  | none => simp [hgp] at h
  | some od =>
    cases od with
    | none =>
      simp only [hgp, Option.some.injEq, Prod.mk.injEq] at h
      obtain ⟨h, -⟩ := h
      subst h
      exact ⟨hwf, hev⟩
    | some dev =>
      simp only [hgp] at h
      cases info with
      | none => simp at h
      | some a =>
        cases hd : X.devs dev with
        | none => simp [hd] at h
        | some d =>
          simp only [hd] at h
          cases hfi : X.infos a with
          | none => simp [hfi] at h
          | some fi =>
            simp only [hfi] at h
            cases hsp : vfb2_set_par_helper pf fi d with
            | none => simp [hsp] at h
            | some t =>
              obtain ⟨fi', d', r'⟩ := t
              simp only [hsp, Option.some.injEq, Prod.mk.injEq] at h
              obtain ⟨h, -⟩ := h
              subst h
              obtain ⟨hpar, hti, hpres, -, -, -⟩ :=
                vfb2_set_par_helper_fields pf fi fi' d d' r' hsp
              have w1 := wf_set_info X a fi' hwf (hwf.2.2 a fi hfi)
              have e1 := evolves_set_info s X a fi fi' hev hfi (Or.inl hpar)
              refine ⟨wf_set_dev _ dev d' w1 (by simpa using hwf.2.1 dev d hd) ?_,
                evolves_set_dev s _ dev d d' e1 (by simpa using hd)
                  (fun hh => by rw [hpres]; exact hh)⟩
              intro i hi
              obtain ⟨d0, hd0, hi0⟩ := hwf.1 i dev (by simpa using hi)
              rw [hd] at hd0
              simp only [Option.some.injEq] at hd0
              subst hd0
              rw [hti]
              exact hi0

/-- `vfb2_setcolreg` changes at most the palette of the `fb_info` it is given. -/
theorem vfb2_setcolreg_state (X X' : State) (regno red green blue transp : Nat)
    (info : Option Nat) (r : Int)
    (h : vfb2_setcolreg X regno red green blue transp info = some (X', r)) :
    X' = X ∨ ∃ a fi pal, X.infos a = some fi ∧
      X' = set_info X a (some { fi with pseudo_palette := pal }) := by
  unfold vfb2_setcolreg at h
  have same : ∀ {r0 : Int}, some (X, r0) = some (X', r) → X' = X := by
    intro r0 h0
    simp only [Option.some.injEq, Prod.mk.injEq] at h0
    exact h0.1.symm
  cases hgp : vfb2_get_present_dev X info with
  | none => simp [hgp] at h
  | some od =>
    cases od with
    | none =>
      simp only [hgp] at h
      exact Or.inl (same h)
    | some dev =>
      simp only [hgp] at h
      by_cases hreg : regno ≥ 256
      · rw [if_pos hreg] at h
        exact Or.inl (same h)
      · rw [if_neg hreg] at h
        cases info with
        | none => simp at h
        | some a =>
          simp only at h
          cases hfi : X.infos a with
          | none => simp [hfi] at h
          | some fi =>
            simp only [hfi] at h
            cases hcv : setcolreg_convert fi red green blue transp with
            | none => simp [hcv] at h
            | some t =>
              obtain ⟨r1, g1, b1, t1⟩ := t
              simp only [hcv] at h
              by_cases htc : fi.fix.visual = FB_VISUAL_TRUECOLOR
              · rw [if_pos htc] at h
                by_cases h16 : regno ≥ 16
                · rw [if_pos h16] at h
                  exact Or.inl (same h)
                · rw [if_neg h16] at h
                  cases hs1 : shl32 r1 fi.var.red.offset with
                  | none => simp [hs1] at h
                  | some v1 =>
                    cases hs2 : shl32 g1 fi.var.green.offset with
                    | none => simp [hs1, hs2] at h
                    | some v2 =>
                      cases hs3 : shl32 b1 fi.var.blue.offset with
                      | none => simp [hs1, hs2, hs3] at h
                      | some v3 =>
                        cases hs4 : shl32 t1 fi.var.transp.offset with
                        | none => simp [hs1, hs2, hs3, hs4] at h
                        | some v4 =>
                          simp only [hs1, hs2, hs3, hs4] at h
                          split at h
                          · split at h
                            · simp only [Option.some.injEq, Prod.mk.injEq] at h
                              exact Or.inr ⟨a, fi, _, hfi, h.1.symm⟩
                            · simp at h
                          · exact Or.inl (same h)
              · rw [if_neg htc] at h
                exact Or.inl (same h)

theorem vfb2_setcolreg_keeps (s X X' : State) (regno red green blue transp : Nat)
    (info : Option Nat) (r : Int) (hwf : wf X) (hev : evolves s X)
    (h : vfb2_setcolreg X regno red green blue transp info = some (X', r)) :
    wf X' ∧ evolves s X' := by
  rcases vfb2_setcolreg_state X X' regno red green blue transp info r h with h | h
  · subst h
    exact ⟨hwf, hev⟩
  · obtain ⟨a, fi, pal, hfi, h⟩ := h
    subst h
    exact ⟨wf_set_info X a _ hwf (hwf.2.2 a fi hfi),
      evolves_set_info s X a fi _ hev hfi (Or.inl rfl)⟩

theorem vfb2_ioctl_state (handler : Nat → Nat → Nat → Int → Int) (X X' : State)
    (cmd arg : Nat) (info : Option Nat) (r : Int)
    (h : vfb2_ioctl handler X cmd arg info = some (X', r)) : X' = X := by
  unfold vfb2_ioctl at h
  split at h
  · simp at h
  · simp only [Option.some.injEq, Prod.mk.injEq] at h
    exact h.1.symm
  · split at h
    · simp at h
    · split at h
      · simp only [Option.some.injEq, Prod.mk.injEq] at h
        exact h.1.symm
      · split at h <;>
        · simp only [Option.some.injEq, Prod.mk.injEq] at h
          exact h.1.symm

/-- The ways `vfb2_register` ends: without having allocated anything; through
`vfb2_remove` before the `fb_info` exists; through `vfb2_remove` after the
`fb_info` exists; or by the insertion into the table, after a negotiation that
left `current_mode` 0.  `S` is the state with the three addresses taken. -/
theorem vfb2_register_shape (pf : platform) (env : alloc_env) (s s' : State)
    (init : Option vfb2_init) (r : Int)
    (h : vfb2_register pf env s init = some (s', r)) :
    (s' = s ∧ r < 0) ∨
    ∃ S d, S.vfb2_table = s.vfb2_table ∧ S.devs = s.devs ∧ S.infos = s.infos ∧
      s.brk + 2 ≤ S.brk ∧
      d.present = VFB2_ERROR_ON_REGISTER ∧ d.table_index = -1 ∧ d.open_ = 0 ∧
      ((d.info = none ∧ ∃ res, res < 0 ∧
          register_fail (set_dev S s.brk (some d)) s.brk res = some (s', r)) ∨
       (d.info = some (s.brk + 2) ∧ s.brk + 3 ≤ S.brk ∧ ∃ fi res, res < 0 ∧
          fi.par = some s.brk ∧
          register_fail (set_info (set_dev S s.brk (some d)) (s.brk + 2) (some fi)) s.brk res
            = some (s', r)) ∨
       (d.info = some (s.brk + 2) ∧ s.brk + 3 ≤ S.brk ∧ d.current_mode = 0 ∧
        ∃ fi, fi.par = some s.brk ∧
          register_insert env S s.brk (s.brk + 2) d fi = some (s', r))) := by
  unfold vfb2_register at h
  cases init with
  | none =>
    simp only [Option.some.injEq, Prod.mk.injEq] at h
    exact Or.inl ⟨h.1.symm, by rw [← h.2]; decide⟩
  | some init =>
    simp only at h
    cases hmt : init.mode_table with
    | none =>
      simp only [hmt, Option.some.injEq, Prod.mk.injEq] at h
      exact Or.inl ⟨h.1.symm, by rw [← h.2]; decide⟩
    | some tbl0 =>
      simp only [hmt] at h
      cases hinit : vfb2_init_dev env init with
      | none => simp [hinit] at h
      | some od =>
        cases od with
        | none =>
          simp only [hinit, Option.some.injEq, Prod.mk.injEq] at h
          exact Or.inl ⟨h.1.symm, by rw [← h.2]; decide⟩
        | some d0 =>
          simp only [hinit] at h
          have e2 : s.brk + 1 + 1 = s.brk + 2 := rfl
          have e3 : s.brk + 2 + 1 = s.brk + 3 := rfl
          simp only [e2, e3] at h
          obtain ⟨hp0, hti0, hop0, hcm0, hinf0⟩ := vfb2_init_dev_fields env init d0 hinit
          cases hvm : vfb2_alloc_vmem pf env.vmalloc (s.brk + 1) d0 with
          | none => simp [hvm] at h
          | some dr =>
            obtain ⟨d1, r1⟩ := dr
            simp only [hvm] at h
            obtain ⟨hp1, hti1, hop1, hcm1, hinf1, -⟩ :=
              vfb2_alloc_vmem_fields pf env.vmalloc (s.brk + 1) d0 d1 r1 hvm
            right
            by_cases hr1 : r1 ≠ 0
            · rw [if_pos hr1] at h
              exact ⟨{ s with brk := s.brk + 2 }, d1, rfl, rfl, rfl, by simp, hp1.trans hp0,
                hti1.trans hti0, hop1.trans hop0,
                Or.inl ⟨hinf1.trans hinf0, -ENOMEM, by decide, h⟩⟩
            · rw [if_neg hr1] at h
              by_cases hfa : env.framebuffer_alloc = true
              · simp only [hfa, Bool.not_true, Bool.false_eq_true, if_false] at h
                by_cases hcmap : -(env.fb_alloc_cmap : Int) < 0
                · simp only [hcmap, if_true] at h
                  exact ⟨{ s with brk := s.brk + 3 }, { d1 with info := some (s.brk + 2) },
                    rfl, rfl, rfl, by simp,
                    hp1.trans hp0, hti1.trans hti0, hop1.trans hop0,
                    Or.inr (Or.inl ⟨rfl, by simp, _, _, hcmap, rfl, h⟩)⟩
                · simp only [hcmap, if_false] at h
                  generalize hdq : ({ d1 with info := some (s.brk + 2) } : vfb2_device) = dq
                    at h
                  have hdqf : dq.present = VFB2_ERROR_ON_REGISTER ∧ dq.table_index = -1 ∧
                      dq.open_ = 0 ∧ dq.current_mode = 0 ∧ dq.info = some (s.brk + 2) := by
                    subst hdq
                    exact ⟨hp1.trans hp0, hti1.trans hti0, hop1.trans hop0, hcm1.trans hcm0, rfl⟩
                  cases hsm : vfb2_set_mode dq (new_fb_info s.brk dq).var 0 with
                  | none => simp [hsm] at h
                  | some var0 =>
                    simp only [hsm] at h
                    cases hcv : vfb2_check_var_helper pf var0 dq with
                    | none => simp [hcv] at h
                    | some vr =>
                      obtain ⟨var1, res⟩ := vr
                      simp only [hcv] at h
                      by_cases hres : res < 0
                      · rw [if_pos hres] at h
                        exact ⟨{ s with brk := s.brk + 3 }, dq, rfl, rfl, rfl, by simp,
                          hdqf.1, hdqf.2.1, hdqf.2.2.1,
                          Or.inr (Or.inl ⟨hdqf.2.2.2.2, by simp, _, _, hres, rfl, h⟩)⟩
                      · rw [if_neg hres] at h
                        cases hsp : vfb2_set_par_helper pf
                            { new_fb_info s.brk dq with var := var1 } dq with
                        | none =>
                          simp only [hsp] at h
                          simp at h
                        | some t =>
                          obtain ⟨fi2, d2, res2⟩ := t
                          simp only [hsp] at h
                          obtain ⟨hpar, hti2, hpres2, hop2, hinf2, -⟩ :=
                            vfb2_set_par_helper_fields pf _ fi2 dq d2 res2 hsp
                          by_cases hres2 : res2 < 0
                          · rw [if_pos hres2] at h
                            exact ⟨{ s with brk := s.brk + 3 }, d2, rfl, rfl, rfl, by simp,
                              hpres2.trans hdqf.1,
                              hti2.trans hdqf.2.1, hop2.trans hdqf.2.2.1,
                              Or.inr (Or.inl ⟨hinf2.trans hdqf.2.2.2.2, by simp, _, _, hres2,
                                hpar, h⟩)⟩
                          · rw [if_neg hres2] at h
                            obtain ⟨tbl, m0, -, -, -, hd2, -⟩ :=
                              initial_negotiation pf dq d2 (new_fb_info s.brk dq) fi2 var0 var1
                                res res2 hdqf.2.2.2.1 hsm hcv hres hsp
                            exact ⟨{ s with brk := s.brk + 3 }, d2, rfl, rfl, rfl, by simp,
                              hpres2.trans hdqf.1,
                              hti2.trans hdqf.2.1, hop2.trans hdqf.2.2.1,
                              Or.inr (Or.inr ⟨hinf2.trans hdqf.2.2.2.2, by simp,
                                by rw [hd2], fi2, hpar, h⟩)⟩
              · simp only [hfa, Bool.not_false, if_true] at h
                exact ⟨{ s with brk := s.brk + 2 }, d1, rfl, rfl, rfl, by simp, hp1.trans hp0,
                  hti1.trans hti0, hop1.trans hop0,
                  Or.inl ⟨hinf1.trans hinf0, -ENOMEM, by decide, h⟩⟩

theorem wf_of_same (s S : State) (ht : S.vfb2_table = s.vfb2_table) (hd : S.devs = s.devs)
    (hi : S.infos = s.infos) (hb : s.brk ≤ S.brk) (hwf : wf s) : wf S := by
  obtain ⟨w1, w2, w3⟩ := hwf
  refine ⟨?_, ?_, ?_⟩
  · intro i q hq
    rw [ht] at hq
    rw [hd]
    exact w1 i q hq
  · intro a d h
    rw [hd] at h
    exact lt_of_lt_of_le (w2 a d h) hb
  · intro a fi h
    rw [hi] at h
    exact lt_of_lt_of_le (w3 a fi h) hb

theorem evolves_of_same (s S : State) (hd : S.devs = s.devs) (hi : S.infos = s.infos)
    (hb : s.brk ≤ S.brk) : evolves s S := by
  refine ⟨hb, ?_, ?_⟩
  · intro a d' _ h
    rw [hd] at h
    exact ⟨d', h, id⟩
  · intro a fi' _ h
    rw [hi] at h
    exact ⟨fi', h, Or.inl rfl⟩

theorem register_fail_keeps (s X X' : State) (p : Nat) (res r : Int) (hwf : wf X)
    (hev : evolves s X) (h : register_fail X p res = some (X', r)) : wf X' ∧ evolves s X' := by
  simp only [register_fail, Option.map_eq_some', Prod.mk.injEq] at h
  obtain ⟨X2, hrm, h2, -⟩ := h
  subst h2
  exact vfb2_remove_keeps s X X2 (some p) hwf hev hrm

theorem register_insert_keeps (env : alloc_env) (s S s' : State) (p q : Nat) (d : vfb2_device)
    (fi : fb_info) (r : Int) (hwf : wf S) (hev : evolves s S)
    (hp : s.brk ≤ p) (hq : s.brk ≤ q) (hpS : p < S.brk) (hqS : q < S.brk)
    (hno : ∀ j : Nat, S.vfb2_table[j]? ≠ some (some p))
    (h : register_insert env S p q d fi = some (s', r)) : wf s' ∧ evolves s s' := by
  unfold register_insert at h
  simp only [set_info_table] at h
  have w1 := wf_set_info S q fi hwf hqS
  have e1 := evolves_set_info_fresh s S q (some fi) hev hq
  cases hff : first_free S.vfb2_table 0 with
  | none =>
    simp only [hff] at h
    refine register_fail_keeps s _ s' p _ r ?_ ?_ h
    · exact wf_set_dev _ p d w1 (by simpa using hpS) (fun i hi => absurd hi (by simpa using hno i))
    · exact evolves_set_dev_fresh s _ p _ e1 hp
  | some i =>
    simp only [hff] at h
    have w2 : ∀ d' : vfb2_device, d'.table_index = (i : Int) →
        wf (set_dev (set_slot (set_info S q (some fi)) i (some p)) p (some d')) :=
      fun d' hd' => wf_insert _ i p d' w1 (by simpa using hpS) (by simpa using hno) hd'
    have e2 : ∀ d' : vfb2_device,
        evolves s (set_dev (set_slot (set_info S q (some fi)) i (some p)) p (some d')) :=
      fun d' => evolves_set_dev_fresh s _ p _ (evolves_set_slot s _ i (some p) e1) hp
    by_cases h0 : -(env.register_framebuffer : Int) = 0
    · simp only [h0, if_true, Option.some.injEq, Prod.mk.injEq] at h
      obtain ⟨h, -⟩ := h
      subst h
      exact ⟨w2 _ rfl, e2 _⟩
    · simp only [h0, if_false] at h
      by_cases hneg : -(env.register_framebuffer : Int) < 0
      · simp only [hneg, if_true] at h
        exact register_fail_keeps s _ s' p _ r (w2 _ rfl) (e2 _) h
      · simp only [hneg, if_false, Option.some.injEq, Prod.mk.injEq] at h
        obtain ⟨h, -⟩ := h
        subst h
        exact ⟨w2 _ rfl, e2 _⟩

/-- `vfb2_register` keeps the registry well formed and touches no device or
`fb_info` that existed before. -/
theorem vfb2_register_keeps (pf : platform) (env : alloc_env) (s s' : State)
    (init : Option vfb2_init) (r : Int) (hwf : wf s)
    (h : vfb2_register pf env s init = some (s', r)) : wf s' ∧ evolves s s' := by
  rcases vfb2_register_shape pf env s s' init r h with ⟨h1, -⟩ | h2
  · subst h1
    exact ⟨hwf, evolves_refl _⟩
  · obtain ⟨S, d, ht, hdv, hin, hb, -, -, -, hcases⟩ := h2
    have wS := wf_of_same s S ht hdv hin (by omega) hwf
    have eS := evolves_of_same s S hdv hin (by omega)
    have hno : ∀ j : Nat, S.vfb2_table[j]? ≠ some (some s.brk) := by
      intro j hj
      rw [ht] at hj
      obtain ⟨d0, hd0, -⟩ := hwf.1 j s.brk hj
      have := hwf.2.1 s.brk d0 hd0
      omega
    have w1 := wf_set_dev S s.brk d wS (by omega) (fun i hi => absurd hi (hno i))
    have e1 := evolves_set_dev_fresh s S s.brk (some d) eS (le_refl _)
    rcases hcases with ⟨-, res, -, hf⟩ | ⟨-, hb3, fi, res, -, -, hf⟩ | ⟨-, hb3, -, fi, -, hf⟩
    · exact register_fail_keeps s _ s' s.brk res r w1 e1 hf
    · refine register_fail_keeps s _ s' s.brk res r ?_ ?_ hf
      · exact wf_set_info _ (s.brk + 2) fi w1 (by simpa using hb3)
      · exact evolves_set_info_fresh s _ (s.brk + 2) (some fi) e1 (by omega)
    · exact register_insert_keeps env s S s' s.brk (s.brk + 2) d fi r wS eS (le_refl _)
        (by omega) (by omega) (by omega) hno hf

theorem exec_keeps (pf : platform) (handler : Nat → Nat → Nat → Int → Int) (s X X' : State)
    (op : Op) (hwf : wf X) (hev : evolves s X) (h : exec pf handler X op = some X') :
    wf X' ∧ evolves s X' := by
  cases op with
  | register env init =>
    simp only [exec, Option.map_eq_some'] at h
    obtain ⟨⟨X2, r⟩, hr, h2⟩ := h
    simp only at h2
    subst h2
    obtain ⟨w, e⟩ := vfb2_register_keeps pf env X X2 init r hwf hr
    exact ⟨w, evolves_trans s X X2 hev e⟩
  | unregister idx =>
    exact vfb2_unregister_keeps s X X' idx hwf hev h
  | fb_open info =>
    simp only [exec, Option.map_eq_some'] at h
    obtain ⟨⟨X2, r⟩, hr, h2⟩ := h
    simp only at h2
    subst h2
    exact vfb2_open_keeps s X X2 info r hwf hev hr
  | fb_release info =>
    simp only [exec, Option.map_eq_some'] at h
    obtain ⟨⟨X2, r⟩, hr, h2⟩ := h
    simp only at h2
    subst h2
    exact vfb2_release_keeps s X X2 info r hwf hev hr
  | fb_ioctl cmd arg info =>
    simp only [exec, Option.map_eq_some'] at h
    obtain ⟨⟨X2, r⟩, hr, h2⟩ := h
    simp only at h2
    subst h2
    rw [vfb2_ioctl_state handler X X2 cmd arg info r hr]
    exact ⟨hwf, hev⟩
  | fb_check_var var info =>
    simp only [exec, Option.map_eq_some'] at h
    obtain ⟨_, _, h2⟩ := h
    subst h2
    exact ⟨hwf, hev⟩
  | fb_set_par info =>
    simp only [exec, Option.map_eq_some'] at h
    obtain ⟨⟨X2, r⟩, hr, h2⟩ := h
    simp only at h2
    subst h2
    exact vfb2_set_par_keeps pf s X X2 info r hwf hev hr
  | fb_setcolreg regno red green blue transp info =>
    simp only [exec, Option.map_eq_some'] at h
    obtain ⟨⟨X2, r⟩, hr, h2⟩ := h
    simp only at h2
    subst h2
    exact vfb2_setcolreg_keeps s X X2 regno red green blue transp info r hwf hev hr
  | store_var var info =>
    simp only [exec] at h
    cases hfi : X.infos info with
    | none => simp [hfi] at h
    | some fi =>
      simp only [hfi, Option.some.injEq] at h
      subst h
      exact ⟨wf_set_info X info _ hwf (hwf.2.2 info fi hfi),
        evolves_set_info s X info fi _ hev hfi (Or.inl rfl)⟩

theorem run_keeps (pf : platform) (handler : Nat → Nat → Nat → Int → Int) (s : State) :
    ∀ (ops : List Op) (X X' : State), wf X → evolves s X → run pf handler X ops = some X' →
      wf X' ∧ evolves s X' := by
  intro ops
  induction ops with
  | nil =>
    intro X X' hwf hev h
    simp only [run, Option.some.injEq] at h
    subst h
    exact ⟨hwf, hev⟩
  | cons op ops ih =>
    intro X X' hwf hev h
    simp only [run] at h
    cases hx : exec pf handler X op with
    | none => simp [hx] at h
    | some X1 =>
      simp only [hx] at h
      obtain ⟨w1, e1⟩ := exec_keeps pf handler s X X1 op hwf hev hx
      exact ih X1 X' w1 e1 h

/-- Every state reached from an empty registry is well formed. -/
theorem reachable_wf (pf : platform) (handler : Nat → Nat → Nat → Int → Int) (n : Nat)
    (ops : List Op) (s : State) (h : run pf handler (empty_state n) ops = some s) : wf s :=
  (run_keeps pf handler (empty_state n) ops (empty_state n) s (wf_empty n) (evolves_refl _) h).1

/-- An allocated handle whose device is marked not present finds no present
device. -/
theorem absent_handle (s : State) (p h : Nat) (f : fb_info) (hwf : wf s)
    (hd : ∀ d, s.devs p = some d → d.present = VFB2_NOT_PRESENT)
    (hf : s.infos h = some f) (hi : f.par = none ∨ f.par = some p) :
    vfb2_get_dev s (some h) = some none ∨
    (vfb2_get_dev s (some h) = some (some p) ∧
      ∃ d, s.devs p = some d ∧ d.present = VFB2_NOT_PRESENT) := by
  cases hg : vfb2_get_dev s (some h) with
  | none =>
    exfalso
    simp only [vfb2_get_dev, hf] at hg
    split at hg
    · simp at hg
    · split at hg <;> simp at hg
  | some oq =>
    cases oq with
    | none => exact Or.inl rfl
    | some q =>
      right
      obtain ⟨⟨j, hj⟩, a, fi, ha, hfi, hpar⟩ := vfb2_get_dev_mem s (some h) q hg
      simp only [Option.some.injEq] at ha
      subst ha
      rw [hf] at hfi
      simp only [Option.some.injEq] at hfi
      subst hfi
      rcases hi with h1 | h1
      · rw [h1] at hpar
        simp at hpar
      · rw [h1] at hpar
        simp only [Option.some.injEq] at hpar
        subst hpar
        obtain ⟨d, hdev, -⟩ := hwf.1 j p hj
        exact ⟨rfl, d, hdev, hd d hdev⟩

theorem absent_get_present_dev (s : State) (p h : Nat) (f : fb_info) (hwf : wf s)
    (hd : ∀ d, s.devs p = some d → d.present = VFB2_NOT_PRESENT)
    (hf : s.infos h = some f) (hi : f.par = none ∨ f.par = some p) :
    vfb2_get_present_dev s (some h) = some none := by
  rcases absent_handle s p h f hwf hd hf hi with hg | ⟨hg, d, hdev, hp⟩
  · simp [vfb2_get_present_dev, hg]
  · simp [vfb2_get_present_dev, hg, hdev, hp]

/-- A handle whose `fb_info` has been released: `vfb2_get_dev` reads released
memory. -/
theorem released_handle (s : State) (h : Nat) (hf : s.infos h = none) :
    vfb2_get_dev s (some h) = none ∧ vfb2_get_present_dev s (some h) = none := by
  have hg : vfb2_get_dev s (some h) = none := by simp [vfb2_get_dev, hf]
  exact ⟨hg, by simp [vfb2_get_present_dev, hg]⟩

/-- An `fb_info` that is allocated at the end of a run was allocated in every
state of the run: the allocator of the model hands out no address a second
time, so "allocated at the end" is "not released so far". -/
theorem allocated_throughout (pf : platform) (handler : Nat → Nat → Nat → Int → Int)
    (s1 sm s2 : State) (ops1 ops2 : List Op) (h : Nat) (fi2 : fb_info)
    (hwf : wf s1) (hh : h < s1.brk)
    (h1 : run pf handler s1 ops1 = some sm) (h2 : run pf handler sm ops2 = some s2)
    (hf : s2.infos h = some fi2) : ∃ fi, sm.infos h = some fi := by
  obtain ⟨wm, hbrk, -, -⟩ := run_keeps pf handler s1 ops1 s1 sm hwf (evolves_refl _) h1
  obtain ⟨-, -, -, hinf⟩ := run_keeps pf handler sm ops2 sm s2 wm (evolves_refl _) h2
  obtain ⟨fi, hfi, -⟩ := hinf h fi2 (by omega) hf
  exact ⟨fi, hfi⟩

/-- A device that is allocated at the end of a run was allocated in every state
of the run. -/
theorem device_allocated_throughout (pf : platform) (handler : Nat → Nat → Nat → Int → Int)
    (s1 sm s2 : State) (ops1 ops2 : List Op) (p : Nat) (d2 : vfb2_device)
    (hwf : wf s1) (hp : p < s1.brk)
    (h1 : run pf handler s1 ops1 = some sm) (h2 : run pf handler sm ops2 = some s2)
    (hd : s2.devs p = some d2) : ∃ d, sm.devs p = some d := by
  obtain ⟨wm, hbrk, -, -⟩ := run_keeps pf handler s1 ops1 s1 sm hwf (evolves_refl _) h1
  obtain ⟨-, -, hdev, -⟩ := run_keeps pf handler sm ops2 sm s2 wm (evolves_refl _) h2
  obtain ⟨d, hd', -⟩ := hdev p d2 (by omega) hd
  exact ⟨d, hd'⟩

/-- C6, for a handle that has not been released.  Take a device registered in
slot `i` of a well-formed registry and named by the `fb_info` at `h`.  From the
moment `vfb2_unregister` has marked it (after its locked part, or after the
whole call), however the operations of the driver are called afterwards, the
device is never marked present again as long as it exists, and as long as the
`fb_info` at `h` has not been released (it is allocated in the state reached,
see `allocated_throughout` and `device_allocated_throughout`), `vfb2_open`,
`vfb2_ioctl`,
`vfb2_check_var`, `vfb2_set_par` and `vfb2_setcolreg` on `h` return -ENODEV and
leave the state as it is.  Once the `fb_info` has been released (the device was
destroyed), each of these calls reads released memory and nothing is
promised. -/
theorem absent_is_final (pf : platform) (handler : Nat → Nat → Nat → Int → Int)
    (s0 : State) (i p h : Nat) (d : vfb2_device) (fi : fb_info)
    (hwf : wf s0) (hslot : s0.vfb2_table[i]? = some (some p)) (hd : s0.devs p = some d)
    (hfi : s0.infos h = some fi) (hpar : fi.par = some p)
    (s1 : State)
    (hmark : (∃ found, vfb2_unregister_locked s0 (i : Int) = some (s1, found)) ∨
      vfb2_unregister s0 (i : Int) = some s1)
    (ops : List Op) (s2 : State) (hrun : run pf handler s1 ops = some s2) :
    (∀ d2, s2.devs p = some d2 → d2.present = VFB2_NOT_PRESENT) ∧
    (∀ fi2, s2.infos h = some fi2 →
      vfb2_open s2 (some h) = some (s2, -ENODEV) ∧
      (∀ cmd arg, vfb2_ioctl handler s2 cmd arg (some h) = some (s2, -ENODEV)) ∧
      (∀ var, vfb2_check_var pf s2 var (some h) = some (var, -ENODEV)) ∧
      vfb2_set_par pf s2 (some h) = some (s2, -ENODEV) ∧
      (∀ regno red green blue transp,
        vfb2_setcolreg s2 regno red green blue transp (some h) = some (s2, -ENODEV))) ∧
    (s2.infos h = none →
      vfb2_open s2 (some h) = none ∧
      (∀ cmd arg, vfb2_ioctl handler s2 cmd arg (some h) = none) ∧
      (∀ var, vfb2_check_var pf s2 var (some h) = none) ∧
      vfb2_set_par pf s2 (some h) = none ∧
      (∀ regno red green blue transp,
        vfb2_setcolreg s2 regno red green blue transp (some h) = none)) := by
  -- the state right after the device was marked
  have hidx := vfb2_index_to_dev_slot s0 i p hslot
  have hlocked : vfb2_unregister_locked s0 (i : Int) =
      some (set_dev s0 p (some { d with present := VFB2_NOT_PRESENT }), some (p, d.open_)) := by
    simp [vfb2_unregister_locked, hidx, hd]
  obtain ⟨wm, -⟩ := vfb2_unregister_locked_keeps s0 s0 _ (i : Int) _ hwf (evolves_refl _) hlocked
  have hp_lt : p < s0.brk := hwf.2.1 p d hd
  have hh_lt : h < s0.brk := hwf.2.2 h fi hfi
  have hs1 : wf s1 ∧ evolves (set_dev s0 p (some { d with present := VFB2_NOT_PRESENT })) s1 := by
    rcases hmark with ⟨found, hm⟩ | hm
    · rw [hlocked] at hm
      simp only [Option.some.injEq, Prod.mk.injEq] at hm
      rw [← hm.1]
      exact ⟨wm, evolves_refl _⟩
    · simp only [vfb2_unregister, hlocked] at hm
      split at hm
      · exact vfb2_remove_keeps _ _ s1 (some p) wm (evolves_refl _) hm
      · simp only [Option.some.injEq] at hm
        rw [← hm]
        exact ⟨wm, evolves_refl _⟩
  obtain ⟨w2, -, hev_d, hev_i⟩ := run_keeps pf handler _ ops s1 s2 hs1.1 hs1.2 hrun
  have hd2 : ∀ d2, s2.devs p = some d2 → d2.present = VFB2_NOT_PRESENT := by
    intro d2 h2
    obtain ⟨dm, hdm, hkeep⟩ := hev_d p d2 (by simpa using hp_lt) h2
    simp only [set_dev_devs_same, Option.some.injEq] at hdm
    subst hdm
    exact hkeep rfl
  have hi2 : ∀ f2, s2.infos h = some f2 → f2.par = none ∨ f2.par = some p := by
    intro f2 h2
    obtain ⟨fm, hfm, hkeep⟩ := hev_i h f2 (by simpa using hh_lt) h2
    simp only [set_dev_infos, hfi, Option.some.injEq] at hfm
    subst hfm
    rcases hkeep with hk | hk
    · exact Or.inr (hk.trans hpar)
    · exact Or.inl hk
  refine ⟨hd2, fun fi2 hf2 => ?_, fun hf2 => ?_⟩
  · have hgp := absent_get_present_dev s2 p h fi2 w2 hd2 hf2 (hi2 fi2 hf2)
    refine ⟨?_, ?_, ?_, ?_, ?_⟩
    · rcases absent_handle s2 p h fi2 w2 hd2 hf2 (hi2 fi2 hf2) with hg | ⟨hg, dd, hdev, hp⟩
      · simp [vfb2_open, hg]
      · simp [vfb2_open, hg, hdev, hp]
    · intro cmd arg
      simp [vfb2_ioctl, hgp]
    · intro var
      simp [vfb2_check_var, hgp]
    · simp [vfb2_set_par, hgp]
    · intro regno red green blue transp
      simp [vfb2_setcolreg, hgp]
  · obtain ⟨hg, hgp⟩ := released_handle s2 h hf2
    refine ⟨?_, ?_, ?_, ?_, ?_⟩
    · simp [vfb2_open, hg]
    · intro cmd arg
      simp [vfb2_ioctl, hgp]
    · intro var
      simp [vfb2_check_var, hgp]
    · simp [vfb2_set_par, hgp]
    · intro regno red green blue transp
      simp [vfb2_setcolreg, hgp]

theorem sample_state_wf (present open_ : Int) : wf (sample_state present open_) := by
  refine ⟨?_, ?_, ?_⟩
  · intro i q h
    have hi : i = 0 ∧ q = 0 := by
      simp only [sample_state] at h
      match i, h with
      | 0, h => simpa using h.symm
      | 1, h => simp at h
      | 2, h => simp at h
      | 3, h => simp at h
      | n + 4, h => simp at h
    obtain ⟨rfl, rfl⟩ := hi
    exact ⟨_, sample_state_dev _ _, rfl⟩
  · intro a d h
    simp only [sample_state] at h
    split at h
    · rename_i ha
      subst ha
      exact Nat.zero_lt_succ _
    · simp at h
  · intro a fi h
    simp only [sample_state] at h
    split at h
    · rename_i ha
      subst ha
      exact Nat.succ_lt_succ (Nat.zero_lt_succ _)
    · simp at h

/-- Witness for C6: the sample device, opened once, is unregistered; an open of
its handle, a new registration and a mode change of the new device follow, and
the handle of the old device is still allocated. -/
theorem absent_is_final_witness :
    ∃ s1 s2 fi2,
      vfb2_unregister (sample_state VFB2_PRESENT 1) ((0 : Nat) : Int) = some s1 ∧
      run ⟨64, 4096⟩ (fun _ _ _ _ => 0) s1
        [Op.fb_open (some 1), Op.register env_ok (some sample_init),
          Op.store_var (request 800 600 16) 5, Op.fb_set_par (some 5)]
        = some s2 ∧
      s2.infos 1 = some fi2 ∧
      (∀ d2, s2.devs 0 = some d2 → d2.present = VFB2_NOT_PRESENT) ∧
      vfb2_open s2 (some 1) = some (s2, -ENODEV) ∧
      (∀ cmd arg, vfb2_ioctl (fun _ _ _ _ => 0) s2 cmd arg (some 1) = some (s2, -ENODEV)) ∧
      (∀ var, vfb2_check_var ⟨64, 4096⟩ s2 var (some 1) = some (var, -ENODEV)) ∧
      vfb2_set_par ⟨64, 4096⟩ s2 (some 1) = some (s2, -ENODEV) ∧
      (∀ regno red green blue transp,
        vfb2_setcolreg s2 regno red green blue transp (some 1) = some (s2, -ENODEV)) := by
  have h1 : ∃ s1, vfb2_unregister (sample_state VFB2_PRESENT 1) ((0 : Nat) : Int) = some s1 :=
    ⟨_, rfl⟩
  obtain ⟨s1, h1⟩ := h1
  have h2 : ∃ s2 fi2, run ⟨64, 4096⟩ (fun _ _ _ _ => 0) s1
      [Op.fb_open (some 1), Op.register env_ok (some sample_init),
        Op.store_var (request 800 600 16) 5, Op.fb_set_par (some 5)]
      = some s2 ∧ s2.infos 1 = some fi2 := by
    simp only [vfb2_unregister, vfb2_unregister_locked] at h1
    have e : s1 = set_dev (sample_state VFB2_PRESENT 1) 0
        (some { (sample_dev 1920000 sample_table 0) with
                  present := VFB2_NOT_PRESENT, open_ := 1, info := some 1 }) := by
      have := h1
      injection this with this
      exact this.symm
    subst e
    exact ⟨_, _, rfl, rfl⟩
  obtain ⟨s2, fi2, h2, h3⟩ := h2
  have key := absent_is_final ⟨64, 4096⟩ (fun _ _ _ _ => 0) (sample_state VFB2_PRESENT 1) 0 0 1 _
      (new_fb_info 0 (sample_dev 1920000 sample_table 0)) (sample_state_wf _ _) rfl
      (sample_state_dev _ _) rfl rfl s1 (Or.inr h1) _ s2 h2
  exact ⟨s1, s2, fi2, h1, h2, h3, key.1, key.2.1 fi2 h3⟩

/-- The claim C6 as worded fails for a handle kept after the device was
destroyed.  `vfb2_unregister` of the sample device, which nobody has open,
destroys it and releases its `fb_info`; `vfb2_open` on the old handle then
reads released memory instead of returning -ENODEV, and once the two freed
blocks hold a new device the same call returns 0 and opens that device. -/
theorem absent_stale_handle :
    ∃ s1, vfb2_unregister (sample_state VFB2_PRESENT 0) ((0 : Nat) : Int) = some s1 ∧
      s1.devs 0 = none ∧ s1.infos 1 = none ∧
      vfb2_open s1 (some 1) = none ∧
      vfb2_open s1 (some 1) ≠ some (s1, -ENODEV) ∧
      ∃ s2 d2, vfb2_open (reused_state s1) (some 1) = some (s2, 0) ∧
        s2.devs 0 = some d2 ∧ d2.open_ = 1 := by
  obtain ⟨s1, h1, h2, h3, h4⟩ :
      ∃ s1, vfb2_unregister (sample_state VFB2_PRESENT 0) ((0 : Nat) : Int) = some s1 ∧
        s1.devs 0 = none ∧ s1.infos 1 = none ∧
        ∃ s2 d2, vfb2_open (reused_state s1) (some 1) = some (s2, 0) ∧
          s2.devs 0 = some d2 ∧ d2.open_ = 1 :=
    ⟨_, rfl, rfl, rfl, _, _, rfl, rfl, rfl⟩
  have h5 : vfb2_open s1 (some 1) = none := by simp [vfb2_open, vfb2_get_dev, h3]
  exact ⟨s1, h1, h2, h3, h5, by simp [h5], h4⟩


/-! ## Theorems: the device is destroyed exactly once -/

theorem registered_get_dev (s : State) (p q i : Nat) (d : vfb2_device)
    (h : registered s p q i d) : vfb2_get_dev s (some q) = some (some p) := by
  obtain ⟨hslot, -, -, -, -, fi, hfi, hpar⟩ := h
  have hf : ¬ vfb2_find_dev s p < 0 := by
    have := vfb2_find_loop_nonneg p s.vfb2_table 0 i (le_refl _) hslot
    simp only [vfb2_find_dev]
    omega
  simp [vfb2_get_dev, hfi, hpar, hf]

theorem registered_set_dev (s : State) (p q i : Nat) (d d' : vfb2_device)
    (h : registered s p q i d) (hti : d'.table_index = d.table_index) (hinf : d'.info = d.info) :
    registered (set_dev s p (some d')) p q i d' := by
  obtain ⟨hslot, huniq, -, hidx, hinfo, fi, hfi, hpar⟩ := h
  exact ⟨hslot, huniq, by simp, hti.trans hidx, hinf.trans hinfo, fi, hfi, hpar⟩

/-- Destroying a registered device takes it out of the table. -/
theorem registered_cleared (s : State) (p q i : Nat) (d : vfb2_device)
    (h : registered s p q i d) :
    cleared s (set_dev (set_info (set_slot s i none) q none) p none) (some p) = true := by
  obtain ⟨hslot, huniq, -, -, -, -⟩ := h
  have h1 : 0 ≤ vfb2_find_dev s p :=
    vfb2_find_loop_nonneg p s.vfb2_table 0 i (le_refl _) hslot
  have h2 : vfb2_find_dev (set_dev (set_info (set_slot s i none) q none) p none) p = -1 := by
    apply vfb2_find_loop_neg
    intro j hj
    simp only [set_dev_table, set_info_table, set_slot_table] at hj
    obtain ⟨hj1, hj2⟩ := getElem?_set_none_some _ _ _ _ hj
    exact hj2 (huniq j hj1)
  simp [cleared, h1, h2]

theorem registered_remove (s : State) (p q i : Nat) (d : vfb2_device)
    (h : registered s p q i d) (hpres : d.present = VFB2_NOT_PRESENT) (hopen : d.open_ = 0) :
    vfb2_remove s (some p) = some (set_dev (set_info (set_slot s i none) q none) p none) := by
  obtain ⟨hslot, -, hd, hidx, hinfo, fi, hfi, -⟩ := h
  have hlen : i < s.vfb2_table.length := by
    by_contra hge
    rw [List.getElem?_eq_none (by omega)] at hslot
    simp at hslot
  exact vfb2_remove_destroys s p i q d fi hd hidx hlen
    (by rw [hpres]; decide) hopen hinfo hfi

theorem count_pos_of_getElem? (l : List release_pc) (t : Nat) (a : release_pc)
    (h : l[t]? = some a) : 0 < l.count a := by
  rw [List.count_pos_iff]
  exact List.getElem?_mem h

theorem count_start_set (l : List release_pc) (t : Nat) (a b : release_pc)
    (h : l[t]? = some a) (hb : b ≠ release_pc.start) :
    (l.set t b).count release_pc.start =
      l.count release_pc.start - (if a = release_pc.start then 1 else 0) := by
  have hlen : t < l.length := by
    by_contra hge
    rw [List.getElem?_eq_none (by omega)] at h
    simp at h
  have hget : l[t] = a := by
    rw [List.getElem?_eq_getElem hlen] at h
    simpa using h
  rw [List.count_set _ _ _ _ hlen, hget]
  simp [hb]

theorem getElem?_set_locked (l : List release_pc) (t t' : Nat) (a b x : release_pc)
    (h : l[t]? = some a) (hx : (l.set t b)[t']? = some x) :
    (t' = t ∧ x = b) ∨ (t' ≠ t ∧ l[t']? = some x) := by
  have hlen : t < l.length := by
    by_contra hge
    rw [List.getElem?_eq_none (by omega)] at h
    simp at h
  rw [List.getElem?_set] at hx
  by_cases htt : t = t'
  · subst htt
    simp only [if_true, hlen] at hx
    simp only [Option.some.injEq] at hx
    exact Or.inl ⟨rfl, hx.symm⟩
  · simp only [htt, if_false] at hx
    exact Or.inr ⟨fun e => htt e.symm, hx⟩

theorem release_left_set (l : List release_pc) (t t' : Nat) (a b : release_pc)
    (h : l[t]? = some a) :
    release_left (l.set t b)[t']? =
      if t' = t then release_left (some b) else release_left l[t']? := by
  have hlen : t < l.length := by
    by_contra hge
    rw [List.getElem?_eq_none (by omega)] at h
    simp at h
  rw [List.getElem?_set]
  by_cases htt : t = t'
  · subst htt
    simp [hlen]
  · have : ¬ t' = t := fun e => htt e.symm
    simp [htt, this]

/-- The locked part of a call of `vfb2_release` keeps the invariant. -/
theorem step_release_start (c : Config) (p q i t : Nat)
    (hinv : alive_inv c p q i ∨ gone_inv c p i)
    (hmax : (c.releases.length : Int) ≤ INT_MAX)
    (ht : c.releases[t]? = some release_pc.start) :
    ∃ c' dv rm, step (some q) (i : Int) c (some t) = some c' ∧
      (alive_inv c' p q i ∨ gone_inv c' p i) ∧ c'.unregister = c.unregister ∧
      c'.releases = c.releases.set t (release_pc.locked dv rm) := by
  have hcount := count_pos_of_getElem? c.releases t _ ht
  rcases hinv with hal | hgone
  · obtain ⟨d, hreg, hopen, hlog, hnft, hdv, huniq, hpend, hun⟩ := hal
    have hget := registered_get_dev c.st p q i d hreg
    have hd : c.st.devs p = some d := hreg.2.2.1
    have hold : no_pending c.releases := by
      by_contra hnp
      have := (hpend hnp).1
      omega
    have hdec : atomic_dec d.open_ = d.open_ - 1 := by
      have hle := List.count_le_length release_pc.start c.releases
      simp only [INT_MAX] at hmax
      apply atomic_dec_id
      · rw [hopen]
        simp only [INT_MIN]
        omega
      · rw [hopen]
        simp only [INT_MAX]
        omega
    refine ⟨{ c with st := set_dev c.st p (some { d with open_ := d.open_ - 1 }),
                     releases := c.releases.set t (release_pc.locked (some p)
                       (decide (d.open_ - 1 = 0) && decide (d.present = VFB2_NOT_PRESENT))) },
      some p, _, ?_, Or.inl ?_, rfl, rfl⟩
    · simp [step, ht, vfb2_release_locked, hget, hd, hdec]
    · have hnew : ∀ (t' : Nat) dv, (c.releases.set t (release_pc.locked (some p)
            (decide (d.open_ - 1 = 0) && decide (d.present = VFB2_NOT_PRESENT))))[t']? =
            some (release_pc.locked dv true) →
            t' = t ∧ d.open_ - 1 = 0 ∧ d.present = VFB2_NOT_PRESENT := by
        intro t' dv hx
        rcases getElem?_set_locked _ _ _ _ _ _ ht hx with ⟨h1, h2⟩ | ⟨-, h2⟩
        · simp only [release_pc.locked.injEq] at h2
          have h3 := h2.2.symm
          simp only [Bool.and_eq_true, decide_eq_true_eq] at h3
          exact ⟨h1, h3.1, h3.2⟩
        · exact absurd h2 (hold t' dv)
      refine ⟨{ d with open_ := d.open_ - 1 }, registered_set_dev _ p q i d _ hreg rfl rfl,
        ?_, hlog, ?_, ?_, ?_, ?_, ?_⟩
      · simp only
        rw [count_start_set _ _ _ _ ht (by simp)]
        simp only [if_true]
        rw [hopen]
        omega
      · intro t' hx
        simp only at hx
        rcases getElem?_set_locked _ _ _ _ _ _ ht hx with ⟨-, h2⟩ | ⟨-, h2⟩
        · simp at h2
        · exact hnft t' h2
      · intro t' dv rm hx
        simp only at hx
        rcases getElem?_set_locked _ _ _ _ _ _ ht hx with ⟨-, h2⟩ | ⟨-, h2⟩
        · simp only [release_pc.locked.injEq] at h2
          exact h2.1
        · exact hdv t' dv rm h2
      · intro t1 t2 dv1 dv2 h1 h2
        exact (hnew t1 dv1 h1).1.trans (hnew t2 dv2 h2).1.symm
      · intro hnp
        simp only [no_pending] at hnp
        push_neg at hnp
        obtain ⟨t', dv, hx⟩ := hnp
        exact (hnew t' dv hx).2
      · have hpendnew : d.open_ - 1 = 0 → d.present = VFB2_NOT_PRESENT →
            ¬ no_pending (c.releases.set t (release_pc.locked (some p)
              (decide (d.open_ - 1 = 0) && decide (d.present = VFB2_NOT_PRESENT)))) := by
          intro h1 h2 hnp
          apply hnp t (some p)
          have hlen : t < c.releases.length := by
            by_contra hge
            rw [List.getElem?_eq_none (by omega)] at ht
            simp at ht
          simp [List.getElem?_set, hlen, h1, h2]
        cases hu : c.unregister with
        | start =>
          simp only [hu] at hun ⊢
          exact hun
        | locked found =>
          simp only [hu] at hun ⊢
          obtain ⟨o, hf, hp, h0, h1⟩ := hun
          refine ⟨o, hf, hp, ?_, ?_⟩
          · intro ho
            have := (h0 ho).1
            omega
          · intro _ hop
            exact hpendnew hop hp
        | finished found =>
          simp only [hu] at hun ⊢
          obtain ⟨o, hf, ho, hp, h1⟩ := hun
          exact ⟨o, hf, ho, hp, fun hop => hpendnew hop hp⟩
  · obtain ⟨-, -, hzero, -⟩ := hgone
    omega

theorem no_pending_set_finished (l : List release_pc) (t : Nat) (dv : Option Nat) (rm b : Bool)
    (ht : l[t]? = some (release_pc.locked dv rm))
    (hold : rm = true → ∀ (t' : Nat) dv', l[t']? = some (release_pc.locked dv' true) → t' = t) :
    (rm = false → (no_pending (l.set t (release_pc.finished b)) ↔ no_pending l)) ∧
    (rm = true → no_pending (l.set t (release_pc.finished b))) := by
  have hlen : t < l.length := by
    by_contra hge
    rw [List.getElem?_eq_none (by omega)] at ht
    simp at ht
  constructor
  · intro hrm
    subst hrm
    constructor
    · intro hnp t' dv' hx
      have htt : t' ≠ t := by
        intro e
        subst e
        rw [ht] at hx
        simp at hx
      apply hnp t' dv'
      rw [List.getElem?_set]
      simp [Ne.symm htt, hx]
    · intro hnp t' dv' hx
      rcases getElem?_set_locked _ _ _ _ _ _ ht hx with ⟨-, h2⟩ | ⟨-, h2⟩
      · simp at h2
      · exact hnp t' dv' h2
  · intro hrm t' dv' hx
    rcases getElem?_set_locked _ _ _ _ _ _ ht hx with ⟨-, h2⟩ | ⟨h1, h2⟩
    · simp at h2
    · exact h1 (hold hrm t' dv' h2)

/-- The call of `vfb2_remove` at the end of a call of `vfb2_release` keeps the
invariant; when `remove` is set it destroys the device. -/
theorem step_release_finish (c : Config) (p q i t : Nat) (dv : Option Nat) (rm : Bool)
    (hinv : alive_inv c p q i ∨ gone_inv c p i)
    (ht : c.releases[t]? = some (release_pc.locked dv rm)) :
    ∃ c', step (some q) (i : Int) c (some t) = some c' ∧
      (alive_inv c' p q i ∨ gone_inv c' p i) ∧ c'.unregister = c.unregister ∧
      c'.releases = c.releases.set t (release_pc.finished rm) := by
  have hlen : t < c.releases.length := by
    by_contra hge
    rw [List.getElem?_eq_none (by omega)] at ht
    simp at ht
  have hcnt : (c.releases.set t (release_pc.finished rm)).count release_pc.start =
      c.releases.count release_pc.start := by
    rw [count_start_set _ _ _ _ ht (by simp)]
    simp
  have hfin : ∀ t' : Nat, (c.releases.set t (release_pc.finished rm))[t']? =
      some (release_pc.finished true) →
      (t' = t ∧ rm = true) ∨ (t' ≠ t ∧ c.releases[t']? = some (release_pc.finished true)) := by
    intro t' hx
    rcases getElem?_set_locked _ _ _ _ _ _ ht hx with ⟨h1, h2⟩ | ⟨h1, h2⟩
    · simp only [release_pc.finished.injEq] at h2
      exact Or.inl ⟨h1, h2.symm⟩
    · exact Or.inr ⟨h1, h2⟩
  rcases hinv with hal | hgone
  · obtain ⟨d, hreg, hopen, hlog, hnft, hdv, huniq, hpend, hun⟩ := hal
    have hdvp := hdv t dv rm ht
    subst hdvp
    cases rm with
    | false =>
      obtain ⟨hnp, -⟩ := no_pending_set_finished c.releases t (some p) false false ht (by simp)
      have hnp := hnp rfl
      refine ⟨{ c with releases := c.releases.set t (release_pc.finished false) }, ?_, Or.inl ?_,
        rfl, rfl⟩
      · simp [step, ht]
      · refine ⟨d, hreg, ?_, hlog, ?_, ?_, ?_, ?_, ?_⟩
        · simp only [hcnt]
          exact hopen
        · intro t' hx
          rcases hfin t' hx with ⟨-, h2⟩ | ⟨-, h2⟩
          · simp at h2
          · exact hnft t' h2
        · intro t' dv' rm' hx
          simp only at hx
          rcases getElem?_set_locked _ _ _ _ _ _ ht hx with ⟨-, h2⟩ | ⟨-, h2⟩
          · simp at h2
          · exact hdv t' dv' rm' h2
        · intro t1 t2 dv1 dv2 h1 h2
          simp only at h1 h2
          rcases getElem?_set_locked _ _ _ _ _ _ ht h1 with ⟨-, h1⟩ | ⟨-, h1⟩
          · simp at h1
          · rcases getElem?_set_locked _ _ _ _ _ _ ht h2 with ⟨-, h2⟩ | ⟨-, h2⟩
            · simp at h2
            · exact huniq t1 t2 dv1 dv2 h1 h2
        · intro h
          exact hpend (fun hh => h (hnp.2 hh))
        · cases hu : c.unregister with
          | start =>
            simp only [hu] at hun ⊢
            exact hun
          | locked found =>
            simp only [hu] at hun ⊢
            obtain ⟨o, hf, hp, h0, h1⟩ := hun
            exact ⟨o, hf, hp, fun ho => ⟨(h0 ho).1, hnp.2 (h0 ho).2⟩,
              fun ho hop hh => h1 ho hop (hnp.1 hh)⟩
          | finished found =>
            simp only [hu] at hun ⊢
            obtain ⟨o, hf, ho, hp, h1⟩ := hun
            exact ⟨o, hf, ho, hp, fun hop hh => h1 hop (hnp.1 hh)⟩
    | true =>
      have hpd : ¬ no_pending c.releases := fun hh => hh t (some p) ht
      obtain ⟨hop0, hpres⟩ := hpend hpd
      have hrm := registered_remove c.st p q i d hreg hpres hop0
      have hcl := registered_cleared c.st p q i d hreg
      obtain ⟨-, hnp⟩ := no_pending_set_finished c.releases t (some p) true true ht
        (fun _ t' dv' hx => huniq t' t dv' (some p) hx ht)
      have hnp := hnp rfl
      have hslot := hreg.1
      have hlen_i : i < c.st.vfb2_table.length := by
        by_contra hge
        rw [List.getElem?_eq_none (by omega)] at hslot
        simp at hslot
      refine ⟨{ c with st := set_dev (set_info (set_slot c.st i none) q none) p none,
                       destroyed_by := c.destroyed_by ++ [some t],
                       releases := c.releases.set t (release_pc.finished true) }, ?_, Or.inr ?_,
        rfl, rfl⟩
      · simp [step, ht, remove_by, hrm, hcl]
      · refine ⟨by simp, by simp [List.getElem?_set, hlen_i], ?_, hnp, Or.inr ?_⟩
        · simp only [hcnt]
          omega
        · have hunr : ∃ o : Int, o ≠ 0 ∧
              (c.unregister = unregister_pc.locked (some (p, o)) ∨
                c.unregister = unregister_pc.finished (some (p, o))) := by
            cases hu : c.unregister with
            | start =>
              simp only [hu] at hun
              rw [hpres] at hun
              exact absurd hun (by decide)
            | locked found =>
              simp only [hu] at hun
              obtain ⟨o, hf, -, h0, -⟩ := hun
              subst hf
              refine ⟨o, ?_, Or.inl rfl⟩
              intro ho
              exact hpd (h0 ho).2
            | finished found =>
              simp only [hu] at hun
              obtain ⟨o, hf, ho, -, -⟩ := hun
              subst hf
              exact ⟨o, ho, Or.inr rfl⟩
          obtain ⟨o, ho, hu⟩ := hunr
          refine ⟨t, o, by simp [hlog], by simp [List.getElem?_set, hlen], ho, hu, ?_⟩
          intro t' hx
          rcases hfin t' hx with ⟨h1, -⟩ | ⟨-, h2⟩
          · exact h1
          · exact absurd h2 (hnft t')
  · obtain ⟨hdev, htab, hzero, hnp0, halt⟩ := hgone
    cases rm with
    | true => exact absurd ht (hnp0 t dv)
    | false =>
      obtain ⟨hnp, -⟩ := no_pending_set_finished c.releases t dv false false ht (by simp)
      have hnp := hnp rfl
      refine ⟨{ c with releases := c.releases.set t (release_pc.finished false) }, ?_, Or.inr ?_,
        rfl, rfl⟩
      · simp [step, ht]
      · refine ⟨hdev, htab, by simp only [hcnt]; exact hzero, hnp.2 hnp0, ?_⟩
        rcases halt with ⟨h1, h2, h3⟩ | ⟨t0, o, h1, h2, h3, h4, h5⟩
        · refine Or.inl ⟨h1, h2, ?_⟩
          intro t' hx
          rcases hfin t' hx with ⟨-, h⟩ | ⟨-, h⟩
          · simp at h
          · exact h3 t' h
        · refine Or.inr ⟨t0, o, h1, ?_, h3, h4, ?_⟩
          · have : t0 ≠ t := by
              intro e
              subst e
              rw [ht] at h2
              simp at h2
            simp only
            rw [List.getElem?_set]
            simp [Ne.symm this, h2]
          · intro t' hx
            rcases hfin t' hx with ⟨-, h⟩ | ⟨-, h⟩
            · simp at h
            · exact h5 t' h

/-- The locked part of `vfb2_unregister` keeps the invariant. -/
theorem step_unregister_start (c : Config) (p q i : Nat)
    (hinv : alive_inv c p q i ∨ gone_inv c p i) (hu : c.unregister = unregister_pc.start) :
    ∃ c' found, step (some q) (i : Int) c none = some c' ∧
      (alive_inv c' p q i ∨ gone_inv c' p i) ∧ c'.releases = c.releases ∧
      c'.unregister = unregister_pc.locked found := by
  rcases hinv with hal | hgone
  · obtain ⟨d, hreg, hopen, hlog, hnft, hdv, huniq, hpend, hun⟩ := hal
    simp only [hu] at hun
    have hidx := vfb2_index_to_dev_slot c.st i p hreg.1
    have hd : c.st.devs p = some d := hreg.2.2.1
    have hnp : no_pending c.releases := by
      by_contra h
      have := (hpend h).2
      rw [hun] at this
      exact absurd this (by decide)
    refine ⟨{ c with st := set_dev c.st p (some { d with present := VFB2_NOT_PRESENT }),
                     unregister := unregister_pc.locked (some (p, d.open_)) }, _, ?_, Or.inl ?_,
      rfl, rfl⟩
    · simp [step, hu, vfb2_unregister_locked, hidx, hd]
    · refine ⟨{ d with present := VFB2_NOT_PRESENT }, registered_set_dev _ p q i d _ hreg rfl rfl,
        hopen, hlog, hnft, hdv, huniq, fun h => absurd hnp h, ?_⟩
      exact ⟨d.open_, rfl, rfl, fun ho => ⟨ho, hnp⟩, fun ho hop => absurd hop ho⟩
  · obtain ⟨-, -, -, -, halt⟩ := hgone
    rcases halt with ⟨-, h2, -⟩ | ⟨t0, o, -, -, -, h4, -⟩
    · rw [hu] at h2
      simp at h2
    · rcases h4 with h4 | h4 <;>
      · rw [hu] at h4
        simp at h4

/-- The second section of `vfb2_unregister`, run while the device is still in
its slot, keeps the invariant; when the count read was zero it destroys the
device. -/
theorem step_unregister_finish (c : Config) (p q i : Nat) (found : Option (Nat × Int))
    (hal : alive_inv c p q i)
    (hu : c.unregister = unregister_pc.locked found) :
    ∃ c', step (some q) (i : Int) c none = some c' ∧
      (alive_inv c' p q i ∨ gone_inv c' p i) ∧ c'.releases = c.releases ∧
      c'.unregister = unregister_pc.finished found := by
  obtain ⟨d, hreg, hopen, hlog, hnft, hdv, huniq, hpend, hun⟩ := hal
  have hd : c.st.devs p = some d := hreg.2.2.1
  simp only [hu] at hun
  obtain ⟨o, hf, hpres, h0, h1⟩ := hun
  subst hf
  by_cases ho : o = 0
  · subst ho
    obtain ⟨hop0, hnp⟩ := h0 rfl
    have hrm := registered_remove c.st p q i d hreg hpres hop0
    have hcl := registered_cleared c.st p q i d hreg
    have hslot := hreg.1
    have hlen_i : i < c.st.vfb2_table.length := by
      by_contra hge
      rw [List.getElem?_eq_none (by omega)] at hslot
      simp at hslot
    refine ⟨{ c with st := set_dev (set_info (set_slot c.st i none) q none) p none,
                     destroyed_by := c.destroyed_by ++ [none],
                     unregister := unregister_pc.finished (some (p, 0)) }, ?_, Or.inr ?_,
      rfl, rfl⟩
    · simp [step, hu, hd, remove_by, hrm, hcl]
    · refine ⟨by simp, by simp [List.getElem?_set, hlen_i], ?_, hnp, Or.inl ⟨?_, rfl, hnft⟩⟩
      · simp only
        omega
      · simp [hlog]
  · refine ⟨{ c with unregister := unregister_pc.finished (some (p, o)) }, ?_, Or.inl ?_,
      rfl, rfl⟩
    · simp [step, hu, hd, ho]
    · exact ⟨d, hreg, hopen, hlog, hnft, hdv, huniq, hpend, o, rfl, ho, hpres, h1 ho⟩

/-- The second section of `vfb2_unregister`, run after a call of `vfb2_release`
has destroyed the device, takes the semaphore of a device that has been
freed. -/
theorem step_unregister_freed (c : Config) (p q i : Nat) (found : Option (Nat × Int))
    (hgone : gone_inv c p i)
    (hu : c.unregister = unregister_pc.locked found) :
    step (some q) (i : Int) c none = none ∧
    ∃ (t : Nat) (o : Int), c.destroyed_by = [some t] ∧ found = some (p, o) ∧ o ≠ 0 ∧
      c.releases[t]? = some (release_pc.finished true) := by
  obtain ⟨hdev, htab, hzero, hnp, halt⟩ := hgone
  rcases halt with ⟨-, h2, -⟩ | ⟨t0, o, h1, h2, h3, h4, h5⟩
  · rw [hu] at h2
    simp at h2
  · have hf : found = some (p, o) := by
      rcases h4 with h4 | h4
      · rw [hu] at h4
        simpa using h4
      · rw [hu] at h4
        simp at h4
    subst hf
    exact ⟨by simp [step, hu, hdev], t0, o, h1, rfl, h3, h2⟩

theorem run_schedule_append (info : Option Nat) (ti : Int) :
    ∀ (pre post : List (Option Nat)) (c c' : Config),
      run_schedule info ti c pre = some c' →
      run_schedule info ti c (pre ++ post) = run_schedule info ti c' post := by
  intro pre
  induction pre with
  | nil =>
    intro post c c' h
    simp only [run_schedule, Option.some.injEq] at h
    subst h
    rfl
  | cons who rest ih =>
    intro post c c' h
    simp only [run_schedule, List.cons_append] at h ⊢
    cases hs : step info ti c who with
    | none => simp [hs] at h
    | some c1 =>
      simp only [hs] at h ⊢
      exact ih post c1 c' h

/-- A run that reaches the freed device stops there. -/
theorem drain_after_free_stops (info : Option Nat) (ti : Int) (p : Nat) (c : Config)
    (sched : List (Option Nat)) (h : drain_after_free info ti p c sched) :
    run_schedule info ti c sched = none := by
  obtain ⟨pre, post, c', t, o, hs, hrun, hdev, -, hu, -⟩ := h
  rw [hs, run_schedule_append info ti pre (none :: post) c c' hrun]
  simp [run_schedule, step, hu, hdev]

theorem drain_after_free_cons (info : Option Nat) (ti : Int) (p : Nat) (c c1 : Config)
    (who : Option Nat) (rest : List (Option Nat)) (hstep : step info ti c who = some c1)
    (h : drain_after_free info ti p c1 rest) :
    drain_after_free info ti p c (who :: rest) := by
  obtain ⟨pre, post, c', t, o, hs, hrun, hrest⟩ := h
  refine ⟨who :: pre, post, c', t, o, by rw [hs]; rfl, ?_, hrest⟩
  simp only [run_schedule, hstep]
  exact hrun

/-- Every schedule that holds exactly the remaining critical sections of every
thread either runs to the end and keeps the invariant, or reaches the second
section of `vfb2_unregister` after a call of `vfb2_release` has destroyed the
device. -/
theorem run_schedule_inv (p q i : Nat) :
    ∀ (sched : List (Option Nat)) (c : Config),
      (alive_inv c p q i ∨ gone_inv c p i) →
      (c.releases.length : Int) ≤ INT_MAX →
      sched.count none = unregister_left c.unregister →
      (∀ t : Nat, sched.count (some t) = release_left c.releases[t]?) →
      (∃ c', run_schedule (some q) (i : Int) c sched = some c' ∧
        (alive_inv c' p q i ∨ gone_inv c' p i) ∧
        unregister_left c'.unregister = 0 ∧ (∀ t : Nat, release_left c'.releases[t]? = 0) ∧
        c'.releases.length = c.releases.length) ∨
      drain_after_free (some q) (i : Int) p c sched := by
  intro sched
  induction sched with
  | nil =>
    intro c hinv _ hu hr
    exact Or.inl
      ⟨c, rfl, hinv, by simpa using hu.symm, fun t => by simpa using (hr t).symm, rfl⟩
  | cons who rest ih =>
    intro c hinv hmax hu hr
    have hnext : ∀ c1 : Config, step (some q) (i : Int) c who = some c1 →
        (alive_inv c1 p q i ∨ gone_inv c1 p i) →
        c1.releases.length = c.releases.length →
        rest.count none = unregister_left c1.unregister →
        (∀ t : Nat, rest.count (some t) = release_left c1.releases[t]?) →
        (∃ c', run_schedule (some q) (i : Int) c (who :: rest) = some c' ∧
          (alive_inv c' p q i ∨ gone_inv c' p i) ∧
          unregister_left c'.unregister = 0 ∧ (∀ t : Nat, release_left c'.releases[t]? = 0) ∧
          c'.releases.length = c.releases.length) ∨
        drain_after_free (some q) (i : Int) p c (who :: rest) := by
      intro c1 hstep hinv1 hlen1 hu1 hr1
      rcases ih c1 hinv1 (by rw [hlen1]; exact hmax) hu1 hr1 with
        ⟨c2, hrun, hinv2, h1, h2, h3⟩ | hrace
      · exact Or.inl ⟨c2, by simp only [run_schedule, hstep]; exact hrun, hinv2, h1, h2,
          by rw [h3, hlen1]⟩
      · exact Or.inr (drain_after_free_cons _ _ p c c1 who rest hstep hrace)
    cases who with
    | none =>
      simp only [List.count_cons_self] at hu
      have hr' : ∀ t : Nat, rest.count (some t) = release_left c.releases[t]? := by
        intro t
        have := hr t
        simpa using this
      cases hpc : c.unregister with
      | start =>
        obtain ⟨c1, found, hstep, hinv1, hrel1, hun1⟩ := step_unregister_start c p q i hinv hpc
        exact hnext c1 hstep hinv1 (by rw [hrel1])
          (by rw [hun1]; rw [hpc] at hu; simp only [unregister_left] at hu ⊢; omega)
          (by rw [hrel1]; exact hr')
      | locked found =>
        rcases hinv with hal | hgone
        · obtain ⟨c1, hstep, hinv1, hrel1, hun1⟩ := step_unregister_finish c p q i found hal hpc
          exact hnext c1 hstep hinv1 (by rw [hrel1])
            (by rw [hun1]; rw [hpc] at hu; simp only [unregister_left] at hu ⊢; omega)
            (by rw [hrel1]; exact hr')
        · obtain ⟨-, t, o, hlog, hf, ho, -⟩ := step_unregister_freed c p q i found hgone hpc
          subst hf
          exact Or.inr ⟨[], rest, c, t, o, rfl, rfl, hgone.1, hlog, hpc, ho⟩
      | finished found =>
        rw [hpc] at hu
        simp only [unregister_left] at hu
        omega
    | some t =>
      have hu' : rest.count none = unregister_left c.unregister := by
        simpa using hu
      have ht := hr t
      simp only [List.count_cons_self] at ht
      have hrest : ∀ (c1 : Config) (b : release_pc) (a : release_pc),
          c.releases[t]? = some a → release_left (some b) + 1 = release_left (some a) →
          c1.releases = c.releases.set t b →
          ∀ t' : Nat, rest.count (some t') = release_left c1.releases[t']? := by
        intro c1 b a ha hba hrel t'
        rw [hrel, release_left_set _ _ _ _ _ ha]
        by_cases htt : t' = t
        · subst htt
          simp only [if_true]
          rw [ha] at ht
          omega
        · simp only [htt, if_false]
          have := hr t'
          rw [List.count_cons_of_ne (by simpa using htt)] at this
          exact this
      cases hpc : c.releases[t]? with
      | none =>
        rw [hpc] at ht
        simp only [release_left] at ht
        omega
      | some pc =>
        cases pc with
        | start =>
          obtain ⟨c1, dv, rm, hstep, hinv1, hun1, hrel1⟩ :=
            step_release_start c p q i t hinv hmax hpc
          exact hnext c1 hstep hinv1 (by rw [hrel1, List.length_set])
            (by rw [hun1]; exact hu')
            (hrest c1 (release_pc.locked dv rm) _ hpc rfl hrel1)
        | locked dv rm =>
          obtain ⟨c1, hstep, hinv1, hun1, hrel1⟩ :=
            step_release_finish c p q i t dv rm hinv hpc
          exact hnext c1 hstep hinv1 (by rw [hrel1, List.length_set])
            (by rw [hun1]; exact hu')
            (hrest c1 (release_pc.finished rm) _ hpc rfl hrel1)
        | finished rm =>
          rw [hpc] at ht
          simp only [release_left] at ht
          omega

theorem init_config_inv (s0 : State) (p q i n : Nat) (d : vfb2_device)
    (hreg : registered s0 p q i d) (hpres : d.present = VFB2_PRESENT) (hopen : d.open_ = 0) :
    alive_inv (init_config (set_dev s0 p (some { d with open_ := d.open_ + (n : Int) })) n)
      p q i := by
  have hall : ∀ (t : Nat) (x : release_pc),
      (List.replicate n release_pc.start)[t]? = some x → x = release_pc.start := by
    intro t x hx
    exact (List.eq_of_mem_replicate (List.getElem?_mem hx))
  have hnp : no_pending (List.replicate n release_pc.start) := by
    intro t dv hx
    have := hall t _ hx
    simp at this
  refine ⟨{ d with open_ := d.open_ + (n : Int) }, registered_set_dev s0 p q i d _ hreg rfl rfl,
    ?_, rfl, ?_, ?_, ?_, fun h => absurd hnp h, hpres⟩
  · simp only [init_config, List.count_replicate_self]
    omega
  · intro t hx
    have := hall t _ hx
    simp at this
  · intro t dv rm hx
    have := hall t _ hx
    simp at this
  · intro t t' dv dv' hx
    have := hall t _ hx
    simp at this

/-- The part of C5 that the code keeps.  A device registered in slot `i`,
present and with open count 0, is opened `n` times, `n` at most `INT_MAX`; then
`n` calls of `vfb2_release` and one call of `vfb2_unregister` run, interleaved
in any way at their critical sections.  All opens succeed.  Either the
interleaving runs to the end, and then exactly one thread is recorded as having
destroyed the device (slot cleared, device freed): `vfb2_unregister` if and
only if the count it read was zero, and otherwise the one call of
`vfb2_release` whose decrement reached zero while the device was marked.  Or a
call of `vfb2_release` has destroyed the device when `vfb2_unregister` enters
its second section, which then takes the semaphore of the freed device. -/
theorem destroy_once_or_stale_drain (n : Nat) (hn : (n : Int) ≤ INT_MAX) (s0 : State)
    (p q i : Nat) (d : vfb2_device)
    (hreg : registered s0 p q i d) (hpres : d.present = VFB2_PRESENT) (hopen : d.open_ = 0)
    (sched : List (Option Nat)) (hvalid : valid_schedule n sched) :
    ∃ s1, open_times (some q) n s0 = some s1 ∧
      ((∃ c o, run_schedule (some q) (i : Int) (init_config s1 n) sched = some c ∧
        c.destroyed_by.length = 1 ∧
        c.st.vfb2_table[i]? = some none ∧ c.st.devs p = none ∧
        c.unregister = unregister_pc.finished (some (p, o)) ∧
        (∀ t, t < n → ∃ rm, c.releases[t]? = some (release_pc.finished rm)) ∧
        (c.destroyed_by = [none] ↔ o = 0) ∧
        (∀ t : Nat, c.destroyed_by = [some t] ↔
          c.releases[t]? = some (release_pc.finished true))) ∨
       (drain_after_free (some q) (i : Int) p (init_config s1 n) sched ∧
        run_schedule (some q) (i : Int) (init_config s1 n) sched = none)) := by
  obtain ⟨hv1, hv2, hv3⟩ := hvalid
  have hget := registered_get_dev s0 p q i d hreg
  have hopens := open_times_present (some q) p n s0 d hget hreg.2.2.1
    (by rw [hpres]; decide) (by rw [hopen]; decide) (by rw [hopen]; simpa using hn)
  have hinv := init_config_inv s0 p q i n d hreg hpres hopen
  refine ⟨_, hopens, ?_⟩
  rcases run_schedule_inv p q i sched
    (init_config (set_dev s0 p (some { d with open_ := d.open_ + (n : Int) })) n) (Or.inl hinv)
    (by simpa [init_config] using hn)
    (by simp [init_config, unregister_left, hv1])
    (by
      intro t
      simp only [init_config]
      by_cases ht : t < n
      · rw [hv2 t ht]
        simp [List.getElem?_replicate, ht, release_left]
      · have : sched.count (some t) = 0 := by
          rw [List.count_eq_zero]
          exact fun hm => ht (hv3 t hm)
        rw [this]
        simp [List.getElem?_replicate, ht, release_left]) with
    ⟨c, hrun, hinvc, hul, hrl, hlen⟩ | hrace
  swap
  · exact Or.inr ⟨hrace, drain_after_free_stops _ _ p _ sched hrace⟩
  left
  have hlen' : c.releases.length = n := by
    rw [hlen]
    simp [init_config]
  have hfin : ∀ t, t < n → ∃ rm, c.releases[t]? = some (release_pc.finished rm) := by
    intro t ht
    have h0 := hrl t
    rw [List.getElem?_eq_getElem (by omega)] at h0 ⊢
    cases hx : c.releases[t] with
    | start => simp [hx, release_left] at h0
    | locked dv rm => simp [hx, release_left] at h0
    | finished rm => exact ⟨rm, rfl⟩
  have hnostart : c.releases.count release_pc.start = 0 := by
    rw [List.count_eq_zero]
    intro hm
    obtain ⟨t, ht⟩ := List.mem_iff_getElem?.1 hm
    have h0 := hrl t
    rw [ht] at h0
    simp [release_left] at h0
  have hnopend : no_pending c.releases := by
    intro t dv hx
    have h0 := hrl t
    rw [hx] at h0
    simp [release_left] at h0
  rcases hinvc with hal | hgone
  · exfalso
    obtain ⟨d2, -, hopen2, -, -, -, -, -, hun⟩ := hal
    cases hu : c.unregister with
    | start => simp [hu, unregister_left] at hul
    | locked found => simp [hu, unregister_left] at hul
    | finished found =>
      simp only [hu] at hun
      obtain ⟨o, -, -, -, h1⟩ := hun
      exact h1 (by rw [hopen2, hnostart]; rfl) hnopend
  · obtain ⟨hdev, htab, -, -, halt⟩ := hgone
    rcases halt with ⟨h1, h2, h3⟩ | ⟨t0, o, h1, h2, h3, h4, h5⟩
    · refine ⟨c, 0, hrun, by simp [h1], htab, hdev, h2, hfin, by simp [h1], ?_⟩
      intro t
      constructor
      · intro h
        rw [h1] at h
        simp at h
      · intro h
        exact absurd h (h3 t)
    · have hu : c.unregister = unregister_pc.finished (some (p, o)) := by
        rcases h4 with h4 | h4
        · simp [h4, unregister_left] at hul
        · exact h4
      refine ⟨c, o, hrun, by simp [h1], htab, hdev, hu, hfin, ?_, ?_⟩
      · constructor
        · intro h
          rw [h1] at h
          simp at h
        · intro h
          exact absurd h h3
      · intro t
        constructor
        · intro h
          rw [h1] at h
          simp only [List.cons.injEq, Option.some.injEq, and_true] at h
          subst h
          exact h2
        · intro h
          rw [h1, h5 t h]

theorem sample_state_registered (present open_ : Int) :
    registered (sample_state present open_) 0 1 0
      { (sample_dev 1920000 sample_table 0) with
          present := present, open_ := open_, info := some 1 } := by
  refine ⟨rfl, ?_, sample_state_dev _ _, rfl, rfl, _, rfl, rfl⟩
  intro j hj
  simp only [sample_state] at hj
  match j, hj with
  | 0, _ => rfl
  | 1, h => simp at h
  | 2, h => simp at h
  | 3, h => simp at h
  | n + 4, h => simp at h

theorem registered_congr (s S : State) (p q i : Nat) (d : vfb2_device)
    (ht : S.vfb2_table = s.vfb2_table) (hd : S.devs p = s.devs p) (hi : S.infos q = s.infos q)
    (h : registered s p q i d) : registered S p q i d := by
  obtain ⟨h1, h2, h3, h4, h5, h6⟩ := h
  refine ⟨by rw [ht]; exact h1, ?_, by rw [hd]; exact h3, h4, h5, ?_⟩
  · intro j hj
    rw [ht] at hj
    exact h2 j hj
  · rw [hi]
    exact h6

/-- Two devices in the table do not share an `fb_info`. -/
theorem registered_info_ne (s : State) (p p' q q' i i' : Nat) (d d' : vfb2_device)
    (h : registered s p q i d) (h' : registered s p' q' i' d') (hne : p' ≠ p) : q' ≠ q := by
  intro e
  subst e
  obtain ⟨-, -, -, -, -, fi, hfi, hpar⟩ := h
  obtain ⟨-, -, -, -, -, fi', hfi', hpar'⟩ := h'
  rw [hfi] at hfi'
  simp only [Option.some.injEq] at hfi'
  subst hfi'
  rw [hpar] at hpar'
  simp only [Option.some.injEq] at hpar'
  exact hne hpar'.symm

theorem tight_of_same (s S : State) (ht : S.vfb2_table = s.vfb2_table)
    (hd : ∀ a, S.devs a = s.devs a) (hi : ∀ a, S.infos a = s.infos a) (h : tight s) :
    tight S := by
  obtain ⟨hA, hB⟩ := h
  refine ⟨?_, ?_⟩
  · intro i p hp
    rw [ht] at hp
    obtain ⟨q, d, hr⟩ := hA i p hp
    exact ⟨q, d, registered_congr s S p q i d ht (hd p) (hi q) hr⟩
  · intro a d ha
    rw [hd a] at ha
    rw [ht]
    exact hB a d ha

theorem tight_set_dev (X : State) (a : Nat) (d d' : vfb2_device) (h : tight X)
    (hd : X.devs a = some d) (hti : d'.table_index = d.table_index) (hinf : d'.info = d.info) :
    tight (set_dev X a (some d')) := by
  obtain ⟨hA, hB⟩ := h
  refine ⟨?_, ?_⟩
  · intro i p hp
    obtain ⟨q, dp, hr⟩ := hA i p hp
    by_cases hpa : p = a
    · subst hpa
      have : dp = d := by
        have := hr.2.2.1
        rw [hd] at this
        simpa using this.symm
      subst this
      exact ⟨q, d', registered_set_dev X p q i dp d' hr hti hinf⟩
    · exact ⟨q, dp, registered_congr X _ p q i dp rfl (set_dev_devs_other _ _ _ _ hpa) rfl hr⟩
  · intro b db hb
    by_cases hba : b = a
    · subst hba
      exact hB b d hd
    · rw [set_dev_devs_other _ _ _ _ hba] at hb
      exact hB b db hb

theorem tight_set_info (X : State) (a : Nat) (fi fi' : fb_info) (h : tight X)
    (hfi : X.infos a = some fi) (hpar : fi'.par = fi.par) :
    tight (set_info X a (some fi')) := by
  obtain ⟨hA, hB⟩ := h
  refine ⟨?_, hB⟩
  intro i p hp
  obtain ⟨q, dp, h1, h2, h3, h4, h5, f, hf, hfp⟩ := hA i p hp
  refine ⟨q, dp, h1, h2, h3, h4, h5, ?_⟩
  by_cases hqa : q = a
  · subst hqa
    rw [hfi] at hf
    simp only [Option.some.injEq] at hf
    subst hf
    exact ⟨fi', by simp, hpar.trans hfp⟩
  · exact ⟨f, by rw [set_info_infos_other _ _ _ _ hqa]; exact hf, hfp⟩

/-- Destroying a registered device leaves every other device registered. -/
theorem tight_destroy (X : State) (p q i : Nat) (d : vfb2_device) (h : tight X)
    (hr : registered X p q i d) :
    tight (set_dev (set_info (set_slot X i none) q none) p none) := by
  obtain ⟨hA, hB⟩ := h
  refine ⟨?_, ?_⟩
  · intro j p' hp'
    simp only [set_dev_table, set_info_table, set_slot_table] at hp'
    obtain ⟨hold, hji⟩ := getElem?_set_none_some _ _ _ _ hp'
    obtain ⟨q', d', hr'⟩ := hA j p' hold
    have hpp : p' ≠ p := by
      intro e
      subst e
      exact hji (hr.2.1 j hold)
    have hqq := registered_info_ne X p p' q q' i j d d' hr hr' hpp
    obtain ⟨h1, h2, h3, h4, h5, f, hf, hfp⟩ := hr'
    refine ⟨q', d', ?_, ?_, ?_, h4, h5, f, ?_, hfp⟩
    · simp only [set_dev_table, set_info_table, set_slot_table]
      rw [List.getElem?_set]
      simp [Ne.symm hji, h1]
    · intro k hk
      simp only [set_dev_table, set_info_table, set_slot_table] at hk
      exact h2 k (getElem?_set_none_some _ _ _ _ hk).1
    · rw [set_dev_devs_other _ _ _ _ hpp]
      exact h3
    · simp only [set_dev_infos]
      rw [set_info_infos_other _ _ _ _ hqq]
      exact hf
  · intro b db hb
    have hbp : b ≠ p := by
      intro e
      subst e
      simp at hb
    rw [set_dev_devs_other _ _ _ _ hbp] at hb
    obtain ⟨k, hk⟩ := hB b db hb
    have hki : k ≠ i := by
      intro e
      subst e
      rw [hr.1] at hk
      simp only [Option.some.injEq] at hk
      exact hbp hk.symm
    refine ⟨k, ?_⟩
    simp only [set_dev_table, set_info_table, set_slot_table]
    rw [List.getElem?_set]
    simp [Ne.symm hki, hk]

/-- Putting a new device with a new `fb_info` into an empty slot. -/
theorem tight_insert (X : State) (p q i : Nat) (d : vfb2_device) (fi : fb_info) (h : tight X)
    (hp : X.devs p = none) (hq : X.infos q = none) (hslot : X.vfb2_table[i]? = some none)
    (hti : d.table_index = (i : Int)) (hinf : d.info = some q) (hpar : fi.par = some p) :
    tight (set_dev (set_slot (set_info X q (some fi)) i (some p)) p (some d)) := by
  obtain ⟨hA, hB⟩ := h
  have hlen : i < X.vfb2_table.length := by
    by_contra hge
    rw [List.getElem?_eq_none (by omega)] at hslot
    simp at hslot
  have hnot : ∀ k : Nat, X.vfb2_table[k]? ≠ some (some p) := by
    intro k hk
    obtain ⟨q', d', hr'⟩ := hA k p hk
    rw [hr'.2.2.1] at hp
    simp at hp
  have hnew : ∀ (k p' : Nat),
      (set_dev (set_slot (set_info X q (some fi)) i (some p)) p (some d)).vfb2_table[k]? =
        some (some p') → (k = i ∧ p' = p) ∨ (k ≠ i ∧ X.vfb2_table[k]? = some (some p')) := by
    intro k p' hk
    simp only [set_dev_table, set_slot_table, set_info_table, List.getElem?_set] at hk
    by_cases hik : i = k
    · subst hik
      simp only [if_true, hlen, Option.some.injEq] at hk
      exact Or.inl ⟨rfl, hk.symm⟩
    · simp only [hik, if_false] at hk
      exact Or.inr ⟨fun e => hik e.symm, hk⟩
  refine ⟨?_, ?_⟩
  · intro j p' hp'
    rcases hnew j p' hp' with ⟨hj, hpp⟩ | ⟨hj, hold⟩
    · subst hj hpp
      refine ⟨q, d, hp', ?_, by simp, hti, hinf, fi, by simp, hpar⟩
      intro k hk
      rcases hnew k p' hk with ⟨hk1, -⟩ | ⟨-, hk2⟩
      · exact hk1
      · exact absurd hk2 (hnot k)
    · obtain ⟨q', d', h1, h2, h3, h4, h5, f, hf, hfp⟩ := hA j p' hold
      have hpp : p' ≠ p := by
        intro e
        subst e
        exact hnot j hold
      have hqq : q' ≠ q := by
        intro e
        subst e
        rw [hq] at hf
        simp at hf
      refine ⟨q', d', hp', ?_, ?_, h4, h5, f, ?_, hfp⟩
      · intro k hk
        rcases hnew k p' hk with ⟨-, hk1⟩ | ⟨-, hk2⟩
        · exact absurd hk1 hpp
        · exact h2 k hk2
      · rw [set_dev_devs_other _ _ _ _ hpp]
        exact h3
      · simp only [set_dev_infos, set_slot_infos]
        rw [set_info_infos_other _ _ _ _ hqq]
        exact hf
  · intro b db hb
    by_cases hbp : b = p
    · subst hbp
      exact ⟨i, by simp [List.getElem?_set, hlen]⟩
    · rw [set_dev_devs_other _ _ _ _ hbp] at hb
      obtain ⟨k, hk⟩ := hB b db hb
      have hki : k ≠ i := by
        intro e
        subst e
        rw [hslot] at hk
        simp at hk
      refine ⟨k, ?_⟩
      simp only [set_dev_table, set_slot_table, set_info_table]
      rw [List.getElem?_set]
      simp [Ne.symm hki, hk]

/-- A device that `vfb2_get_dev` finds is registered. -/
theorem tight_get_dev (X : State) (info : Option Nat) (p : Nat) (h : tight X)
    (hget : vfb2_get_dev X info = some (some p)) : ∃ q i d, registered X p q i d := by
  obtain ⟨⟨j, hj⟩, -⟩ := vfb2_get_dev_mem X info p hget
  obtain ⟨q, d, hr⟩ := h.1 j p hj
  exact ⟨q, j, d, hr⟩

theorem tight_remove_registered (X X' : State) (p q i : Nat) (d : vfb2_device) (h : tight X)
    (hr : registered X p q i d) (hpres : d.present = VFB2_NOT_PRESENT) (hopen : d.open_ = 0)
    (hrm : vfb2_remove X (some p) = some X') : tight X' := by
  rw [registered_remove X p q i d hr hpres hopen] at hrm
  simp only [Option.some.injEq] at hrm
  subst hrm
  exact tight_destroy X p q i d h hr

theorem vfb2_open_tight (X X' : State) (info : Option Nat) (r : Int) (h : tight X)
    (hop : vfb2_open X info = some (X', r)) : tight X' := by
  unfold vfb2_open at hop
  cases hget : vfb2_get_dev X info with
  | none => simp [hget] at hop
  | some od =>
    cases od with
    | none =>
      simp only [hget, Option.some.injEq, Prod.mk.injEq] at hop
      rw [← hop.1]
      exact h
    | some p =>
      simp only [hget] at hop
      cases hd : X.devs p with
      | none => simp [hd] at hop
      | some d =>
        simp only [hd] at hop
        by_cases hp : d.present = VFB2_NOT_PRESENT
        · rw [if_pos hp] at hop
          simp only [Option.some.injEq, Prod.mk.injEq] at hop
          rw [← hop.1]
          exact h
        · rw [if_neg hp] at hop
          simp only [Option.some.injEq, Prod.mk.injEq] at hop
          rw [← hop.1]
          exact tight_set_dev X p d _ h hd rfl rfl

theorem vfb2_release_tight (X X' : State) (info : Option Nat) (r : Int) (h : tight X)
    (hop : vfb2_release X info = some (X', r)) : tight X' := by
  unfold vfb2_release vfb2_release_locked at hop
  cases hget : vfb2_get_dev X info with
  | none => simp [hget] at hop
  | some od =>
    cases od with
    | none =>
      simp only [hget] at hop
      simp only [Bool.false_eq_true, if_false, Option.some.injEq, Prod.mk.injEq] at hop
      rw [← hop.1]
      exact h
    | some p =>
      simp only [hget] at hop
      cases hd : X.devs p with
      | none => simp [hd] at hop
      | some d =>
        simp only [hd] at hop
        obtain ⟨q, i, d0, hr⟩ := tight_get_dev X info p h hget
        have hd0 : d0 = d := by
          have := hr.2.2.1
          rw [hd] at this
          simpa using this.symm
        subst hd0
        have h1 := tight_set_dev X p d0 { d0 with open_ := atomic_dec d0.open_ } h hd rfl rfl
        have hr1 := registered_set_dev X p q i d0 { d0 with open_ := atomic_dec d0.open_ } hr rfl rfl
        by_cases hrm : (decide (atomic_dec d0.open_ = 0) && decide (d0.present = VFB2_NOT_PRESENT)) = true
        · rw [if_pos hrm] at hop
          simp only [Option.map_eq_some', Prod.mk.injEq] at hop
          obtain ⟨X2, hrem, hX, -⟩ := hop
          subst hX
          simp only [Bool.and_eq_true, decide_eq_true_eq] at hrm
          exact tight_remove_registered _ X2 p q i _ h1 hr1 hrm.2 hrm.1 hrem
        · rw [if_neg hrm] at hop
          simp only [Option.some.injEq, Prod.mk.injEq] at hop
          rw [← hop.1]
          exact h1

theorem vfb2_unregister_tight (X X' : State) (idx : Int) (h : tight X)
    (hop : vfb2_unregister X idx = some X') : tight X' := by
  unfold vfb2_unregister vfb2_unregister_locked at hop
  cases hget : vfb2_index_to_dev X idx with
  | none =>
    simp only [hget, Option.some.injEq] at hop
    rw [← hop]
    exact h
  | some p =>
    simp only [hget] at hop
    cases hd : X.devs p with
    | none => simp [hd] at hop
    | some d =>
      simp only [hd] at hop
      obtain ⟨i, hi⟩ := h.2 p d hd
      obtain ⟨q, d0, hr⟩ := h.1 i p hi
      have hd0 : d0 = d := by
        have := hr.2.2.1
        rw [hd] at this
        simpa using this.symm
      subst hd0
      have h1 := tight_set_dev X p d0 { d0 with present := VFB2_NOT_PRESENT } h hd rfl rfl
      have hr1 := registered_set_dev X p q i d0 { d0 with present := VFB2_NOT_PRESENT } hr
        rfl rfl
      by_cases ho : d0.open_ = 0
      · rw [if_pos ho] at hop
        exact tight_remove_registered _ X' p q i _ h1 hr1 rfl ho hop
      · rw [if_neg ho] at hop
        simp only [Option.some.injEq] at hop
        rw [← hop]
        exact h1

theorem vfb2_set_par_tight (pf : platform) (X X' : State) (info : Option Nat) (r : Int)
    (h : tight X) (hop : vfb2_set_par pf X info = some (X', r)) : tight X' := by
  unfold vfb2_set_par at hop
  cases hgp : vfb2_get_present_dev X info with
  | none => simp [hgp] at hop
  | some od =>
    cases od with
    | none =>
      simp only [hgp, Option.some.injEq, Prod.mk.injEq] at hop
      rw [← hop.1]
      exact h
    | some dev =>
      simp only [hgp] at hop
      cases info with
      | none => simp at hop
      | some a =>
        cases hd : X.devs dev with
        | none => simp [hd] at hop
        | some d =>
          simp only [hd] at hop
          cases hfi : X.infos a with
          | none => simp [hfi] at hop
          | some fi =>
            simp only [hfi] at hop
            cases hsp : vfb2_set_par_helper pf fi d with
            | none => simp [hsp] at hop
            | some t =>
              obtain ⟨fi', d', r'⟩ := t
              simp only [hsp, Option.some.injEq, Prod.mk.injEq] at hop
              rw [← hop.1]
              obtain ⟨hpar, hti, -, -, hinf, -⟩ :=
                vfb2_set_par_helper_fields pf fi fi' d d' r' hsp
              exact tight_set_dev _ dev d d' (tight_set_info X a fi fi' h hfi hpar)
                (by simpa using hd) hti hinf

theorem vfb2_setcolreg_tight (X X' : State) (regno red green blue transp : Nat)
    (info : Option Nat) (r : Int) (h : tight X)
    (hop : vfb2_setcolreg X regno red green blue transp info = some (X', r)) : tight X' := by
  rcases vfb2_setcolreg_state X X' regno red green blue transp info r hop with e | e
  · subst e
    exact h
  · obtain ⟨a, fi, pal, hfi, e⟩ := e
    subst e
    exact tight_set_info X a fi _ h hfi rfl

theorem vfb2_remove_unlisted (X : State) (p : Nat) (d : vfb2_device)
    (hd : X.devs p = some d) (hti : d.table_index = -1) :
    vfb2_remove X (some p) = some (vfb2_remove_free X p d) := by
  have : ¬ d.table_index ≥ 0 := by omega
  simp [vfb2_remove, hd, this]

theorem register_fail_unlisted (s X s' : State) (p : Nat) (d : vfb2_device) (res r : Int)
    (hd : X.devs p = some d) (hti : d.table_index = -1)
    (ht : X.vfb2_table = s.vfb2_table)
    (hdev : ∀ a, a ≠ p → X.devs a = s.devs a) (hp : s.devs p = none)
    (hinf : ∀ a, some a ≠ d.info → X.infos a = s.infos a)
    (hq : ∀ q, d.info = some q → s.infos q = none)
    (h : register_fail X p res = some (s', r)) :
    s'.vfb2_table = s.vfb2_table ∧ (∀ a, s'.devs a = s.devs a) ∧
    (∀ a, s'.infos a = s.infos a) := by
  simp only [register_fail, vfb2_remove_unlisted X p d hd hti, Option.map_some',
    Option.some.injEq, Prod.mk.injEq] at h
  obtain ⟨h, -⟩ := h
  subst h
  unfold vfb2_remove_free
  cases hi : d.info with
  | none =>
    simp only
    refine ⟨ht, ?_, ?_⟩
    · intro a
      by_cases hap : a = p
      · subst hap
        simp [hp]
      · rw [set_dev_devs_other _ _ _ _ hap]
        exact hdev a hap
    · intro a
      simp only [set_dev_infos]
      exact hinf a (by rw [hi]; simp)
  | some q =>
    simp only
    refine ⟨ht, ?_, ?_⟩
    · intro a
      by_cases hap : a = p
      · subst hap
        simp [hp]
      · rw [set_dev_devs_other _ _ _ _ hap]
        simp only [set_info_devs]
        exact hdev a hap
    · intro a
      simp only [set_dev_infos]
      by_cases haq : a = q
      · subst haq
        simp [hq a hi]
      · rw [set_info_infos_other _ _ _ _ haq]
        exact hinf a (by rw [hi]; simpa using haq)

theorem set_set_none (l : List (Option Nat)) (i p : Nat) (h : l[i]? = some none) :
    (l.set i (some p)).set i none = l := by
  apply List.ext_getElem?
  intro k
  simp only [List.set_set, List.getElem?_set]
  by_cases hik : i = k
  · subst hik
    have hlen : i < l.length := by
      by_contra hge
      rw [List.getElem?_eq_none (by omega)] at h
      simp at h
    simp [hlen, h]
  · simp [hik]

/-- `vfb2_register` keeps every device in the table registered. -/
theorem vfb2_register_tight (pf : platform) (env : alloc_env) (s s' : State)
    (init : Option vfb2_init) (r : Int) (hwf : wf s) (ht : tight s)
    (h : vfb2_register pf env s init = some (s', r)) : tight s' := by
  rcases vfb2_register_shape pf env s s' init r h with ⟨h1, -⟩ | h2
  · subst h1
    exact ht
  · obtain ⟨S, d, hST, hSD, hSI, hb, hpres, hti, hopen, hcases⟩ := h2
    have hp : s.devs s.brk = none := by
      cases hx : s.devs s.brk with
      | none => rfl
      | some d0 =>
        have := hwf.2.1 s.brk d0 hx
        omega
    have hq : s.infos (s.brk + 2) = none := by
      cases hx : s.infos (s.brk + 2) with
      | none => rfl
      | some f0 =>
        have := hwf.2.2 (s.brk + 2) f0 hx
        omega
    have hfail : ∀ (X : State) (d1 : vfb2_device) (res : Int),
        X.devs s.brk = some d1 → d1.table_index = -1 → X.vfb2_table = s.vfb2_table →
        (∀ a, a ≠ s.brk → X.devs a = s.devs a) →
        (∀ a, some a ≠ d1.info → X.infos a = s.infos a) →
        (∀ q, d1.info = some q → q = s.brk + 2) →
        register_fail X s.brk res = some (s', r) → tight s' := by
      intro X d1 res hd1 hti1 hXT hXD hXI hXq hf
      obtain ⟨e1, e2, e3⟩ := register_fail_unlisted s X s' s.brk d1 res r hd1 hti1 hXT hXD hp hXI
        (fun q hq1 => by rw [hXq q hq1]; exact hq) hf
      exact tight_of_same s s' e1 e2 e3 ht
    rcases hcases with ⟨hinf, res, -, hf⟩ | ⟨hinf, hb3, fi, res, -, -, hf⟩ |
      ⟨hinf, hb3, -, fi, hpar, hf⟩
    · refine hfail _ d res (by simp) hti (by simp [hST]) ?_ ?_ ?_ hf
      · intro a ha
        rw [set_dev_devs_other _ _ _ _ ha, hSD]
      · intro a _
        simp [hSI]
      · intro q hq1
        rw [hinf] at hq1
        simp at hq1
    · refine hfail _ d res (by simp) hti (by simp [hST]) ?_ ?_ ?_ hf
      · intro a ha
        simp only [set_info_devs]
        rw [set_dev_devs_other _ _ _ _ ha, hSD]
      · intro a ha
        rw [hinf] at ha
        have : a ≠ s.brk + 2 := fun e => ha (by rw [e])
        rw [set_info_infos_other _ _ _ _ this]
        simp [hSI]
      · intro q hq1
        rw [hinf] at hq1
        simpa using hq1.symm
    · unfold register_insert at hf
      simp only [set_info_table] at hf
      cases hff : first_free S.vfb2_table 0 with
      | none =>
        simp only [hff] at hf
        refine hfail _ d _ (by simp) hti (by simp [hST]) ?_ ?_ ?_ hf
        · intro a ha
          rw [set_dev_devs_other _ _ _ _ ha]
          simp [hSD]
        · intro a ha
          rw [hinf] at ha
          have : a ≠ s.brk + 2 := fun e => ha (by rw [e])
          simp only [set_dev_infos]
          rw [set_info_infos_other _ _ _ _ this]
          simp [hSI]
        · intro q hq1
          rw [hinf] at hq1
          simpa using hq1.symm
      | some i =>
        simp only [hff] at hf
        obtain ⟨-, hget, -⟩ := first_free_spec _ 0 i hff
        simp only [Nat.sub_zero] at hget
        have hlen : i < S.vfb2_table.length := by
          by_contra hge
          rw [List.getElem?_eq_none (by omega)] at hget
          simp at hget
        have hS : tight S := tight_of_same s S hST (fun a => by rw [hSD])
          (fun a => by rw [hSI]) ht
        by_cases h0 : -(env.register_framebuffer : Int) = 0
        · simp only [h0, if_true, Option.some.injEq, Prod.mk.injEq] at hf
          rw [← hf.1]
          exact tight_insert S s.brk (s.brk + 2) i _ fi hS (by rw [hSD]; exact hp)
            (by rw [hSI]; exact hq) hget rfl hinf hpar
        · simp only [h0, if_false] at hf
          have hneg : -(env.register_framebuffer : Int) < 0 := by omega
          simp only [hneg, if_true] at hf
          have hrm := vfb2_remove_destroys
            (set_dev (set_slot (set_info S (s.brk + 2) (some fi)) i (some s.brk)) s.brk
              (some { d with table_index := (i : Int) }))
            s.brk i (s.brk + 2) { d with table_index := (i : Int) } fi (by simp) rfl
            (by simpa using hlen) (by simp only [hpres]; decide) hopen hinf (by simp)
          simp only [register_fail, hrm, Option.map_some', Option.some.injEq,
            Prod.mk.injEq] at hf
          rw [← hf.1]
          refine tight_of_same s _ ?_ ?_ ?_ ht
          · simp only [set_dev_table, set_info_table, set_slot_table]
            rw [set_set_none _ _ _ hget, hST]
          · intro a
            by_cases ha : a = s.brk
            · subst ha
              simp [hp]
            · rw [set_dev_devs_other _ _ _ _ ha]
              simp only [set_info_devs, set_slot_devs]
              rw [set_dev_devs_other _ _ _ _ ha]
              simp [hSD]
          · intro a
            simp only [set_dev_infos, set_slot_infos]
            by_cases ha : a = s.brk + 2
            · subst ha
              simp [hq]
            · rw [set_info_infos_other _ _ _ _ ha]
              simp only [set_dev_infos, set_slot_infos]
              rw [set_info_infos_other _ _ _ _ ha, hSI]

theorem exec_tight (pf : platform) (handler : Nat → Nat → Nat → Int → Int) (X X' : State)
    (op : Op) (hwf : wf X) (ht : tight X) (h : exec pf handler X op = some X') : tight X' := by
  cases op with
  | register env init =>
    simp only [exec, Option.map_eq_some'] at h
    obtain ⟨⟨X2, r⟩, hr, h2⟩ := h
    simp only at h2
    subst h2
    exact vfb2_register_tight pf env X X2 init r hwf ht hr
  | unregister idx => exact vfb2_unregister_tight X X' idx ht h
  | fb_open info =>
    simp only [exec, Option.map_eq_some'] at h
    obtain ⟨⟨X2, r⟩, hr, h2⟩ := h
    simp only at h2
    subst h2
    exact vfb2_open_tight X X2 info r ht hr
  | fb_release info =>
    simp only [exec, Option.map_eq_some'] at h
    obtain ⟨⟨X2, r⟩, hr, h2⟩ := h
    simp only at h2
    subst h2
    exact vfb2_release_tight X X2 info r ht hr
  | fb_ioctl cmd arg info =>
    simp only [exec, Option.map_eq_some'] at h
    obtain ⟨⟨X2, r⟩, hr, h2⟩ := h
    simp only at h2
    subst h2
    rw [vfb2_ioctl_state handler X X2 cmd arg info r hr]
    exact ht
  | fb_check_var var info =>
    simp only [exec, Option.map_eq_some'] at h
    obtain ⟨_, _, h2⟩ := h
    subst h2
    exact ht
  | fb_set_par info =>
    simp only [exec, Option.map_eq_some'] at h
    obtain ⟨⟨X2, r⟩, hr, h2⟩ := h
    simp only at h2
    subst h2
    exact vfb2_set_par_tight pf X X2 info r ht hr
  | fb_setcolreg regno red green blue transp info =>
    simp only [exec, Option.map_eq_some'] at h
    obtain ⟨⟨X2, r⟩, hr, h2⟩ := h
    simp only at h2
    subst h2
    exact vfb2_setcolreg_tight X X2 regno red green blue transp info r ht hr
  | store_var var info =>
    simp only [exec] at h
    cases hfi : X.infos info with
    | none => simp [hfi] at h
    | some fi =>
      simp only [hfi, Option.some.injEq] at h
      subst h
      exact tight_set_info X info fi _ ht hfi rfl

theorem tight_empty (n : Nat) : tight (empty_state n) := by
  refine ⟨?_, ?_⟩
  · intro i p h
    simp only [empty_state] at h
    by_cases hi : i < n
    · simp [List.getElem?_replicate, hi] at h
    · simp [List.getElem?_replicate, hi] at h
  · intro a d h
    simp [empty_state] at h

theorem run_tight (pf : platform) (handler : Nat → Nat → Nat → Int → Int) :
    ∀ (ops : List Op) (X s : State), wf X → tight X → run pf handler X ops = some s →
      wf s ∧ tight s := by
  intro ops
  induction ops with
  | nil =>
    intro X s hwf ht h
    simp only [run, Option.some.injEq] at h
    subst h
    exact ⟨hwf, ht⟩
  | cons op ops ih =>
    intro X s hwf ht h
    simp only [run] at h
    cases hx : exec pf handler X op with
    | none => simp [hx] at h
    | some X1 =>
      simp only [hx] at h
      exact ih X1 s (exec_keeps pf handler X X X1 op hwf (evolves_refl _) hx).1
        (exec_tight pf handler X X1 op hwf ht hx) h

/-- In every state reached from an empty registry, every device in the table
is registered in its slot: its `table_index` is the slot, it is in no other
slot, and its `fb_info` is allocated and points back at it. -/
theorem reachable_registered (pf : platform) (handler : Nat → Nat → Nat → Int → Int) (n : Nat)
    (ops : List Op) (s : State) (h : run pf handler (empty_state n) ops = some s)
    (i p : Nat) (hslot : s.vfb2_table[i]? = some (some p)) :
    ∃ q d, registered s p q i d :=
  (run_tight pf handler ops (empty_state n) s (wf_empty n) (tight_empty n) h).2.1 i p hslot

/-! ## Theorems: the memory bound when nothing overflows -/

/-- Without overflow the bound is enforced: when `xres * bpp` of the selected
mode fits 32 bits, the height fits 32 bits and `unsigned long` has 64 bits,
a return value 0 implies that the required bytes do not exceed `vmem_len`. -/
theorem vfb2_check_var_helper_bound_no_wrap (pf : platform) (var var' : fb_var_screeninfo)
    (dev : vfb2_device) (tbl : List vfb2_mode) (matched : Int) (m : vfb2_mode)
    (htbl : dev.init.mode_table = some tbl)
    (hmatch : vfb2_match_mode dev var = some matched)
    (hmode : mode_at tbl (if matched < 0 then dev.current_mode else matched) = some m)
    (h64 : pf.BITS_PER_LONG = 64) (hprod : m.xres * m.bpp < 2 ^ 32) (hy : m.yres < 2 ^ 32)
    (hrun : vfb2_check_var_helper pf var dev = some (var', 0)) :
    spec_required_bytes m ≤ dev.init.vmem_len := by
  obtain ⟨v, r, ll, hrun', hll, -, -, -, hr⟩ :=
    vfb2_check_var_helper_selected pf var dev tbl matched m htbl hmatch hmode
  rw [hrun] at hrun'
  simp only [Option.some.injEq, Prod.mk.injEq] at hrun'
  obtain ⟨-, hr0⟩ := hrun'
  have hle := vfb2_line_length_le pf dev _ ll h64 hll
  have hll' : ll = (m.xres * m.bpp + 7) / 8 := by
    simp only [vfb2_line_length, htbl, hmode, Option.some.injEq, h64] at hll
    rw [Nat.mod_eq_of_lt hprod, Nat.mod_eq_of_lt (by omega),
      and_not_seven _ 64 (by omega) (by norm_num)] at hll
    exact hll.symm
  have hnowrap : (ll * m.yres) % 2 ^ pf.BITS_PER_LONG = ll * m.yres := by
    rw [h64]
    apply Nat.mod_eq_of_lt
    calc ll * m.yres ≤ 2 ^ 29 * m.yres := Nat.mul_le_mul_right _ hle
      _ < 2 ^ 29 * 2 ^ 32 := Nat.mul_lt_mul_of_pos_left hy (by norm_num)
      _ < 2 ^ 64 := by norm_num
  rw [← hr0] at hr
  by_cases h1 : m.xres = 0 ∨ m.yres = 0
  · rw [if_pos h1] at hr
    simp [EINVAL] at hr
  · rw [if_neg h1] at hr
    by_cases h2 : m.bpp ≠ 1 ∧ m.bpp ≠ 8 ∧ m.bpp ≠ 16 ∧ m.bpp ≠ 24 ∧ m.bpp ≠ 32
    · rw [if_pos h2] at hr
      simp [ENOTSUPP] at hr
    · rw [if_neg h2] at hr
      by_cases h3 : (ll * m.yres) % 2 ^ pf.BITS_PER_LONG > dev.init.vmem_len
      · rw [if_pos h3] at hr
        simp [ENOMEM] at hr
      · rw [hnowrap] at h3
        simp only [spec_required_bytes, ← hll']
        omega

/-! ## Theorems: a registration that fails -/

theorem fresh_dev (s : State) (hwf : wf s) (a : Nat) (ha : s.brk ≤ a) : s.devs a = none := by
  cases hx : s.devs a with
  | none => rfl
  | some d0 =>
    have := hwf.2.1 a d0 hx
    omega

theorem fresh_info (s : State) (hwf : wf s) (a : Nat) (ha : s.brk ≤ a) : s.infos a = none := by
  cases hx : s.infos a with
  | none => rfl
  | some f0 =>
    have := hwf.2.2 a f0 hx
    omega

/-- The exit of `register_insert` after `register_framebuffer` failed: the
slot taken is emptied again and both objects are freed. -/
theorem register_insert_fail (env : alloc_env) (S s' : State) (p q : Nat) (d : vfb2_device)
    (fi : fb_info) (r : Int) (hp : S.devs p = none) (hq : S.infos q = none)
    (hpres : d.present = VFB2_ERROR_ON_REGISTER) (hti : d.table_index = -1)
    (hopen : d.open_ = 0) (hinf : d.info = some q)
    (h : register_insert env S p q d fi = some (s', r)) (hr : r < 0) :
    s'.vfb2_table = S.vfb2_table ∧ (∀ a, s'.devs a = S.devs a) ∧
    (∀ a, s'.infos a = S.infos a) := by
  unfold register_insert at h
  simp only [set_info_table] at h
  cases hff : first_free S.vfb2_table 0 with
  | none =>
    simp only [hff] at h
    refine register_fail_unlisted S _ s' p d _ r (by simp) hti (by simp) ?_ hp ?_ ?_ h
    · intro a ha
      rw [set_dev_devs_other _ _ _ _ ha]
      simp
    · intro a ha
      rw [hinf] at ha
      have : a ≠ q := fun e => ha (by rw [e])
      simp only [set_dev_infos]
      rw [set_info_infos_other _ _ _ _ this]
    · intro q' hq1
      rw [hinf] at hq1
      have : q' = q := by simpa using hq1.symm
      rw [this]
      exact hq
  | some i =>
    simp only [hff] at h
    obtain ⟨-, hget, -⟩ := first_free_spec _ 0 i hff
    simp only [Nat.sub_zero] at hget
    have hlen : i < S.vfb2_table.length := by
      by_contra hge
      rw [List.getElem?_eq_none (by omega)] at hget
      simp at hget
    by_cases h0 : -(env.register_framebuffer : Int) = 0
    · simp only [h0, if_true, Option.some.injEq, Prod.mk.injEq] at h
      have : r = (i : Int) := h.2.symm
      omega
    · simp only [h0, if_false] at h
      have hneg : -(env.register_framebuffer : Int) < 0 := by omega
      simp only [hneg, if_true] at h
      have hrm := vfb2_remove_destroys
        (set_dev (set_slot (set_info S q (some fi)) i (some p)) p
          (some { d with table_index := (i : Int) }))
        p i q { d with table_index := (i : Int) } fi (by simp) rfl
        (by simpa using hlen) (by simp only [hpres]; decide) hopen hinf (by simp)
      simp only [register_fail, hrm, Option.map_some', Option.some.injEq,
        Prod.mk.injEq] at h
      rw [← h.1]
      refine ⟨?_, ?_, ?_⟩
      · simp only [set_dev_table, set_info_table, set_slot_table]
        rw [set_set_none _ _ _ hget]
      · intro a
        by_cases ha : a = p
        · subst ha
          simp [hp]
        · rw [set_dev_devs_other _ _ _ _ ha]
          simp only [set_info_devs, set_slot_devs]
          rw [set_dev_devs_other _ _ _ _ ha]
          simp
      · intro a
        simp only [set_dev_infos, set_slot_infos]
        by_cases ha : a = q
        · subst ha
          simp [hq]
        · rw [set_info_infos_other _ _ _ _ ha]
          simp only [set_dev_infos, set_slot_infos]
          rw [set_info_infos_other _ _ _ _ ha]

/-- A call of `vfb2_register` that returns an error leaves the table, every
device and every `fb_info` as they were. -/
theorem vfb2_register_fail_same (pf : platform) (env : alloc_env) (s s' : State)
    (init : Option vfb2_init) (r : Int) (hwf : wf s)
    (h : vfb2_register pf env s init = some (s', r)) (hr : r < 0) :
    s'.vfb2_table = s.vfb2_table ∧ (∀ a, s'.devs a = s.devs a) ∧
    (∀ a, s'.infos a = s.infos a) := by
  rcases vfb2_register_shape pf env s s' init r h with ⟨h1, -⟩ | h2
  · subst h1
    exact ⟨rfl, fun _ => rfl, fun _ => rfl⟩
  · obtain ⟨S, d, hST, hSD, hSI, hb, hpres, hti, hopen, hcases⟩ := h2
    have hp : s.devs s.brk = none := fresh_dev s hwf _ (Nat.le_refl _)
    have hq : s.infos (s.brk + 2) = none := fresh_info s hwf _ (by omega)
    have hfail : ∀ (X : State) (d1 : vfb2_device) (res : Int),
        X.devs s.brk = some d1 → d1.table_index = -1 → X.vfb2_table = s.vfb2_table →
        (∀ a, a ≠ s.brk → X.devs a = s.devs a) →
        (∀ a, some a ≠ d1.info → X.infos a = s.infos a) →
        (∀ q, d1.info = some q → q = s.brk + 2) →
        register_fail X s.brk res = some (s', r) →
        s'.vfb2_table = s.vfb2_table ∧ (∀ a, s'.devs a = s.devs a) ∧
          (∀ a, s'.infos a = s.infos a) := by
      intro X d1 res hd1 hti1 hXT hXD hXI hXq hf
      exact register_fail_unlisted s X s' s.brk d1 res r hd1 hti1 hXT hXD hp hXI
        (fun q hq1 => by rw [hXq q hq1]; exact hq) hf
    rcases hcases with ⟨hinf, res, -, hf⟩ | ⟨hinf, hb3, fi, res, -, -, hf⟩ |
      ⟨hinf, hb3, -, fi, hpar, hf⟩
    · refine hfail _ d res (by simp) hti (by simp [hST]) ?_ ?_ ?_ hf
      · intro a ha
        rw [set_dev_devs_other _ _ _ _ ha, hSD]
      · intro a _
        simp [hSI]
      · intro q hq1
        rw [hinf] at hq1
        simp at hq1
    · refine hfail _ d res (by simp) hti (by simp [hST]) ?_ ?_ ?_ hf
      · intro a ha
        simp only [set_info_devs]
        rw [set_dev_devs_other _ _ _ _ ha, hSD]
      · intro a ha
        rw [hinf] at ha
        have : a ≠ s.brk + 2 := fun e => ha (by rw [e])
        rw [set_info_infos_other _ _ _ _ this]
        simp [hSI]
      · intro q hq1
        rw [hinf] at hq1
        simpa using hq1.symm
    · obtain ⟨e1, e2, e3⟩ := register_insert_fail env S s' s.brk (s.brk + 2) d fi r
        (by rw [hSD]; exact hp) (by rw [hSI]; exact hq) hpres hti hopen hinf hf hr
      exact ⟨by rw [e1, hST], fun a => by rw [e2, hSD], fun a => by rw [e3, hSI]⟩

theorem vfb2_match_mode_congr (d e : vfb2_device) (var : fb_var_screeninfo)
    (h : d.init = e.init) : vfb2_match_mode d var = vfb2_match_mode e var := by
  simp only [vfb2_match_mode, h]

theorem vfb2_set_mode_congr (d e : vfb2_device) (var : fb_var_screeninfo) (mode : Int)
    (h : d.init = e.init) : vfb2_set_mode d var mode = vfb2_set_mode e var mode := by
  simp only [vfb2_set_mode, h]

theorem vfb2_line_length_congr (pf : platform) (d e : vfb2_device) (mode : Int)
    (h : d.init = e.init) : vfb2_line_length pf d mode = vfb2_line_length pf e mode := by
  simp only [vfb2_line_length, h]

/-- `vfb2_check_var_helper` reads `init` and `current_mode` of the device and
nothing else. -/
theorem vfb2_check_var_helper_congr (pf : platform) (d e : vfb2_device)
    (var : fb_var_screeninfo) (h : d.init = e.init) (hc : d.current_mode = e.current_mode) :
    vfb2_check_var_helper pf var d = vfb2_check_var_helper pf var e := by
  simp only [vfb2_check_var_helper, vfb2_match_mode_congr d e var h,
    vfb2_set_mode_congr d e _ _ h, vfb2_line_length_congr pf d e _ h, h, hc]

/-- The return value of `vfb2_set_par_helper` is decided by `info->var` and
`init` of the device. -/
theorem vfb2_set_par_helper_congr (pf : platform) (fi fi' fi2 : fb_info) (d e d2 : vfb2_device)
    (r : Int) (hv : fi.var = fi'.var) (h : d.init = e.init)
    (hrun : vfb2_set_par_helper pf fi d = some (fi2, d2, r)) :
    ∃ fi2' d2', vfb2_set_par_helper pf fi' e = some (fi2', d2', r) := by
  unfold vfb2_set_par_helper at hrun ⊢
  rw [← vfb2_match_mode_congr d e _ h, ← hv]
  cases hm : vfb2_match_mode d fi.var with
  | none => simp [hm] at hrun
  | some mode =>
    simp only [hm] at hrun ⊢
    by_cases hneg : mode < 0
    · rw [if_pos hneg] at hrun ⊢
      simp only [Option.some.injEq, Prod.mk.injEq] at hrun
      exact ⟨_, _, by rw [hrun.2.2]⟩
    · rw [if_neg hneg] at hrun ⊢
      rw [← vfb2_line_length_congr pf d e _ h, ← h]
      cases hl : vfb2_line_length pf d mode with
      | none => simp [hl] at hrun
      | some ll =>
        cases ht : d.init.mode_table with
        | none => simp [hl, ht] at hrun
        | some tbl =>
          simp only [hl, ht] at hrun ⊢
          cases hma : mode_at tbl mode with
          | none => simp [hma] at hrun
          | some m =>
            simp only [hma, Option.some.injEq, Prod.mk.injEq] at hrun ⊢
            exact ⟨_, _, rfl, rfl, hrun.2.2⟩

theorem vfb2_init_dev_env (env env' : alloc_env) (ini : vfb2_init)
    (h1 : env'.kmalloc_dev = env.kmalloc_dev) (h2 : env'.kmalloc_table = env.kmalloc_table) :
    vfb2_init_dev env' ini = vfb2_init_dev env ini := by
  simp only [vfb2_init_dev, h1, h2]

theorem vfb2_alloc_vmem_addr (pf : platform) (ok : Bool) (a b : Nat) (d d1 : vfb2_device)
    (h : vfb2_alloc_vmem pf ok a d = some (d1, 0)) :
    vfb2_alloc_vmem pf ok b d = some ({ d1 with videomemory := some b }, 0) := by
  unfold vfb2_alloc_vmem at h ⊢
  by_cases hp : pf.PAGE_SIZE = 0
  · simp [hp] at h
  · simp only [hp, if_false] at h ⊢
    cases ok with
    | false =>
      simp only [Bool.false_eq_true, if_false, Option.some.injEq, Prod.mk.injEq] at h
      have := h.2
      simp [ENOMEM] at this
    | true =>
      simp only [if_true, Option.some.injEq, Prod.mk.injEq, and_true] at h ⊢
      rw [← h]

theorem first_free_none : ∀ (l : List (Option Nat)) (k : Nat),
    (∀ j : Nat, l[j]? ≠ some none) → first_free l k = none := by
  intro l
  induction l with
  | nil => intro k _; rfl
  | cons e rest ih =>
    intro k h
    have h0 : e ≠ none := by
      intro e0
      exact h 0 (by simp [e0])
    simp only [first_free, h0, if_false]
    exact ih (k + 1) (fun j => by simpa using h (j + 1))


/-- When a call of `vfb2_register` succeeds in one state, the same descriptor
with the same allocation outcomes reaches the insertion into the table in
every other state. -/
theorem vfb2_register_transfer (pf : platform) (env0 env : alloc_env) (t t' s : State)
    (init : Option vfb2_init) (r0 : Int)
    (h : vfb2_register pf env0 t init = some (t', r0)) (hr0 : 0 ≤ r0)
    (e1 : env.kmalloc_dev = env0.kmalloc_dev) (e2 : env.kmalloc_table = env0.kmalloc_table)
    (e3 : env.vmalloc = env0.vmalloc) (e4 : env.framebuffer_alloc = env0.framebuffer_alloc)
    (e5 : env.fb_alloc_cmap = env0.fb_alloc_cmap) :
    ∃ d fi, vfb2_register pf env s init =
        register_insert env { s with brk := s.brk + 3 } s.brk (s.brk + 2) d fi ∧
      d.present = VFB2_ERROR_ON_REGISTER ∧ d.table_index = -1 ∧ d.open_ = 0 ∧
      d.info = some (s.brk + 2) ∧ fi.par = some s.brk := by
  unfold vfb2_register at h ⊢
  cases init with
  | none =>
    simp only [Option.some.injEq, Prod.mk.injEq] at h
    rw [← h.2] at hr0
    simp [EINVAL] at hr0
  | some init =>
    simp only at h ⊢
    cases hmt : init.mode_table with
    | none =>
      simp only [hmt, Option.some.injEq, Prod.mk.injEq] at h
      rw [← h.2] at hr0
      simp [EINVAL] at hr0
    | some tbl0 =>
      simp only [hmt] at h ⊢
      rw [vfb2_init_dev_env env0 env init e1 e2, e3, e4, e5]
      cases hinit : vfb2_init_dev env0 init with
      | none => simp [hinit] at h
      | some od =>
        cases od with
        | none =>
          simp only [hinit, Option.some.injEq, Prod.mk.injEq] at h
          rw [← h.2] at hr0
          simp [ENOMEM] at hr0
        | some d0 =>
          simp only [hinit] at h ⊢
          have a2 : t.brk + 1 + 1 = t.brk + 2 := rfl
          have a3 : t.brk + 2 + 1 = t.brk + 3 := rfl
          have b2 : s.brk + 1 + 1 = s.brk + 2 := rfl
          have b3 : s.brk + 2 + 1 = s.brk + 3 := rfl
          simp only [a2, a3] at h
          simp only [b2, b3]
          obtain ⟨hp0, hti0, hop0, hcm0, hinf0⟩ := vfb2_init_dev_fields env0 init d0 hinit
          cases hvm : vfb2_alloc_vmem pf env0.vmalloc (t.brk + 1) d0 with
          | none => simp [hvm] at h
          | some dr =>
            obtain ⟨d1, r1⟩ := dr
            simp only [hvm] at h
            have hneg : ∀ (X : State) (p : Nat) (res : Int), res < 0 →
                register_fail X p res ≠ some (t', r0) := by
              intro X p res hres hf
              have := register_fail_result X t' p res r0 hf
              omega
            by_cases hr1 : r1 ≠ 0
            · rw [if_pos hr1] at h
              exact absurd h (hneg _ _ _ (by decide))
            · rw [if_neg hr1] at h
              have hr1' : r1 = 0 := by omega
              subst hr1'
              obtain ⟨hp1, hti1, hop1, hcm1, hinf1, -⟩ :=
                vfb2_alloc_vmem_fields pf env0.vmalloc (t.brk + 1) d0 d1 0 hvm
              rw [vfb2_alloc_vmem_addr pf env0.vmalloc (t.brk + 1) (s.brk + 1) d0 d1 hvm]
              simp only [ne_eq, not_true_eq_false, if_false]
              by_cases hfa : env0.framebuffer_alloc = true
              · simp only [hfa, Bool.not_true, Bool.false_eq_true, if_false] at h ⊢
                by_cases hcmap : -(env0.fb_alloc_cmap : Int) < 0
                · simp only [hcmap, if_true] at h
                  exact absurd h (hneg _ _ _ hcmap)
                · simp only [hcmap, if_false] at h ⊢
                  generalize hdq : ({ d1 with info := some (t.brk + 2) } : vfb2_device) = dq at h
                  generalize hdp : ({ ({ d1 with videomemory := some (s.brk + 1) } : vfb2_device)
                    with info := some (s.brk + 2) } : vfb2_device) = dp
                  have hinit' : dp.init = dq.init := by subst hdq; subst hdp; rfl
                  have hcm' : dp.current_mode = dq.current_mode := by subst hdq; subst hdp; rfl
                  have hdpf : dp.present = VFB2_ERROR_ON_REGISTER ∧ dp.table_index = -1 ∧
                      dp.open_ = 0 ∧ dp.info = some (s.brk + 2) := by
                    subst hdp
                    exact ⟨hp1.trans hp0, hti1.trans hti0, hop1.trans hop0, rfl⟩
                  have hvar : (new_fb_info s.brk dp).var = (new_fb_info t.brk dq).var := rfl
                  rw [hvar, vfb2_set_mode_congr dp dq _ _ hinit']
                  cases hsm : vfb2_set_mode dq (new_fb_info t.brk dq).var 0 with
                  | none => simp [hsm] at h
                  | some var0 =>
                    simp only [hsm] at h ⊢
                    rw [vfb2_check_var_helper_congr pf dp dq var0 hinit' hcm']
                    cases hcv : vfb2_check_var_helper pf var0 dq with
                    | none => simp [hcv] at h
                    | some vr =>
                      obtain ⟨var1, res⟩ := vr
                      simp only [hcv] at h ⊢
                      by_cases hres : res < 0
                      · rw [if_pos hres] at h
                        exact absurd h (hneg _ _ _ hres)
                      · rw [if_neg hres] at h ⊢
                        cases hsp : vfb2_set_par_helper pf
                            { new_fb_info t.brk dq with var := var1 } dq with
                        | none =>
                          simp only [hsp] at h
                          simp at h
                        | some tr =>
                          obtain ⟨fi2, d2, res2⟩ := tr
                          simp only [hsp] at h
                          by_cases hres2 : res2 < 0
                          · rw [if_pos hres2] at h
                            exact absurd h (hneg _ _ _ hres2)
                          · obtain ⟨fi2', d2', hsp'⟩ := vfb2_set_par_helper_congr pf
                              { new_fb_info t.brk dq with var := var1 }
                              { new_fb_info s.brk dp with var := var1 } fi2 dq dp d2 res2 rfl
                              hinit'.symm hsp
                            obtain ⟨hpar, hti2, hpres2, hop2, hinf2, -⟩ :=
                              vfb2_set_par_helper_fields pf _ fi2' dp d2' res2 hsp'
                            simp only [hsp', if_neg hres2]
                            exact ⟨d2', fi2', rfl, hpres2.trans hdpf.1, hti2.trans hdpf.2.1,
                              hop2.trans hdpf.2.2.1, hinf2.trans hdpf.2.2.2, hpar⟩
              · simp only [hfa, Bool.not_false, if_true] at h
                exact absurd h (hneg _ _ _ (by decide))

/-! ## Theorems: registration into a full table -/

/-- C11 (registry exhaustion).  When every slot of the table is occupied and
the descriptor is otherwise valid, that is, the same descriptor with the same
allocation outcomes registers successfully in some state `t` once
`register_framebuffer` succeeds, `vfb2_register` returns `-EBUSY`; the table is
the table it was (same length, same entries), and every device and every
`fb_info` is as it was, so each registered device keeps its slot, its
`current_mode` and its open count. -/
theorem vfb2_register_full (pf : platform) (env : alloc_env) (s t t' : State)
    (ini : vfb2_init) (r0 : Int) (hwf : wf s)
    (hfull : ∀ j : Nat, s.vfb2_table[j]? ≠ some none)
    (hvalid : vfb2_register pf { env with register_framebuffer := 0 } t (some ini)
      = some (t', r0))
    (hr0 : 0 ≤ r0) :
    ∃ s', vfb2_register pf env s (some ini) = some (s', -EBUSY) ∧
      s'.vfb2_table = s.vfb2_table ∧ s'.vfb2_table.length = s.vfb2_table.length ∧
      (∀ a, s'.devs a = s.devs a) ∧ (∀ a, s'.infos a = s.infos a) ∧
      (∀ (i p : Nat) (d : vfb2_device), s.vfb2_table[i]? = some (some p) → s.devs p = some d →
        s'.vfb2_table[i]? = some (some p) ∧ s'.devs p = some d) := by
  obtain ⟨d, fi, heq, hpres, hti, hopen, hinf, hpar⟩ :=
    vfb2_register_transfer pf { env with register_framebuffer := 0 } env t t' s (some ini) r0
      hvalid hr0 rfl rfl rfl rfl rfl
  have hff : first_free s.vfb2_table 0 = none := first_free_none _ 0 hfull
  have hins : register_insert env { s with brk := s.brk + 3 } s.brk (s.brk + 2) d fi =
      some (vfb2_remove_free
        (set_dev (set_info { s with brk := s.brk + 3 } (s.brk + 2) (some fi)) s.brk (some d))
        s.brk d, -EBUSY) := by
    unfold register_insert
    simp only [set_info_table, hff, register_fail]
    rw [vfb2_remove_unlisted _ s.brk d (by simp) hti]
    rfl
  rw [hins] at heq
  obtain ⟨e1, e2, e3⟩ := vfb2_register_fail_same pf env s _ (some ini) _ hwf heq (by decide)
  refine ⟨_, heq, e1, by rw [e1], e2, e3, ?_⟩
  intro i p d0 hslot hd0
  exact ⟨by rw [e1]; exact hslot, by rw [e2]; exact hd0⟩

/-- Witness for C11: the sample descriptor is registered in an empty registry
of one slot, which is then full; registering it once more returns `-EBUSY`. -/
theorem vfb2_register_full_witness :
    ∃ s s', vfb2_register ⟨64, 4096⟩ env_ok (empty_state 1) (some sample_init) = some (s, 0) ∧
      vfb2_register ⟨64, 4096⟩ env_ok s (some sample_init) = some (s', -EBUSY) ∧
      s'.vfb2_table = s.vfb2_table ∧ s'.vfb2_table.length = s.vfb2_table.length ∧
      (∀ a, s'.devs a = s.devs a) ∧ (∀ a, s'.infos a = s.infos a) ∧
      (∀ (i p : Nat) (d : vfb2_device), s.vfb2_table[i]? = some (some p) → s.devs p = some d →
        s'.vfb2_table[i]? = some (some p) ∧ s'.devs p = some d) := by
  obtain ⟨s, h1, ht⟩ : ∃ s, vfb2_register ⟨64, 4096⟩ env_ok (empty_state 1) (some sample_init)
      = some (s, 0) ∧ s.vfb2_table = [some 0] := ⟨_, rfl, rfl⟩
  have hwf : wf s := (vfb2_register_keeps _ _ _ _ _ _ (wf_empty 1) h1).1
  have hfull : ∀ j : Nat, s.vfb2_table[j]? ≠ some none := by
    intro j
    rw [ht]
    cases j with
    | zero => simp
    | succ k => simp
  obtain ⟨s', h2⟩ := vfb2_register_full ⟨64, 4096⟩ env_ok s (empty_state 1) s sample_init 0
    hwf hfull h1 (by decide)
  exact ⟨s, s', h1, h2⟩

/-! ## Theorems: the negotiation returns -/

theorem vfb2_num_modes_cons (m : vfb2_mode) (rest : List vfb2_mode) (n : Nat)
    (h : vfb2_num_modes (m :: rest) = some n) :
    (m.xres = 0 ∧ n = 0) ∨ (m.xres ≠ 0 ∧ ∃ k, vfb2_num_modes rest = some k ∧ n = k + 1) := by
  unfold vfb2_num_modes at h
  by_cases hx : m.xres = 0
  · rw [if_pos hx] at h
    exact Or.inl ⟨hx, by simpa using h.symm⟩
  · rw [if_neg hx] at h
    cases hk : vfb2_num_modes rest with
    | none => simp [hk] at h
    | some k =>
      simp only [hk, Option.map_some', Option.some.injEq] at h
      exact Or.inr ⟨hx, k, rfl, h.symm⟩

/-- In a table with a sentinel the entries before it are real and the
entry at the position `vfb2_num_modes` returns is the sentinel. -/
theorem vfb2_num_modes_spec : ∀ (l : List vfb2_mode) (n : Nat), vfb2_num_modes l = some n →
    (∃ z, l[n]? = some z ∧ z.xres = 0) ∧ (∀ k m, k < n → l[k]? = some m → m.xres ≠ 0) := by
  intro l
  induction l with
  | nil => intro n h; simp [vfb2_num_modes] at h
  | cons m rest ih =>
    intro n h
    rcases vfb2_num_modes_cons m rest n h with ⟨hx, hn⟩ | ⟨hx, k, hk, hn⟩
    · subst hn
      exact ⟨⟨m, by simp, hx⟩, fun k m' hk _ => by omega⟩
    · subst hn
      obtain ⟨⟨z, hz, hz0⟩, hreal⟩ := ih k hk
      refine ⟨⟨z, by simpa using hz, hz0⟩, ?_⟩
      intro j m' hj hm'
      cases j with
      | zero =>
        simp only [List.getElem?_cons_zero, Option.some.injEq] at hm'
        rw [← hm']
        exact hx
      | succ j' =>
        simp only [List.getElem?_cons_succ] at hm'
        exact hreal j' m' (by omega) hm'

theorem vfb2_num_modes_take : ∀ (l : List vfb2_mode) (n : Nat), vfb2_num_modes l = some n →
    vfb2_num_modes (l.take (n + 1)) = some n := by
  intro l
  induction l with
  | nil => intro n h; simp [vfb2_num_modes] at h
  | cons m rest ih =>
    intro n h
    rcases vfb2_num_modes_cons m rest n h with ⟨hx, hn⟩ | ⟨hx, k, hk, hn⟩
    · subst hn
      simp [vfb2_num_modes, hx]
    · subst hn
      simp only [List.take_succ_cons, vfb2_num_modes, hx, if_false, ih k hk, Option.map_some']

/-- In a table with a sentinel each loop of `vfb2_match_mode` ends, with the
value it started from or with the index of a real entry. -/
theorem match_loop_total (p : vfb2_mode → Bool) :
    ∀ (l : List vfb2_mode) (i mode : Int) (n : Nat), vfb2_num_modes l = some n →
      ∃ r, match_loop p l i mode = some r ∧ (r = mode ∨ (i ≤ r ∧ r < i + (n : Int))) := by
  intro l
  induction l with
  | nil => intro i mode n h; simp [vfb2_num_modes] at h
  | cons m rest ih =>
    intro i mode n h
    rcases vfb2_num_modes_cons m rest n h with ⟨hx, hn⟩ | ⟨hx, k, hk, hn⟩
    · exact ⟨mode, by simp [match_loop, hx], Or.inl rfl⟩
    · subst hn
      by_cases hp : p m = true
      · exact ⟨i, by simp [match_loop, hx, hp], Or.inr ⟨le_refl _, by push_cast; omega⟩⟩
      · obtain ⟨r, hr, hcase⟩ := ih (i + 1) mode k hk
        refine ⟨r, by simp [match_loop, hx, hp, hr], ?_⟩
        rcases hcase with e | ⟨h1, h2⟩
        · exact Or.inl e
        · exact Or.inr ⟨by omega, by push_cast; omega⟩

theorem vfb2_match_mode_total (d : vfb2_device) (var : fb_var_screeninfo)
    (tbl : List vfb2_mode) (n : Nat) (htbl : d.init.mode_table = some tbl)
    (hn : vfb2_num_modes tbl = some n) :
    ∃ r, vfb2_match_mode d var = some r ∧ (r = -1 ∨ (0 ≤ r ∧ r < (n : Int))) := by
  obtain ⟨r1, h1, c1⟩ := match_loop_total (loose_match var) tbl 0 (-1) n hn
  obtain ⟨r2, h2, c2⟩ := match_loop_total (tight_match var) tbl 0 r1 n hn
  refine ⟨r2, by simp [vfb2_match_mode, htbl, h1, h2], ?_⟩
  rcases c2 with e | ⟨h3, h4⟩
  · subst e
    rcases c1 with e | ⟨h3, h4⟩
    · exact Or.inl e
    · exact Or.inr ⟨h3, by omega⟩
  · exact Or.inr ⟨h3, by omega⟩

theorem mode_at_le (tbl : List vfb2_mode) (n : Nat) (hn : vfb2_num_modes tbl = some n)
    (r : Int) (h0 : 0 ≤ r) (h1 : r ≤ (n : Int)) : ∃ m, mode_at tbl r = some m := by
  obtain ⟨⟨z, hz, -⟩, -⟩ := vfb2_num_modes_spec tbl n hn
  have hlen : n < tbl.length := by
    by_contra hge
    rw [List.getElem?_eq_none (by omega)] at hz
    simp at hz
  have hr : r.toNat < tbl.length := by omega
  refine ⟨tbl[r.toNat], ?_⟩
  have : ¬ r < 0 := by omega
  simp [mode_at, this, List.getElem?_eq_getElem hr]

/-- `vfb2_check_var_helper` returns when the table has a sentinel and
`current_mode` is an index of the table. -/
theorem vfb2_check_var_helper_total (pf : platform) (var : fb_var_screeninfo) (d : vfb2_device)
    (tbl : List vfb2_mode) (n : Nat) (htbl : d.init.mode_table = some tbl)
    (hn : vfb2_num_modes tbl = some n) (hc0 : 0 ≤ d.current_mode)
    (hc1 : d.current_mode ≤ (n : Int)) :
    ∃ var' r, vfb2_check_var_helper pf var d = some (var', r) := by
  obtain ⟨matched, hm, hcase⟩ := vfb2_match_mode_total d var tbl n htbl hn
  have hidx : ∃ m, mode_at tbl (if matched < 0 then d.current_mode else matched) = some m := by
    by_cases hneg : matched < 0
    · rw [if_pos hneg]
      exact mode_at_le tbl n hn _ hc0 hc1
    · rw [if_neg hneg]
      exact mode_at_le tbl n hn _ (by omega) (by omega)
  obtain ⟨m, hmode⟩ := hidx
  obtain ⟨var', r, -, h, -⟩ := vfb2_check_var_helper_selected pf var d tbl matched m htbl hm hmode
  exact ⟨var', r, h⟩

theorem vfb2_line_length_some (pf : platform) (d : vfb2_device) (tbl : List vfb2_mode)
    (mode : Int) (m : vfb2_mode) (htbl : d.init.mode_table = some tbl)
    (hm : mode_at tbl mode = some m) : ∃ ll, vfb2_line_length pf d mode = some ll := by
  simp [vfb2_line_length, htbl, hm]

/-- `vfb2_set_par_helper` returns when the table has a sentinel. -/
theorem vfb2_set_par_helper_total (pf : platform) (fi : fb_info) (d : vfb2_device)
    (tbl : List vfb2_mode) (n : Nat) (htbl : d.init.mode_table = some tbl)
    (hn : vfb2_num_modes tbl = some n) :
    ∃ fi' d' r, vfb2_set_par_helper pf fi d = some (fi', d', r) := by
  obtain ⟨mode, hm, hcase⟩ := vfb2_match_mode_total d fi.var tbl n htbl hn
  unfold vfb2_set_par_helper
  simp only [hm]
  by_cases hneg : mode < 0
  · rw [if_pos hneg]
    exact ⟨_, _, _, rfl⟩
  · rw [if_neg hneg]
    obtain ⟨m, hma⟩ := mode_at_le tbl n hn mode (by omega) (by omega)
    obtain ⟨ll, hll⟩ := vfb2_line_length_some pf d tbl mode m htbl hma
    simp only [hll, htbl, hma]
    exact ⟨_, _, _, rfl⟩

/-! ## Theorems: vfb2_register returns -/

theorem register_fail_total (X : State) (p : Nat) (d : vfb2_device) (res : Int)
    (hd : X.devs p = some d) (hti : d.table_index = -1) :
    ∃ s', register_fail X p res = some (s', res) := by
  simp only [register_fail, vfb2_remove_unlisted X p d hd hti, Option.map_some']
  exact ⟨_, rfl⟩

theorem register_insert_total (env : alloc_env) (S : State) (p q : Nat) (d : vfb2_device)
    (fi : fb_info) (hpres : d.present = VFB2_ERROR_ON_REGISTER) (hti : d.table_index = -1)
    (hopen : d.open_ = 0) (hinf : d.info = some q) :
    ∃ s' r, register_insert env S p q d fi = some (s', r) := by
  unfold register_insert
  simp only [set_info_table]
  cases hff : first_free S.vfb2_table 0 with
  | none =>
    simp only
    obtain ⟨s', h⟩ := register_fail_total (set_dev (set_info S q (some fi)) p (some d)) p d
      (-EBUSY) (by simp) hti
    exact ⟨s', _, h⟩
  | some i =>
    simp only
    obtain ⟨-, hget, -⟩ := first_free_spec _ 0 i hff
    simp only [Nat.sub_zero] at hget
    have hlen : i < S.vfb2_table.length := by
      by_contra hge
      rw [List.getElem?_eq_none (by omega)] at hget
      simp at hget
    by_cases h0 : -(env.register_framebuffer : Int) = 0
    · simp only [h0, if_true]
      exact ⟨_, _, rfl⟩
    · simp only [h0, if_false]
      have hneg : -(env.register_framebuffer : Int) < 0 := by omega
      simp only [hneg, if_true]
      have hrm := vfb2_remove_destroys
        (set_dev (set_slot (set_info S q (some fi)) i (some p)) p
          (some { d with table_index := (i : Int) }))
        p i q { d with table_index := (i : Int) } fi (by simp) rfl
        (by simpa using hlen) (by simp only [hpres]; decide) hopen hinf (by simp)
      simp only [register_fail, hrm, Option.map_some']
      exact ⟨_, _, rfl⟩

theorem vfb2_alloc_vmem_total (pf : platform) (ok : Bool) (addr : Nat) (d : vfb2_device)
    (hpage : pf.PAGE_SIZE ≠ 0) : ∃ d' r, vfb2_alloc_vmem pf ok addr d = some (d', r) := by
  unfold vfb2_alloc_vmem
  simp only [hpage, if_false]
  cases ok with
  | false => exact ⟨_, _, rfl⟩
  | true => exact ⟨_, _, rfl⟩

/-- `vfb2_register` returns for every descriptor whose mode table, if there is
one, has a sentinel. -/
theorem vfb2_register_total (pf : platform) (env : alloc_env) (s : State)
    (init : Option vfb2_init) (hpage : pf.PAGE_SIZE ≠ 0)
    (hterm : ∀ ini tbl, init = some ini → ini.mode_table = some tbl →
      ∃ n, vfb2_num_modes tbl = some n) :
    ∃ s' r, vfb2_register pf env s init = some (s', r) := by
  unfold vfb2_register
  cases init with
  | none => exact ⟨_, _, rfl⟩
  | some init =>
    simp only
    cases hmt : init.mode_table with
    | none => exact ⟨_, _, rfl⟩
    | some tbl0 =>
      simp only
      obtain ⟨n, hn⟩ := hterm init tbl0 rfl hmt
      cases hinit : vfb2_init_dev env init with
      | none => simp [vfb2_init_dev, hmt, hn] at hinit; split at hinit <;> simp at hinit
      | some od =>
        cases od with
        | none => exact ⟨_, _, rfl⟩
        | some d0 =>
          simp only
          have b2 : s.brk + 1 + 1 = s.brk + 2 := rfl
          have b3 : s.brk + 2 + 1 = s.brk + 3 := rfl
          simp only [b2, b3]
          obtain ⟨hp0, hti0, hop0, hcm0, hinf0⟩ := vfb2_init_dev_fields env init d0 hinit
          have htbl0 : d0.init.mode_table = some (tbl0.take (n + 1)) := by
            simp only [vfb2_init_dev, hmt, hn] at hinit
            split at hinit
            · simp only [Option.some.injEq] at hinit
              rw [← hinit]
            · simp at hinit
          obtain ⟨d1, r1, hvm⟩ := vfb2_alloc_vmem_total pf env.vmalloc (s.brk + 1) d0 hpage
          obtain ⟨hp1, hti1, hop1, hcm1, hinf1, htbl1⟩ :=
            vfb2_alloc_vmem_fields pf env.vmalloc (s.brk + 1) d0 d1 r1 hvm
          simp only [hvm]
          by_cases hr1 : r1 ≠ 0
          · rw [if_pos hr1]
            obtain ⟨s', h⟩ := register_fail_total (set_dev { s with brk := s.brk + 2 } s.brk
              (some d1)) s.brk d1 (-ENOMEM) (by simp) (hti1.trans hti0)
            exact ⟨s', _, h⟩
          · rw [if_neg hr1]
            by_cases hfa : env.framebuffer_alloc = true
            · simp only [hfa, Bool.not_true, Bool.false_eq_true, if_false]
              generalize hdq : ({ d1 with info := some (s.brk + 2) } : vfb2_device) = dq
              have hdqf : dq.present = VFB2_ERROR_ON_REGISTER ∧ dq.table_index = -1 ∧
                  dq.open_ = 0 ∧ dq.current_mode = 0 ∧ dq.info = some (s.brk + 2) ∧
                  dq.init.mode_table = some (tbl0.take (n + 1)) := by
                subst hdq
                exact ⟨hp1.trans hp0, hti1.trans hti0, hop1.trans hop0, hcm1.trans hcm0, rfl,
                  htbl1.trans htbl0⟩
              obtain ⟨hq1, hq2, hq3, hq4, hq5, hq6⟩ := hdqf
              have hn' := vfb2_num_modes_take tbl0 n hn
              by_cases hcmap : -(env.fb_alloc_cmap : Int) < 0
              · simp only [hcmap, if_true]
                obtain ⟨s', h⟩ := register_fail_total
                  (set_info (set_dev { s with brk := s.brk + 3 } s.brk (some dq)) (s.brk + 2)
                    (some (new_fb_info s.brk dq))) s.brk dq (-(env.fb_alloc_cmap : Int))
                  (by simp) hq2
                exact ⟨s', _, h⟩
              · simp only [hcmap, if_false]
                obtain ⟨m0, hm0⟩ := mode_at_le _ n hn' 0 (le_refl _) (by omega)
                have hsm : ∃ var0, vfb2_set_mode dq (new_fb_info s.brk dq).var 0 = some var0 := by
                  simp [vfb2_set_mode, hq6, hm0]
                obtain ⟨var0, hsm⟩ := hsm
                simp only [hsm]
                obtain ⟨var1, res, hcv⟩ := vfb2_check_var_helper_total pf var0 dq _ n hq6 hn'
                  (by omega) (by omega)
                simp only [hcv]
                by_cases hres : res < 0
                · rw [if_pos hres]
                  obtain ⟨s', h⟩ := register_fail_total
                    (set_info (set_dev { s with brk := s.brk + 3 } s.brk (some dq)) (s.brk + 2)
                      (some { new_fb_info s.brk dq with var := var1 })) s.brk dq res
                    (by simp) hq2
                  exact ⟨s', _, h⟩
                · rw [if_neg hres]
                  obtain ⟨fi2, d2, res2, hsp⟩ := vfb2_set_par_helper_total pf
                    { new_fb_info s.brk dq with var := var1 } dq _ n hq6 hn'
                  obtain ⟨hpar, hti2, hpres2, hop2, hinf2, -⟩ :=
                    vfb2_set_par_helper_fields pf _ fi2 dq d2 res2 hsp
                  simp only [hsp]
                  by_cases hres2 : res2 < 0
                  · rw [if_pos hres2]
                    obtain ⟨s', h⟩ := register_fail_total
                      (set_info (set_dev { s with brk := s.brk + 3 } s.brk (some d2)) (s.brk + 2)
                        (some fi2)) s.brk d2 res2 (by simp) (hti2.trans hq2)
                    exact ⟨s', _, h⟩
                  · rw [if_neg hres2]
                    exact register_insert_total env _ s.brk (s.brk + 2) d2 fi2
                      (hpres2.trans hq1) (hti2.trans hq2) (hop2.trans hq3) (hinf2.trans hq5)
            · simp only [hfa, Bool.not_false, if_true]
              obtain ⟨s', h⟩ := register_fail_total (set_dev { s with brk := s.brk + 2 } s.brk
                (some d1)) s.brk d1 (-ENOMEM) (by simp) (hti1.trans hti0)
              exact ⟨s', _, h⟩

/-! ## Theorems: a failed registration unwinds -/

/-- C12 (a failed register unwinds completely).  In a well-formed registry,
whenever `vfb2_register` returns an error, whatever the cause (an allocation
that failed, the initial negotiation, `register_framebuffer` after the device
was put into a slot, or a full table), the table after the call is the table
before it and every device and every `fb_info` is as it was.  The call does
return: for a descriptor whose mode table has a sentinel, and a non-zero page
size, `vfb2_register` yields a result. -/
theorem vfb2_register_unwinds (pf : platform) (env : alloc_env) (s : State)
    (init : Option vfb2_init) (hwf : wf s) :
    (∀ s' r, vfb2_register pf env s init = some (s', r) → r < 0 →
      s'.vfb2_table = s.vfb2_table ∧ (∀ a, s'.devs a = s.devs a) ∧
      (∀ a, s'.infos a = s.infos a)) ∧
    (pf.PAGE_SIZE ≠ 0 →
      (∀ ini tbl, init = some ini → ini.mode_table = some tbl →
        ∃ n, vfb2_num_modes tbl = some n) →
      ∃ s' r, vfb2_register pf env s init = some (s', r)) :=
  ⟨fun s' r h hr => vfb2_register_fail_same pf env s s' init r hwf h hr,
   fun hpage hterm => vfb2_register_total pf env s init hpage hterm⟩

/-- Witness for C12: in the sample registry `register_framebuffer` fails with
error 5 after the new device was put into slot 1, and in a second run
`vmalloc` fails; both calls return the error and leave the registry as it
was. -/
theorem vfb2_register_unwinds_witness :
    (∃ s', vfb2_register ⟨64, 4096⟩ { env_ok with register_framebuffer := 5 }
        (sample_state VFB2_PRESENT 1) (some sample_init) = some (s', -5) ∧
      s'.vfb2_table = [some 0, none, none, none] ∧
      (∀ a, s'.devs a = (sample_state VFB2_PRESENT 1).devs a) ∧
      (∀ a, s'.infos a = (sample_state VFB2_PRESENT 1).infos a)) ∧
    (∃ s', vfb2_register ⟨64, 4096⟩ { env_ok with vmalloc := false }
        (sample_state VFB2_PRESENT 1) (some sample_init) = some (s', -ENOMEM) ∧
      s'.vfb2_table = [some 0, none, none, none] ∧
      (∀ a, s'.devs a = (sample_state VFB2_PRESENT 1).devs a) ∧
      (∀ a, s'.infos a = (sample_state VFB2_PRESENT 1).infos a)) := by
  obtain ⟨s1, h1⟩ : ∃ s', vfb2_register ⟨64, 4096⟩ { env_ok with register_framebuffer := 5 }
      (sample_state VFB2_PRESENT 1) (some sample_init) = some (s', -5) := ⟨_, rfl⟩
  obtain ⟨s2, h2⟩ : ∃ s', vfb2_register ⟨64, 4096⟩ { env_ok with vmalloc := false }
      (sample_state VFB2_PRESENT 1) (some sample_init) = some (s', -ENOMEM) := ⟨_, rfl⟩
  exact ⟨⟨s1, h1, (vfb2_register_unwinds _ _ _ _ (sample_state_wf _ _)).1 s1 _ h1 (by decide)⟩,
    ⟨s2, h2, (vfb2_register_unwinds _ _ _ _ (sample_state_wf _ _)).1 s2 _ h2 (by decide)⟩⟩

/-! ## Theorems: an empty mode table -/

theorem vfb2_alloc_vmem_ok (pf : platform) (addr : Nat) (d d1 : vfb2_device) (r1 : Int)
    (h : vfb2_alloc_vmem pf true addr d = some (d1, r1)) : r1 = 0 := by
  unfold vfb2_alloc_vmem at h
  by_cases hp : pf.PAGE_SIZE = 0
  · simp [hp] at h
  · simp only [hp, if_false, if_true, Option.some.injEq, Prod.mk.injEq] at h
    exact h.2.symm

/-- The code path of `vfb2_register` for a table whose first entry is the
sentinel: the call returns an error, and the error is `-EINVAL` when every
allocation succeeded. -/
theorem vfb2_register_sentinel_first (pf : platform) (env : alloc_env) (s : State)
    (ini : vfb2_init) (m0 : vfb2_mode) (rest : List vfb2_mode) (hpage : pf.PAGE_SIZE ≠ 0)
    (hmt : ini.mode_table = some (m0 :: rest)) (hx : m0.xres = 0) :
    ∃ s' r, vfb2_register pf env s (some ini) = some (s', r) ∧ r < 0 ∧
      (env.kmalloc_dev = true → env.kmalloc_table = true → env.vmalloc = true →
        env.framebuffer_alloc = true → env.fb_alloc_cmap = 0 → r = -EINVAL) := by
  have hn : vfb2_num_modes (m0 :: rest) = some 0 := by simp [vfb2_num_modes, hx]
  unfold vfb2_register
  simp only [hmt]
  cases hinit : vfb2_init_dev env ini with
  | none => simp [vfb2_init_dev, hmt, hn] at hinit; split at hinit <;> simp at hinit
  | some od =>
    cases od with
    | none =>
      refine ⟨_, _, rfl, by decide, ?_⟩
      intro k1 k2 _ _ _
      simp [vfb2_init_dev, hmt, hn, k1, k2] at hinit
    | some d0 =>
      simp only
      have b2 : s.brk + 1 + 1 = s.brk + 2 := rfl
      have b3 : s.brk + 2 + 1 = s.brk + 3 := rfl
      simp only [b2, b3]
      obtain ⟨hp0, hti0, hop0, hcm0, hinf0⟩ := vfb2_init_dev_fields env ini d0 hinit
      have htbl0 : d0.init.mode_table = some [m0] := by
        simp only [vfb2_init_dev, hmt, hn] at hinit
        split at hinit
        · simp only [Option.some.injEq] at hinit
          rw [← hinit]
          rfl
        · simp at hinit
      obtain ⟨d1, r1, hvm⟩ := vfb2_alloc_vmem_total pf env.vmalloc (s.brk + 1) d0 hpage
      obtain ⟨hp1, hti1, hop1, hcm1, hinf1, htbl1⟩ :=
        vfb2_alloc_vmem_fields pf env.vmalloc (s.brk + 1) d0 d1 r1 hvm
      simp only [hvm]
      by_cases hr1 : r1 ≠ 0
      · rw [if_pos hr1]
        obtain ⟨s', h⟩ := register_fail_total (set_dev { s with brk := s.brk + 2 } s.brk
          (some d1)) s.brk d1 (-ENOMEM) (by simp) (hti1.trans hti0)
        refine ⟨s', _, h, by decide, ?_⟩
        intro _ _ k3 _ _
        rw [k3] at hvm
        exact absurd (vfb2_alloc_vmem_ok pf _ d0 d1 r1 hvm) hr1
      · rw [if_neg hr1]
        by_cases hfa : env.framebuffer_alloc = true
        · simp only [hfa, Bool.not_true, Bool.false_eq_true, if_false]
          generalize hdq : ({ d1 with info := some (s.brk + 2) } : vfb2_device) = dq
          have hdqf : dq.table_index = -1 ∧ dq.current_mode = 0 ∧
              dq.init.mode_table = some [m0] := by
            subst hdq
            exact ⟨hti1.trans hti0, hcm1.trans hcm0, htbl1.trans htbl0⟩
          obtain ⟨hq2, hq4, hq6⟩ := hdqf
          by_cases hcmap : -(env.fb_alloc_cmap : Int) < 0
          · simp only [hcmap, if_true]
            obtain ⟨s', h⟩ := register_fail_total
              (set_info (set_dev { s with brk := s.brk + 3 } s.brk (some dq)) (s.brk + 2)
                (some (new_fb_info s.brk dq))) s.brk dq (-(env.fb_alloc_cmap : Int))
              (by simp) hq2
            refine ⟨s', _, h, hcmap, ?_⟩
            intro _ _ _ _ k5
            rw [k5] at hcmap
            simp at hcmap
          · simp only [hcmap, if_false]
            have hma : mode_at [m0] 0 = some m0 := by simp [mode_at]
            have hsm : ∃ var0, vfb2_set_mode dq (new_fb_info s.brk dq).var 0 = some var0 := by
              simp [vfb2_set_mode, hq6, hma]
            obtain ⟨var0, hsm⟩ := hsm
            simp only [hsm]
            have hmatch : vfb2_match_mode dq var0 = some (-1) :=
              vfb2_match_mode_empty dq var0 m0 [] hq6 hx
            have hmode : mode_at [m0] (if (-1 : Int) < 0 then dq.current_mode else -1)
                = some m0 := by
              rw [if_pos (by decide), hq4]
              exact hma
            obtain ⟨var1, res, ll, hcv, -, -, -, -, hres⟩ :=
              vfb2_check_var_helper_selected pf var0 dq [m0] (-1) m0 hq6 hmatch hmode
            rw [if_pos (Or.inl hx)] at hres
            subst hres
            simp only [hcv]
            rw [if_pos (by decide)]
            obtain ⟨s', h⟩ := register_fail_total
              (set_info (set_dev { s with brk := s.brk + 3 } s.brk (some dq)) (s.brk + 2)
                (some { new_fb_info s.brk dq with var := var1 })) s.brk dq (-EINVAL)
              (by simp) hq2
            exact ⟨s', _, h, by decide, fun _ _ _ _ _ => rfl⟩
        · simp only [hfa, Bool.not_false, if_true]
          obtain ⟨s', h⟩ := register_fail_total (set_dev { s with brk := s.brk + 2 } s.brk
            (some d1)) s.brk d1 (-ENOMEM) (by simp) (hti1.trans hti0)
          refine ⟨s', _, h, by decide, ?_⟩
          intro _ _ _ k4 _
          exact absurd k4 (by decide)

/-- C13 (an empty mode table is rejected).  For a missing descriptor, a
missing mode table pointer, or a table whose first entry is the sentinel,
`vfb2_register` returns an error and never a slot index, and the table, every
device and every `fb_info` are as before.  With the descriptor or the pointer
missing the error is `-EINVAL` and nothing is allocated; with the sentinel
first it is `-EINVAL` whenever the allocations made before the negotiation
succeed. -/
theorem vfb2_register_empty_table (pf : platform) (env : alloc_env) (s : State)
    (init : Option vfb2_init) (hwf : wf s) (hpage : pf.PAGE_SIZE ≠ 0)
    (hempty : init = none ∨ ∃ ini, init = some ini ∧
      (ini.mode_table = none ∨ ∃ m0 rest, ini.mode_table = some (m0 :: rest) ∧ m0.xres = 0)) :
    ∃ s' r, vfb2_register pf env s init = some (s', r) ∧ r < 0 ∧
      s'.vfb2_table = s.vfb2_table ∧ (∀ a, s'.devs a = s.devs a) ∧
      (∀ a, s'.infos a = s.infos a) ∧
      ((init = none ∨ ∃ ini, init = some ini ∧ ini.mode_table = none) →
        r = -EINVAL ∧ s' = s) ∧
      (env.kmalloc_dev = true → env.kmalloc_table = true → env.vmalloc = true →
        env.framebuffer_alloc = true → env.fb_alloc_cmap = 0 → r = -EINVAL) := by
  rcases hempty with h0 | ⟨ini, h0, h1 | ⟨m0, rest, hmt, hx⟩⟩
  · subst h0
    exact ⟨s, -EINVAL, rfl, by decide, rfl, fun _ => rfl, fun _ => rfl, fun _ => ⟨rfl, rfl⟩,
      fun _ _ _ _ _ => rfl⟩
  · subst h0
    have : vfb2_register pf env s (some ini) = some (s, -EINVAL) := by
      simp [vfb2_register, h1]
    exact ⟨s, -EINVAL, this, by decide, rfl, fun _ => rfl, fun _ => rfl, fun _ => ⟨rfl, rfl⟩,
      fun _ _ _ _ _ => rfl⟩
  · subst h0
    obtain ⟨s', r, hrun, hr, hcode⟩ :=
      vfb2_register_sentinel_first pf env s ini m0 rest hpage hmt hx
    obtain ⟨e1, e2, e3⟩ := vfb2_register_fail_same pf env s s' (some ini) r hwf hrun hr
    refine ⟨s', r, hrun, hr, e1, e2, e3, ?_, hcode⟩
    intro hcase
    rcases hcase with hc | ⟨ini', hc, hnone⟩
    · simp at hc
    · simp only [Option.some.injEq] at hc
      subst hc
      rw [hmt] at hnone
      simp at hnone

/-- Witness for C13: a descriptor whose table holds the sentinel only, offered
to the sample registry with every allocation succeeding. -/
theorem vfb2_register_empty_table_witness :
    ∃ s' r, vfb2_register ⟨64, 4096⟩ env_ok (sample_state VFB2_PRESENT 0)
        (some { vmem_len := 4096, mode_table := some [⟨0, 0, 0, 0, 0⟩], vfb2_ioctl := none,
                private_ := 0 }) = some (s', r) ∧ r < 0 ∧
      s'.vfb2_table = (sample_state VFB2_PRESENT 0).vfb2_table ∧
      (∀ a, s'.devs a = (sample_state VFB2_PRESENT 0).devs a) ∧
      (∀ a, s'.infos a = (sample_state VFB2_PRESENT 0).infos a) ∧
      (((some { vmem_len := 4096, mode_table := some [⟨0, 0, 0, 0, 0⟩], vfb2_ioctl := none,
                private_ := 0 } : Option vfb2_init) = none ∨
          ∃ ini, (some { vmem_len := 4096, mode_table := some [⟨0, 0, 0, 0, 0⟩],
                         vfb2_ioctl := none, private_ := 0 } : Option vfb2_init) = some ini ∧
            ini.mode_table = none) →
        r = -EINVAL ∧ s' = sample_state VFB2_PRESENT 0) ∧
      (env_ok.kmalloc_dev = true → env_ok.kmalloc_table = true → env_ok.vmalloc = true →
        env_ok.framebuffer_alloc = true → env_ok.fb_alloc_cmap = 0 → r = -EINVAL) :=
  vfb2_register_empty_table ⟨64, 4096⟩ env_ok (sample_state VFB2_PRESENT 0) _
    (sample_state_wf _ _) (by decide) (Or.inr ⟨_, rfl, Or.inr ⟨_, _, rfl, rfl⟩⟩)

/-! ## Theorems: the rounding in vfb2_alloc_vmem -/

/-- The rounding of the specification is what its words say: a multiple of the
page size, not below `L`, and below `L + P`. -/
theorem spec_round_up_spec (L P : Nat) (hP : 0 < P) :
    P ∣ spec_round_up L P ∧ L ≤ spec_round_up L P ∧ spec_round_up L P < L + P := by
  unfold spec_round_up
  refine ⟨Dvd.intro_left _ rfl, ?_, ?_⟩
  · have h1 := Nat.div_add_mod (L + P - 1) P
    have h2 := Nat.mod_lt (L + P - 1) hP
    have h3 : (L + P - 1) / P * P = P * ((L + P - 1) / P) := Nat.mul_comm _ _
    omega
  · have h1 := Nat.div_add_mod (L + P - 1) P
    have h3 : (L + P - 1) / P * P = P * ((L + P - 1) / P) := Nat.mul_comm _ _
    omega

/-- What `vfb2_alloc_vmem` stores: a length that is a page multiple is kept;
otherwise the remainder, not the quotient, is increased by one and multiplied
by the page size (stated for a product that fits 32 bits on a 64-bit `long`). -/
theorem stored_vmem_len_eq (L P : Nat) (hP : 0 < P) (hfit : (L % P + 1) * P < 2 ^ 32) :
    stored_vmem_len ⟨64, P⟩ L = some (if L % P = 0 then L else (L % P + 1) * P) := by
  have hp0 : P ≠ 0 := by omega
  unfold stored_vmem_len vfb2_alloc_vmem
  simp only [hp0, if_false, if_true, sample_dev, Option.map_some', Option.some.injEq]
  by_cases hrem : L % P = 0
  · simp [hrem]
  · have h64 : (L % P + 1) * P % 2 ^ 64 = (L % P + 1) * P :=
      Nat.mod_eq_of_lt (lt_trans hfit (by norm_num))
    simp only [ne_eq, hrem, not_false_eq_true, if_true, if_false, h64, Nat.mod_eq_of_lt hfit]

/-- C14 (the backing length is rounded up to a page multiple): the code at
lengths where it departs from the claim.  Asked for 40961 bytes with 4096-byte
pages, `vfb2_alloc_vmem` stores 8192, which is smaller than the length asked
for; the smallest page multiple not below 40961 is 45056.  Asked for 100
bytes it stores 413696, which is not below 100 + 4096; the smallest page
multiple not below 100 is 4096. -/
theorem vfb2_alloc_vmem_rounding :
    stored_vmem_len ⟨64, 4096⟩ 40961 = some 8192 ∧ spec_round_up 40961 4096 = 45056 ∧
    (8192 : Nat) < 40961 ∧
    stored_vmem_len ⟨32, 4096⟩ 40961 = some 8192 ∧
    stored_vmem_len ⟨64, 4096⟩ 100 = some 413696 ∧ spec_round_up 100 4096 = 4096 ∧
    ¬ ((413696 : Nat) < 100 + 4096) := by
  refine ⟨by decide, by decide, by decide, by decide, by decide, by decide, ?_⟩
  decide

/-! ## Theorems: command dispatch -/

theorem vfb2_get_present_dev_of (s : State) (info : Option Nat) (p : Nat) (d : vfb2_device)
    (hget : vfb2_get_dev s info = some (some p)) (hd : s.devs p = some d) :
    vfb2_get_present_dev s info =
      if d.present = VFB2_NOT_PRESENT then some none else some (some p) := by
  simp [vfb2_get_present_dev, hget, hd]

/-! ## Theorems: lifecycle misuse -/

theorem vfb2_index_to_dev_some (s : State) (idx : Int) (p : Nat)
    (h : vfb2_index_to_dev s idx = some p) :
    ∃ i : Nat, idx = (i : Int) ∧ s.vfb2_table[i]? = some (some p) := by
  unfold vfb2_index_to_dev at h
  by_cases hr : idx < 0 ∨ idx ≥ (s.vfb2_table.length : Int)
  · simp [hr] at h
  · rw [if_neg hr] at h
    refine ⟨idx.toNat, by omega, ?_⟩
    cases hx : s.vfb2_table[idx.toNat]? with
    | none => simp [hx] at h
    | some e =>
      rw [hx] at h
      simp only [Option.join, Option.some_bind, id_eq] at h
      rw [h]

theorem vfb2_index_to_dev_none (s : State) (idx : Int)
    (h : idx < 0 ∨ idx ≥ (s.vfb2_table.length : Int) ∨
      s.vfb2_table[idx.toNat]? = some none) :
    vfb2_index_to_dev s idx = none := by
  unfold vfb2_index_to_dev
  by_cases hr : idx < 0 ∨ idx ≥ (s.vfb2_table.length : Int)
  · rw [if_pos hr]
  · rw [if_neg hr]
    rcases h with h | h | h
    · exact absurd (Or.inl h) hr
    · exact absurd (Or.inr h) hr
    · rw [h]
      rfl

theorem vfb2_unregister_none (s : State) (idx : Int) (h : vfb2_index_to_dev s idx = none) :
    vfb2_unregister s idx = some s := by
  simp [vfb2_unregister, vfb2_unregister_locked, h]

/-- A call of `vfb2_unregister` on the slot a call of `vfb2_unregister` has
just been made on changes nothing. -/
theorem vfb2_unregister_twice (s s1 : State) (idx : Int) (hwf : wf s)
    (h : vfb2_unregister s idx = some s1) : vfb2_unregister s1 idx = some s1 := by
  cases hidx : vfb2_index_to_dev s idx with
  | none =>
    rw [vfb2_unregister_none s idx hidx] at h
    simp only [Option.some.injEq] at h
    subst h
    exact vfb2_unregister_none s idx hidx
  | some p =>
    obtain ⟨i, hi, hslot⟩ := vfb2_index_to_dev_some s idx p hidx
    subst hi
    obtain ⟨d, hd, hti⟩ := hwf.1 i p hslot
    have hlen : i < s.vfb2_table.length := by
      by_contra hge
      rw [List.getElem?_eq_none (by omega)] at hslot
      simp at hslot
    simp only [vfb2_unregister, vfb2_unregister_locked, hidx, hd] at h
    by_cases hopen : d.open_ = 0
    · rw [if_pos hopen] at h
      cases hinf : d.info with
      | none => simp [vfb2_remove, hti, hopen, hlen, hinf, VFB2_NOT_PRESENT, VFB2_PRESENT] at h
      | some q =>
        cases hfi : s.infos q with
        | none =>
          simp [vfb2_remove, hti, hopen, hlen, hinf, hfi, VFB2_NOT_PRESENT, VFB2_PRESENT] at h
        | some fi =>
          rw [vfb2_remove_destroys (set_dev s p (some { d with present := VFB2_NOT_PRESENT })) p i q
            { d with present := VFB2_NOT_PRESENT } fi (by simp) hti (by simpa using hlen)
            (by simp [VFB2_NOT_PRESENT, VFB2_PRESENT]) hopen hinf (by simpa using hfi)] at h
          simp only [Option.some.injEq] at h
          subst h
          apply vfb2_unregister_none
          apply vfb2_index_to_dev_none
          right; right
          simp [hlen]
    · rw [if_neg hopen] at h
      simp only [Option.some.injEq] at h
      subst h
      have hidx' : vfb2_index_to_dev (set_dev s p (some { d with present := VFB2_NOT_PRESENT }))
          (i : Int) = some p := vfb2_index_to_dev_slot _ i p (by simpa using hslot)
      simp [vfb2_unregister, vfb2_unregister_locked, hidx', hopen]

/-! ## Theorems: the negotiation leaves the device alone -/

theorem set_info_self (s : State) (q : Nat) (fi : Option fb_info) (h : s.infos q = fi) :
    set_info s q fi = s := by
  cases s
  simp only [set_info, State.mk.injEq, true_and, and_true]
  simp only at h
  rw [← h]
  exact Function.update_eq_self _ _

/-- What `vfb2_set_par_helper` returns: `-EINVAL` with the `fb_info` and the
device as they were when the request matches no mode, and otherwise 0 with
`current_mode` the matched index and only `fix.line_length` and `fix.visual`
of the `fb_info` rewritten. -/
theorem vfb2_set_par_helper_result (pf : platform) (fi fi' : fb_info) (d d' : vfb2_device)
    (r : Int) (h : vfb2_set_par_helper pf fi d = some (fi', d', r)) :
    (r = -EINVAL ∧ fi' = fi ∧ d' = d ∧ ∃ mode, vfb2_match_mode d fi.var = some mode ∧ mode < 0) ∨
    (r = 0 ∧ 0 ≤ d'.current_mode ∧ vfb2_match_mode d fi.var = some d'.current_mode ∧
      d' = { d with current_mode := d'.current_mode } ∧
      (∃ ll, vfb2_line_length pf d d'.current_mode = some ll ∧
        fi'.fix.line_length = ll % 2 ^ 32) ∧
      fi'.var = fi.var ∧ fi'.par = fi.par ∧ fi'.pseudo_palette = fi.pseudo_palette) := by
  unfold vfb2_set_par_helper at h
  cases hm : vfb2_match_mode d fi.var with
  | none => simp [hm] at h
  | some mode =>
    simp only [hm] at h
    by_cases hneg : mode < 0
    · rw [if_pos hneg] at h
      simp only [Option.some.injEq, Prod.mk.injEq] at h
      exact Or.inl ⟨h.2.2.symm, h.1.symm, h.2.1.symm, mode, rfl, hneg⟩
    · rw [if_neg hneg] at h
      cases hl : vfb2_line_length pf d mode with
      | none => simp [hl] at h
      | some ll =>
        cases ht : d.init.mode_table with
        | none => simp [hl, ht] at h
        | some tbl =>
          simp only [hl, ht] at h
          cases hma : mode_at tbl mode with
          | none => simp [hma] at h
          | some m =>
            simp only [hma, Option.some.injEq, Prod.mk.injEq] at h
            obtain ⟨h1, h2, h3⟩ := h
            subst h1; subst h2; subst h3
            exact Or.inr ⟨rfl, by simpa using hneg, rfl, rfl, ⟨ll, hl, rfl⟩, rfl, rfl, rfl⟩

/-- C17 (negotiation never mutates the device).  `vfb2_check_var_helper`
reads the device and yields a rewritten request and a return value only, so a
call of `fb_check_var` leaves the whole state, with every device's
`current_mode`, mode table and `vmem_len`, as it was, whatever it returns
(`-ENOMEM` included).
`vfb2_set_par_helper` returns 0 or `-EINVAL`; it never changes `init` (mode
table, `vmem_len`), presence, open count or `table_index`; when it does not
return 0 the device and the `fb_info` (with its line length) are unchanged;
and `vfb2_set_par` that does not return 0 leaves the state unchanged. -/
theorem negotiation_frame (pf : platform) :
    (∀ handler s var info var' r, vfb2_check_var pf s var info = some (var', r) →
      exec pf handler s (Op.fb_check_var var info) = some s) ∧
    (∀ fi d fi' d' r, vfb2_set_par_helper pf fi d = some (fi', d', r) →
      (r = 0 ∨ r = -EINVAL) ∧
      d'.init = d.init ∧ d'.present = d.present ∧ d'.open_ = d.open_ ∧
      d'.table_index = d.table_index ∧
      (r ≠ 0 → d' = d ∧ fi' = fi) ∧
      (d'.current_mode ≠ d.current_mode → r = 0)) ∧
    (∀ s info s' r, vfb2_set_par pf s info = some (s', r) → r ≠ 0 → s' = s) := by
  refine ⟨?_, ?_, ?_⟩
  · intro handler s var info var' r h
    simp only [exec, h, Option.map_some']
  · intro fi d fi' d' r h
    obtain ⟨-, hti, hpres, hopen, -, hinit⟩ := vfb2_set_par_helper_fields pf fi fi' d d' r h
    rcases vfb2_set_par_helper_result pf fi fi' d d' r h with ⟨hr, e1, e2, -⟩ | ⟨hr, -⟩
    · refine ⟨Or.inr hr, hinit, hpres, hopen, hti, fun _ => ⟨e2, e1⟩, ?_⟩
      intro hne
      rw [e2] at hne
      exact absurd rfl hne
    · exact ⟨Or.inl hr, hinit, hpres, hopen, hti, fun hne => absurd hr hne, fun _ => hr⟩
  · intro s info s' r h hr
    unfold vfb2_set_par at h
    cases hg : vfb2_get_present_dev s info with
    | none => simp [hg] at h
    | some od =>
      cases od with
      | none =>
        simp only [hg, Option.some.injEq, Prod.mk.injEq] at h
        exact h.1.symm
      | some dev =>
        simp only [hg] at h
        cases info with
        | none => simp at h
        | some a =>
          cases hd : s.devs dev with
          | none => simp [hd] at h
          | some d =>
            simp only [hd] at h
            cases hfi : s.infos a with
            | none => simp [hfi] at h
            | some fi =>
              simp only [hfi] at h
              cases hsp : vfb2_set_par_helper pf fi d with
              | none => simp [hsp] at h
              | some t =>
                obtain ⟨fi', d', r'⟩ := t
                simp only [hsp, Option.some.injEq, Prod.mk.injEq] at h
                obtain ⟨h1, h2⟩ := h
                subst h2
                rcases vfb2_set_par_helper_result pf fi fi' d d' r' hsp with
                  ⟨-, e1, e2, -⟩ | ⟨hr0, -⟩
                · rw [← h1, e1, e2, set_info_self s a (some fi) hfi,
                    set_dev_self s dev (some d) hd]
                · exact absurd hr0 hr

/-- Witness for C17: on the sample device a request for 1024x768 is refused by
`vfb2_set_par_helper` with the device and the `fb_info` unchanged, a request
for 800x600 at 16 bpp makes mode 1 current, and `fb_check_var` on a device
with 1000 bytes of video memory returns `-ENOMEM` and leaves the state. -/
theorem negotiation_frame_witness :
    (∃ fi' d', vfb2_set_par_helper ⟨64, 4096⟩
        { new_fb_info 0 (sample_dev 1920000 sample_table 0) with var := request 1024 768 8 }
        (sample_dev 1920000 sample_table 0) = some (fi', d', -EINVAL) ∧
      d' = sample_dev 1920000 sample_table 0 ∧
      fi' = { new_fb_info 0 (sample_dev 1920000 sample_table 0) with
                var := request 1024 768 8 }) ∧
    (∃ fi' d', vfb2_set_par_helper ⟨64, 4096⟩
        { new_fb_info 0 (sample_dev 1920000 sample_table 0) with var := request 800 600 16 }
        (sample_dev 1920000 sample_table 0) = some (fi', d', 0) ∧
      d'.current_mode = 1 ∧ d'.init = (sample_dev 1920000 sample_table 0).init) ∧
    (∃ var', vfb2_check_var ⟨64, 4096⟩
        (set_dev (sample_state VFB2_PRESENT 0) 0 (some (sample_dev 1000 sample_table 0)))
        (request 640 480 8) (some 1) = some (var', -ENOMEM) ∧
      exec ⟨64, 4096⟩ sum_handler
        (set_dev (sample_state VFB2_PRESENT 0) 0 (some (sample_dev 1000 sample_table 0)))
        (Op.fb_check_var (request 640 480 8) (some 1)) =
        some (set_dev (sample_state VFB2_PRESENT 0) 0
          (some (sample_dev 1000 sample_table 0)))) := by
  have h := negotiation_frame ⟨64, 4096⟩
  obtain ⟨fi1, d1, h1⟩ : ∃ fi' d', vfb2_set_par_helper ⟨64, 4096⟩
      { new_fb_info 0 (sample_dev 1920000 sample_table 0) with var := request 1024 768 8 }
      (sample_dev 1920000 sample_table 0) = some (fi', d', -EINVAL) := ⟨_, _, rfl⟩
  obtain ⟨fi2, d2, h2, hcm⟩ : ∃ fi' d', vfb2_set_par_helper ⟨64, 4096⟩
      { new_fb_info 0 (sample_dev 1920000 sample_table 0) with var := request 800 600 16 }
      (sample_dev 1920000 sample_table 0) = some (fi', d', 0) ∧ d'.current_mode = 1 :=
    ⟨_, _, rfl, rfl⟩
  have k1 := (h.2.1 _ _ _ _ _ h1).2.2.2.2.2.1 (by decide)
  refine ⟨⟨fi1, d1, h1, k1.1, k1.2⟩, ⟨fi2, d2, h2, hcm, (h.2.1 _ _ _ _ _ h2).2.1⟩, ⟨_, rfl, ?_⟩⟩
  exact h.1 sum_handler _ _ _ _ (-ENOMEM) rfl

/-! ## Theorems: channel layouts -/

/-- A successful `vfb2_check_var_helper` ends in `vfb2_set_bitfields`, called
on a request with the geometry of the selected mode and with that mode's
`transp_mode`. -/
theorem vfb2_check_var_helper_success (pf : platform) (var var' : fb_var_screeninfo)
    (dev : vfb2_device) (h : vfb2_check_var_helper pf var dev = some (var', 0)) :
    ∃ tbl matched m v, dev.init.mode_table = some tbl ∧
      vfb2_match_mode dev var = some matched ∧
      mode_at tbl (if matched < 0 then dev.current_mode else matched) = some m ∧
      v.xres = m.xres ∧ v.yres = m.yres ∧ v.bits_per_pixel = m.bpp ∧
      var' = vfb2_set_bitfields v m.transp_mode ∧
      (m.bpp = 1 ∨ m.bpp = 8 ∨ m.bpp = 16 ∨ m.bpp = 24 ∨ m.bpp = 32) := by
  unfold vfb2_check_var_helper at h
  cases hm : vfb2_match_mode dev var with
  | none => simp [hm] at h
  | some matched =>
    simp only [hm] at h
    cases htbl : dev.init.mode_table with
    | none => simp [vfb2_set_mode, htbl] at h
    | some tbl =>
      cases hma : mode_at tbl (if matched < 0 then dev.current_mode else matched) with
      | none => simp [vfb2_set_mode, htbl, hma] at h
      | some m =>
        simp only [vfb2_set_mode, htbl, hma] at h
        by_cases h1 : m.xres = 0 ∨ m.yres = 0
        · rw [if_pos h1] at h
          simp [EINVAL] at h
        · rw [if_neg h1] at h
          by_cases h2 : m.bpp ≠ 1 ∧ m.bpp ≠ 8 ∧ m.bpp ≠ 16 ∧ m.bpp ≠ 24 ∧ m.bpp ≠ 32
          · rw [if_pos h2] at h
            simp [ENOTSUPP] at h
          · rw [if_neg h2] at h
            split at h
            · rename_i ll mt hl hmt
              simp only [Option.some.injEq] at hmt
              subst hmt
              by_cases h3 : (ll * m.yres) % 2 ^ pf.BITS_PER_LONG > dev.init.vmem_len
              · rw [if_pos h3] at h
                simp [ENOMEM] at h
              · rw [if_neg h3] at h
                simp only [hma, Option.some.injEq, Prod.mk.injEq, and_true] at h
                refine ⟨tbl, matched, m, _, rfl, rfl, hma, ?_, ?_, ?_, h.symm, by omega⟩ <;> rfl
            · simp at h

/-- The layouts `vfb2_set_bitfields` writes, by bits per pixel. -/
theorem vfb2_set_bitfields_layout (v : fb_var_screeninfo) (t : Nat) :
    ((v.bits_per_pixel = 1 ∨ v.bits_per_pixel = 8) →
      (vfb2_set_bitfields v t).red = ⟨0, v.bits_per_pixel, 0⟩ ∧
      (vfb2_set_bitfields v t).green = ⟨0, v.bits_per_pixel, 0⟩ ∧
      (vfb2_set_bitfields v t).blue = ⟨0, v.bits_per_pixel, 0⟩ ∧
      (vfb2_set_bitfields v t).transp = ⟨0, 0, 0⟩) ∧
    (v.bits_per_pixel = 16 → t = VFB2_16BPP_TRANSP →
      (vfb2_set_bitfields v t).red = ⟨0, 5, 0⟩ ∧ (vfb2_set_bitfields v t).green = ⟨5, 5, 0⟩ ∧
      (vfb2_set_bitfields v t).blue = ⟨10, 5, 0⟩ ∧
      (vfb2_set_bitfields v t).transp = ⟨15, 1, 0⟩) ∧
    (v.bits_per_pixel = 16 → t ≠ VFB2_16BPP_TRANSP →
      (vfb2_set_bitfields v t).red = ⟨0, 5, 0⟩ ∧ (vfb2_set_bitfields v t).green = ⟨5, 6, 0⟩ ∧
      (vfb2_set_bitfields v t).blue = ⟨11, 5, 0⟩ ∧
      (vfb2_set_bitfields v t).transp = ⟨0, 0, 0⟩) ∧
    (v.bits_per_pixel = 24 →
      (vfb2_set_bitfields v t).red = ⟨0, 8, 0⟩ ∧ (vfb2_set_bitfields v t).green = ⟨8, 8, 0⟩ ∧
      (vfb2_set_bitfields v t).blue = ⟨16, 8, 0⟩ ∧
      (vfb2_set_bitfields v t).transp = ⟨0, 0, 0⟩) ∧
    (v.bits_per_pixel = 32 →
      (vfb2_set_bitfields v t).red = ⟨0, 8, 0⟩ ∧ (vfb2_set_bitfields v t).green = ⟨8, 8, 0⟩ ∧
      (vfb2_set_bitfields v t).blue = ⟨16, 8, 0⟩ ∧
      (vfb2_set_bitfields v t).transp = ⟨24, 8, 0⟩) := by
  refine ⟨?_, ?_, ?_, ?_, ?_⟩
  · intro h
    simp [vfb2_set_bitfields, h]
  · intro h ht
    simp [vfb2_set_bitfields, h, ht]
  · intro h ht
    simp [vfb2_set_bitfields, h, ht]
  · intro h
    simp [vfb2_set_bitfields, h]
  · intro h
    simp [vfb2_set_bitfields, h]

/-- C18 (direct-colour channel layout).  When `vfb2_check_var_helper`
returns 0 the rewritten request carries the geometry of the selected mode `m`
and the layout `vfb2_set_bitfields` gives it.  At 16 bpp: red offset 0 length
5 and green offset 5; with `transp_mode` other than `VFB2_16BPP_TRANSP` green
has length 6, blue offset 11 length 5, and transp length 0; with
`VFB2_16BPP_TRANSP` green has length 5, blue offset 10 length 5, transp offset
15 length 1.  At 24 and 32 bpp: red offset 0, green offset 8, blue offset 16,
each of length 8; transp offset 24 length 8 at 32 bpp and length 0 at 24
bpp. -/
theorem direct_colour_layout (pf : platform) (var var' : fb_var_screeninfo) (dev : vfb2_device)
    (h : vfb2_check_var_helper pf var dev = some (var', 0)) :
    ∃ tbl matched m, dev.init.mode_table = some tbl ∧
      vfb2_match_mode dev var = some matched ∧
      mode_at tbl (if matched < 0 then dev.current_mode else matched) = some m ∧
      var'.xres = m.xres ∧ var'.yres = m.yres ∧ var'.bits_per_pixel = m.bpp ∧
      (m.bpp = 16 → m.transp_mode ≠ VFB2_16BPP_TRANSP →
        var'.red = ⟨0, 5, 0⟩ ∧ var'.green = ⟨5, 6, 0⟩ ∧ var'.blue = ⟨11, 5, 0⟩ ∧
        var'.transp.length = 0 ∧ var'.transp = ⟨0, 0, 0⟩) ∧
      (m.bpp = 16 → m.transp_mode = VFB2_16BPP_TRANSP →
        var'.red = ⟨0, 5, 0⟩ ∧ var'.green = ⟨5, 5, 0⟩ ∧ var'.blue = ⟨10, 5, 0⟩ ∧
        var'.transp = ⟨15, 1, 0⟩) ∧
      (m.bpp = 24 →
        var'.red = ⟨0, 8, 0⟩ ∧ var'.green = ⟨8, 8, 0⟩ ∧ var'.blue = ⟨16, 8, 0⟩ ∧
        var'.transp.length = 0 ∧ var'.transp = ⟨0, 0, 0⟩) ∧
      (m.bpp = 32 →
        var'.red = ⟨0, 8, 0⟩ ∧ var'.green = ⟨8, 8, 0⟩ ∧ var'.blue = ⟨16, 8, 0⟩ ∧
        var'.transp = ⟨24, 8, 0⟩) := by
  obtain ⟨tbl, matched, m, v, htbl, hm, hma, hx, hy, hb, hv, -⟩ :=
    vfb2_check_var_helper_success pf var var' dev h
  obtain ⟨-, l16t, l16, l24, l32⟩ := vfb2_set_bitfields_layout v m.transp_mode
  obtain ⟨gx, gy, gb⟩ := vfb2_set_bitfields_geometry v m.transp_mode
  subst hv
  refine ⟨tbl, matched, m, htbl, hm, hma, gx.trans hx, gy.trans hy, gb.trans hb, ?_, ?_, ?_, ?_⟩
  · intro h16 ht
    obtain ⟨a, b, c, d⟩ := l16 (hb.trans h16) ht
    exact ⟨a, b, c, by rw [d], d⟩
  · intro h16 ht
    exact l16t (hb.trans h16) ht
  · intro h24
    obtain ⟨a, b, c, d⟩ := l24 (hb.trans h24)
    exact ⟨a, b, c, by rw [d], d⟩
  · intro h32
    exact l32 (hb.trans h32)

/-- Witness for C18: 800x600 at 16 bpp on the sample device (no alpha) and on
a device whose only mode is 800x600 at 16 bpp with `VFB2_16BPP_TRANSP`. -/
theorem direct_colour_layout_witness :
    (∃ var', vfb2_check_var_helper ⟨64, 4096⟩ (request 800 600 16)
        (sample_dev 1920000 sample_table 0) = some (var', 0) ∧
      var'.red = ⟨0, 5, 0⟩ ∧ var'.green = ⟨5, 6, 0⟩ ∧ var'.blue = ⟨11, 5, 0⟩ ∧
      var'.transp = ⟨0, 0, 0⟩) ∧
    (∃ var', vfb2_check_var_helper ⟨64, 4096⟩ (request 800 600 16)
        (sample_dev 960000 [⟨800, 600, 16, 2, 1⟩, ⟨0, 0, 0, 0, 0⟩] 0) = some (var', 0) ∧
      var'.red = ⟨0, 5, 0⟩ ∧ var'.green = ⟨5, 5, 0⟩ ∧ var'.blue = ⟨10, 5, 0⟩ ∧
      var'.transp = ⟨15, 1, 0⟩) := by
  obtain ⟨v1, h1⟩ : ∃ var', vfb2_check_var_helper ⟨64, 4096⟩ (request 800 600 16)
      (sample_dev 1920000 sample_table 0) = some (var', 0) := ⟨_, rfl⟩
  obtain ⟨v2, h2⟩ : ∃ var', vfb2_check_var_helper ⟨64, 4096⟩ (request 800 600 16)
      (sample_dev 960000 [⟨800, 600, 16, 2, 1⟩, ⟨0, 0, 0, 0, 0⟩] 0) = some (var', 0) := ⟨_, rfl⟩
  obtain ⟨tbl, matched, m, htbl, hm, hma, -, -, -, k1, -, -, -⟩ :=
    direct_colour_layout _ _ _ _ h1
  obtain ⟨tbl', matched', m', htbl', hm', hma', -, -, -, -, k2, -, -⟩ :=
    direct_colour_layout _ _ _ _ h2
  have e1 : tbl = sample_table := by
    have : some tbl = some sample_table := htbl.symm
    simpa using this
  have e2 : matched = 1 := by
    have : some matched = some 1 := hm.symm.trans (by decide)
    simpa using this
  subst e1; subst e2
  have e3 : m = ⟨800, 600, 16, 2, 0⟩ := by
    have : some m = some ⟨800, 600, 16, 2, 0⟩ := hma.symm.trans (by decide)
    simpa using this
  subst e3
  have e1' : tbl' = [⟨800, 600, 16, 2, 1⟩, ⟨0, 0, 0, 0, 0⟩] := by
    have : some tbl' = some [⟨800, 600, 16, 2, 1⟩, ⟨0, 0, 0, 0, 0⟩] := htbl'.symm
    simpa using this
  have e2' : matched' = 0 := by
    have : some matched' = some 0 := hm'.symm.trans (by decide)
    simpa using this
  subst e1'; subst e2'
  have e3' : m' = ⟨800, 600, 16, 2, 1⟩ := by
    have : some m' = some ⟨800, 600, 16, 2, 1⟩ := hma'.symm.trans (by decide)
    simpa using this
  subst e3'
  obtain ⟨a, b, c, -, d⟩ := k1 rfl (by decide)
  exact ⟨⟨v1, h1, a, b, c, d⟩, ⟨v2, h2, k2 rfl rfl⟩⟩

/-- C19 as the code has it (indexed layout).  When `vfb2_check_var_helper`
returns 0 and the selected mode `m` has 1 or 8 bits per pixel, red, green and
blue get offset 0 and length `m.bpp`; transp gets offset 0 and length 0, not
`m.bpp`. -/
theorem indexed_layout (pf : platform) (var var' : fb_var_screeninfo) (dev : vfb2_device)
    (h : vfb2_check_var_helper pf var dev = some (var', 0)) :
    ∃ tbl matched m, dev.init.mode_table = some tbl ∧
      vfb2_match_mode dev var = some matched ∧
      mode_at tbl (if matched < 0 then dev.current_mode else matched) = some m ∧
      var'.xres = m.xres ∧ var'.yres = m.yres ∧ var'.bits_per_pixel = m.bpp ∧
      ((m.bpp = 1 ∨ m.bpp = 8) →
        var'.red = ⟨0, m.bpp, 0⟩ ∧ var'.green = ⟨0, m.bpp, 0⟩ ∧ var'.blue = ⟨0, m.bpp, 0⟩ ∧
        var'.transp = ⟨0, 0, 0⟩) := by
  obtain ⟨tbl, matched, m, v, htbl, hm, hma, hx, hy, hb, hv, -⟩ :=
    vfb2_check_var_helper_success pf var var' dev h
  obtain ⟨l8, -⟩ := vfb2_set_bitfields_layout v m.transp_mode
  obtain ⟨gx, gy, gb⟩ := vfb2_set_bitfields_geometry v m.transp_mode
  subst hv
  refine ⟨tbl, matched, m, htbl, hm, hma, gx.trans hx, gy.trans hy, gb.trans hb, ?_⟩
  intro h8
  rw [← hb] at h8 ⊢
  exact l8 h8

/-- Witness for C19: the example of the specification.  With the mode table
640x480 at 8 bpp, 800x600 at 16 bpp and 960000 bytes of video memory (the
larger mode), the request 640x480 at 8 bpp is matched exactly by mode 0 and
accepted; red, green and blue have offset 0 and length 8, transp has offset 0
and length 0. -/
theorem indexed_layout_witness :
    vfb2_match_mode (sample_dev 960000 spec_table 0) (request 640 480 8) = some 0 ∧
    ∃ var', vfb2_check_var_helper ⟨64, 4096⟩ (request 640 480 8)
        (sample_dev 960000 spec_table 0) = some (var', 0) ∧
      var'.xres = 640 ∧ var'.yres = 480 ∧ var'.bits_per_pixel = 8 ∧
      var'.red = ⟨0, 8, 0⟩ ∧ var'.green = ⟨0, 8, 0⟩ ∧ var'.blue = ⟨0, 8, 0⟩ ∧
      var'.transp = ⟨0, 0, 0⟩ := by
  obtain ⟨v1, h1⟩ : ∃ var', vfb2_check_var_helper ⟨64, 4096⟩ (request 640 480 8)
      (sample_dev 960000 spec_table 0) = some (var', 0) := ⟨_, rfl⟩
  obtain ⟨tbl, matched, m, htbl, hm, hma, kx, ky, kb, k⟩ := indexed_layout _ _ _ _ h1
  have e1 : tbl = spec_table := by
    have : some tbl = some spec_table := htbl.symm
    simpa using this
  have e2 : matched = 0 := by
    have : some matched = some 0 := hm.symm.trans (by decide)
    simpa using this
  subst e1; subst e2
  have e3 : m = ⟨640, 480, 8, 3, 0⟩ := by
    have : some m = some ⟨640, 480, 8, 3, 0⟩ := hma.symm.trans (by decide)
    simpa using this
  subst e3
  exact ⟨by decide, v1, h1, kx, ky, kb, k (Or.inr rfl)⟩

/-- C19 as stated fails: in the example of the specification the transparency
channel of the accepted 640x480 8 bpp mode has length 0, while red has length
8, so the four channels do not share the length 8. -/
theorem indexed_layout_transp :
    (vfb2_check_var_helper ⟨64, 4096⟩ (request 640 480 8)
        (sample_dev 960000 spec_table 0)).map
      (fun x => (x.2, x.1.red.length, x.1.transp.offset, x.1.transp.length))
      = some (0, 8, 0, 0) ∧
    ¬ ((vfb2_check_var_helper ⟨64, 4096⟩ (request 640 480 8)
        (sample_dev 960000 spec_table 0)).map (fun x => x.1.transp.length) = some 8) := by
  decide

/-! ## Theorems: the rescaling of colour values -/

theorem CNVT_TOHW_some (val width : Nat) (h : width < 32) :
    ∃ r, CNVT_TOHW val width = some r := by
  have : ¬ width ≥ 32 := by omega
  unfold CNVT_TOHW
  rw [if_neg this]
  exact ⟨_, rfl⟩

/-- C20 (rescaling end points).  For every channel width `w` from 0 to 15 the
macro `CNVT_TOHW`, evaluated on `u_int` operands, maps 0 to 0 and 0xFFFF to
`2 ^ w - 1`, the largest `w`-bit value.  `vfb2_setcolreg` applies this one
macro to red, green, blue and transp: with the channel's own length for a
true-colour or pseudo-colour visual, with width 8 for a direct-colour
visual. -/
theorem CNVT_TOHW_endpoints (w : Nat) (hw : w ≤ 15) :
    CNVT_TOHW 0 w = some 0 ∧ CNVT_TOHW 0xFFFF w = some (2 ^ w - 1) ∧
    (∀ fi red green blue transp r g b t,
      (fi.fix.visual = FB_VISUAL_TRUECOLOR ∨ fi.fix.visual = FB_VISUAL_PSEUDOCOLOR) →
      CNVT_TOHW red fi.var.red.length = some r → CNVT_TOHW green fi.var.green.length = some g →
      CNVT_TOHW blue fi.var.blue.length = some b →
      CNVT_TOHW transp fi.var.transp.length = some t →
      setcolreg_convert fi red green blue transp = some (r, g, b, t)) ∧
    (∀ fi red green blue transp, fi.fix.visual = FB_VISUAL_DIRECTCOLOR →
      ∃ r g b t, CNVT_TOHW red 8 = some r ∧ CNVT_TOHW green 8 = some g ∧
        CNVT_TOHW blue 8 = some b ∧ CNVT_TOHW transp 8 = some t ∧
        setcolreg_convert fi red green blue transp = some (r, g, b, t)) := by
  refine ⟨?_, ?_, ?_, ?_⟩
  · interval_cases w <;> decide
  · interval_cases w <;> decide
  · intro fi red green blue transp r g b t hv h1 h2 h3 h4
    simp [setcolreg_convert, hv, h1, h2, h3, h4]
  · intro fi red green blue transp hv
    obtain ⟨r, hr⟩ := CNVT_TOHW_some red 8 (by decide)
    obtain ⟨g, hg⟩ := CNVT_TOHW_some green 8 (by decide)
    obtain ⟨b, hb⟩ := CNVT_TOHW_some blue 8 (by decide)
    obtain ⟨t, ht⟩ := CNVT_TOHW_some transp 8 (by decide)
    refine ⟨r, g, b, t, hr, hg, hb, ht, ?_⟩
    have hne' : ¬ (FB_VISUAL_DIRECTCOLOR = FB_VISUAL_TRUECOLOR ∨
        FB_VISUAL_DIRECTCOLOR = FB_VISUAL_PSEUDOCOLOR) := by decide
    unfold setcolreg_convert
    rw [hv, if_neg hne', if_pos rfl]
    simp only [hr, hg, hb, ht]

/-- Witness for C20: the 5-bit channel of the 16 bpp layout. -/
theorem CNVT_TOHW_endpoints_witness :
    CNVT_TOHW 0 5 = some 0 ∧ CNVT_TOHW 0xFFFF 5 = some 31 :=
  ⟨(CNVT_TOHW_endpoints 5 (by decide)).1, (CNVT_TOHW_endpoints 5 (by decide)).2.1⟩

/-! ## Theorems: the effect of calls other than vfb2_register -/

theorem dev_step_refl (d : vfb2_device) : dev_step d d :=
  ⟨rfl, rfl, rfl, Or.inl rfl, fun _ h => h, Or.inl rfl⟩

theorem vfb2_remove_free_devs (X : State) (p : Nat) (d : vfb2_device) :
    (vfb2_remove_free X p d).vfb2_table = X.vfb2_table ∧
    (vfb2_remove_free X p d).devs p = none ∧
    (∀ a, a ≠ p → (vfb2_remove_free X p d).devs a = X.devs a) := by
  unfold vfb2_remove_free
  cases d.info with
  | none =>
    exact ⟨rfl, by simp, fun a ha => set_dev_devs_other _ _ _ _ ha⟩
  | some q =>
    refine ⟨rfl, by simp, fun a ha => ?_⟩
    rw [set_dev_devs_other _ _ _ _ ha]
    rfl

/-- What `vfb2_remove` does to the table and the devices: the table is kept
or one slot is cleared, no device changes, and the device passed in is freed
unless the call is refused. -/
theorem vfb2_remove_effect (X X' : State) (x : Option Nat) (h : vfb2_remove X x = some X') :
    (X'.vfb2_table = X.vfb2_table ∨ ∃ i, X'.vfb2_table = X.vfb2_table.set i none) ∧
    (∀ a d', X'.devs a = some d' → X.devs a = some d') ∧
    (∀ p d, x = some p → X.devs p = some d → d.present ≠ VFB2_PRESENT → d.open_ = 0 →
      X'.devs p = none) := by
  unfold vfb2_remove at h
  cases x with
  | none =>
    simp only [Option.some.injEq] at h
    subst h
    exact ⟨Or.inl rfl, fun _ _ hh => hh, fun p d hp => by simp at hp⟩
  | some a =>
    simp only at h
    cases hd : X.devs a with
    | none => simp [hd] at h
    | some d =>
      simp only [hd] at h
      by_cases hti : d.table_index ≥ 0
      · rw [if_pos hti] at h
        by_cases hp : d.present = VFB2_PRESENT
        · rw [if_pos hp] at h
          simp only [Option.some.injEq] at h
          subst h
          refine ⟨Or.inl rfl, fun _ _ hh => hh, ?_⟩
          intro p d0 hp0 hd0 hne _
          simp only [Option.some.injEq] at hp0
          subst hp0
          rw [hd] at hd0
          simp only [Option.some.injEq] at hd0
          subst hd0
          exact absurd hp hne
        · rw [if_neg hp] at h
          by_cases ho : d.open_ ≠ 0
          · rw [if_pos ho] at h
            simp only [Option.some.injEq] at h
            subst h
            refine ⟨Or.inl rfl, fun _ _ hh => hh, ?_⟩
            intro p d0 hp0 hd0 _ ho0
            simp only [Option.some.injEq] at hp0
            subst hp0
            rw [hd] at hd0
            simp only [Option.some.injEq] at hd0
            subst hd0
            exact absurd ho0 ho
          · rw [if_neg ho] at h
            by_cases hlen : d.table_index.toNat < X.vfb2_table.length
            · rw [if_pos hlen] at h
              cases hinfo : d.info with
              | none => simp [hinfo] at h
              | some q =>
                simp only [hinfo] at h
                cases hfi : X.infos q with
                | none => simp [hfi] at h
                | some fi =>
                  simp only [hfi, Option.some.injEq] at h
                  generalize hdd : ({ d with table_index := -1, info := some q } : vfb2_device)
                    = dd at h
                  have hX : X' = vfb2_remove_free
                      (set_info (set_dev (set_slot X d.table_index.toNat none) a (some dd)) q
                        (some { fi with par := none })) a dd := h.symm
                  rw [hX]
                  obtain ⟨f1, f2, f3⟩ := vfb2_remove_free_devs
                    (set_info (set_dev (set_slot X d.table_index.toNat none) a (some dd)) q
                      (some { fi with par := none })) a dd
                  refine ⟨Or.inr ⟨d.table_index.toNat, by rw [f1]; rfl⟩, ?_, ?_⟩
                  · intro b d' hb
                    by_cases hba : b = a
                    · subst hba
                      rw [f2] at hb
                      simp at hb
                    · rw [f3 b hba] at hb
                      simp only [set_info_devs] at hb
                      rw [set_dev_devs_other _ _ _ _ hba] at hb
                      exact hb
                  · intro p d0 hp0 _ _ _
                    simp only [Option.some.injEq] at hp0
                    subst hp0
                    exact f2
            · rw [if_neg hlen] at h
              simp at h
      · rw [if_neg hti] at h
        simp only [Option.some.injEq] at h
        subst h
        obtain ⟨f1, f2, f3⟩ := vfb2_remove_free_devs X a d
        refine ⟨Or.inl f1, ?_, ?_⟩
        · intro b d' hb
          by_cases hba : b = a
          · subst hba
            rw [f2] at hb
            simp at hb
          · rw [f3 b hba] at hb
            exact hb
        · intro p d0 hp0 _ _ _
          simp only [Option.some.injEq] at hp0
          subst hp0
          exact f2

theorem call_effect_refl (X : State) : call_effect X X :=
  ⟨rfl, fun _ => Or.inl rfl, fun _ d' h => ⟨d', h, dev_step_refl d'⟩⟩

theorem dev_step_trans (d1 d2 d3 : vfb2_device) (h12 : dev_step d1 d2) (h23 : dev_step d2 d3) :
    dev_step d1 d3 := by
  obtain ⟨a1, a2, a3, a4, a5, a6⟩ := h12
  obtain ⟨b1, b2, b3, b4, b5, b6⟩ := h23
  refine ⟨b1.trans a1, b2.trans a2, b3.trans a3, ?_, ?_, ?_⟩
  · rcases b4 with e | e
    · rcases a4 with e' | e'
      · exact Or.inl (e.trans e')
      · exact Or.inr (e.trans e')
    · exact Or.inr e
  · intro hp ho
    have hp2 : d2.present = VFB2_NOT_PRESENT := by
      rcases a4 with e | e
      · exact e.trans hp
      · exact e
    exact b5 hp2 (a5 hp ho)
  · rcases b6 with e | ⟨var, hv, h0⟩
    · rcases a6 with e' | ⟨var, hv, h0⟩
      · exact Or.inl (e.trans e')
      · exact Or.inr ⟨var, by rw [e]; exact hv, by rw [e]; exact h0⟩
    · exact Or.inr ⟨var, by rw [← vfb2_match_mode_congr d2 d1 var a1]; exact hv, h0⟩

theorem call_effect_trans (X Y Z : State) (h1 : call_effect X Y) (h2 : call_effect Y Z) :
    call_effect X Z := by
  obtain ⟨l1, t1, e1⟩ := h1
  obtain ⟨l2, t2, e2⟩ := h2
  refine ⟨l2.trans l1, ?_, ?_⟩
  · intro j
    rcases t2 j with e | e
    · rcases t1 j with e' | e'
      · exact Or.inl (e.trans e')
      · exact Or.inr (e.trans e')
    · exact Or.inr e
  · intro a d3 h3
    obtain ⟨d2, hd2, s23⟩ := e2 a d3 h3
    obtain ⟨d1, hd1, s12⟩ := e1 a d2 hd2
    exact ⟨d1, hd1, dev_step_trans d1 d2 d3 s12 s23⟩

theorem call_effect_set_dev (X : State) (p : Nat) (d d' : vfb2_device) (hd : X.devs p = some d)
    (hs : dev_step d d') : call_effect X (set_dev X p (some d')) := by
  refine ⟨rfl, fun _ => Or.inl rfl, ?_⟩
  intro a d1 h1
  by_cases ha : a = p
  · subst ha
    simp only [set_dev_devs_same, Option.some.injEq] at h1
    subst h1
    exact ⟨d, hd, hs⟩
  · rw [set_dev_devs_other _ _ _ _ ha] at h1
    exact ⟨d1, h1, dev_step_refl d1⟩

theorem call_effect_set_info (X : State) (q : Nat) (fi : Option fb_info) :
    call_effect X (set_info X q fi) :=
  ⟨rfl, fun _ => Or.inl rfl, fun _ d' h => ⟨d', h, dev_step_refl d'⟩⟩

theorem call_effect_remove (X X' : State) (x : Option Nat) (h : vfb2_remove X x = some X') :
    call_effect X X' := by
  obtain ⟨ht, hd, -⟩ := vfb2_remove_effect X X' x h
  refine ⟨?_, ?_, fun a d' h' => ⟨d', hd a d' h', dev_step_refl d'⟩⟩
  · rcases ht with e | ⟨i, e⟩
    · rw [e]
    · rw [e, List.length_set]
  · intro j
    rcases ht with e | ⟨i, e⟩
    · exact Or.inl (by rw [e])
    · rw [e, List.getElem?_set]
      by_cases hij : i = j
      · subst hij
        by_cases hlen : i < X.vfb2_table.length
        · exact Or.inr (by simp [hlen])
        · left
          simp only [if_true, hlen, if_false]
          rw [List.getElem?_eq_none (by omega)]
      · exact Or.inl (by simp [hij])

theorem call_effect_open (X X' : State) (info : Option Nat) (r : Int)
    (h : vfb2_open X info = some (X', r)) : call_effect X X' := by
  unfold vfb2_open at h
  cases hg : vfb2_get_dev X info with
  | none => simp [hg] at h
  | some od =>
    cases od with
    | none =>
      simp only [hg, Option.some.injEq, Prod.mk.injEq] at h
      rw [← h.1]
      exact call_effect_refl X
    | some dev =>
      simp only [hg] at h
      cases hd : X.devs dev with
      | none => simp [hd] at h
      | some d =>
        simp only [hd] at h
        by_cases hp : d.present = VFB2_NOT_PRESENT
        · rw [if_pos hp] at h
          simp only [Option.some.injEq, Prod.mk.injEq] at h
          rw [← h.1]
          exact call_effect_refl X
        · rw [if_neg hp] at h
          simp only [Option.some.injEq, Prod.mk.injEq] at h
          rw [← h.1]
          exact call_effect_set_dev X dev d _ hd
            ⟨rfl, rfl, rfl, Or.inl rfl, fun hh => absurd hh hp, Or.inl rfl⟩

theorem call_effect_release (X X' : State) (info : Option Nat) (r : Int)
    (h : vfb2_release X info = some (X', r)) : call_effect X X' := by
  unfold vfb2_release vfb2_release_locked at h
  cases hg : vfb2_get_dev X info with
  | none => simp [hg] at h
  | some od =>
    cases od with
    | none =>
      simp only [hg, Bool.false_eq_true, if_false, Option.some.injEq, Prod.mk.injEq] at h
      rw [← h.1]
      exact call_effect_refl X
    | some dev =>
      simp only [hg] at h
      cases hd : X.devs dev with
      | none => simp [hd] at h
      | some d =>
        simp only [hd] at h
        by_cases hrm : (decide (atomic_dec d.open_ = 0) && decide (d.present = VFB2_NOT_PRESENT)) = true
        · simp only [hrm, if_true] at h
          cases hr : vfb2_remove (set_dev X dev (some { d with open_ := atomic_dec d.open_ })) (some dev) with
          | none => simp [hr] at h
          | some Y =>
            simp only [hr, Option.map_some', Option.some.injEq, Prod.mk.injEq] at h
            rw [← h.1]
            simp only [Bool.and_eq_true, decide_eq_true_eq] at hrm
            obtain ⟨ht, hdv, hfree⟩ := vfb2_remove_effect _ Y (some dev) hr
            have hgone : Y.devs dev = none := hfree dev { d with open_ := atomic_dec d.open_ } rfl
              (by simp) (by simp only [hrm.2]; decide) hrm.1
            obtain ⟨l, t, -⟩ := call_effect_remove _ Y (some dev) hr
            refine ⟨l, t, ?_⟩
            intro a d' ha
            by_cases hadev : a = dev
            · subst hadev
              rw [hgone] at ha
              simp at ha
            · have := hdv a d' ha
              rw [set_dev_devs_other _ _ _ _ hadev] at this
              exact ⟨d', this, dev_step_refl d'⟩
        · simp only [hrm, Bool.false_eq_true, if_false, Option.some.injEq, Prod.mk.injEq] at h
          rw [← h.1]
          refine call_effect_set_dev X dev d _ hd ⟨rfl, rfl, rfl, Or.inl rfl, ?_, Or.inl rfl⟩
          intro hp ho h0
          apply hrm
          simp only [Bool.and_eq_true, decide_eq_true_eq]
          exact ⟨h0, hp⟩

theorem call_effect_unregister (X X' : State) (idx : Int)
    (h : vfb2_unregister X idx = some X') : call_effect X X' := by
  unfold vfb2_unregister vfb2_unregister_locked at h
  cases hg : vfb2_index_to_dev X idx with
  | none =>
    simp only [hg, Option.some.injEq] at h
    rw [← h]
    exact call_effect_refl X
  | some dev =>
    simp only [hg] at h
    cases hd : X.devs dev with
    | none => simp [hd] at h
    | some d =>
      simp only [hd] at h
      have hstep : call_effect X (set_dev X dev (some { d with present := VFB2_NOT_PRESENT })) :=
        call_effect_set_dev X dev d _ hd
          ⟨rfl, rfl, rfl, Or.inr rfl, fun _ ho => ho, Or.inl rfl⟩
      by_cases ho : d.open_ = 0
      · rw [if_pos ho] at h
        exact call_effect_trans _ _ _ hstep (call_effect_remove _ X' (some dev) h)
      · rw [if_neg ho] at h
        simp only [Option.some.injEq] at h
        rw [← h]
        exact hstep

theorem call_effect_set_par (pf : platform) (X X' : State) (info : Option Nat) (r : Int)
    (h : vfb2_set_par pf X info = some (X', r)) : call_effect X X' := by
  unfold vfb2_set_par at h
  cases hg : vfb2_get_present_dev X info with
  | none => simp [hg] at h
  | some od =>
    cases od with
    | none =>
      simp only [hg, Option.some.injEq, Prod.mk.injEq] at h
      rw [← h.1]
      exact call_effect_refl X
    | some dev =>
      simp only [hg] at h
      cases info with
      | none => simp at h
      | some a =>
        cases hd : X.devs dev with
        | none => simp [hd] at h
        | some d =>
          simp only [hd] at h
          cases hfi : X.infos a with
          | none => simp [hfi] at h
          | some fi =>
            simp only [hfi] at h
            cases hsp : vfb2_set_par_helper pf fi d with
            | none => simp [hsp] at h
            | some t =>
              obtain ⟨fi', d', r'⟩ := t
              simp only [hsp, Option.some.injEq, Prod.mk.injEq] at h
              rw [← h.1]
              obtain ⟨-, hti, hpres, hopen, hinf, hinit⟩ :=
                vfb2_set_par_helper_fields pf fi fi' d d' r' hsp
              have hs : dev_step d d' := by
                refine ⟨hinit, hti, hinf, Or.inl hpres, fun _ ho => by rw [hopen]; exact ho, ?_⟩
                rcases vfb2_set_par_helper_result pf fi fi' d d' r' hsp with
                  ⟨-, -, e2, -⟩ | ⟨-, h0, hm, -⟩
                · exact Or.inl (by rw [e2])
                · exact Or.inr ⟨fi.var, hm, h0⟩
              exact call_effect_trans _ _ _ (call_effect_set_info X a (some fi'))
                (call_effect_set_dev _ dev d d' (by simpa using hd) hs)

/-- A call other than `vfb2_register` has the effect `call_effect`. -/
theorem exec_call_effect (pf : platform) (handler : Nat → Nat → Nat → Int → Int) (X X' : State)
    (op : Op) (hop : is_register op = false) (h : exec pf handler X op = some X') :
    call_effect X X' := by
  cases op with
  | register env init => simp [is_register] at hop
  | unregister idx => exact call_effect_unregister X X' idx h
  | fb_open info =>
    simp only [exec] at h
    cases hr : vfb2_open X info with
    | none => simp [hr] at h
    | some t =>
      obtain ⟨Y, r⟩ := t
      simp only [hr, Option.map_some', Option.some.injEq] at h
      subst h
      exact call_effect_open X Y info r hr
  | fb_release info =>
    simp only [exec] at h
    cases hr : vfb2_release X info with
    | none => simp [hr] at h
    | some t =>
      obtain ⟨Y, r⟩ := t
      simp only [hr, Option.map_some', Option.some.injEq] at h
      subst h
      exact call_effect_release X Y info r hr
  | fb_ioctl cmd arg info =>
    simp only [exec] at h
    cases hr : vfb2_ioctl handler X cmd arg info with
    | none => simp [hr] at h
    | some t =>
      obtain ⟨Y, r⟩ := t
      simp only [hr, Option.map_some', Option.some.injEq] at h
      subst h
      rw [vfb2_ioctl_state handler X Y cmd arg info r hr]
      exact call_effect_refl X
  | fb_check_var var info =>
    simp only [exec] at h
    cases hr : vfb2_check_var pf X var info with
    | none => simp [hr] at h
    | some t =>
      simp only [hr, Option.map_some', Option.some.injEq] at h
      subst h
      exact call_effect_refl X
  | fb_set_par info =>
    simp only [exec] at h
    cases hr : vfb2_set_par pf X info with
    | none => simp [hr] at h
    | some t =>
      obtain ⟨Y, r⟩ := t
      simp only [hr, Option.map_some', Option.some.injEq] at h
      subst h
      exact call_effect_set_par pf X Y info r hr
  | fb_setcolreg regno red green blue transp info =>
    simp only [exec] at h
    cases hr : vfb2_setcolreg X regno red green blue transp info with
    | none => simp [hr] at h
    | some t =>
      obtain ⟨Y, r⟩ := t
      simp only [hr, Option.map_some', Option.some.injEq] at h
      subst h
      rcases vfb2_setcolreg_state X Y regno red green blue transp info r hr with e | ⟨a, fi, pal, -, e⟩
      · rw [e]
        exact call_effect_refl X
      · rw [e]
        exact call_effect_set_info X a _
  | store_var var info =>
    simp only [exec] at h
    cases hfi : X.infos info with
    | none => simp [hfi] at h
    | some fi =>
      simp only [hfi, Option.some.injEq] at h
      rw [← h]
      exact call_effect_set_info X info _

theorem run_call_effect (pf : platform) (handler : Nat → Nat → Nat → Int → Int) :
    ∀ (ops : List Op) (X X' : State), (∀ op ∈ ops, is_register op = false) →
      run pf handler X ops = some X' → call_effect X X' := by
  intro ops
  induction ops with
  | nil =>
    intro X X' _ h
    simp only [run, Option.some.injEq] at h
    rw [← h]
    exact call_effect_refl X
  | cons op rest ih =>
    intro X X' hops h
    simp only [run] at h
    cases hx : exec pf handler X op with
    | none => simp [hx] at h
    | some Y =>
      simp only [hx] at h
      exact call_effect_trans X Y X'
        (exec_call_effect pf handler X Y op (hops op (List.mem_cons_self _ _)) hx)
        (ih Y X' (fun o ho => hops o (List.mem_cons_of_mem _ ho)) h)

/-! ## Theorems: an unregistered slot -/

/-- After `vfb2_unregister` the slot is unregistered. -/
theorem vfb2_unregister_marks (s s1 : State) (idx : Int) (hwf : wf s)
    (h : vfb2_unregister s idx = some s1) : unregistered s1 idx := by
  cases hidx : vfb2_index_to_dev s idx with
  | none =>
    rw [vfb2_unregister_none s idx hidx] at h
    simp only [Option.some.injEq] at h
    subst h
    exact Or.inl hidx
  | some p =>
    obtain ⟨i, hi, hslot⟩ := vfb2_index_to_dev_some s idx p hidx
    subst hi
    obtain ⟨d, hd, hti⟩ := hwf.1 i p hslot
    have hlen : i < s.vfb2_table.length := by
      by_contra hge
      rw [List.getElem?_eq_none (by omega)] at hslot
      simp at hslot
    simp only [vfb2_unregister, vfb2_unregister_locked, hidx, hd] at h
    by_cases hopen : d.open_ = 0
    · rw [if_pos hopen] at h
      cases hinf : d.info with
      | none => simp [vfb2_remove, hti, hopen, hlen, hinf, VFB2_NOT_PRESENT, VFB2_PRESENT] at h
      | some q =>
        cases hfi : s.infos q with
        | none =>
          simp [vfb2_remove, hti, hopen, hlen, hinf, hfi, VFB2_NOT_PRESENT, VFB2_PRESENT] at h
        | some fi =>
          rw [vfb2_remove_destroys (set_dev s p (some { d with present := VFB2_NOT_PRESENT })) p i q
            { d with present := VFB2_NOT_PRESENT } fi (by simp) hti (by simpa using hlen)
            (by simp [VFB2_NOT_PRESENT, VFB2_PRESENT]) hopen hinf (by simpa using hfi)] at h
          simp only [Option.some.injEq] at h
          subst h
          left
          apply vfb2_index_to_dev_none
          right; right
          simp [hlen]
    · rw [if_neg hopen] at h
      simp only [Option.some.injEq] at h
      subst h
      right
      exact ⟨p, { d with present := VFB2_NOT_PRESENT },
        vfb2_index_to_dev_slot _ i p (by simpa using hslot), by simp, rfl, hopen⟩

/-- On an unregistered slot `vfb2_unregister` changes nothing. -/
theorem unregistered_unregister (X : State) (idx : Int) (h : unregistered X idx) :
    vfb2_unregister X idx = some X := by
  rcases h with h | ⟨p, d, hidx, hd, hp, ho⟩
  · exact vfb2_unregister_none X idx h
  · have e : ({ d with present := VFB2_NOT_PRESENT } : vfb2_device) = d := by
      cases d
      simp only at hp
      simp [hp]
    simp only [vfb2_unregister, vfb2_unregister_locked, hidx, hd, e, ho, if_false,
      set_dev_self X p (some d) hd]

/-- A slot stays unregistered under calls other than `vfb2_register`. -/
theorem unregistered_keeps (X X' : State) (idx : Int) (h : unregistered X idx)
    (he : call_effect X X') (hwf : wf X') : unregistered X' idx := by
  obtain ⟨hl, ht, hdv⟩ := he
  rcases h with h | ⟨p, d, hidx, hd, hp, ho⟩
  · left
    unfold vfb2_index_to_dev at h ⊢
    rw [hl]
    by_cases hr : idx < 0 ∨ idx ≥ (X.vfb2_table.length : Int)
    · rw [if_pos hr]
    · rw [if_neg hr] at h ⊢
      rcases ht idx.toNat with e | e
      · rw [e]
        exact h
      · rw [e]
        rfl
  · obtain ⟨i, hi, hslot⟩ := vfb2_index_to_dev_some X idx p hidx
    subst hi
    rcases ht i with e | e
    · right
      have hslot' : X'.vfb2_table[i]? = some (some p) := e.trans hslot
      obtain ⟨d', hd', -⟩ := hwf.1 i p hslot'
      obtain ⟨d0, hd0, hs⟩ := hdv p d' hd'
      rw [hd] at hd0
      simp only [Option.some.injEq] at hd0
      subst hd0
      obtain ⟨-, -, -, hpres, hopen, -⟩ := hs
      refine ⟨p, d', vfb2_index_to_dev_slot X' i p hslot', hd', ?_, hopen hp ho⟩
      rcases hpres with e1 | e1
      · exact e1.trans hp
      · exact e1
    · left
      apply vfb2_index_to_dev_none
      right; right
      simpa using e

/-- A second `vfb2_unregister` on an index, after any calls other than
`vfb2_register`, leaves the state as it finds it. -/
theorem vfb2_unregister_again (pf : platform) (handler : Nat → Nat → Nat → Int → Int)
    (s s1 s2 : State) (idx : Int) (ops : List Op) (hwf : wf s)
    (h : vfb2_unregister s idx = some s1) (hops : ∀ op ∈ ops, is_register op = false)
    (hrun : run pf handler s1 ops = some s2) : vfb2_unregister s2 idx = some s2 := by
  have hwf1 : wf s1 := (vfb2_unregister_keeps s s s1 idx hwf (evolves_refl s) h).1
  have hwf2 : wf s2 := (run_keeps pf handler s1 ops s1 s2 hwf1 (evolves_refl s1) hrun).1
  exact unregistered_unregister s2 idx
    (unregistered_keeps s1 s2 idx (vfb2_unregister_marks s s1 idx hwf h)
      (run_call_effect pf handler ops s1 s2 hops hrun) hwf2)

/-! ## Theorems: lifecycle misuse (C16) -/

/-- C16 (lifecycle misuse is refused with the state intact).
(a) `vfb2_remove` on a device that is in the table (`table_index >= 0`) and
still present, or still open, returns with the state it was given: table,
devices and `fb_info`s unchanged, nothing freed.
(b) In a well-formed registry a second `vfb2_unregister` on the same index
leaves the state exactly as the first call left it; and when calls other than
`vfb2_register` are made in between, the second `vfb2_unregister` leaves the
state as it finds it.
(c) `vfb2_unregister` with an index that is negative, not below the capacity,
or of an empty slot leaves the state unchanged. -/
theorem lifecycle_misuse_refused (s : State) :
    (∀ p d, s.devs p = some d → d.table_index ≥ 0 →
      (d.present = VFB2_PRESENT ∨ d.open_ ≠ 0) → vfb2_remove s (some p) = some s) ∧
    (wf s → ∀ idx s1, vfb2_unregister s idx = some s1 →
      vfb2_unregister s1 idx = some s1 ∧
      ∀ (pf : platform) (handler : Nat → Nat → Nat → Int → Int) (ops : List Op) (s2 : State),
        (∀ op ∈ ops, is_register op = false) → run pf handler s1 ops = some s2 →
        vfb2_unregister s2 idx = some s2) ∧
    (∀ idx : Int, (idx < 0 ∨ idx ≥ (s.vfb2_table.length : Int) ∨
        s.vfb2_table[idx.toNat]? = some none) → vfb2_unregister s idx = some s) :=
  ⟨fun p d hd hti h => vfb2_remove_refuses s p d hd hti h,
   fun hwf idx s1 h => ⟨vfb2_unregister_twice s s1 idx hwf h,
     fun pf handler ops s2 hops hrun =>
       vfb2_unregister_again pf handler s s1 s2 idx ops hwf h hops hrun⟩,
   fun idx h => vfb2_unregister_none s idx (vfb2_index_to_dev_none s idx h)⟩

/-- Witness for C16 on the sample registry: `vfb2_remove` on the present
device; `vfb2_unregister` twice on slot 0 with two handles open, and once more
after one and after both handles were released; `vfb2_unregister` twice on
slot 0 with no handle open; and `vfb2_unregister` on the indices -1, 4 and
1. -/
theorem lifecycle_misuse_refused_witness :
    vfb2_remove (sample_state VFB2_PRESENT 1) (some 0) = some (sample_state VFB2_PRESENT 1) ∧
    (∃ s1 s2 s3, vfb2_unregister (sample_state VFB2_PRESENT 2) 0 = some s1 ∧
      vfb2_unregister s1 0 = some s1 ∧
      run ⟨64, 4096⟩ sum_handler s1 [Op.fb_release (some 1)] = some s2 ∧
      vfb2_unregister s2 0 = some s2 ∧
      run ⟨64, 4096⟩ sum_handler s1 [Op.fb_release (some 1), Op.fb_release (some 1)]
        = some s3 ∧
      vfb2_unregister s3 0 = some s3) ∧
    (∃ s1, vfb2_unregister (sample_state VFB2_PRESENT 0) 0 = some s1 ∧
      vfb2_unregister s1 0 = some s1) ∧
    vfb2_unregister (sample_state VFB2_PRESENT 1) (-1) = some (sample_state VFB2_PRESENT 1) ∧
    vfb2_unregister (sample_state VFB2_PRESENT 1) 4 = some (sample_state VFB2_PRESENT 1) ∧
    vfb2_unregister (sample_state VFB2_PRESENT 1) 1 = some (sample_state VFB2_PRESENT 1) := by
  have h := lifecycle_misuse_refused (sample_state VFB2_PRESENT 1)
  have h2 := lifecycle_misuse_refused (sample_state VFB2_PRESENT 2)
  have h0 := lifecycle_misuse_refused (sample_state VFB2_PRESENT 0)
  refine ⟨h.1 0 _ rfl (by decide) (Or.inl rfl), ?_, ?_, h.2.2 (-1) (Or.inl (by decide)),
    h.2.2 4 (Or.inr (Or.inl (by decide))), h.2.2 1 (Or.inr (Or.inr rfl))⟩
  · obtain ⟨s1, h1, s2, r2, s3, r3⟩ : ∃ s1,
        vfb2_unregister (sample_state VFB2_PRESENT 2) 0 = some s1 ∧
        ∃ s2, run ⟨64, 4096⟩ sum_handler s1 [Op.fb_release (some 1)] = some s2 ∧
        ∃ s3, run ⟨64, 4096⟩ sum_handler s1
          [Op.fb_release (some 1), Op.fb_release (some 1)] = some s3 :=
      ⟨_, rfl, _, rfl, _, rfl⟩
    obtain ⟨k1, k2⟩ := h2.2.1 (sample_state_wf _ _) 0 s1 h1
    refine ⟨s1, s2, s3, h1, k1, r2, k2 _ _ _ s2 ?_ r2, r3, k2 _ _ _ s3 ?_ r3⟩
    · intro op hop
      simp only [List.mem_singleton] at hop
      subst hop
      rfl
    · intro op hop
      simp only [List.mem_cons, List.mem_singleton, List.not_mem_nil, or_false, or_self] at hop
      subst hop
      rfl
  · obtain ⟨s1, h1⟩ : ∃ s1, vfb2_unregister (sample_state VFB2_PRESENT 0) 0 = some s1 :=
      ⟨_, rfl⟩
    exact ⟨s1, h1, (h0.2.1 (sample_state_wf _ _) 0 s1 h1).1⟩

/-! ## Theorems: no device is left half registered -/

/-- The devices after a call of `vfb2_register`: each is a device that was
there before, unchanged, or the new device, marked present. -/
theorem vfb2_register_devs (pf : platform) (env : alloc_env) (s s' : State)
    (init : Option vfb2_init) (r : Int) (hwf : wf s)
    (h : vfb2_register pf env s init = some (s', r)) :
    ∀ a d', s'.devs a = some d' →
      s.devs a = some d' ∨ (a = s.brk ∧ 0 ≤ r ∧ d'.present = VFB2_PRESENT ∧ d'.open_ = 0 ∧
        d'.current_mode = 0) := by
  intro a d' ha
  by_cases hr : r < 0
  · obtain ⟨-, e2, -⟩ := vfb2_register_fail_same pf env s s' init r hwf h hr
    exact Or.inl (by rw [← e2]; exact ha)
  · have hneg : ∀ (X : State) (p : Nat) (res : Int), res < 0 →
        register_fail X p res ≠ some (s', r) := by
      intro X p res hres hf
      have := register_fail_result X s' p res r hf
      omega
    rcases vfb2_register_shape pf env s s' init r h with ⟨-, h1⟩ | h2
    · exact absurd h1 hr
    · obtain ⟨S, d, -, hSD, -, -, -, -, hopen, hcases⟩ := h2
      rcases hcases with ⟨-, res, hres, hf⟩ | ⟨-, -, fi, res, hres, -, hf⟩ |
        ⟨-, -, hcm, fi, -, hf⟩
      · exact absurd hf (hneg _ _ _ hres)
      · exact absurd hf (hneg _ _ _ hres)
      · obtain ⟨i, -, -, e⟩ := register_insert_success env S s' s.brk (s.brk + 2) d fi r hf
          (by omega)
        subst e
        by_cases hab : a = s.brk
        · subst hab
          simp only [set_dev_devs_same, Option.some.injEq] at ha
          subst ha
          exact Or.inr ⟨rfl, by omega, rfl, hopen, hcm⟩
        · rw [set_dev_devs_other _ _ _ _ hab] at ha
          simp only [set_slot_devs, set_info_devs] at ha
          rw [hSD] at ha
          exact Or.inl ha

theorem settled_empty (n : Nat) : settled (empty_state n) := by
  intro a d h
  simp [empty_state] at h

theorem exec_settled (pf : platform) (handler : Nat → Nat → Nat → Int → Int) (X X' : State)
    (op : Op) (hwf : wf X) (hs : settled X) (h : exec pf handler X op = some X') :
    settled X' := by
  by_cases hop : is_register op = true
  · cases op with
    | register env init =>
      simp only [exec] at h
      cases hr : vfb2_register pf env X init with
      | none => simp [hr] at h
      | some t =>
        obtain ⟨Y, r⟩ := t
        simp only [hr, Option.map_some', Option.some.injEq] at h
        subst h
        intro a d' ha
        rcases vfb2_register_devs pf env X Y init r hwf hr a d' ha with e | ⟨-, -, e, -⟩
        · exact hs a d' e
        · exact Or.inl e
    | unregister idx => simp [is_register] at hop
    | fb_open info => simp [is_register] at hop
    | fb_release info => simp [is_register] at hop
    | fb_ioctl cmd arg info => simp [is_register] at hop
    | fb_check_var var info => simp [is_register] at hop
    | fb_set_par info => simp [is_register] at hop
    | fb_setcolreg regno red green blue transp info => simp [is_register] at hop
    | store_var var info => simp [is_register] at hop
  · obtain ⟨-, -, hdv⟩ := exec_call_effect pf handler X X' op (by simpa using hop) h
    intro a d' ha
    obtain ⟨d, hd, -, -, -, hp, -⟩ := hdv a d' ha
    rcases hp with e | e
    · rw [e]
      exact hs a d hd
    · exact Or.inr e

theorem run_settled (pf : platform) (handler : Nat → Nat → Nat → Int → Int) :
    ∀ (ops : List Op) (X s : State), wf X → settled X → run pf handler X ops = some s →
      settled s := by
  intro ops
  induction ops with
  | nil =>
    intro X s _ hs h
    simp only [run, Option.some.injEq] at h
    rw [← h]
    exact hs
  | cons op rest ih =>
    intro X s hwf hs h
    simp only [run] at h
    cases hx : exec pf handler X op with
    | none => simp [hx] at h
    | some Y =>
      simp only [hx] at h
      exact ih Y s (exec_keeps pf handler X X Y op hwf (evolves_refl X) hx).1
        (exec_settled pf handler X Y op hwf hs hx) h

/-- In every state reached from an empty registry by complete calls each
allocated device is marked present or not present. -/
theorem reachable_settled (pf : platform) (handler : Nat → Nat → Nat → Int → Int) (n : Nat)
    (ops : List Op) (s : State) (h : run pf handler (empty_state n) ops = some s) : settled s :=
  run_settled pf handler ops (empty_state n) s (wf_empty n) (settled_empty n) h

/-! ## Theorems: command dispatch (C15) -/

/-- C15 as the code has it (command dispatch).  `vfb2_ioctl` tests the
presence state against `VFB2_NOT_PRESENT`: for a handle (NULL, or an allocated
`fb_info`) that names no device of the table, and for a device marked not
present, it returns `-ENODEV`
whatever the handler is; for a device in any other presence state
(`VFB2_PRESENT`, or `VFB2_ERROR_ON_REGISTER` while it is being registered) it
returns `-ENOIOCTLCMD` when there is no handler and exactly the handler's
result, for the device's `table_index`, when there is one.  The state after the
call is the state before it, so open count, current mode and presence state
are unchanged.  In a state reached from an empty registry by complete calls no
device is being registered, and there the call returns `-ENODEV` for every
device that is not present. -/
theorem vfb2_ioctl_dispatch (handler : Nat → Nat → Nat → Int → Int) (s : State)
    (cmd arg : Nat) (info : Option Nat) :
    (vfb2_get_dev s info = some none → vfb2_ioctl handler s cmd arg info = some (s, -ENODEV)) ∧
    (∀ p d, vfb2_get_dev s info = some (some p) → s.devs p = some d →
      (d.present = VFB2_NOT_PRESENT →
        vfb2_ioctl handler s cmd arg info = some (s, -ENODEV)) ∧
      (d.present ≠ VFB2_NOT_PRESENT → d.init.vfb2_ioctl = none →
        vfb2_ioctl handler s cmd arg info = some (s, -ENOIOCTLCMD)) ∧
      (d.present ≠ VFB2_NOT_PRESENT → ∀ a, d.init.vfb2_ioctl = some a →
        vfb2_ioctl handler s cmd arg info = some (s, handler a cmd arg d.table_index))) ∧
    (∀ s' r, vfb2_ioctl handler s cmd arg info = some (s', r) → s' = s) ∧
    (∀ (pf : platform) (n : Nat) (ops : List Op),
      run pf handler (empty_state n) ops = some s →
      ∀ p d, vfb2_get_dev s info = some (some p) → s.devs p = some d → d.present ≠ VFB2_PRESENT →
        vfb2_ioctl handler s cmd arg info = some (s, -ENODEV)) := by
  have hcase : ∀ p d, vfb2_get_dev s info = some (some p) → s.devs p = some d →
      d.present = VFB2_NOT_PRESENT →
      vfb2_ioctl handler s cmd arg info = some (s, -ENODEV) := by
    intro p d hget hd hp
    have hgp := vfb2_get_present_dev_of s info p d hget hd
    rw [if_pos hp] at hgp
    simp [vfb2_ioctl, hgp]
  refine ⟨?_, ?_, ?_, ?_⟩
  · intro hget
    simp [vfb2_ioctl, vfb2_get_present_dev, hget]
  · intro p d hget hd
    have hgp := vfb2_get_present_dev_of s info p d hget hd
    refine ⟨hcase p d hget hd, ?_, ?_⟩
    · intro hp hh
      rw [if_neg hp] at hgp
      simp [vfb2_ioctl, hgp, hd, hp, hh]
    · intro hp a hh
      rw [if_neg hp] at hgp
      simp [vfb2_ioctl, hgp, hd, hp, hh]
  · intro s' r h
    exact vfb2_ioctl_state handler s s' cmd arg info r h
  · intro pf n ops hrun p d hget hd hp
    rcases reachable_settled pf handler n ops s hrun p d hd with e | e
    · exact absurd e hp
    · exact hcase p d hget hd e

/-- Witness for C15: the three outcomes on the sample registry with a handler
at address 7, and a device that was registered, opened and unregistered. -/
theorem vfb2_ioctl_dispatch_witness :
    vfb2_ioctl sum_handler (ioctl_state VFB2_NOT_PRESENT) 1 2 (some 1)
      = some (ioctl_state VFB2_NOT_PRESENT, -ENODEV) ∧
    vfb2_ioctl sum_handler (sample_state VFB2_PRESENT 1) 1 2 (some 1)
      = some (sample_state VFB2_PRESENT 1, -ENOIOCTLCMD) ∧
    vfb2_ioctl sum_handler (ioctl_state VFB2_PRESENT) 1 2 (some 1)
      = some (ioctl_state VFB2_PRESENT, sum_handler 7 1 2 0) ∧
    ∃ s, run ⟨64, 4096⟩ sum_handler (empty_state 4)
        [Op.register env_ok (some sample_init), Op.fb_open (some 2), Op.unregister 0] = some s ∧
      vfb2_ioctl sum_handler s 1 2 (some 2) = some (s, -ENODEV) := by
  have hget : ∀ x, vfb2_get_dev (ioctl_state x) (some 1) = some (some 0) := fun _ => rfl
  have hget' : vfb2_get_dev (sample_state VFB2_PRESENT 1) (some 1) = some (some 0) := rfl
  refine ⟨((vfb2_ioctl_dispatch sum_handler (ioctl_state VFB2_NOT_PRESENT) 1 2 (some 1)).2.1
      0 _ (hget _) rfl).1 rfl,
    ((vfb2_ioctl_dispatch sum_handler (sample_state VFB2_PRESENT 1) 1 2 (some 1)).2.1
      0 _ hget' rfl).2.1 (by decide) rfl,
    ((vfb2_ioctl_dispatch sum_handler (ioctl_state VFB2_PRESENT) 1 2 (some 1)).2.1
      0 _ (hget _) rfl).2.2 (by decide) 7 rfl, ?_⟩
  obtain ⟨s, hrun, d, hg, hd, hp⟩ : ∃ s, run ⟨64, 4096⟩ sum_handler (empty_state 4)
      [Op.register env_ok (some sample_init), Op.fb_open (some 2), Op.unregister 0] = some s ∧
      ∃ d, vfb2_get_dev s (some 2) = some (some 0) ∧ s.devs 0 = some d ∧ d.present ≠ VFB2_PRESENT :=
    ⟨_, rfl, _, rfl, rfl, by decide⟩
  exact ⟨s, hrun,
    (vfb2_ioctl_dispatch sum_handler s 1 2 (some 2)).2.2.2 _ _ _ hrun 0 d hg hd hp⟩

/-- C15 as stated fails: for a device of the table whose presence state is
`VFB2_ERROR_ON_REGISTER` (being registered, not present), `vfb2_ioctl` calls the
handler and returns its result 10, not `-ENODEV`. -/
theorem vfb2_ioctl_registering :
    (∃ d, (ioctl_state VFB2_ERROR_ON_REGISTER).devs 0 = some d ∧
      vfb2_get_dev (ioctl_state VFB2_ERROR_ON_REGISTER) (some 1) = some (some 0) ∧
      d.present ≠ VFB2_PRESENT) ∧
    (vfb2_ioctl sum_handler (ioctl_state VFB2_ERROR_ON_REGISTER) 1 2 (some 1)).map Prod.snd
      = some 10 ∧
    ¬ ((vfb2_ioctl sum_handler (ioctl_state VFB2_ERROR_ON_REGISTER) 1 2 (some 1)).map Prod.snd
      = some (-ENODEV)) := by
  refine ⟨⟨_, rfl, rfl, by decide⟩, by decide, by decide⟩

/-! ## Theorems: the rescaling is monotonic -/

/-- For a 16-bit value and a width up to 16 nothing wraps in `CNVT_TOHW`: the
result is `(val * 2 ^ width + 0x7FFF - val) / 2 ^ 16`. -/
theorem CNVT_TOHW_exact (v w : Nat) (hv : v ≤ 0xFFFF) (hw : w ≤ 16) :
    CNVT_TOHW v w = some ((v * 2 ^ w + 0x7FFF - v) / 2 ^ 16) := by
  have hw32 : ¬ w ≥ 32 := by omega
  unfold CNVT_TOHW
  rw [if_neg hw32, Nat.shiftLeft_eq, Nat.shiftRight_eq_div_pow]
  congr 2
  interval_cases w <;> omega

/-- C21 (the rescaling is monotonic).  For every width `w` from 0 to 16 and
all 16-bit values `v1 <= v2 <= 0xFFFF`, `CNVT_TOHW` on `u_int` operands is
defined for both and its value for `v1` is at most its value for `v2`, which
is at most its value for 0xFFFF. -/
theorem CNVT_TOHW_monotone (w v1 v2 : Nat) (hw : w ≤ 16) (h12 : v1 ≤ v2) (h2 : v2 ≤ 0xFFFF) :
    ∃ r1 r2 rmax, CNVT_TOHW v1 w = some r1 ∧ CNVT_TOHW v2 w = some r2 ∧
      CNVT_TOHW 0xFFFF w = some rmax ∧ r1 ≤ r2 ∧ r2 ≤ rmax := by
  have key : ∀ a b : Nat, a ≤ b → b ≤ 0xFFFF →
      (a * 2 ^ w + 0x7FFF - a) / 2 ^ 16 ≤ (b * 2 ^ w + 0x7FFF - b) / 2 ^ 16 := by
    intro a b hab hb
    apply Nat.div_le_div_right
    interval_cases w <;> omega
  exact ⟨_, _, _, CNVT_TOHW_exact v1 w (by omega) hw, CNVT_TOHW_exact v2 w h2 hw,
    CNVT_TOHW_exact 0xFFFF w (le_refl _) hw, key v1 v2 h12 h2, key v2 0xFFFF h2 (le_refl _)⟩

/-- Witness for C21: the 6-bit green channel at the values 1000 and 40000. -/
theorem CNVT_TOHW_monotone_witness :
    ∃ r1 r2 rmax, CNVT_TOHW 1000 6 = some r1 ∧ CNVT_TOHW 40000 6 = some r2 ∧
      CNVT_TOHW 0xFFFF 6 = some rmax ∧ r1 ≤ r2 ∧ r2 ≤ rmax :=
  CNVT_TOHW_monotone 6 1000 40000 (by decide) (by decide) (by decide)

/-! ## Theorems: committing a negotiated mode -/

/-- A request that agrees with a real entry in width, height and depth is
matched by `vfb2_match_mode` at an entry that agrees with it, not after that
entry. -/
theorem vfb2_match_mode_exact (dev : vfb2_device) (var : fb_var_screeninfo)
    (tbl : List vfb2_mode) (j : Nat) (m : vfb2_mode)
    (htbl : dev.init.mode_table = some tbl) (hj : tbl[j]? = some m)
    (hreal : ∀ k m', k ≤ j → tbl[k]? = some m' → m'.xres ≠ 0)
    (hm : m.xres = var.xres ∧ m.yres = var.yres ∧ m.bpp = var.bits_per_pixel) :
    ∃ (i : Nat) (m0 : vfb2_mode),
      vfb2_match_mode dev var = some (i : Int) ∧ i ≤ j ∧ tbl[i]? = some m0 ∧
      m0.xres = var.xres ∧ m0.yres = var.yres ∧ m0.bpp = var.bits_per_pixel := by
  have hloose : loose_match var m = true := by simp [loose_match, hm.1, hm.2.1]
  have htight : tight_match var m = true := by simp [tight_match, hm.1, hm.2.1, hm.2.2]
  obtain ⟨a, ma, -, -, -, -, hrunA⟩ :=
    match_loop_hit (loose_match var) tbl 0 (-1) j m hj hloose hreal
  obtain ⟨i, m0, hle, hget, hp0, -, hrun⟩ :=
    match_loop_hit (tight_match var) tbl 0 (0 + (a : Int)) j m hj htight hreal
  refine ⟨i, m0, ?_, hle, hget, ?_⟩
  · simp only [vfb2_match_mode, htbl, hrunA, hrun]
    simp
  · simpa [tight_match, and_assoc] using hp0

/-- The line length fits the `__u32` field `fix.line_length`. -/
theorem vfb2_line_length_lt (pf : platform) (dev : vfb2_device) (mode : Int) (ll : Nat)
    (h : vfb2_line_length pf dev mode = some ll) : ll < 2 ^ 32 := by
  unfold vfb2_line_length at h
  cases ht : dev.init.mode_table with
  | none => simp [ht] at h
  | some tbl =>
    simp only [ht] at h
    cases hm : mode_at tbl mode with
    | none => simp [hm] at h
    | some m =>
      simp only [hm, Option.some.injEq] at h
      rw [← h, Nat.shiftRight_eq_div_pow]
      have h1 : ((m.xres * m.bpp % 2 ^ 32 + 7) % 2 ^ pf.BITS_PER_LONG) &&&
          (2 ^ pf.BITS_PER_LONG - 8) ≤ (m.xres * m.bpp % 2 ^ 32 + 7) % 2 ^ pf.BITS_PER_LONG :=
        Nat.and_le_left
      have h2 : (m.xres * m.bpp % 2 ^ 32 + 7) % 2 ^ pf.BITS_PER_LONG ≤
          m.xres * m.bpp % 2 ^ 32 + 7 := Nat.mod_le _ _
      have h3 : m.xres * m.bpp % 2 ^ 32 < 2 ^ 32 := Nat.mod_lt _ (by norm_num)
      have h4 := Nat.div_le_self
        (((m.xres * m.bpp % 2 ^ 32 + 7) % 2 ^ pf.BITS_PER_LONG) &&&
          (2 ^ pf.BITS_PER_LONG - 8)) (2 ^ 3)
      have h5 : (((m.xres * m.bpp % 2 ^ 32 + 7) % 2 ^ pf.BITS_PER_LONG) &&&
          (2 ^ pf.BITS_PER_LONG - 8)) / 2 ^ 3 ≤ (m.xres * m.bpp % 2 ^ 32 + 7) / 2 ^ 3 :=
        Nat.div_le_div_right (le_trans h1 h2)
      have h6 : (m.xres * m.bpp % 2 ^ 32 + 7) / 2 ^ 3 < 2 ^ 32 := by
        norm_num
        omega
      omega

/-- The mode `vfb2_check_var_helper` selects when it returns 0 is a real entry
with a non-zero height, and the rewritten request carries its geometry. -/
theorem vfb2_check_var_helper_accepts (pf : platform) (var var' : fb_var_screeninfo)
    (dev : vfb2_device) (h : vfb2_check_var_helper pf var dev = some (var', 0)) :
    ∃ tbl matched m, dev.init.mode_table = some tbl ∧
      vfb2_match_mode dev var = some matched ∧
      mode_at tbl (if matched < 0 then dev.current_mode else matched) = some m ∧
      m.xres ≠ 0 ∧ m.yres ≠ 0 ∧
      var'.xres = m.xres ∧ var'.yres = m.yres ∧ var'.bits_per_pixel = m.bpp := by
  obtain ⟨tbl, matched, m, v, htbl, hm, hma, hx, hy, hb, hv, -⟩ :=
    vfb2_check_var_helper_success pf var var' dev h
  obtain ⟨gx, gy, gb⟩ := vfb2_set_bitfields_geometry v m.transp_mode
  obtain ⟨w, r, ll, hrun, -, -, -, -, hr⟩ :=
    vfb2_check_var_helper_selected pf var dev tbl matched m htbl hm hma
  rw [h] at hrun
  simp only [Option.some.injEq, Prod.mk.injEq] at hrun
  have hr0 : r = 0 := hrun.2.symm
  have hne : ¬ (m.xres = 0 ∨ m.yres = 0) := by
    intro hz
    rw [if_pos hz, hr0] at hr
    simp [EINVAL] at hr
  subst hv
  exact ⟨tbl, matched, m, htbl, hm, hma, fun e => hne (Or.inl e), fun e => hne (Or.inr e),
    gx.trans hx, gy.trans hy, gb.trans hb⟩

/-- In a table that ends with its sentinel, an index that reads a real entry
is an index before the sentinel. -/
theorem real_entry_index (tbl : List vfb2_mode) (n : Nat) (hn : vfb2_num_modes tbl = some n)
    (hlen : tbl.length = n + 1) (mode : Int) (m : vfb2_mode)
    (hm : mode_at tbl mode = some m) (hx : m.xres ≠ 0) :
    0 ≤ mode ∧ mode < (n : Int) ∧ tbl[mode.toNat]? = some m := by
  obtain ⟨⟨z, hz, hz0⟩, -⟩ := vfb2_num_modes_spec tbl n hn
  unfold mode_at at hm
  by_cases hneg : mode < 0
  · simp [hneg] at hm
  · rw [if_neg hneg] at hm
    have hlt : mode.toNat < tbl.length := by
      by_contra hge
      rw [List.getElem?_eq_none (by omega)] at hm
      simp at hm
    refine ⟨by omega, ?_, hm⟩
    by_contra hge
    have : mode.toNat = n := by omega
    rw [this, hz] at hm
    simp only [Option.some.injEq] at hm
    subst hm
    exact hx hz0

/-- C22 (committing a negotiated mode always works).  For a device whose mode
table ends with its sentinel (the array `vfb2_init_dev` allocates), when
`vfb2_check_var_helper` returns 0 and rewrites the request to `var'`, then
`vfb2_set_par_helper` on an `fb_info` holding `var'` returns 0; the
`current_mode` it stores is the index `j` of an entry before the sentinel whose
`xres`, `yres` and `bpp` are those of `var'`, nothing else of the device
changes, and `fix.line_length` is `vfb2_line_length` of entry `j`. -/
theorem vfb2_set_par_after_check_var (pf : platform) (var var' : fb_var_screeninfo)
    (dev : vfb2_device) (fi : fb_info) (tbl : List vfb2_mode) (n : Nat)
    (htbl : dev.init.mode_table = some tbl) (hn : vfb2_num_modes tbl = some n)
    (hlen : tbl.length = n + 1)
    (hcheck : vfb2_check_var_helper pf var dev = some (var', 0)) (hfi : fi.var = var') :
    ∃ (fi' : fb_info) (d' : vfb2_device) (j : Nat) (m : vfb2_mode) (ll : Nat),
      vfb2_set_par_helper pf fi dev = some (fi', d', 0) ∧
      d'.current_mode = (j : Int) ∧ d' = { dev with current_mode := (j : Int) } ∧
      j < n ∧ tbl[j]? = some m ∧ m.xres ≠ 0 ∧
      m.xres = var'.xres ∧ m.yres = var'.yres ∧ m.bpp = var'.bits_per_pixel ∧
      vfb2_line_length pf dev (j : Int) = some ll ∧ fi'.fix.line_length = ll ∧
      fi'.var = var' := by
  obtain ⟨tbl', matched, m, htbl', hmatch, hma, hx, -, vx, vy, vb⟩ :=
    vfb2_check_var_helper_accepts pf var var' dev hcheck
  rw [htbl] at htbl'
  simp only [Option.some.injEq] at htbl'
  subst htbl'
  obtain ⟨h0, hlt, hk⟩ := real_entry_index tbl n hn hlen _ m hma hx
  obtain ⟨-, hreal⟩ := vfb2_num_modes_spec tbl n hn
  obtain ⟨i, m0, hrun, hik, hi, ex, ey, eb⟩ := vfb2_match_mode_exact dev var' tbl _ m htbl hk
    (fun k m' hk' hget => hreal k m' (by omega) hget) ⟨vx.symm, vy.symm, vb.symm⟩
  obtain ⟨fi', d', r, hsp⟩ := vfb2_set_par_helper_total pf fi dev tbl n htbl hn
  rw [← hfi] at hrun
  rcases vfb2_set_par_helper_result pf fi fi' dev d' r hsp with
    ⟨-, -, -, mode, hmode, hneg⟩ | ⟨hr, -, hcm, hd', ⟨ll, hll, hline⟩, hvar, -⟩
  · rw [hrun] at hmode
    simp only [Option.some.injEq] at hmode
    omega
  · rw [hrun] at hcm
    simp only [Option.some.injEq] at hcm
    subst hr
    rw [← hcm] at hd' hll
    have hi0 : m0.xres ≠ 0 := hreal i m0 (by omega) hi
    refine ⟨fi', d', i, m0, ll, hsp, hcm.symm, hd', by omega, hi, hi0, ex, ey, eb, hll, ?_,
      hvar.trans hfi⟩
    rw [hline]
    exact Nat.mod_eq_of_lt (vfb2_line_length_lt pf dev _ ll hll)

/-- Witness for C22: on the sample device the request 800x600 at 24 bpp is
rewritten to 800x600 at 16 bpp (mode 1) and committing it makes mode 1
current. -/
theorem vfb2_set_par_after_check_var_witness :
    ∃ var', vfb2_check_var_helper ⟨64, 4096⟩ (request 800 600 24)
        (sample_dev 1920000 sample_table 0) = some (var', 0) ∧
      ∃ (fi' : fb_info) (d' : vfb2_device) (j : Nat) (m : vfb2_mode) (ll : Nat),
        vfb2_set_par_helper ⟨64, 4096⟩
          { new_fb_info 0 (sample_dev 1920000 sample_table 0) with var := var' }
          (sample_dev 1920000 sample_table 0) = some (fi', d', 0) ∧
        d'.current_mode = (j : Int) ∧
        d' = { sample_dev 1920000 sample_table 0 with current_mode := (j : Int) } ∧
        j < 3 ∧ sample_table[j]? = some m ∧ m.xres ≠ 0 ∧
        m.xres = var'.xres ∧ m.yres = var'.yres ∧ m.bpp = var'.bits_per_pixel ∧
        vfb2_line_length ⟨64, 4096⟩ (sample_dev 1920000 sample_table 0) (j : Int) = some ll ∧
        fi'.fix.line_length = ll ∧ fi'.var = var' := by
  obtain ⟨v1, h1⟩ : ∃ var', vfb2_check_var_helper ⟨64, 4096⟩ (request 800 600 24)
      (sample_dev 1920000 sample_table 0) = some (var', 0) := ⟨_, rfl⟩
  exact ⟨v1, h1, vfb2_set_par_after_check_var ⟨64, 4096⟩ (request 800 600 24) v1
    (sample_dev 1920000 sample_table 0) _ sample_table 3 rfl (by decide) rfl h1 rfl⟩

/-! ## Theorems: current_mode indexes a real mode -/

theorem vfb2_init_dev_table (env : alloc_env) (ini : vfb2_init) (d : vfb2_device)
    (h : vfb2_init_dev env ini = some (some d)) :
    ∃ tbl n, ini.mode_table = some tbl ∧ vfb2_num_modes tbl = some n ∧
      d.init.mode_table = some (tbl.take (n + 1)) := by
  unfold vfb2_init_dev at h
  cases hmt : ini.mode_table with
  | none => simp [hmt] at h
  | some tbl =>
    simp only [hmt] at h
    cases hn : vfb2_num_modes tbl with
    | none => simp [hn] at h
    | some n =>
      simp only [hn] at h
      split at h
      · simp only [Option.some.injEq] at h
        exact ⟨tbl, n, rfl, hn, by rw [← h]⟩
      · simp at h

/-- A device whose table is the copy `vfb2_init_dev` makes and whose
`current_mode` is 0 with a real first entry has a valid current mode. -/
theorem mode_valid_initial (d : vfb2_device) (tbl0 : List vfb2_mode) (n : Nat) (m0 : vfb2_mode)
    (hn : vfb2_num_modes tbl0 = some n) (htbl : d.init.mode_table = some (tbl0.take (n + 1)))
    (h0 : (tbl0.take (n + 1))[0]? = some m0) (hx : m0.xres ≠ 0) (hcm : d.current_mode = 0) :
    mode_valid d := by
  have hn' := vfb2_num_modes_take tbl0 n hn
  obtain ⟨⟨z, hz, hz0⟩, -⟩ := vfb2_num_modes_spec tbl0 n hn
  have hlen0 : n < tbl0.length := by
    by_contra hge
    rw [List.getElem?_eq_none (by omega)] at hz
    simp at hz
  obtain ⟨⟨z', hz', hz0'⟩, -⟩ := vfb2_num_modes_spec _ n hn'
  refine ⟨tbl0.take (n + 1), n, htbl, hn', ?_, by omega, ?_⟩
  · rw [List.length_take]
    omega
  · rw [hcm]
    have : n ≠ 0 := by
      intro e
      subst e
      rw [h0] at hz'
      simp only [Option.some.injEq] at hz'
      subst hz'
      exact hx hz0'
    omega

/-- The device a successful `vfb2_register` puts into the table has a valid
current mode. -/
theorem vfb2_register_new_dev (pf : platform) (env : alloc_env) (s s' : State)
    (init : Option vfb2_init) (r : Int)
    (h : vfb2_register pf env s init = some (s', r)) (hr : 0 ≤ r) :
    ∃ d, s'.devs s.brk = some d ∧ mode_valid d ∧ d.present = VFB2_PRESENT ∧
      d.table_index = r ∧ vfb2_index_to_dev s' r = some s.brk := by
  have hneg : ∀ (X : State) (p : Nat) (res : Int), res < 0 →
      register_fail X p res ≠ some (s', r) := by
    intro X p res hres hf
    have := register_fail_result X s' p res r hf
    omega
  unfold vfb2_register at h
  cases init with
  | none =>
    simp only [Option.some.injEq, Prod.mk.injEq] at h
    rw [← h.2] at hr
    simp [EINVAL] at hr
  | some init =>
    simp only at h
    cases hmt : init.mode_table with
    | none =>
      simp only [hmt, Option.some.injEq, Prod.mk.injEq] at h
      rw [← h.2] at hr
      simp [EINVAL] at hr
    | some tbl0 =>
      simp only [hmt] at h
      cases hinit : vfb2_init_dev env init with
      | none => simp [hinit] at h
      | some od =>
        cases od with
        | none =>
          simp only [hinit, Option.some.injEq, Prod.mk.injEq] at h
          rw [← h.2] at hr
          simp [ENOMEM] at hr
        | some d0 =>
          simp only [hinit] at h
          have a2 : s.brk + 1 + 1 = s.brk + 2 := rfl
          have a3 : s.brk + 2 + 1 = s.brk + 3 := rfl
          simp only [a2, a3] at h
          obtain ⟨-, -, -, hcm0, -⟩ := vfb2_init_dev_fields env init d0 hinit
          obtain ⟨tbl, n, -, hn, htbl0⟩ := vfb2_init_dev_table env init d0 hinit
          cases hvm : vfb2_alloc_vmem pf env.vmalloc (s.brk + 1) d0 with
          | none => simp [hvm] at h
          | some dr =>
            obtain ⟨d1, r1⟩ := dr
            simp only [hvm] at h
            obtain ⟨-, -, -, hcm1, -, htbl1⟩ :=
              vfb2_alloc_vmem_fields pf env.vmalloc (s.brk + 1) d0 d1 r1 hvm
            by_cases hr1 : r1 ≠ 0
            · rw [if_pos hr1] at h
              exact absurd h (hneg _ _ _ (by decide))
            · rw [if_neg hr1] at h
              by_cases hfa : env.framebuffer_alloc = true
              · simp only [hfa, Bool.not_true, Bool.false_eq_true, if_false] at h
                by_cases hcmap : -(env.fb_alloc_cmap : Int) < 0
                · simp only [hcmap, if_true] at h
                  exact absurd h (hneg _ _ _ hcmap)
                · simp only [hcmap, if_false] at h
                  generalize hdq : ({ d1 with info := some (s.brk + 2) } : vfb2_device) = dq at h
                  have hdqf : dq.current_mode = 0 ∧
                      dq.init.mode_table = some (tbl.take (n + 1)) := by
                    subst hdq
                    exact ⟨hcm1.trans hcm0, htbl1.trans htbl0⟩
                  cases hsm : vfb2_set_mode dq (new_fb_info s.brk dq).var 0 with
                  | none => simp [hsm] at h
                  | some var0 =>
                    simp only [hsm] at h
                    cases hcv : vfb2_check_var_helper pf var0 dq with
                    | none => simp [hcv] at h
                    | some vr =>
                      obtain ⟨var1, res⟩ := vr
                      simp only [hcv] at h
                      by_cases hres : res < 0
                      · rw [if_pos hres] at h
                        exact absurd h (hneg _ _ _ hres)
                      · rw [if_neg hres] at h
                        cases hsp : vfb2_set_par_helper pf
                            { new_fb_info s.brk dq with var := var1 } dq with
                        | none =>
                          simp only [hsp] at h
                          simp at h
                        | some tr =>
                          obtain ⟨fi2, d2, res2⟩ := tr
                          simp only [hsp] at h
                          by_cases hres2 : res2 < 0
                          · rw [if_pos hres2] at h
                            exact absurd h (hneg _ _ _ hres2)
                          · rw [if_neg hres2] at h
                            obtain ⟨tbl', m0, ht', hm0, hx0, hd2, -⟩ :=
                              initial_negotiation pf dq d2 (new_fb_info s.brk dq) fi2 var0 var1
                                res res2 hdqf.1 hsm hcv hres hsp
                            rw [hdqf.2] at ht'
                            simp only [Option.some.injEq] at ht'
                            subst ht'
                            obtain ⟨i, hff, hri, e⟩ := register_insert_success env _ s' s.brk
                              (s.brk + 2) d2 fi2 r h hr
                            subst e
                            obtain ⟨-, hget, -⟩ := first_free_spec _ 0 i hff
                            simp only [Nat.sub_zero] at hget
                            have hlen : i < s.vfb2_table.length := by
                              by_contra hge
                              rw [List.getElem?_eq_none (by omega)] at hget
                              simp at hget
                            have hslot : vfb2_index_to_dev
                                (set_dev (set_slot (set_info { s with brk := s.brk + 3 }
                                  (s.brk + 2) (some fi2)) i (some s.brk)) s.brk
                                  (some { d2 with table_index := (i : Int),
                                                  present := VFB2_PRESENT })) r
                                = some s.brk := by
                              rw [hri]
                              apply vfb2_index_to_dev_slot
                              simp [hlen]
                            refine ⟨{ d2 with table_index := (i : Int), present := VFB2_PRESENT },
                              by simp, ?_, rfl, hri.symm, hslot⟩
                            refine mode_valid_initial _ tbl n m0 hn ?_ hm0 hx0 ?_
                            · rw [hd2]
                              exact hdqf.2
                            · rw [hd2]
              · simp only [hfa, Bool.not_false, if_true] at h
                exact absurd h (hneg _ _ _ (by decide))

theorem mode_valid_step (d d' : vfb2_device) (h : mode_valid d) (hs : dev_step d d') :
    mode_valid d' := by
  obtain ⟨tbl, n, htbl, hn, hlen, h0, h1⟩ := h
  obtain ⟨hinit, -, -, -, -, hcm⟩ := hs
  refine ⟨tbl, n, by rw [hinit]; exact htbl, hn, hlen, ?_⟩
  rcases hcm with e | ⟨var, hv, hnn⟩
  · rw [e]
    exact ⟨h0, h1⟩
  · obtain ⟨r, hr, hcase⟩ := vfb2_match_mode_total d var tbl n htbl hn
    rw [hv] at hr
    simp only [Option.some.injEq] at hr
    subst hr
    rcases hcase with e | ⟨-, e⟩
    · omega
    · exact ⟨hnn, e⟩

/-- A valid current mode reads a real entry of the table. -/
theorem mode_valid_reads (d : vfb2_device) (h : mode_valid d) :
    ∃ tbl n m, d.init.mode_table = some tbl ∧ vfb2_num_modes tbl = some n ∧
      tbl.length = n + 1 ∧ 0 ≤ d.current_mode ∧ d.current_mode < (n : Int) ∧
      mode_at tbl d.current_mode = some m ∧ m.xres ≠ 0 := by
  obtain ⟨tbl, n, htbl, hn, hlen, h0, h1⟩ := h
  obtain ⟨m, hm⟩ := mode_at_le tbl n hn d.current_mode h0 (by omega)
  obtain ⟨-, hreal⟩ := vfb2_num_modes_spec tbl n hn
  refine ⟨tbl, n, m, htbl, hn, hlen, h0, h1, hm, ?_⟩
  have hneg : ¬ d.current_mode < 0 := by omega
  simp only [mode_at, hneg, if_false] at hm
  exact hreal d.current_mode.toNat m (by omega) hm

/-- One call keeps, for the device at address `p`, every property that
`dev_step` keeps. -/
theorem exec_dev_inv (P : vfb2_device → Prop) (hP : ∀ d d', P d → dev_step d d' → P d')
    (pf : platform) (handler : Nat → Nat → Nat → Int → Int) (p : Nat)
    (X X' : State) (op : Op) (hwf : wf X) (hp : p < X.brk)
    (hinv : ∀ d, X.devs p = some d → P d) (h : exec pf handler X op = some X') :
    wf X' ∧ p < X'.brk ∧ ∀ d', X'.devs p = some d' → P d' := by
  obtain ⟨hwf', hev⟩ := exec_keeps pf handler X X X' op hwf (evolves_refl X) h
  refine ⟨hwf', lt_of_lt_of_le hp hev.1, ?_⟩
  intro d' hd'
  by_cases hop : is_register op = true
  · cases op with
    | register env init =>
      simp only [exec] at h
      cases hr : vfb2_register pf env X init with
      | none => simp [hr] at h
      | some t =>
        obtain ⟨Y, r⟩ := t
        simp only [hr, Option.map_some', Option.some.injEq] at h
        subst h
        rcases vfb2_register_devs pf env X Y init r hwf hr p d' hd' with e | ⟨e, -⟩
        · exact hinv d' e
        · omega
    | unregister idx => simp [is_register] at hop
    | fb_open info => simp [is_register] at hop
    | fb_release info => simp [is_register] at hop
    | fb_ioctl cmd arg info => simp [is_register] at hop
    | fb_check_var var info => simp [is_register] at hop
    | fb_set_par info => simp [is_register] at hop
    | fb_setcolreg regno red green blue transp info => simp [is_register] at hop
    | store_var var info => simp [is_register] at hop
  · obtain ⟨-, -, hdv⟩ := exec_call_effect pf handler X X' op (by simpa using hop) h
    obtain ⟨d, hd, hs⟩ := hdv p d' hd'
    exact hP d d' (hinv d hd) hs

theorem run_dev_inv (P : vfb2_device → Prop) (hP : ∀ d d', P d → dev_step d d' → P d')
    (pf : platform) (handler : Nat → Nat → Nat → Int → Int) (p : Nat) :
    ∀ (ops : List Op) (X X' : State), wf X → p < X.brk →
      (∀ d, X.devs p = some d → P d) → run pf handler X ops = some X' →
      ∀ d', X'.devs p = some d' → P d' := by
  intro ops
  induction ops with
  | nil =>
    intro X X' _ _ hinv h
    simp only [run, Option.some.injEq] at h
    rw [← h]
    exact hinv
  | cons op rest ih =>
    intro X X' hwf hp hinv h
    simp only [run] at h
    cases hx : exec pf handler X op with
    | none => simp [hx] at h
    | some Y =>
      simp only [hx] at h
      obtain ⟨w, b, i⟩ := exec_dev_inv P hP pf handler p X Y op hwf hp hinv hx
      exact ih Y X' w b i h

/-- In every state reached by complete calls from a registry whose devices
have valid current modes, each allocated device has a valid current mode. -/
theorem run_modes_valid (pf : platform) (handler : Nat → Nat → Nat → Int → Int) :
    ∀ (ops : List Op) (X s : State), wf X → (∀ a d, X.devs a = some d → mode_valid d) →
      run pf handler X ops = some s → ∀ a d, s.devs a = some d → mode_valid d := by
  intro ops
  induction ops with
  | nil =>
    intro X s _ hinv h
    simp only [run, Option.some.injEq] at h
    rw [← h]
    exact hinv
  | cons op rest ih =>
    intro X s hwf hinv h
    simp only [run] at h
    cases hx : exec pf handler X op with
    | none => simp [hx] at h
    | some Y =>
      simp only [hx] at h
      have hwfY := (exec_keeps pf handler X X Y op hwf (evolves_refl X) hx).1
      refine ih Y s hwfY ?_ h
      intro a d' hd'
      by_cases hop : is_register op = true
      · cases op with
        | register env init =>
          simp only [exec] at hx
          cases hr : vfb2_register pf env X init with
          | none => simp [hr] at hx
          | some t =>
            obtain ⟨Z, r⟩ := t
            simp only [hr, Option.map_some', Option.some.injEq] at hx
            subst hx
            rcases vfb2_register_devs pf env X Z init r hwf hr a d' hd' with e | ⟨e, hr0, -⟩
            · exact hinv a d' e
            · subst e
              obtain ⟨d, hd, hv, -⟩ := vfb2_register_new_dev pf env X Z init r hr hr0
              rw [hd] at hd'
              simp only [Option.some.injEq] at hd'
              subst hd'
              exact hv
        | unregister idx => simp [is_register] at hop
        | fb_open info => simp [is_register] at hop
        | fb_release info => simp [is_register] at hop
        | fb_ioctl cmd arg info => simp [is_register] at hop
        | fb_check_var var info => simp [is_register] at hop
        | fb_set_par info => simp [is_register] at hop
        | fb_setcolreg regno red green blue transp info => simp [is_register] at hop
        | store_var var info => simp [is_register] at hop
      · obtain ⟨-, -, hdv⟩ := exec_call_effect pf handler X Y op (by simpa using hop) hx
        obtain ⟨d, hd, hs⟩ := hdv a d' hd'
        exact mode_valid_step d d' (hinv a d hd) hs

theorem reachable_mode_valid (pf : platform) (handler : Nat → Nat → Nat → Int → Int) (n : Nat)
    (ops : List Op) (s : State) (h : run pf handler (empty_state n) ops = some s) :
    ∀ a d, s.devs a = some d → mode_valid d :=
  run_modes_valid pf handler ops (empty_state n) s (wf_empty n)
    (fun a d hd => by simp [empty_state] at hd) h

/-- C23 (`current_mode` always indexes a real mode).  In a well-formed
registry let `vfb2_register` succeed with slot index `r`; the device it put
into slot `r` is at address `s.brk`, marked present, with `current_mode` 0.
After any sequence of calls (check_var, set_par, open, release, ioctl,
unregister; also setcolreg, further registrations and stores to `info->var`),
as long as that device exists its `init`, mode table included, is what it
was, the table has `n` entries before its sentinel, `0 <= current_mode < n`,
and `mode_table[current_mode]` is a real entry (`xres` not 0). -/
theorem current_mode_valid (pf : platform) (handler : Nat → Nat → Nat → Int → Int)
    (env : alloc_env) (s s1 s2 : State) (init : Option vfb2_init) (r : Int) (ops : List Op)
    (hwf : wf s) (hreg : vfb2_register pf env s init = some (s1, r)) (hr : 0 ≤ r)
    (hrun : run pf handler s1 ops = some s2) :
    (∃ d1, s1.devs s.brk = some d1 ∧ vfb2_index_to_dev s1 r = some s.brk ∧
      d1.table_index = r ∧ d1.present = VFB2_PRESENT ∧ d1.current_mode = 0 ∧
      ∀ d2, s2.devs s.brk = some d2 → d2.init = d1.init) ∧
    (∀ d2, s2.devs s.brk = some d2 →
      ∃ tbl n m, d2.init.mode_table = some tbl ∧ vfb2_num_modes tbl = some n ∧
        tbl.length = n + 1 ∧ 0 ≤ d2.current_mode ∧ d2.current_mode < (n : Int) ∧
        mode_at tbl d2.current_mode = some m ∧ m.xres ≠ 0) := by
  obtain ⟨d1, hd1, hv1, hpres, hti, hslot⟩ := vfb2_register_new_dev pf env s s1 init r hreg hr
  have hwf1 : wf s1 := (vfb2_register_keeps pf env s s1 init r hwf hreg).1
  have hp : s.brk < s1.brk := hwf1.2.1 s.brk d1 hd1
  have hcm1 : d1.current_mode = 0 := by
    rcases vfb2_register_devs pf env s s1 init r hwf hreg s.brk d1 hd1 with e | ⟨-, -, -, -, e⟩
    · have := hwf.2.1 s.brk d1 e
      omega
    · exact e
  have hd1' : ∀ (P : vfb2_device → Prop), P d1 → ∀ d, s1.devs s.brk = some d → P d := by
    intro P hP d hd
    rw [hd1] at hd
    simp only [Option.some.injEq] at hd
    subst hd
    exact hP
  refine ⟨⟨d1, hd1, hslot, hti, hpres, hcm1, ?_⟩, ?_⟩
  · exact run_dev_inv (fun d => d.init = d1.init) (fun d d' h hs => hs.1.trans h) pf handler
      s.brk ops s1 s2 hwf1 hp (hd1' _ rfl) hrun
  · intro d2 hd2
    exact mode_valid_reads d2 (run_dev_inv mode_valid mode_valid_step pf handler s.brk ops s1 s2
      hwf1 hp (hd1' _ hv1) hrun d2 hd2)

/-- Witness for C23: the sample descriptor is registered in an empty registry;
the mode is changed to 800x600 at 16 bpp, the device is opened, a request
that matches no mode is stored and refused, and the device is unregistered
while open.  The current mode is then 1, an index below 3. -/
theorem current_mode_valid_witness :
    ∃ s1 s2 d2, vfb2_register ⟨64, 4096⟩ env_ok (empty_state 4) (some sample_init)
        = some (s1, 0) ∧
      run ⟨64, 4096⟩ sum_handler s1
        [Op.store_var (request 800 600 16) 2, Op.fb_set_par (some 2), Op.fb_open (some 2),
          Op.store_var (request 1 1 1) 2, Op.fb_set_par (some 2), Op.unregister 0] = some s2 ∧
      s2.devs 0 = some d2 ∧ d2.current_mode = 1 ∧
      ∃ tbl n m, d2.init.mode_table = some tbl ∧ vfb2_num_modes tbl = some n ∧
        tbl.length = n + 1 ∧ 0 ≤ d2.current_mode ∧ d2.current_mode < (n : Int) ∧
        mode_at tbl d2.current_mode = some m ∧ m.xres ≠ 0 := by
  obtain ⟨s1, h1, s2, h2, d2, hd2, hcm⟩ : ∃ s1,
      vfb2_register ⟨64, 4096⟩ env_ok (empty_state 4) (some sample_init) = some (s1, 0) ∧
      ∃ s2, run ⟨64, 4096⟩ sum_handler s1
        [Op.store_var (request 800 600 16) 2, Op.fb_set_par (some 2), Op.fb_open (some 2),
          Op.store_var (request 1 1 1) 2, Op.fb_set_par (some 2), Op.unregister 0] = some s2 ∧
      ∃ d2, s2.devs 0 = some d2 ∧ d2.current_mode = 1 :=
    ⟨_, rfl, _, rfl, _, rfl, rfl⟩
  exact ⟨s1, s2, d2, h1, h2, hd2, hcm,
    (current_mode_valid ⟨64, 4096⟩ sum_handler env_ok (empty_state 4) s1 s2 (some sample_init) 0
      _ (wf_empty 4) h1 (by decide) h2).2 d2 hd2⟩

end Vfb2
